import Mathlib

/-!
Verification of the str_indices crate against its specification.

The embedding models the portable build configuration, in which the chunk
type is a 64-bit machine word (Chunk = usize, little-endian, SIZE = 8,
MAX_ACC = 31) and the text is a list of bytes.  Machine words are Nat
values below 2 to the 64, with wrapping arithmetic made explicit.  Slices
returned by align_to depend on the runtime address of the text buffer;
this is modelled by an explicit parameter a (the distance in bytes from
the start of the buffer to the next 8-byte alignment boundary), which can
be any value in [0, 8).
-/

namespace StrIndices

/-! ## Word-level chunk operations (ByteChunk for usize, byte_chunk.rs) -/

/-- Bytes per chunk: core::mem::size_of::<usize>() on a 64-bit target. -/
def SIZE : Nat := 8

/-- Modulus of usize arithmetic on a 64-bit target. -/
def WORD : Nat := 2 ^ 64

/-- MAX_ACC for the usize chunk: (256 / size_of::<usize>()) - 1 = 31. -/
def MAX_ACC : Nat := 256 / SIZE - 1

/-- The constant ONES = usize::MAX / 0xFF (one in every byte lane). -/
def ONES : Nat := 0x0101010101010101

/-- The constant ONES_HIGH = ONES << 7 (0x80 in every byte lane). -/
def ONES_HIGH : Nat := 0x8080808080808080

/-- Bitwise complement on a 64-bit word (the Rust ! operator on usize). -/
def wnot (x : Nat) : Nat := x ^^^ (WORD - 1)

/-- Wrapping 64-bit addition (usize + in release builds). -/
def wadd (x y : Nat) : Nat := (x + y) % WORD

/-- Wrapping 64-bit subtraction (usize - in release builds). -/
def wsub (x y : Nat) : Nat := (x + (WORD - y % WORD)) % WORD

/-- ByteChunk::splat for usize: ONES * n. -/
def splat (n : Nat) : Nat := ONES * n

/-- ByteChunk::shift_back_lex for usize on little-endian: self >> (n * 8). -/
def shiftBackLex (w n : Nat) : Nat := w >>> (n * 8)

/-- ByteChunk::cmp_eq_byte for usize, the SWAR zero-byte detection formula:
let word = self ^ (byte * ONES);
(!(((word & !ONES_HIGH) + !ONES_HIGH) | word) & ONES_HIGH) >> 7.
The inner addition cannot exceed 2 to the 64, so plain addition is exact. -/
def cmpEqByte (w b : Nat) : Nat :=
  let word := w ^^^ splat b
  (wnot (((word &&& wnot ONES_HIGH) + wnot ONES_HIGH) ||| word) &&& ONES_HIGH) >>> 7

/-- ByteChunk::bytes_between_127 for usize:
let tmp = self & (ONES * 127);
(((ONES * (127 + b) - tmp) & !self & (tmp + (ONES * (127 - a)))) & ONES_HIGH) >> 7.
For the arguments used by the crate (a < b, both at most 127) the
subtraction cannot underflow, so truncated subtraction is exact. -/
def bytesBetween127 (w a b : Nat) : Nat :=
  let tmp := w &&& splat 127
  ((((splat (127 + b) - tmp) &&& wnot w) &&& (tmp + splat (127 - a))) &&& ONES_HIGH) >>> 7

/-- ByteChunk::sum_bytes for usize: self.wrapping_mul(ONES) >> ((SIZE - 1) * 8). -/
def sumBytes (w : Nat) : Nat := (w * ONES % WORD) >>> ((SIZE - 1) * 8)

/-- ByteChunk::inc_nth_from_end_lex_byte for usize on little-endian:
self + (1 << ((SIZE - 1 - n) * 8)). -/
def incNthFromEndLexByte (w n : Nat) : Nat := wadd w (1 <<< ((SIZE - 1 - n) * 8))

/-- ByteChunk::dec_last_lex_byte for usize on little-endian:
self - (1 << ((SIZE - 1) * 8)). -/
def decLastLexByte (w : Nat) : Nat := wsub w (1 <<< ((SIZE - 1) * 8))

/-! ## Byte-lane view of words -/

/-- The word whose little-endian byte lanes are the given list (the value
loaded from those bytes of memory into a usize on a little-endian target). -/
def fromLanes : List Nat → Nat
  | [] => 0
  | d :: ds => d + 256 * fromLanes ds

/-- All entries are valid byte values. -/
abbrev Lanes (ds : List Nat) : Prop := ∀ d ∈ ds, d < 256

/-- Read one byte of a list, 0 when out of bounds (used where the source
indexes a slice at an index that is provably in bounds). -/
def bget (l : List Nat) (i : Nat) : Nat := l.getD i 0

/-- All bytes of a text are valid byte values. -/
abbrev ByteList (l : List Nat) : Prop := ∀ b ∈ l, b < 256

/-! ## UTF-8 model (the invariant of the Rust str type) -/

/-- chars::is_trailing_byte: (byte & 0xC0) == 0x80, a UTF-8 continuation byte. -/
def is_trailing_byte (b : Nat) : Bool := b &&& 0xC0 == 0x80

/-- chars::is_leading_byte: (byte & 0xC0) != 0x80. -/
def is_leading_byte (b : Nat) : Bool := b &&& 0xC0 != 0x80

/-- The byte length of the UTF-8 sequence headed by lead byte b
(well-defined on valid texts). -/
def seqLen (b : Nat) : Nat :=
  if b ≤ 0x7F then 1 else if b ≤ 0xDF then 2 else if b ≤ 0xEF then 3 else 4

/-- Reference count of Unicode scalar values: decode sequence by sequence
(the chars().count() reference scan). -/
def scalarCount (l : List Nat) : Nat :=
  match l with
  | [] => 0
  | b :: rest => 1 + scalarCount (rest.drop (seqLen b - 1))
termination_by l.length
decreasing_by simp [List.length_drop]; omega

/-- Continuation-byte requirements of one UTF-8 sequence with lead byte b,
checked against the bytes that follow the lead (the standard ranges).
This models the invariant of the Rust str type, which every text argument
of the crate carries. -/
def utf8SeqOk (b : Nat) (l : List Nat) : Bool :=
  if b ≤ 0x7F then true
  else if 0xC2 ≤ b ∧ b ≤ 0xDF then decide (1 ≤ l.length) && is_trailing_byte (bget l 0)
  else if b = 0xE0 then
    decide (2 ≤ l.length) && (decide (0xA0 ≤ bget l 0) && decide (bget l 0 ≤ 0xBF))
      && is_trailing_byte (bget l 1)
  else if (0xE1 ≤ b ∧ b ≤ 0xEC) ∨ (0xEE ≤ b ∧ b ≤ 0xEF) then
    decide (2 ≤ l.length) && is_trailing_byte (bget l 0) && is_trailing_byte (bget l 1)
  else if b = 0xED then
    decide (2 ≤ l.length) && (decide (0x80 ≤ bget l 0) && decide (bget l 0 ≤ 0x9F))
      && is_trailing_byte (bget l 1)
  else if b = 0xF0 then
    decide (3 ≤ l.length) && (decide (0x90 ≤ bget l 0) && decide (bget l 0 ≤ 0xBF))
      && is_trailing_byte (bget l 1) && is_trailing_byte (bget l 2)
  else if 0xF1 ≤ b ∧ b ≤ 0xF3 then
    decide (3 ≤ l.length) && is_trailing_byte (bget l 0) && is_trailing_byte (bget l 1)
      && is_trailing_byte (bget l 2)
  else if b = 0xF4 then
    decide (3 ≤ l.length) && (decide (0x80 ≤ bget l 0) && decide (bget l 0 ≤ 0x8F))
      && is_trailing_byte (bget l 1) && is_trailing_byte (bget l 2)
  else false

/-- Recursion kernel of the validity test; the fuel dominates the list
length, so the middle branch is never taken. -/
def utf8ValidGo : Nat → List Nat → Bool
  | _, [] => true
  | 0, _ :: _ => false
  | fuel + 1, b :: rest => utf8SeqOk b rest && utf8ValidGo fuel (rest.drop (seqLen b - 1))

/-- Well-formed UTF-8: every sequence satisfies the range rules of the
standard. -/
def utf8Valid (l : List Nat) : Bool := utf8ValidGo l.length l

/-- Number of continuation bytes of a text. -/
def trailCount (l : List Nat) : Nat := (l.filter (fun b => is_trailing_byte b)).length

/-- Number of non-continuation (leading) bytes of a text. -/
def leadCount (l : List Nat) : Nat := (l.filter (fun b => is_leading_byte b)).length

/-- str::is_char_boundary: true at 0 and at the text length, false past the
end, and otherwise true exactly on non-continuation bytes. -/
def is_char_boundary (text : List Nat) (i : Nat) : Bool :=
  i = 0 || i = text.length || (i < text.length && is_leading_byte (bget text i))

/-- The loop (while !text.is_char_boundary(i) i -= 1) used by the
from_byte_idx functions of utf16, lines and lines_crlf (after clamping i to
the text length). -/
def roundDown (text : List Nat) : Nat → Nat
  | 0 => 0
  | i + 1 => if is_char_boundary text (i + 1) then i + 1 else roundDown text i

/-- The loop (while !text.is_char_boundary(i) i += 1) finishing the line
to_byte_idx routines; the index never starts beyond the text length. -/
def roundUp (text : List Nat) (i : Nat) : Nat :=
  if text.length ≤ i then i
  else if is_char_boundary text i then i
  else roundUp text (i + 1)
termination_by text.length - i

/-! ## Shared chunk-loop shapes -/

/-- Accumulate a per-chunk flag word over the whole 8-byte chunks of m with
byte-lane adds (the plain accumulator loop shape of the counting routines). -/
def chunkFold (f : Nat → Nat) (m : List Nat) (acc : Nat) : Nat :=
  if 8 ≤ m.length then chunkFold f (m.drop 8) (wadd acc (f (fromLanes (m.take 8))))
  else acc
termination_by m.length
decreasing_by simp [List.length_drop]; omega

/-- The unrolled-by-four middle loop shared by chars::count_impl and
lines_lf::count_breaks_impl: sum each group of four chunks with
val1.add(val2).add(val3.add(val4)).sum_bytes(), then accumulate and sum the
remaining chunks (the chunks_exact(4) remainder). -/
def chunkGroups4 (f : Nat → Nat) (m : List Nat) : Nat :=
  if 32 ≤ m.length then
    sumBytes (wadd (wadd (f (fromLanes (m.take 8))) (f (fromLanes ((m.drop 8).take 8))))
        (wadd (f (fromLanes ((m.drop 16).take 8))) (f (fromLanes ((m.drop 24).take 8)))))
      + chunkGroups4 f (m.drop 32)
  else sumBytes (chunkFold f m 0)
termination_by m.length
decreasing_by simp [List.length_drop]; omega

/-- The chunks(MAX_ACC) middle loop of utf16::count_surrogates_impl:
process runs of at most 31 chunks, summing each accumulated run. -/
def chunkGroupsAcc (f : Nat → Nat) (m : List Nat) : Nat :=
  if 8 ≤ m.length then sumBytes (chunkFold f (m.take 248) 0) + chunkGroupsAcc f (m.drop 248)
  else 0
termination_by m.length
decreasing_by simp [List.length_drop]; omega

/-! ## chars.rs -/

/-- chars::count_trailing_chunk: val.bitand(splat(0xC0)).cmp_eq_byte(0x80). -/
def count_trailing_chunk (w : Nat) : Nat := cmpEqByte (w &&& splat 0xC0) 0x80

/-- chars::count_impl for the usize chunk, with alignment parameter a:
short strings are scanned byte by byte for leading bytes; otherwise
continuation bytes are counted over the unaligned head, the aligned middle
(in unrolled groups of four chunks) and the unaligned tail, and subtracted
from the length. -/
def count_impl (a : Nat) (text : List Nat) : Nat :=
  if text.length < 8 then
    (text.map (fun b => if is_leading_byte b then 1 else 0)).sum
  else
    let s := min a text.length
    let rest := text.drop s
    let nChunks := rest.length / 8
    let invCount := trailCount (text.take s)
      + chunkGroups4 count_trailing_chunk (rest.take (8 * nChunks))
      + trailCount (rest.drop (8 * nChunks))
    text.length - invCount

/-- chars::count. -/
def chars_count (a : Nat) (text : List Nat) : Nat := count_impl a text

/-- The boundary-seeking loop of chars::from_byte_idx:
while Some(true) == bytes.get(i).map(is_trailing_byte) i -= 1.
For valid UTF-8 the loop never reaches i = 0 with a continuation byte there
(byte 0 of a valid text is never a continuation byte), so the value chosen
for that dead branch does not matter. -/
def charsRoundDown (text : List Nat) : Nat → Nat
  | 0 => 0
  | i + 1 =>
    if i + 1 < text.length ∧ is_trailing_byte (bget text (i + 1)) then charsRoundDown text i
    else i + 1

/-- chars::from_byte_idx. -/
def chars_from_byte_idx (a : Nat) (text : List Nat) (byteIdx : Nat) : Nat :=
  let i := charsRoundDown text byteIdx
  count_impl a (text.take (min i text.length))

/-- The byte-at-a-time scan that is both the short-string path and the
final unaligned-tail loop of chars::to_byte_idx_impl: add one per leading
byte and return the current byte position as soon as the running char count
exceeds the target; at the end of the bytes return the position one past
the last byte scanned. -/
def charScanTo : List Nat → Nat → Nat → Nat → Nat
  | [], _, bc, _ => bc
  | b :: bs, charIdx, bc, cc =>
    let cc2 := cc + (if is_leading_byte b then 1 else 0)
    if charIdx < cc2 then bc else charScanTo bs charIdx (bc + 1) cc2

/-- The unaligned-head loop of chars::to_byte_idx_impl, which returns from
the whole function (inl) as soon as the count exceeds the target. -/
def charsStartLoop : List Nat → Nat → Nat → Nat → Nat ⊕ (Nat × Nat)
  | [], _, bc, cc => Sum.inr (bc, cc)
  | b :: bs, charIdx, bc, cc =>
    let cc2 := cc + (if is_leading_byte b then 1 else 0)
    if charIdx < cc2 then Sum.inl bc else charsStartLoop bs charIdx (bc + 1) cc2

/-- The fast-path loop of chars::to_byte_idx_impl: g groups of four chunks,
each adding 4 * SIZE - sum of continuation flags to the char count. -/
def charsFastLoop : Nat → List Nat → Nat → Nat → Nat × Nat
  | 0, _, bc, cc => (bc, cc)
  | g + 1, rest, bc, cc =>
    let v := sumBytes (wadd
      (wadd (count_trailing_chunk (fromLanes (rest.take 8)))
            (count_trailing_chunk (fromLanes ((rest.drop 8).take 8))))
      (wadd (count_trailing_chunk (fromLanes ((rest.drop 16).take 8)))
            (count_trailing_chunk (fromLanes ((rest.drop 24).take 8)))))
    charsFastLoop g (rest.drop 32) (bc + 32) (cc + (32 - v))

/-- The slow-path loop of chars::to_byte_idx_impl over the remaining k
chunks: stop before any chunk that would reach the target char count. -/
def charsSlowLoop : Nat → List Nat → Nat → Nat → Nat → Nat × Nat
  | 0, _, _, bc, cc => (bc, cc)
  | k + 1, rest, charIdx, bc, cc =>
    let newCc := cc + 8 - sumBytes (count_trailing_chunk (fromLanes (rest.take 8)))
    if charIdx ≤ newCc then (bc, cc)
    else charsSlowLoop k (rest.drop 8) charIdx (bc + 8) newCc

/-- chars::to_byte_idx_impl for the usize chunk, with alignment parameter a. -/
def chars_to_byte_idx_impl (a : Nat) (text : List Nat) (charIdx : Nat) : Nat :=
  if text.length ≤ 8 then charScanTo text charIdx 0 0
  else
    let s := min a text.length
    match charsStartLoop (text.take s) charIdx 0 0 with
    | Sum.inl r => r
    | Sum.inr (bc0, cc0) =>
      let nChunks := (text.length - s) / 8
      let fpc := min nChunks ((charIdx - cc0) / 8)
      let g := fpc / 4
      let p1 := charsFastLoop g (text.drop s) bc0 cc0
      let p2 := charsSlowLoop (nChunks - 4 * g) (text.drop (s + 32 * g)) charIdx p1.1 p1.2
      charScanTo (text.drop p2.1) charIdx p2.1 p2.2

/-- chars::to_byte_idx. -/
def chars_to_byte_idx (a : Nat) (text : List Nat) (charIdx : Nat) : Nat :=
  chars_to_byte_idx_impl a text charIdx

/-! ## utf16.rs -/

/-- The four-byte-sequence lead test: (byte & 0xF0) == 0xF0. -/
def surrByte (b : Nat) : Bool := b &&& 0xF0 == 0xF0

/-- The per-chunk surrogate flags: chunk.bitand(splat(0xF0)).cmp_eq_byte(0xF0). -/
def surrChunk (w : Nat) : Nat := cmpEqByte (w &&& splat 0xF0) 0xF0

/-- Number of four-byte-lead bytes of a text. -/
def surrCount (l : List Nat) : Nat := (l.filter (fun b => surrByte b)).length

/-- Reference count of UTF-16 code units: decode sequence by sequence,
counting 2 units for a four-byte sequence and 1 otherwise. -/
def utf16Units (l : List Nat) : Nat :=
  match l with
  | [] => 0
  | b :: rest => (if seqLen b = 4 then 2 else 1) + utf16Units (rest.drop (seqLen b - 1))
termination_by l.length
decreasing_by simp [List.length_drop]; omega

/-- utf16::count_surrogates_impl for the usize chunk, with alignment
parameter a: the final three bytes are chopped off, then four-byte leads
are counted over head, aligned middle (in runs of MAX_ACC chunks) and tail. -/
def count_surrogates_impl (a : Nat) (text : List Nat) : Nat :=
  if text.length ≤ 3 then 0
  else
    let t := text.take (text.length - 3)
    let s := min a t.length
    let rest := t.drop s
    let nChunks := rest.length / 8
    surrCount (t.take s) + chunkGroupsAcc surrChunk (rest.take (8 * nChunks))
      + surrCount (rest.drop (8 * nChunks))

/-- utf16::count_surrogates. -/
def utf16_count_surrogates (a : Nat) (text : List Nat) : Nat := count_surrogates_impl a text

/-- utf16::count: char count plus surrogate count. -/
def utf16_count (a : Nat) (text : List Nat) : Nat :=
  count_impl a text + count_surrogates_impl a text

/-- utf16::from_byte_idx: clamp, round down to a char boundary, then count
chars and surrogates of that byte slice. -/
def utf16_from_byte_idx (a : Nat) (text : List Nat) (byteIdx : Nat) : Nat :=
  let i := roundDown text (min byteIdx text.length)
  count_impl a (text.take i) + count_surrogates_impl a (text.take i)

/-- The per-byte UTF-16 unit weight used by utf16::to_byte_idx_impl:
((byte & 0xC0) != 0x80) as usize + ((byte & 0xF0) == 0xF0) as usize. -/
def u16Weight (b : Nat) : Nat :=
  (if is_leading_byte b then 1 else 0) + (if surrByte b then 1 else 0)

/-- The unaligned-head loop of utf16::to_byte_idx_impl: accumulate unit
weights, breaking (with the weight already added) once the target is
exceeded. -/
def u16StartLoop : List Nat → Nat → Nat → Nat → Nat × Nat
  | [], _, bc, cnt => (bc, cnt)
  | b :: bs, idx, bc, cnt =>
    let cnt2 := cnt + u16Weight b
    if idx < cnt2 then (bc, cnt2) else u16StartLoop bs idx (bc + 1) cnt2

/-- The fast-path round loop of utf16::to_byte_idx_impl: each round
processes at most MAX_ACC chunks, accumulating continuation flags and
surrogate flags, and adds the resulting unit count.  Returns the number of
chunks left together with the byte and unit counts. -/
def u16FastLoop (mr k : Nat) (rest : List Nat) (bc cnt : Nat) : Nat × Nat × Nat :=
  if h : 0 < mr ∧ 0 < k then
    let rl := min (min 31 mr) k
    let accInv := chunkFold count_trailing_chunk (rest.take (8 * rl)) 0
    let accSur := chunkFold surrChunk (rest.take (8 * rl)) 0
    u16FastLoop (mr - rl) (k - rl) (rest.drop (8 * rl)) (bc + 8 * rl)
      (cnt + (8 * rl - sumBytes accInv) + sumBytes accSur)
  else (k, bc, cnt)
termination_by mr
decreasing_by omega

/-- The slow-path chunk loop of utf16::to_byte_idx_impl. -/
def u16SlowLoop : Nat → List Nat → Nat → Nat → Nat → Nat × Nat
  | 0, _, _, bc, cnt => (bc, cnt)
  | k + 1, rest, idx, bc, cnt =>
    let w := fromLanes (rest.take 8)
    let newCnt := cnt + (8 - sumBytes (count_trailing_chunk w)) + sumBytes (surrChunk w)
    if idx ≤ newCnt then (bc, cnt)
    else u16SlowLoop k (rest.drop 8) idx (bc + 8) newCnt

/-- The byte-at-a-time tail scan of utf16::to_byte_idx_impl. -/
def u16ScanTo : List Nat → Nat → Nat → Nat → Nat
  | [], _, bc, _ => bc
  | b :: bs, idx, bc, cnt =>
    let cnt2 := cnt + u16Weight b
    if idx < cnt2 then bc else u16ScanTo bs idx (bc + 1) cnt2

/-- utf16::to_byte_idx_impl for the usize chunk, with alignment parameter a. -/
def utf16_to_byte_idx_impl (a : Nat) (text : List Nat) (idx : Nat) : Nat :=
  let s := min a text.length
  let p0 := u16StartLoop (text.take s) idx 0 0
  let nChunks := (text.length - s) / 8
  let f := u16FastLoop ((idx - p0.2) / 31) nChunks (text.drop s) p0.1 p0.2
  let p2 := u16SlowLoop f.1 (text.drop (s + 8 * (nChunks - f.1))) idx f.2.1 f.2.2
  u16ScanTo (text.drop p2.1) idx p2.1 p2.2

/-- utf16::to_byte_idx. -/
def utf16_to_byte_idx (a : Nat) (text : List Nat) (idx : Nat) : Nat :=
  utf16_to_byte_idx_impl a text idx

/-! ## lines_lf.rs -/

/-- The per-chunk line-feed flags: chunk.cmp_eq_byte(0x0A). -/
def lfChunk (w : Nat) : Nat := cmpEqByte w 0x0A

/-- Number of line-feed bytes of a text. -/
def lfCount (l : List Nat) : Nat := (l.map (fun b => if b = 0x0A then 1 else 0)).sum

/-- lines_lf::count_breaks_impl for the usize chunk, with alignment
parameter a. -/
def count_breaks_impl_lf (a : Nat) (text : List Nat) : Nat :=
  if text.length < 8 then lfCount text
  else
    let s := min a text.length
    let rest := text.drop s
    let nChunks := rest.length / 8
    lfCount (text.take s) + chunkGroups4 lfChunk (rest.take (8 * nChunks))
      + lfCount (rest.drop (8 * nChunks))

/-- lines_lf::count_breaks. -/
def lines_lf_count_breaks (a : Nat) (text : List Nat) : Nat := count_breaks_impl_lf a text

/-- lines_lf::from_byte_idx. -/
def lines_lf_from_byte_idx (a : Nat) (text : List Nat) (byteIdx : Nat) : Nat :=
  count_breaks_impl_lf a (text.take (min byteIdx text.length))

/-- The unaligned-head loop of lines_lf::to_byte_idx_impl, returning from
the whole function (inl) once the target line count is reached. -/
def lfStartLoop : List Nat → Nat → Nat → Nat → Nat ⊕ (Nat × Nat)
  | [], _, bc, lf => Sum.inr (bc, lf)
  | b :: bs, lineIdx, bc, lf =>
    if lf = lineIdx then Sum.inl bc
    else lfStartLoop bs lineIdx (bc + 1) (lf + if b = 0x0A then 1 else 0)

/-- The four-chunks-at-a-time loop of lines_lf::to_byte_idx_impl over g
groups; returns the groups left unprocessed with the byte and break counts. -/
def lfGroup4Loop : Nat → List Nat → Nat → Nat → Nat → Nat × Nat × Nat
  | 0, _, _, bc, lf => (0, bc, lf)
  | g + 1, rest, lineIdx, bc, lf =>
    let v := sumBytes (wadd
      (wadd (lfChunk (fromLanes (rest.take 8))) (lfChunk (fromLanes ((rest.drop 8).take 8))))
      (wadd (lfChunk (fromLanes ((rest.drop 16).take 8)))
            (lfChunk (fromLanes ((rest.drop 24).take 8)))))
    if lineIdx ≤ lf + v then (g + 1, bc, lf)
    else lfGroup4Loop g (rest.drop 32) lineIdx (bc + 32) (lf + v)

/-- The remaining-chunks loop of lines_lf::to_byte_idx_impl. -/
def lfSingleLoop : Nat → List Nat → Nat → Nat → Nat → Nat × Nat
  | 0, _, _, bc, lf => (bc, lf)
  | k + 1, rest, lineIdx, bc, lf =>
    let v := sumBytes (lfChunk (fromLanes (rest.take 8)))
    if lineIdx ≤ lf + v then (bc, lf)
    else lfSingleLoop k (rest.drop 8) lineIdx (bc + 8) (lf + v)

/-- The byte-at-a-time tail scan of lines_lf::to_byte_idx_impl (the target
check precedes each byte). -/
def lfEndScan : List Nat → Nat → Nat → Nat → Nat
  | [], _, bc, _ => bc
  | b :: bs, lineIdx, bc, lf =>
    if lf = lineIdx then bc
    else lfEndScan bs lineIdx (bc + 1) (lf + if b = 0x0A then 1 else 0)

/-- lines_lf::to_byte_idx_impl for the usize chunk, with alignment
parameter a. -/
def lines_lf_to_byte_idx_impl (a : Nat) (text : List Nat) (lineIdx : Nat) : Nat :=
  let s := min a text.length
  match lfStartLoop (text.take s) lineIdx 0 0 with
  | Sum.inl r => r
  | Sum.inr (bc0, lf0) =>
    let nChunks := (text.length - s) / 8
    let q := lfGroup4Loop (nChunks / 4) (text.drop s) lineIdx bc0 lf0
    let committed := nChunks / 4 - q.1
    let p := lfSingleLoop (nChunks - 4 * committed) (text.drop (s + 32 * committed)) lineIdx
      q.2.1 q.2.2
    lfEndScan (text.drop p.1) lineIdx p.1 p.2

/-- lines_lf::to_byte_idx. -/
def lines_lf_to_byte_idx (a : Nat) (text : List Nat) (lineIdx : Nat) : Nat :=
  lines_lf_to_byte_idx_impl a text lineIdx

/-! ## Reference break recognizers -/

/-- Reference recognizer, Unicode policy: position p owns a break when it
holds LF, VT or FF, a CR not immediately followed by LF (a CRLF pair is
owned by its LF), a NEL lead (C2 85) or an LS or PS lead (E2 80 followed by
a byte whose right shift by one bit is 0x54). -/
def breakAtUni (l : List Nat) (p : Nat) : Bool :=
  let b := bget l p
  if 0x0A ≤ b ∧ b ≤ 0x0D then
    decide (¬ (b = 0x0D ∧ p + 1 < l.length ∧ bget l (p + 1) = 0x0A))
  else if b = 0xC2 then decide (p + 1 < l.length ∧ bget l (p + 1) = 0x85)
  else if b = 0xE2 then
    decide (p + 2 < l.length ∧ bget l (p + 1) = 0x80 ∧ (bget l (p + 2)) >>> 1 = 0x54)
  else false

/-- Reference recognizer, LF-only policy. -/
def breakAtLf (l : List Nat) (p : Nat) : Bool := bget l p == 0x0A

/-- Reference recognizer, CR/CRLF policy, pair owned by the LF. -/
def breakAtCrlf (l : List Nat) (p : Nat) : Bool :=
  bget l p == 0x0A
    || (bget l p == 0x0D && decide (¬ (p + 1 < l.length ∧ bget l (p + 1) = 0x0A)))

/-- Reference recognizer, CR/CRLF policy, pair owned by the CR (the order
in which lines_crlf::count_breaks_internal attributes breaks). -/
def breakAtCrlfCr (l : List Nat) (p : Nat) : Bool :=
  bget l p == 0x0D || (bget l p == 0x0A && decide (p = 0 ∨ bget l (p - 1) ≠ 0x0D))

/-- Number of positions below n at which ind recognizes a break of l. -/
def indSum (ind : List Nat → Nat → Bool) (l : List Nat) : Nat → Nat
  | 0 => 0
  | n + 1 => indSum ind l n + (if ind l n then 1 else 0)

/-! ## lines.rs (full Unicode policy) -/

/-- The loop body of lines::count_breaks_up_to, from state (ptr, count). -/
def cbUpToGo (bytes : List Nat) (maxBytes maxBreaks ptr count : Nat) : Nat × Nat :=
  if h : ptr < maxBytes ∧ count < maxBreaks then
    let byte := bget bytes ptr
    let c1 :=
      if 0x0A ≤ byte ∧ byte ≤ 0x0D then
        let c := count + 1
        if byte = 0x0D ∧ ptr + 1 < bytes.length ∧ bget bytes (ptr + 1) = 0x0A then c - 1 else c
      else if byte = 0xC2 ∧ ptr + 1 < bytes.length ∧ bget bytes (ptr + 1) = 0x85 then count + 1
      else if byte = 0xE2 ∧ ptr + 2 < bytes.length ∧ bget bytes (ptr + 1) = 0x80
          ∧ (bget bytes (ptr + 2)) >>> 1 = 0x54 then count + 1
      else count
    cbUpToGo bytes maxBytes maxBreaks (ptr + 1) c1
  else (count, ptr)
termination_by maxBytes - ptr
decreasing_by omega

/-- lines::count_breaks_up_to: count breaks byte by byte, stopping at
max_bytes bytes or max_breaks breaks; returns the count and the bytes
consumed. -/
def count_breaks_up_to (bytes : List Nat) (maxBytes maxBreaks : Nat) : Nat × Nat :=
  cbUpToGo bytes maxBytes maxBreaks 0 0

/-- lines::count_breaks_in_chunk_from_ptr for the usize chunk: the chunk is
the first eight bytes of the slice; the slice is also consulted one or two
bytes past the chunk for sequences straddling the chunk end. -/
def count_breaks_in_chunk (bytes : List Nat) : Nat :=
  let c := fromLanes (bytes.take 8)
  let nl1 := cmpEqByte c 0xC2
  let sp1 := cmpEqByte c 0xE2
  let allF := bytesBetween127 c 0x09 0x0E
  let crF := cmpEqByte c 0x0D
  let acc1 :=
    if nl1 ≠ 0 then
      let nl2 := shiftBackLex (cmpEqByte c 0x85) 1
      let acc := wadd 0 (nl1 &&& nl2)
      if 8 < bytes.length ∧ bget bytes 7 = 0xC2 ∧ bget bytes 8 = 0x85 then
        incNthFromEndLexByte acc 0
      else acc
    else 0
  let acc2 :=
    if sp1 ≠ 0 then
      let sp2 := (shiftBackLex (cmpEqByte c 0x80) 1) &&& sp1
      let acc :=
        if sp2 ≠ 0 then
          let sp3 := shiftBackLex (cmpEqByte ((c >>> 1) &&& splat 0x7F) 0x54) 2
          wadd acc1 (sp2 &&& sp3)
        else acc1
      if 8 < bytes.length ∧ bget bytes 6 = 0xE2 ∧ bget bytes 7 = 0x80
          ∧ (bget bytes 8) >>> 1 = 0x54 then
        incNthFromEndLexByte acc 1
      else if 9 < bytes.length ∧ bget bytes 7 = 0xE2 ∧ bget bytes 8 = 0x80
          ∧ (bget bytes 9) >>> 1 = 0x54 then
        incNthFromEndLexByte acc 0
      else acc
    else acc1
  let acc3 := wadd acc2 allF
  if crF ≠ 0 then
    let lfF := cmpEqByte c 0x0A
    let crlfF := crF &&& shiftBackLex lfF 1
    let acc := wsub acc3 crlfF
    if 8 < bytes.length ∧ bget bytes 7 = 0x0D ∧ bget bytes 8 = 0x0A then
      decLastLexByte acc
    else acc
  else acc3

/-- The chunk loop of lines::count_breaks_internal: accumulate per-chunk
flag words, flushing the accumulator every MAX_ACC chunks, then finish the
unaligned tail byte by byte. -/
def linesCntChunkLoop (rest : List Nat) (count accW i : Nat) : Nat :=
  if h : 8 ≤ rest.length then
    let acc2 := wadd accW (count_breaks_in_chunk rest)
    let i2 := i + 1
    if i2 = 31 then linesCntChunkLoop (rest.drop 8) (count + sumBytes acc2) 0 0
    else linesCntChunkLoop (rest.drop 8) count acc2 i2
  else count + sumBytes accW + (count_breaks_up_to rest rest.length rest.length).1
termination_by rest.length
decreasing_by
  simp [List.length_drop]; omega
  simp [List.length_drop]; omega

/-- lines::count_breaks_internal for the usize chunk, with alignment
parameter a. -/
def lines_count_breaks (a : Nat) (text : List Nat) : Nat :=
  let alignedIdx := min a text.length
  if 0 < alignedIdx then
    let r := count_breaks_up_to text alignedIdx text.length
    linesCntChunkLoop (text.drop r.2) r.1 0 0
  else linesCntChunkLoop text 0 0 0

/-- lines::is_not_crlf_middle. -/
def is_not_crlf_middle (byteIdx : Nat) (text : List Nat) : Bool :=
  if byteIdx = 0 ∨ byteIdx = text.length then true
  else
    decide ((bget text byteIdx) >>> 6 ≠ 0b10)
      && (decide (bget text (byteIdx - 1) ≠ 0x0D) || decide (bget text byteIdx ≠ 0x0A))

/-- lines::from_byte_idx: clamp, round down to a char boundary, count the
breaks of that byte slice, and subtract one when the index splits a CRLF
pair. -/
def lines_from_byte_idx (a : Nat) (text : List Nat) (byteIdx : Nat) : Nat :=
  let i := roundDown text (min byteIdx text.length)
  let nl := lines_count_breaks a (text.take i)
  if is_not_crlf_middle i text then nl else nl - 1

/-- Alignment distance of the slice of l starting at offset o, when the
whole buffer needs a bytes to reach alignment (the alignment_diff value of
that slice, clamped to its length). -/
def alignDiffAt (a o len : Nat) : Nat := min ((a + 8 - o % 8) % 8) len

/-- The chunk loop of lines::to_byte_idx_inner: advance one chunk at a time
while the accumulated break count stays below the target; returns the
break count and the bytes consumed. -/
def linesToChunkLoop (rest : List Nat) (count lineIdx : Nat) : Nat × Nat :=
  if h : 8 ≤ rest.length then
    let tmp := sumBytes (count_breaks_in_chunk rest)
    if lineIdx ≤ tmp + count then (count, 0)
    else
      let r := linesToChunkLoop (rest.drop 8) (count + tmp) lineIdx
      (r.1, r.2 + 8)
  else (count, 0)
termination_by rest.length
decreasing_by simp [List.length_drop]; omega

/-- lines::to_byte_idx_inner for the usize chunk, with alignment
parameter a. -/
def lines_to_byte_idx (a : Nat) (text : List Nat) (lineIdx : Nat) : Nat :=
  let alignedIdx := min a text.length
  let r0 := if 0 < alignedIdx then count_breaks_up_to text alignedIdx lineIdx else (0, 0)
  let rest := text.drop r0.2
  let r1 :=
    if alignDiffAt a r0.2 rest.length = 0 then linesToChunkLoop rest r0.1 lineIdx
    else (r0.1, 0)
  let rest1 := rest.drop r1.2
  let r2 := count_breaks_up_to rest1 rest1.length (lineIdx - r1.1)
  let rest2 := rest1.drop r2.2
  roundUp text (text.length - rest2.length)

/-! ## lines_crlf.rs -/

/-- The byte-at-a-time fold of lines_crlf::count_breaks_internal (head and
tail regions): count CR always and LF when not preceded by CR.  The count
is an integer because the chunk loop below can drive the running usize
count transiently negative (wrapping); integers model the wrapping
arithmetic exactly since the final value is in range. -/
def crlfScalarFold : List Nat → Int → Bool → Int × Bool
  | [], cnt, lastCr => (cnt, lastCr)
  | b :: bs, cnt, lastCr =>
    crlfScalarFold bs (cnt + (if b = 0x0D ∨ (b = 0x0A ∧ ¬ lastCr) then 1 else 0)) (b = 0x0D)

/-- The chunk loop of lines_crlf::count_breaks_internal: per chunk add
lf_flags and cr_flags - crlf_flags, flush every MAX_ACC chunks, and
compensate a CRLF pair straddling the previous chunk boundary by
subtracting from the running count (this subtraction is the one that can
wrap in the Rust source). -/
def crlfCntChunkLoop (rest : List Nat) (cnt : Int) (accW i : Nat) (lastCr : Bool) : Int :=
  if h : 8 ≤ rest.length then
    let w := fromLanes (rest.take 8)
    let lf := cmpEqByte w 0x0A
    let cr := cmpEqByte w 0x0D
    let crlf := cr &&& shiftBackLex lf 1
    let acc2 := wadd (wadd accW lf) (wsub cr crlf)
    let i2 := i + 1
    let st : Int × Nat × Nat :=
      if 31 ≤ i2 then (cnt + (sumBytes acc2 : Int), 0, 0) else (cnt, acc2, i2)
    let cnt3 := st.1 - (if bget rest 0 = 0x0A ∧ lastCr then 1 else 0)
    crlfCntChunkLoop (rest.drop 8) cnt3 st.2.1 st.2.2 (bget rest 7 = 0x0D)
  else
    (crlfScalarFold rest (cnt + (sumBytes accW : Int)) lastCr).1
termination_by rest.length
decreasing_by simp [List.length_drop]; omega

/-- lines_crlf::count_breaks_internal for the usize chunk, with alignment
parameter a; the final usize value of the wrapping count. -/
def lines_crlf_count_breaks (a : Nat) (text : List Nat) : Nat :=
  let s := min a text.length
  let p := crlfScalarFold (text.take s) 0 false
  (crlfCntChunkLoop (text.drop s) p.1 0 0 p.2).toNat

/-- lines_crlf::from_byte_idx. -/
def lines_crlf_from_byte_idx (a : Nat) (text : List Nat) (byteIdx : Nat) : Nat :=
  let i := roundDown text (min byteIdx text.length)
  let nl := lines_crlf_count_breaks a (text.take i)
  if is_not_crlf_middle i text then nl else nl - 1

/-- The byte-at-a-time scan of lines_crlf::to_byte_idx_inner (head and tail
regions), over absolute positions of the text, stopping at the region end
or at the target break count: count LF always and CR when not followed
by LF. -/
def crlfScanTo (text : List Nat) (stop lineIdx byteCount breakCount : Nat) : Nat × Nat :=
  if h : byteCount < stop ∧ breakCount < lineIdx then
    let b := bget text byteCount
    let bk :=
      if b = 0x0A then breakCount + 1
      else if b = 0x0D ∧ ¬ (byteCount + 1 < text.length ∧ bget text (byteCount + 1) = 0x0A) then
        breakCount + 1
      else breakCount
    crlfScanTo text stop lineIdx (byteCount + 1) bk
  else (byteCount, breakCount)
termination_by stop - byteCount
decreasing_by omega

/-- The chunk loop of lines_crlf::to_byte_idx_inner.  The loop is entered
only with byte_count at the start of the aligned middle (chunk number
chunkI = 0); the running upper-bound test keeps the byte count from
passing the target line start.  The subtractions cannot underflow (part of
the correctness proof), so truncated subtraction coincides with the usize
arithmetic of the source. -/
def crlfToChunkLoop (text : List Nat) (s nChunks lineIdx chunkI byteCount breakCount accW accI boundary : Nat) : Nat × Nat :=
  if h : chunkI < nChunks ∧ breakCount + 8 * (accI + 1) - boundary < lineIdx then
    let w := fromLanes ((text.drop (s + 8 * chunkI)).take 8)
    let lf := cmpEqByte w 0x0A
    let cr := cmpEqByte w 0x0D
    let crlf := cr &&& shiftBackLex lf 1
    let acc2 := wadd (wadd accW lf) (wsub cr crlf)
    let accI2 := accI + 1
    let st : Nat × Nat × Nat :=
      if 31 ≤ accI2 ∨ lineIdx ≤ breakCount + 8 * (accI2 + 1) - boundary then
        (breakCount + sumBytes acc2, 0, 0)
      else (breakCount, acc2, accI2)
    let byteCount2 := byteCount + 8
    let boundary2 := boundary +
      (if bget text (byteCount2 - 1) = 0x0D ∧ byteCount2 < text.length
          ∧ bget text byteCount2 = 0x0A then 1 else 0)
    crlfToChunkLoop text s nChunks lineIdx (chunkI + 1) byteCount2 st.1 st.2.1 st.2.2 boundary2
  else (breakCount + sumBytes accW - boundary, byteCount)
termination_by nChunks - chunkI
decreasing_by omega

/-- lines_crlf::to_byte_idx_inner for the usize chunk, with alignment
parameter a. -/
def lines_crlf_to_byte_idx (a : Nat) (text : List Nat) (lineIdx : Nat) : Nat :=
  let s := min a text.length
  let p0 := crlfScanTo text s lineIdx 0 0
  let nChunks := (text.length - s) / 8
  let p1 := crlfToChunkLoop text s nChunks lineIdx 0 p0.1 p0.2 0 0 0
  (crlfScanTo text text.length lineIdx p1.2 p1.1).1

/-! ## Sample texts (used to instantiate the theorems at concrete inputs) -/

/-- The bytes of the string Hello (se-ka-i in hiragana) with a bang: the
test text of chars.rs. -/
def sampleMixed : List Nat :=
  [72, 101, 108, 108, 111, 32, 227, 129, 155, 227, 129, 139, 227, 129, 132, 33]

/-- The bytes of the Unicode line-break test text of lines.rs (LF, CRLF,
CR, VT, FF, NEL, LS, PS and hiragana, 48 bytes, 8 breaks). -/
def sampleBreaks : List Nat :=
  [10, 72, 101, 108, 108, 111, 13, 10, 13, 227, 129, 155, 11, 227, 129, 139, 12, 227,
   129, 132, 194, 133, 46, 32, 84, 104, 101, 114, 101, 226, 128, 168, 105, 115, 32, 115,
   111, 109, 101, 116, 104, 105, 110, 103, 46, 226, 128, 169]

/-- The bytes of the UTF-16 test text of utf16.rs (four frog emoji among
ASCII and hiragana, 45 bytes, 27 UTF-16 units). -/
def sampleU16 : List Nat :=
  [72, 101, 108, 240, 159, 144, 184, 108, 111, 32, 119, 111, 114, 108, 100, 33, 32, 227,
   129, 147, 227, 130, 147, 240, 159, 144, 184, 227, 129, 171, 227, 129, 161, 240, 159,
   144, 184, 240, 159, 144, 184, 227, 129, 175, 33]

/-- The bytes of the CRLF-separated word list of the line-module tests. -/
def sampleWords : List Nat :=
  [72, 101, 114, 101, 13, 10, 97, 114, 101, 13, 10, 115, 111, 109, 101, 13, 10, 119,
   111, 114, 100, 115]

/-- Thirteen ASCII bytes, then CRLF, then eight more: with alignment 6 the
CRLF straddles a chunk boundary with no break before it, driving the
running count of lines_crlf::count_breaks_internal through an underflow. -/
def sampleUnderflow : List Nat :=
  [97, 97, 97, 97, 97, 97, 97, 97, 97, 97, 97, 97, 97, 13, 10, 98, 98, 98, 98, 98, 98,
   98, 98]


/-- Reference position scan that specifies chars::to_byte_idx: the byte
position at which the running leading-byte count exceeds n (the position
of leading byte number n, counting from zero), or the byte length when
there is none. -/
def nthLeadPos : List Nat → Nat → Nat
  | [], _ => 0
  | b :: bs, n =>
    if is_leading_byte b then
      match n with
      | 0 => 0
      | m + 1 => 1 + nthLeadPos bs m
    else 1 + nthLeadPos bs n

/-- Byte offset at which the encoding of scalar number n begins, decoding
sequence by sequence; the byte length once n reaches the scalar count
(the chars().count() style reference of the spec). -/
def scalarStart (l : List Nat) (n : Nat) : Nat :=
  match l, n with
  | _, 0 => 0
  | [], _ + 1 => 0
  | b :: rest, n + 1 => seqLen b + scalarStart (rest.drop (seqLen b - 1)) n
termination_by l.length
decreasing_by simp [List.length_drop]; omega


/-- Total UTF-16 unit weight of a byte region (the quantity the
utf16::to_byte_idx scan accumulates). -/
def u16wt (l : List Nat) : Nat := (l.map u16Weight).sum

/-! # Theorems -/

set_option maxRecDepth 4000

/-! ## Byte-lane decomposition of the word operations -/

theorem fromLanes_nonneg_zero (ds : List Nat) : fromLanes ds = 0 ↔ ∀ d ∈ ds, d = 0 := by
  induction ds with
  | nil => simp [fromLanes]
  | cons d ds ih =>
    simp only [fromLanes, List.mem_cons]
    constructor
    · intro h
      have hd : d = 0 ∧ fromLanes ds = 0 := by omega
      intro x hx
      rcases hx with rfl | hx
      · exact hd.1
      · exact (ih.mp hd.2) x hx
    · intro h
      have : fromLanes ds = 0 := ih.mpr (fun x hx => h x (Or.inr hx))
      have := h d (Or.inl rfl)
      omega

theorem fromLanes_lt (ds : List Nat) (h : Lanes ds) : fromLanes ds < 256 ^ ds.length := by
  induction ds with
  | nil => simp [fromLanes]
  | cons d ds ih =>
    have hd : d < 256 := h d (List.mem_cons_self d ds)
    have ht : fromLanes ds < 256 ^ ds.length := ih (fun x hx => h x (List.mem_cons_of_mem d hx))
    simp only [fromLanes, List.length_cons, pow_succ]
    calc d + 256 * fromLanes ds < 256 + 256 * fromLanes ds := by omega
    _ = 256 * (fromLanes ds + 1) := by ring
    _ ≤ 256 * 256 ^ ds.length := by
        exact Nat.mul_le_mul_left 256 (by omega)
    _ = 256 ^ ds.length * 256 := by ring

theorem fromLanes_le_of_le (ds es : List Nat) (hl : ds.length = es.length)
    (h : ∀ i, i < ds.length → ds.getD i 0 ≤ es.getD i 0) : fromLanes ds ≤ fromLanes es := by
  induction ds generalizing es with
  | nil =>
    cases es with
    | nil => simp [fromLanes]
    | cons e es => simp at hl
  | cons d ds ih =>
    cases es with
    | nil => simp at hl
    | cons e es =>
      have h0 : d ≤ e := h 0 (by simp)
      have ht : fromLanes ds ≤ fromLanes es := by
        refine ih es (by simpa using hl) ?_
        intro i hi
        have := h (i + 1) (by simpa using Nat.succ_lt_succ hi)
        simpa using this
      simp only [fromLanes]
      omega

theorem testBit_byte_split (a x i : Nat) (ha : a < 256) :
    (a + 256 * x).testBit i = if i < 8 then a.testBit i else x.testBit (i - 8) := by
  rcases Nat.lt_or_ge i 8 with h | h
  · simp only [if_pos h, Nat.testBit_to_div_mod]
    have hpow : (2 : Nat) ^ i * 2 ^ (8 - i) = 256 := by
      rw [← pow_add]
      have h8 : i + (8 - i) = 8 := by omega
      rw [h8]
      norm_num
    have h256 : (256 : Nat) * x = 2 ^ i * (2 ^ (8 - i) * x) := by
      rw [← Nat.mul_assoc, hpow]
    rw [h256, Nat.add_mul_div_left _ _ (Nat.pos_pow_of_pos i (by norm_num))]
    have h2 : 2 ^ (8 - i) * x = 2 * (2 ^ (7 - i) * x) := by
      rw [← Nat.mul_assoc]
      congr 1
      have h7 : 8 - i = (7 - i) + 1 := by omega
      rw [h7, pow_succ']
    rw [h2, Nat.add_mul_mod_self_left]
  · simp only [if_neg (by omega : ¬ i < 8), Nat.testBit_to_div_mod]
    have hi : (2 : Nat) ^ i = 256 * 2 ^ (i - 8) := by
      have : (256 : Nat) = 2 ^ 8 := by norm_num
      rw [this, ← pow_add]
      congr 1
      omega
    rw [hi, ← Nat.div_div_eq_div_mul, Nat.add_mul_div_left _ _ (by norm_num : (0:Nat) < 256),
      Nat.div_eq_of_lt ha, Nat.zero_add]

theorem land_byte_split (a b x y : Nat) (ha : a < 256) (hb : b < 256) :
    (a + 256 * x) &&& (b + 256 * y) = (a &&& b) + 256 * (x &&& y) := by
  have hab : a &&& b < 256 := by
    have : (256 : Nat) = 2 ^ 8 := by norm_num
    rw [this] at hb ⊢
    exact Nat.and_lt_two_pow a hb
  refine Nat.eq_of_testBit_eq (fun i => ?_)
  rw [Nat.testBit_land, testBit_byte_split _ _ _ ha, testBit_byte_split _ _ _ hb,
    testBit_byte_split _ _ _ hab]
  by_cases h : i < 8
  · simp [h, Nat.testBit_land]
  · simp [h, Nat.testBit_land]

theorem lor_byte_split (a b x y : Nat) (ha : a < 256) (hb : b < 256) :
    (a + 256 * x) ||| (b + 256 * y) = (a ||| b) + 256 * (x ||| y) := by
  have hab : a ||| b < 256 := by
    have h2 : (256 : Nat) = 2 ^ 8 := by norm_num
    rw [h2] at ha hb ⊢
    exact Nat.or_lt_two_pow ha hb
  refine Nat.eq_of_testBit_eq (fun i => ?_)
  rw [Nat.testBit_lor, testBit_byte_split _ _ _ ha, testBit_byte_split _ _ _ hb,
    testBit_byte_split _ _ _ hab]
  by_cases h : i < 8
  · simp [h, Nat.testBit_lor]
  · simp [h, Nat.testBit_lor]

theorem xor_byte_split (a b x y : Nat) (ha : a < 256) (hb : b < 256) :
    (a + 256 * x) ^^^ (b + 256 * y) = (a ^^^ b) + 256 * (x ^^^ y) := by
  have hab : a ^^^ b < 256 := by
    have h2 : (256 : Nat) = 2 ^ 8 := by norm_num
    rw [h2] at ha hb ⊢
    exact Nat.xor_lt_two_pow ha hb
  refine Nat.eq_of_testBit_eq (fun i => ?_)
  rw [Nat.testBit_xor, testBit_byte_split _ _ _ ha, testBit_byte_split _ _ _ hb,
    testBit_byte_split _ _ _ hab]
  by_cases h : i < 8
  · simp [h, Nat.testBit_xor]
  · simp [h, Nat.testBit_xor]

theorem fromLanes_land (ds es : List Nat) (hd : Lanes ds) (he : Lanes es)
    (hl : ds.length = es.length) :
    fromLanes ds &&& fromLanes es = fromLanes (List.zipWith (· &&& ·) ds es) := by
  induction ds generalizing es with
  | nil =>
    cases es with
    | nil => simp [fromLanes]
    | cons e es => simp at hl
  | cons d ds ih =>
    cases es with
    | nil => simp at hl
    | cons e es =>
      have h1 : d < 256 := hd d (by simp)
      have h2 : e < 256 := he e (by simp)
      simp only [fromLanes, List.zipWith_cons_cons]
      rw [land_byte_split _ _ _ _ h1 h2,
        ih es (fun x hx => hd x (by simp [hx])) (fun x hx => he x (by simp [hx]))
          (by simpa using hl)]

theorem fromLanes_lor (ds es : List Nat) (hd : Lanes ds) (he : Lanes es)
    (hl : ds.length = es.length) :
    fromLanes ds ||| fromLanes es = fromLanes (List.zipWith (· ||| ·) ds es) := by
  induction ds generalizing es with
  | nil =>
    cases es with
    | nil => simp [fromLanes]
    | cons e es => simp at hl
  | cons d ds ih =>
    cases es with
    | nil => simp at hl
    | cons e es =>
      have h1 : d < 256 := hd d (by simp)
      have h2 : e < 256 := he e (by simp)
      simp only [fromLanes, List.zipWith_cons_cons]
      rw [lor_byte_split _ _ _ _ h1 h2,
        ih es (fun x hx => hd x (by simp [hx])) (fun x hx => he x (by simp [hx]))
          (by simpa using hl)]

theorem fromLanes_xor (ds es : List Nat) (hd : Lanes ds) (he : Lanes es)
    (hl : ds.length = es.length) :
    fromLanes ds ^^^ fromLanes es = fromLanes (List.zipWith (· ^^^ ·) ds es) := by
  induction ds generalizing es with
  | nil =>
    cases es with
    | nil => simp [fromLanes]
    | cons e es => simp at hl
  | cons d ds ih =>
    cases es with
    | nil => simp at hl
    | cons e es =>
      have h1 : d < 256 := hd d (by simp)
      have h2 : e < 256 := he e (by simp)
      simp only [fromLanes, List.zipWith_cons_cons]
      rw [xor_byte_split _ _ _ _ h1 h2,
        ih es (fun x hx => hd x (by simp [hx])) (fun x hx => he x (by simp [hx]))
          (by simpa using hl)]

theorem fromLanes_add (ds es : List Nat) (hl : ds.length = es.length) :
    fromLanes ds + fromLanes es = fromLanes (List.zipWith (· + ·) ds es) := by
  induction ds generalizing es with
  | nil =>
    cases es with
    | nil => simp [fromLanes]
    | cons e es => simp at hl
  | cons d ds ih =>
    cases es with
    | nil => simp at hl
    | cons e es =>
      simp only [fromLanes, List.zipWith_cons_cons]
      rw [← ih es (by simpa using hl)]
      ring

theorem fromLanes_sub (ds es : List Nat) (hl : ds.length = es.length)
    (h : ∀ i, i < ds.length → es.getD i 0 ≤ ds.getD i 0) :
    fromLanes ds - fromLanes es = fromLanes (List.zipWith (· - ·) ds es) := by
  induction ds generalizing es with
  | nil =>
    cases es with
    | nil => simp [fromLanes]
    | cons e es => simp at hl
  | cons d ds ih =>
    cases es with
    | nil => simp at hl
    | cons e es =>
      have h0 : e ≤ d := h 0 (by simp)
      have hle : fromLanes es ≤ fromLanes ds := by
        refine fromLanes_le_of_le es ds (by simpa using hl.symm) ?_
        intro i hi
        have hlen : i < ds.length := by
          have := hl
          simp only [List.length_cons] at this
          omega
        have := h (i + 1) (by simpa using Nat.succ_lt_succ hlen)
        simpa using this
      simp only [fromLanes, List.zipWith_cons_cons]
      rw [← ih es (by simpa using hl) (fun i hi => by
        have := h (i + 1) (by simpa using Nat.succ_lt_succ hi)
        simpa using this)]
      omega

theorem zipWith_rep_right (f : Nat → Nat → Nat) (ds : List Nat) (c : Nat) :
    List.zipWith f ds (List.replicate ds.length c) = ds.map (fun d => f d c) := by
  induction ds with
  | nil => rfl
  | cons d ds ih => simp [List.replicate_succ, ih]

theorem zipWith_map_same (f g : Nat → Nat) (h : Nat → Nat → Nat) (ds : List Nat) :
    List.zipWith h (ds.map f) (ds.map g) = ds.map (fun d => h (f d) (g d)) := by
  induction ds with
  | nil => rfl
  | cons d ds ih => simp [ih]

theorem zipWith_map_right_same (f : Nat → Nat) (h : Nat → Nat → Nat) (ds : List Nat) :
    List.zipWith h ds (ds.map f) = ds.map (fun d => h d (f d)) := by
  induction ds with
  | nil => rfl
  | cons d ds ih => simp [ih]

theorem zipWith_map_left_same (f : Nat → Nat) (h : Nat → Nat → Nat) (ds : List Nat) :
    List.zipWith h (ds.map f) ds = ds.map (fun d => h (f d) d) := by
  induction ds with
  | nil => rfl
  | cons d ds ih => simp [ih]

theorem splat_lanes (n len : Nat) (hlen : len = 8) :
    splat n = fromLanes (List.replicate len n) := by
  subst hlen
  show ONES * n = fromLanes (List.replicate 8 n)
  simp only [List.replicate, fromLanes, ONES]
  ring

theorem wnot_onesHigh : wnot ONES_HIGH = fromLanes (List.replicate 8 127) := by decide

theorem onesHigh_lanes : ONES_HIGH = fromLanes (List.replicate 8 128) := by decide

theorem wordMask_lanes : WORD - 1 = fromLanes (List.replicate 8 255) := by decide

theorem fromLanes_shiftRight8 (d : Nat) (ds : List Nat) (hd : d < 256) :
    fromLanes (d :: ds) >>> 8 = fromLanes ds := by
  show (d + 256 * fromLanes ds) >>> 8 = fromLanes ds
  rw [Nat.shiftRight_eq_div_pow]
  have h256 : (256 : Nat) * fromLanes ds = 2 ^ 8 * fromLanes ds := by norm_num
  rw [h256, Nat.add_mul_div_left _ _ (by norm_num : (0:Nat) < 2 ^ 8),
    Nat.div_eq_of_lt (by norm_num at hd ⊢; omega), Nat.zero_add]

theorem fromLanes_shiftBackLex (ds : List Nat) (h : Lanes ds) (n : Nat) :
    shiftBackLex (fromLanes ds) n = fromLanes (ds.drop n) := by
  induction n generalizing ds with
  | zero => simp [shiftBackLex]
  | succ n ih =>
    show fromLanes ds >>> ((n + 1) * 8) = fromLanes (ds.drop (n + 1))
    have hs : (n + 1) * 8 = 8 + n * 8 := by ring
    rw [hs, Nat.shiftRight_add]
    cases ds with
    | nil => simp [fromLanes]
    | cons d ds =>
      rw [fromLanes_shiftRight8 d ds (h d (by simp))]
      have := ih ds (fun x hx => h x (by simp [hx]))
      simpa [shiftBackLex] using this

theorem dvd128_of_lanes_high (ds : List Nat) (h : ∀ d ∈ ds, d = 0 ∨ d = 128) :
    128 ∣ fromLanes ds := by
  induction ds with
  | nil => simp [fromLanes]
  | cons d ds ih =>
    have hd : d = 0 ∨ d = 128 := h d (by simp)
    have ht := ih (fun x hx => h x (by simp [hx]))
    show (128 : Nat) ∣ d + 256 * fromLanes ds
    rcases ht with ⟨k, hk⟩
    rcases hd with rfl | rfl
    · exact ⟨256 * k, by omega⟩
    · exact ⟨1 + 256 * k, by omega⟩

theorem shiftRight7_lanes (ds : List Nat) (h : ∀ d ∈ ds, d = 0 ∨ d = 128) :
    fromLanes ds >>> 7 = fromLanes (ds.map (fun d => d >>> 7)) := by
  induction ds with
  | nil => simp [fromLanes]
  | cons d ds ih =>
    have hd : d = 0 ∨ d = 128 := h d (by simp)
    have hdvd : 128 ∣ fromLanes ds := dvd128_of_lanes_high ds (fun x hx => h x (by simp [hx]))
    have ht := ih (fun x hx => h x (by simp [hx]))
    show (d + 256 * fromLanes ds) >>> 7 = fromLanes ((d >>> 7) :: ds.map (fun d => d >>> 7))
    rw [Nat.shiftRight_eq_div_pow]
    have hsplit : (256 : Nat) * fromLanes ds = 2 ^ 7 * (2 * fromLanes ds) := by ring
    rw [hsplit, Nat.add_mul_div_left _ _ (by norm_num : (0:Nat) < 2 ^ 7)]
    show d / 2 ^ 7 + 2 * fromLanes ds = fromLanes ((d >>> 7) :: ds.map (fun d => d >>> 7))
    have hfl : fromLanes ((d >>> 7) :: ds.map (fun d => d >>> 7))
        = d >>> 7 + 256 * (fromLanes ds >>> 7) := by
      rw [fromLanes, ht]
    rw [hfl, Nat.shiftRight_eq_div_pow d 7, Nat.shiftRight_eq_div_pow (fromLanes ds) 7]
    rcases hdvd with ⟨k, hk⟩
    rw [hk]
    have : (128 : Nat) * k / 2 ^ 7 = k := by
      norm_num
    rw [this]
    ring

theorem halfByteLane_fact :
    ∀ d < 256, ∀ e < 2, (d / 2 + 128 * e) &&& 127 = d >>> 1 := by decide

theorem shr1_mask_lanes (ds : List Nat) (h : Lanes ds) :
    (fromLanes ds >>> 1) &&& fromLanes (List.replicate ds.length 127)
      = fromLanes (ds.map (fun d => d >>> 1)) := by
  induction ds with
  | nil => simp [fromLanes]
  | cons d ds ih =>
    have hd : d < 256 := h d (by simp)
    have hds : Lanes ds := fun x hx => h x (by simp [hx])
    have hshift : fromLanes (d :: ds) >>> 1
        = (d / 2 + 128 * (fromLanes ds % 2)) + 256 * (fromLanes ds / 2) := by
      show (d + 256 * fromLanes ds) >>> 1 = _
      rw [Nat.shiftRight_eq_div_pow]
      have hsplit : (256 : Nat) * fromLanes ds = 2 * (128 * fromLanes ds) := by ring
      rw [hsplit, pow_one, Nat.add_mul_div_left _ _ (by norm_num : (0:Nat) < 2)]
      have hmod := Nat.div_add_mod (fromLanes ds) 2
      omega
    rw [hshift]
    have hlane : d / 2 + 128 * (fromLanes ds % 2) < 256 := by
      have := Nat.mod_lt (fromLanes ds) (by norm_num : (0:Nat) < 2)
      omega
    have hrep : fromLanes (List.replicate (d :: ds).length 127)
        = 127 + 256 * fromLanes (List.replicate ds.length 127) := by
      simp [List.replicate_succ, fromLanes]
    rw [hrep, land_byte_split _ _ _ _ hlane (by norm_num)]
    have hfact := halfByteLane_fact d hd (fromLanes ds % 2)
      (Nat.mod_lt _ (by norm_num : (0:Nat) < 2))
    rw [hfact]
    have hdiv : fromLanes ds / 2 = fromLanes ds >>> 1 := by
      rw [Nat.shiftRight_eq_div_pow, pow_one]
    rw [hdiv, ih hds]
    simp [fromLanes]

theorem wadd_eq (x y : Nat) (h : x + y < WORD) : wadd x y = x + y := by
  simpa [wadd] using Nat.mod_eq_of_lt h

theorem wsub_eq (x y : Nat) (hyx : y ≤ x) (hx : x < WORD) : wsub x y = x - y := by
  have hy : y < WORD := lt_of_le_of_lt hyx hx
  show (x + (WORD - y % WORD)) % WORD = x - y
  rw [Nat.mod_eq_of_lt hy]
  have hstep : x + (WORD - y) = (x - y) + WORD := by omega
  rw [hstep, Nat.add_mod_right, Nat.mod_eq_of_lt (by omega)]

theorem fromLanes8_lt_word (ds : List Nat) (h : Lanes ds) (hl : ds.length = 8) :
    fromLanes ds < WORD := by
  have := fromLanes_lt ds h
  rw [hl] at this
  simpa [WORD] using this

set_option maxHeartbeats 1600000 in
theorem sumBytes_lanes (d0 d1 d2 d3 d4 d5 d6 d7 : Nat)
    (h : d0 + d1 + d2 + d3 + d4 + d5 + d6 + d7 < 256) :
    sumBytes (fromLanes [d0, d1, d2, d3, d4, d5, d6, d7])
      = d0 + d1 + d2 + d3 + d4 + d5 + d6 + d7 := by
  have key : fromLanes [d0, d1, d2, d3, d4, d5, d6, d7] * ONES
      = fromLanes [d0, d0 + d1, d0 + d1 + d2, d0 + d1 + d2 + d3, d0 + d1 + d2 + d3 + d4,
          d0 + d1 + d2 + d3 + d4 + d5, d0 + d1 + d2 + d3 + d4 + d5 + d6,
          d0 + d1 + d2 + d3 + d4 + d5 + d6 + d7]
        + WORD * fromLanes [d1 + d2 + d3 + d4 + d5 + d6 + d7, d2 + d3 + d4 + d5 + d6 + d7,
            d3 + d4 + d5 + d6 + d7, d4 + d5 + d6 + d7, d5 + d6 + d7, d6 + d7, d7] := by
    simp only [fromLanes, ONES, WORD]
    ring
  have hsums : Lanes [d0, d0 + d1, d0 + d1 + d2, d0 + d1 + d2 + d3, d0 + d1 + d2 + d3 + d4,
      d0 + d1 + d2 + d3 + d4 + d5, d0 + d1 + d2 + d3 + d4 + d5 + d6,
      d0 + d1 + d2 + d3 + d4 + d5 + d6 + d7] := by
    intro x hx
    simp only [List.mem_cons, List.not_mem_nil, or_false] at hx
    omega
  show (fromLanes [d0, d1, d2, d3, d4, d5, d6, d7] * ONES % WORD) >>> ((SIZE - 1) * 8) = _
  rw [key, Nat.add_mul_mod_self_left,
    Nat.mod_eq_of_lt (fromLanes8_lt_word _ hsums (by rfl))]
  have hshift : ∀ w : Nat, w >>> ((SIZE - 1) * 8) = shiftBackLex w 7 := by
    intro w
    show w >>> ((SIZE - 1) * 8) = w >>> (7 * 8)
    norm_num [SIZE]
  rw [hshift, fromLanes_shiftBackLex _ hsums 7]
  simp [fromLanes]

theorem lanes_map (ds : List Nat) (f : Nat → Nat) (hds : Lanes ds)
    (hf : ∀ d, d < 256 → f d < 256) : Lanes (ds.map f) := by
  intro x hx
  rcases List.mem_map.mp hx with ⟨d, hd, rfl⟩
  exact hf d (hds d hd)

theorem lanes_replicate (n c : Nat) (hc : c < 256) : Lanes (List.replicate n c) := by
  intro x hx
  rw [List.eq_of_mem_replicate hx]
  exact hc

theorem zipWith_rep_left (f : Nat → Nat → Nat) (ds : List Nat) (c : Nat) :
    List.zipWith f (List.replicate ds.length c) ds = ds.map (fun d => f c d) := by
  induction ds with
  | nil => rfl
  | cons d ds ih => simp [List.replicate_succ, ih]

theorem xor_byte_lt (d b : Nat) (hd : d < 256) (hb : b < 256) : d ^^^ b < 256 := by
  have h2 : (256:Nat) = 2 ^ 8 := by norm_num
  rw [h2] at hd hb ⊢
  exact Nat.xor_lt_two_pow hd hb

theorem land_byte_lt (d b : Nat) (hb : b < 256) : d &&& b < 256 := by
  have h2 : (256:Nat) = 2 ^ 8 := by norm_num
  rw [h2] at hb ⊢
  exact Nat.and_lt_two_pow d hb

theorem byteZeroDetect_fact :
    ∀ x < 256, ((((((x &&& 127) + 127) ||| x) ^^^ 255) &&& 128) >>> 7)
      = (if x = 0 then 1 else 0) := by decide

theorem byteHigh_fact : ∀ x < 256, x &&& 128 = 0 ∨ x &&& 128 = 128 := by decide

theorem cmpEqByte_lanes (ds : List Nat) (b : Nat) (hds : Lanes ds) (h8 : ds.length = 8)
    (hb : b < 256) :
    cmpEqByte (fromLanes ds) b = fromLanes (ds.map fun d => if d = b then 1 else 0) := by
  have hxorf : ∀ d, d < 256 → d ^^^ b < 256 := fun d hd => xor_byte_lt d b hd hb
  have e1 : fromLanes ds ^^^ splat b = fromLanes (ds.map fun d => d ^^^ b) := by
    rw [splat_lanes b 8 rfl, ← h8,
      fromLanes_xor ds _ hds (lanes_replicate _ b hb) (by simp),
      zipWith_rep_right]
  have hW1 : Lanes (ds.map fun d => d ^^^ b) := lanes_map ds _ hds hxorf
  have e2 : fromLanes (ds.map fun d => d ^^^ b) &&& wnot ONES_HIGH
      = fromLanes (ds.map fun d => (d ^^^ b) &&& 127) := by
    rw [wnot_onesHigh,
      show List.replicate 8 127 = List.replicate (ds.map fun d => d ^^^ b).length 127 by
        simp [h8],
      fromLanes_land _ _ hW1 (lanes_replicate _ 127 (by norm_num)) (by simp),
      zipWith_rep_right, List.map_map]
    rfl
  have hW2 : Lanes (ds.map fun d => (d ^^^ b) &&& 127) :=
    lanes_map ds _ hds (fun d hd => land_byte_lt _ _ (by norm_num))
  have e3 : fromLanes (ds.map fun d => (d ^^^ b) &&& 127) + wnot ONES_HIGH
      = fromLanes (ds.map fun d => ((d ^^^ b) &&& 127) + 127) := by
    rw [wnot_onesHigh,
      show List.replicate 8 127 = List.replicate (ds.map fun d => (d ^^^ b) &&& 127).length 127
        by simp [h8],
      fromLanes_add _ _ (by simp), zipWith_rep_right, List.map_map]
    rfl
  have e4 : fromLanes (ds.map fun d => ((d ^^^ b) &&& 127) + 127)
        ||| fromLanes (ds.map fun d => d ^^^ b)
      = fromLanes (ds.map fun d => (((d ^^^ b) &&& 127) + 127) ||| (d ^^^ b)) := by
    have hW3 : Lanes (ds.map fun d => ((d ^^^ b) &&& 127) + 127) := by
      refine lanes_map ds _ hds (fun d hd => ?_)
      have : (d ^^^ b) &&& 127 < 128 := Nat.and_lt_two_pow _ (by norm_num : (127:Nat) < 2 ^ 7)
      omega
    rw [fromLanes_lor _ _ hW3 hW1 (by simp), zipWith_map_same]
  have e5 : wnot (fromLanes (ds.map fun d => (((d ^^^ b) &&& 127) + 127) ||| (d ^^^ b)))
      = fromLanes (ds.map fun d => ((((d ^^^ b) &&& 127) + 127) ||| (d ^^^ b)) ^^^ 255) := by
    have hW4 : Lanes (ds.map fun d => (((d ^^^ b) &&& 127) + 127) ||| (d ^^^ b)) := by
      refine lanes_map ds _ hds (fun d hd => ?_)
      have h1 : (d ^^^ b) &&& 127 < 128 := Nat.and_lt_two_pow _ (by norm_num : (127:Nat) < 2 ^ 7)
      have h2 : ((d ^^^ b) &&& 127) + 127 < 256 := by omega
      have h3 : d ^^^ b < 256 := hxorf d hd
      have h256 : (256:Nat) = 2 ^ 8 := by norm_num
      rw [h256] at h2 h3 ⊢
      exact Nat.or_lt_two_pow h2 h3
    show fromLanes _ ^^^ (WORD - 1) = _
    rw [wordMask_lanes,
      show List.replicate 8 255
          = List.replicate (ds.map fun d => (((d ^^^ b) &&& 127) + 127) ||| (d ^^^ b)).length 255
        by simp [h8],
      fromLanes_xor _ _ hW4 (lanes_replicate _ 255 (by norm_num)) (by simp),
      zipWith_rep_right, List.map_map]
    rfl
  have hW5 : Lanes (ds.map fun d => ((((d ^^^ b) &&& 127) + 127) ||| (d ^^^ b)) ^^^ 255) := by
    refine lanes_map ds _ hds (fun d hd => ?_)
    exact xor_byte_lt _ _ (by
      have h1 : (d ^^^ b) &&& 127 < 128 := Nat.and_lt_two_pow _ (by norm_num : (127:Nat) < 2 ^ 7)
      have h2 : ((d ^^^ b) &&& 127) + 127 < 256 := by omega
      have h3 : d ^^^ b < 256 := hxorf d hd
      have h256 : (256:Nat) = 2 ^ 8 := by norm_num
      rw [h256] at h2 h3 ⊢
      exact Nat.or_lt_two_pow h2 h3) (by norm_num)
  have e6 : fromLanes (ds.map fun d => ((((d ^^^ b) &&& 127) + 127) ||| (d ^^^ b)) ^^^ 255)
        &&& ONES_HIGH
      = fromLanes (ds.map fun d =>
          (((((d ^^^ b) &&& 127) + 127) ||| (d ^^^ b)) ^^^ 255) &&& 128) := by
    rw [onesHigh_lanes,
      show List.replicate 8 128 = List.replicate
          (ds.map fun d => ((((d ^^^ b) &&& 127) + 127) ||| (d ^^^ b)) ^^^ 255).length 128
        by simp [h8],
      fromLanes_land _ _ hW5 (lanes_replicate _ 128 (by norm_num)) (by simp),
      zipWith_rep_right, List.map_map]
    rfl
  have e7 : fromLanes (ds.map fun d =>
        (((((d ^^^ b) &&& 127) + 127) ||| (d ^^^ b)) ^^^ 255) &&& 128) >>> 7
      = fromLanes (ds.map fun d =>
          ((((((d ^^^ b) &&& 127) + 127) ||| (d ^^^ b)) ^^^ 255) &&& 128) >>> 7) := by
    rw [shiftRight7_lanes _ (by
      intro x hx
      rcases List.mem_map.mp hx with ⟨d, hd, rfl⟩
      exact byteHigh_fact _ (hW5 _ (List.mem_map_of_mem _ hd))), List.map_map]
    rfl
  have e8 : (ds.map fun d =>
        ((((((d ^^^ b) &&& 127) + 127) ||| (d ^^^ b)) ^^^ 255) &&& 128) >>> 7)
      = ds.map fun d => if d = b then 1 else 0 := by
    refine List.map_congr_left (fun d hd => ?_)
    have hx := byteZeroDetect_fact (d ^^^ b) (hxorf d (hds d hd))
    rw [hx]
    by_cases hdb : d = b
    · simp [hdb]
    · have : d ^^^ b ≠ 0 := fun hc => hdb (Nat.xor_eq_zero.mp hc)
      simp [hdb, this]
  show (wnot ((((fromLanes ds ^^^ splat b) &&& wnot ONES_HIGH) + wnot ONES_HIGH)
      ||| (fromLanes ds ^^^ splat b)) &&& ONES_HIGH) >>> 7 = _
  rw [e1, e2, e3, e4, e5, e6, e7, e8]

theorem betweenByte_fact :
    ∀ d < 256, ((((141 - (d &&& 127)) &&& (d ^^^ 255)) &&& ((d &&& 127) + 118)) &&& 128) >>> 7
      = (if 9 < d ∧ d < 14 then 1 else 0) := by decide

theorem bytesBetween127_lanes (ds : List Nat) (hds : Lanes ds) (h8 : ds.length = 8) :
    bytesBetween127 (fromLanes ds) 9 14
      = fromLanes (ds.map fun d => if 9 < d ∧ d < 14 then 1 else 0) := by
  have e1 : fromLanes ds &&& splat 127 = fromLanes (ds.map fun d => d &&& 127) := by
    rw [splat_lanes 127 8 rfl, ← h8,
      fromLanes_land ds _ hds (lanes_replicate _ 127 (by norm_num)) (by simp),
      zipWith_rep_right]
  have hW1 : Lanes (ds.map fun d => d &&& 127) :=
    lanes_map ds _ hds (fun d hd => land_byte_lt _ _ (by norm_num))
  have e2 : splat (127 + 14) - fromLanes (ds.map fun d => d &&& 127)
      = fromLanes (ds.map fun d => 141 - (d &&& 127)) := by
    have hptw : ∀ i, i < (List.replicate (ds.map fun d => d &&& 127).length 141).length →
        (ds.map fun d => d &&& 127).getD i 0
          ≤ (List.replicate (ds.map fun d => d &&& 127).length 141).getD i 0 := by
      intro i hi
      have hlen : i < ds.length := by simpa using hi
      rw [List.getD_eq_getElem _ _ (by simpa using hlen),
        List.getD_eq_getElem _ _ (by simpa using hlen)]
      simp only [List.getElem_map, List.getElem_replicate]
      have : ds[i] &&& 127 < 128 := Nat.and_lt_two_pow _ (by norm_num : (127:Nat) < 2 ^ 7)
      omega
    rw [splat_lanes (127 + 14) 8 rfl,
      show List.replicate 8 (127 + 14)
          = List.replicate (ds.map fun d => d &&& 127).length 141 by simp [h8],
      fromLanes_sub _ _ (by simp) hptw, zipWith_rep_left, List.map_map]
    rfl
  have e3 : wnot (fromLanes ds) = fromLanes (ds.map fun d => d ^^^ 255) := by
    show fromLanes ds ^^^ (WORD - 1) = _
    rw [wordMask_lanes,
      show List.replicate 8 255 = List.replicate ds.length 255 by simp [h8],
      fromLanes_xor ds _ hds (lanes_replicate _ 255 (by norm_num)) (by simp),
      zipWith_rep_right]
  have e4 : fromLanes (ds.map fun d => 141 - (d &&& 127))
        &&& fromLanes (ds.map fun d => d ^^^ 255)
      = fromLanes (ds.map fun d => (141 - (d &&& 127)) &&& (d ^^^ 255)) := by
    have hA : Lanes (ds.map fun d => 141 - (d &&& 127)) :=
      lanes_map ds _ hds (fun d hd => by omega)
    have hB : Lanes (ds.map fun d => d ^^^ 255) :=
      lanes_map ds _ hds (fun d hd => xor_byte_lt d 255 hd (by norm_num))
    rw [fromLanes_land _ _ hA hB (by simp), zipWith_map_same]
  have e5 : fromLanes (ds.map fun d => d &&& 127) + splat (127 - 9)
      = fromLanes (ds.map fun d => (d &&& 127) + 118) := by
    rw [splat_lanes (127 - 9) 8 rfl,
      show List.replicate 8 (127 - 9)
          = List.replicate (ds.map fun d => d &&& 127).length 118 by simp [h8],
      fromLanes_add _ _ (by simp), zipWith_rep_right, List.map_map]
    rfl
  have e6 : fromLanes (ds.map fun d => (141 - (d &&& 127)) &&& (d ^^^ 255))
        &&& fromLanes (ds.map fun d => (d &&& 127) + 118)
      = fromLanes (ds.map fun d => ((141 - (d &&& 127)) &&& (d ^^^ 255)) &&& ((d &&& 127) + 118)) := by
    have hA : Lanes (ds.map fun d => (141 - (d &&& 127)) &&& (d ^^^ 255)) :=
      lanes_map ds _ hds (fun d hd => by
        have : 141 - (d &&& 127) < 256 := by omega
        have h2 : (256:Nat) = 2 ^ 8 := by norm_num
        rw [h2] at this ⊢
        exact Nat.lt_of_le_of_lt (Nat.and_le_left) this)
    have hB : Lanes (ds.map fun d => (d &&& 127) + 118) :=
      lanes_map ds _ hds (fun d hd => by
        have : d &&& 127 < 128 := Nat.and_lt_two_pow _ (by norm_num : (127:Nat) < 2 ^ 7)
        omega)
    rw [fromLanes_land _ _ hA hB (by simp), zipWith_map_same]
  have hW6 : Lanes (ds.map fun d => ((141 - (d &&& 127)) &&& (d ^^^ 255)) &&& ((d &&& 127) + 118)) :=
    lanes_map ds _ hds (fun d hd => by
      have : d &&& 127 < 128 := Nat.and_lt_two_pow _ (by norm_num : (127:Nat) < 2 ^ 7)
      have h2 : (256:Nat) = 2 ^ 8 := by norm_num
      rw [h2]
      refine Nat.lt_of_le_of_lt (Nat.and_le_right) (by omega))
  have e7 : fromLanes (ds.map fun d => ((141 - (d &&& 127)) &&& (d ^^^ 255)) &&& ((d &&& 127) + 118))
        &&& ONES_HIGH
      = fromLanes (ds.map fun d =>
          (((141 - (d &&& 127)) &&& (d ^^^ 255)) &&& ((d &&& 127) + 118)) &&& 128) := by
    rw [onesHigh_lanes,
      show List.replicate 8 128 = List.replicate
          (ds.map fun d => ((141 - (d &&& 127)) &&& (d ^^^ 255)) &&& ((d &&& 127) + 118)).length 128
        by simp [h8],
      fromLanes_land _ _ hW6 (lanes_replicate _ 128 (by norm_num)) (by simp),
      zipWith_rep_right, List.map_map]
    rfl
  have e8 : fromLanes (ds.map fun d =>
        (((141 - (d &&& 127)) &&& (d ^^^ 255)) &&& ((d &&& 127) + 118)) &&& 128) >>> 7
      = fromLanes (ds.map fun d => if 9 < d ∧ d < 14 then 1 else 0) := by
    rw [shiftRight7_lanes _ (by
      intro x hx
      rcases List.mem_map.mp hx with ⟨d, hd, rfl⟩
      refine byteHigh_fact _ ?_
      have hd127 : d &&& 127 < 128 := Nat.and_lt_two_pow _ (by norm_num : (127:Nat) < 2 ^ 7)
      have hY : ((141 - (d &&& 127)) &&& (d ^^^ 255)) &&& ((d &&& 127) + 118)
          ≤ (d &&& 127) + 118 := Nat.and_le_right
      omega), List.map_map]
    congr 1
    refine List.map_congr_left (fun d hd => ?_)
    exact betweenByte_fact d (hds d hd)
  show ((((splat (127 + 14) - (fromLanes ds &&& splat 127)) &&& wnot (fromLanes ds))
      &&& ((fromLanes ds &&& splat 127) + splat (127 - 9))) &&& ONES_HIGH) >>> 7 = _
  rw [e1, e2, e3, e4, e5, e6, e7, e8]

theorem incNth0_lanes (d0 d1 d2 d3 d4 d5 d6 d7 : Nat)
    (hall : Lanes [d0, d1, d2, d3, d4, d5, d6, d7]) (h7 : d7 + 1 < 256) :
    incNthFromEndLexByte (fromLanes [d0, d1, d2, d3, d4, d5, d6, d7]) 0
      = fromLanes [d0, d1, d2, d3, d4, d5, d6, d7 + 1] := by
  have hlt : fromLanes [d0, d1, d2, d3, d4, d5, d6, d7 + 1] < WORD :=
    fromLanes8_lt_word _ (by
      intro x hx
      simp only [List.mem_cons, List.not_mem_nil, or_false] at hx
      have h0 := hall d0 (by simp)
      have h1 := hall d1 (by simp)
      have h2 := hall d2 (by simp)
      have h3 := hall d3 (by simp)
      have h4 := hall d4 (by simp)
      have h5 := hall d5 (by simp)
      have h6 := hall d6 (by simp)
      omega) (by rfl)
  have hval : fromLanes [d0, d1, d2, d3, d4, d5, d6, d7] + 1 <<< ((SIZE - 1 - 0) * 8)
      = fromLanes [d0, d1, d2, d3, d4, d5, d6, d7 + 1] := by
    rw [Nat.shiftLeft_eq]
    simp only [fromLanes, SIZE]
    norm_num
    ring
  show wadd (fromLanes [d0, d1, d2, d3, d4, d5, d6, d7]) (1 <<< ((SIZE - 1 - 0) * 8)) = _
  rw [wadd, hval, Nat.mod_eq_of_lt hlt]

theorem incNth1_lanes (d0 d1 d2 d3 d4 d5 d6 d7 : Nat)
    (hall : Lanes [d0, d1, d2, d3, d4, d5, d6, d7]) (h6 : d6 + 1 < 256) :
    incNthFromEndLexByte (fromLanes [d0, d1, d2, d3, d4, d5, d6, d7]) 1
      = fromLanes [d0, d1, d2, d3, d4, d5, d6 + 1, d7] := by
  have hlt : fromLanes [d0, d1, d2, d3, d4, d5, d6 + 1, d7] < WORD :=
    fromLanes8_lt_word _ (by
      intro x hx
      simp only [List.mem_cons, List.not_mem_nil, or_false] at hx
      have h0 := hall d0 (by simp)
      have h1 := hall d1 (by simp)
      have h2 := hall d2 (by simp)
      have h3 := hall d3 (by simp)
      have h4 := hall d4 (by simp)
      have h5 := hall d5 (by simp)
      have h7 := hall d7 (by simp)
      omega) (by rfl)
  have hval : fromLanes [d0, d1, d2, d3, d4, d5, d6, d7] + 1 <<< ((SIZE - 1 - 1) * 8)
      = fromLanes [d0, d1, d2, d3, d4, d5, d6 + 1, d7] := by
    rw [Nat.shiftLeft_eq]
    simp only [fromLanes, SIZE]
    norm_num
    ring
  show wadd (fromLanes [d0, d1, d2, d3, d4, d5, d6, d7]) (1 <<< ((SIZE - 1 - 1) * 8)) = _
  rw [wadd, hval, Nat.mod_eq_of_lt hlt]

theorem decLast_lanes (d0 d1 d2 d3 d4 d5 d6 d7 : Nat)
    (hall : Lanes [d0, d1, d2, d3, d4, d5, d6, d7]) (h7 : 1 ≤ d7) :
    decLastLexByte (fromLanes [d0, d1, d2, d3, d4, d5, d6, d7])
      = fromLanes [d0, d1, d2, d3, d4, d5, d6, d7 - 1] := by
  have hle : 1 <<< ((SIZE - 1) * 8) ≤ fromLanes [d0, d1, d2, d3, d4, d5, d6, d7] := by
    rw [Nat.shiftLeft_eq]
    simp only [fromLanes, SIZE]
    norm_num
    omega
  have hlt : fromLanes [d0, d1, d2, d3, d4, d5, d6, d7] < WORD :=
    fromLanes8_lt_word _ hall (by rfl)
  show wsub (fromLanes [d0, d1, d2, d3, d4, d5, d6, d7]) (1 <<< ((SIZE - 1) * 8)) = _
  rw [wsub_eq _ _ hle hlt, Nat.shiftLeft_eq]
  simp only [fromLanes, SIZE]
  norm_num
  omega

/-! ## Per-chunk flag-word lemmas -/

theorem byteList_take (l : List Nat) (n : Nat) (h : ByteList l) : ByteList (l.take n) :=
  fun b hb => h b (List.mem_of_mem_take hb)

theorem byteList_drop (l : List Nat) (n : Nat) (h : ByteList l) : ByteList (l.drop n) :=
  fun b hb => h b (List.mem_of_mem_drop hb)

theorem length_take8 (l : List Nat) (h : 8 ≤ l.length) : (l.take 8).length = 8 := by
  simp [List.length_take]
  omega

theorem length8_destruct (es : List Nat) (h : es.length = 8) :
    ∃ e0 e1 e2 e3 e4 e5 e6 e7, es = [e0, e1, e2, e3, e4, e5, e6, e7] := by
  cases es with
  | nil => simp at h
  | cons e0 es =>
  cases es with
  | nil => simp at h
  | cons e1 es =>
  cases es with
  | nil => simp at h
  | cons e2 es =>
  cases es with
  | nil => simp at h
  | cons e3 es =>
  cases es with
  | nil => simp at h
  | cons e4 es =>
  cases es with
  | nil => simp at h
  | cons e5 es =>
  cases es with
  | nil => simp at h
  | cons e6 es =>
  cases es with
  | nil => simp at h
  | cons e7 es =>
  cases es with
  | nil => exact ⟨e0, e1, e2, e3, e4, e5, e6, e7, rfl⟩
  | cons e8 es => simp only [List.length_cons] at h; omega

theorem sumBytes_fromLanes_small (es : List Nat) (h8 : es.length = 8) (hs : es.sum < 256) :
    sumBytes (fromLanes es) = es.sum := by
  obtain ⟨e0, e1, e2, e3, e4, e5, e6, e7, rfl⟩ := length8_destruct es h8
  simp only [List.sum_cons, List.sum_nil] at hs ⊢
  rw [sumBytes_lanes e0 e1 e2 e3 e4 e5 e6 e7 (by omega)]
  omega

theorem maskEq_chunk_lanes (ds : List Nat) (m b : Nat) (hds : Lanes ds) (h8 : ds.length = 8)
    (hm : m < 256) (hb : b < 256) :
    cmpEqByte (fromLanes ds &&& splat m) b
      = fromLanes (ds.map fun d => if d &&& m = b then 1 else 0) := by
  have e1 : fromLanes ds &&& splat m = fromLanes (ds.map fun d => d &&& m) := by
    rw [splat_lanes m 8 rfl, ← h8,
      fromLanes_land ds _ hds (lanes_replicate _ m hm) (by simp),
      zipWith_rep_right]
  rw [e1, cmpEqByte_lanes _ b (lanes_map ds _ hds (fun d hd => land_byte_lt d m hm))
    (by simp [h8]) hb, List.map_map]
  rfl

theorem sum_ind_eq_filter_length (p : Nat → Bool) (l : List Nat) :
    (l.map fun b => if p b then 1 else 0).sum = (l.filter p).length := by
  induction l with
  | nil => rfl
  | cons b bs ih =>
    by_cases h : p b <;> simp [List.filter_cons, h, ih] <;> omega

theorem zipWith_add_sum (xs ys : List Nat) (h : xs.length = ys.length) :
    (List.zipWith (· + ·) xs ys).sum = xs.sum + ys.sum := by
  induction xs generalizing ys with
  | nil => cases ys with
    | nil => rfl
    | cons y ys => simp at h
  | cons x xs ih =>
    cases ys with
    | nil => simp at h
    | cons y ys =>
      simp only [List.zipWith_cons_cons, List.sum_cons, ih ys (by simpa using h)]
      ring

/-- Generic accumulator-run lemma: folding an indicator-flag chunk function
over k chunks starting from an accumulator with small lanes produces a word
of lanewise sums. -/
theorem chunkFold_lanes_sum (f : Nat → Nat) (g : Nat → Nat)
    (hf : ∀ ds, Lanes ds → ds.length = 8 → f (fromLanes ds) = fromLanes (ds.map g))
    (hg : ∀ d, d < 256 → g d ≤ 1) :
    ∀ k (m : List Nat) (es : List Nat), ByteList m → m.length = 8 * k → k ≤ 31 →
      es.length = 8 → (∀ e ∈ es, e + k ≤ 31) →
      ∃ es2 : List Nat, es2.length = 8 ∧ (∀ e ∈ es2, e ≤ 31) ∧
        chunkFold f m (fromLanes es) = fromLanes es2 ∧
        es2.sum = es.sum + (m.map g).sum := by
  intro k
  induction k with
  | zero =>
    intro m es hB hlen hk h8 hsmall
    have hm : m = [] := List.eq_nil_of_length_eq_zero (by omega)
    subst hm
    refine ⟨es, h8, fun e he => by have := hsmall e he; omega, ?_, by simp⟩
    rw [chunkFold]
    simp
  | succ k ih =>
    intro m es hB hlen hk h8 hsmall
    have h8m : 8 ≤ m.length := by omega
    have hc : Lanes (m.take 8) := byteList_take m 8 hB
    have hc8 : (m.take 8).length = 8 := length_take8 m h8m
    have hfc : f (fromLanes (m.take 8)) = fromLanes ((m.take 8).map g) := hf _ hc hc8
    have hgles : ∀ e ∈ (m.take 8).map g, e ≤ 1 := by
      intro e he
      rcases List.mem_map.mp he with ⟨d, hd, rfl⟩
      exact hg d (hc d hd)
    have hzlen : ((m.take 8).map g).length = 8 := by rw [List.length_map, hc8]
    have hlt1 : fromLanes es < WORD :=
      fromLanes8_lt_word es (fun e he => by have := hsmall e he; omega) h8
    have hlt2 : fromLanes ((m.take 8).map g) < WORD :=
      fromLanes8_lt_word _ (fun e he => by have := hgles e he; omega) hzlen
    have hadd : wadd (fromLanes es) (f (fromLanes (m.take 8)))
        = fromLanes (List.zipWith (· + ·) es ((m.take 8).map g)) := by
      rw [hfc, wadd_eq _ _ (by
        have b1 := fromLanes_le_of_le es (List.replicate 8 31)
          (by rw [h8, List.length_replicate]) (fun i hi => by
          rw [List.getD_eq_getElem _ _ (by omega),
            List.getD_eq_getElem _ _ (by simp; omega)]
          simp only [List.getElem_replicate]
          have : es[i] ∈ es := List.getElem_mem _
          have := hsmall _ this
          omega)
        have b2 := fromLanes_le_of_le ((m.take 8).map g) (List.replicate 8 1)
          (by rw [List.length_map, hc8, List.length_replicate]) (fun i hi => by
          rw [List.getD_eq_getElem _ _ (by simpa [hzlen] using hi),
            List.getD_eq_getElem _ _ (by simp; simp [hzlen] at hi; omega)]
          simp only [List.getElem_replicate]
          have hmem : ((m.take 8).map g)[i] ∈ (m.take 8).map g := List.getElem_mem _
          have := hgles _ hmem
          omega)
        have : fromLanes (List.replicate 8 31) + fromLanes (List.replicate 8 1) < WORD := by
          decide
        omega), fromLanes_add _ _ (by rw [h8, List.length_map, hc8])]
    have hstep : chunkFold f m (fromLanes es)
        = chunkFold f (m.drop 8) (fromLanes (List.zipWith (· + ·) es ((m.take 8).map g))) := by
      rw [chunkFold, if_pos h8m, hadd]
    have hnext : ∀ e ∈ List.zipWith (· + ·) es ((m.take 8).map g), e + k ≤ 31 := by
      intro e he
      rcases List.mem_iff_getElem.mp he with ⟨i, hi, rfl⟩
      rw [List.getElem_zipWith]
      have hi1 : i < es.length := by
        simp only [List.length_zipWith] at hi
        omega
      have hi2 : i < ((m.take 8).map g).length := by
        simp only [List.length_zipWith] at hi
        omega
      have h1 := hsmall _ (List.getElem_mem hi1)
      have h2 := hgles _ (List.getElem_mem hi2)
      omega
    obtain ⟨es2, hlen2, hb2, heq2, hsum2⟩ := ih (m.drop 8)
      (List.zipWith (· + ·) es ((m.take 8).map g)) (byteList_drop m 8 hB)
      (by simp only [List.length_drop]; omega) (by omega)
      (by rw [List.length_zipWith, List.length_map, hc8, h8]; norm_num) hnext
    refine ⟨es2, hlen2, hb2, by rw [hstep, heq2], ?_⟩
    rw [hsum2, zipWith_add_sum es _ (by rw [h8, List.length_map, hc8])]
    have hms : (m.map g).sum = ((m.take 8).map g).sum + ((m.drop 8).map g).sum := by
      conv_lhs => rw [← List.take_append_drop 8 m]
      rw [List.map_append, List.sum_append]
    omega

/-- A run of at most 31 indicator chunks accumulated from zero and then
horizontally summed yields the number of matching bytes. -/
theorem chunkFold_sumBytes (f : Nat → Nat) (g : Nat → Nat)
    (hf : ∀ ds, Lanes ds → ds.length = 8 → f (fromLanes ds) = fromLanes (ds.map g))
    (hg : ∀ d, d < 256 → g d ≤ 1)
    (k : Nat) (m : List Nat) (hB : ByteList m) (hlen : m.length = 8 * k) (hk : k ≤ 31) :
    sumBytes (chunkFold f m 0) = (m.map g).sum := by
  have h0 : (0 : Nat) = fromLanes (List.replicate 8 0) := by decide
  obtain ⟨es2, hlen2, hb2, heq2, hsum2⟩ := chunkFold_lanes_sum f g hf hg k m
    (List.replicate 8 0) hB hlen hk (by simp) (by
      intro e he
      rw [List.eq_of_mem_replicate he]
      omega)
  rw [h0, heq2, sumBytes_fromLanes_small es2 hlen2 (by
    have : es2.sum ≤ 8 * 31 := by
      calc es2.sum ≤ es2.length * 31 := by
            apply List.sum_le_card_nsmul
            intro x hx
            exact hb2 x hx
      _ = 8 * 31 := by rw [hlen2]
    omega)]
  rw [hsum2]
  simp

theorem fromLanes_le_rep (xs : List Nat) (c : Nat) (hb : ∀ x ∈ xs, x ≤ c) :
    fromLanes xs ≤ fromLanes (List.replicate xs.length c) := by
  induction xs with
  | nil => simp [fromLanes]
  | cons x xs ih =>
    have h1 : x ≤ c := hb x (by simp)
    have h2 := ih (fun y hy => hb y (by simp [hy]))
    simp only [List.length_cons, List.replicate_succ, fromLanes]
    omega

theorem fromLanes_rep_eq (c : Nat) : fromLanes (List.replicate 8 c) = ONES * c :=
  (splat_lanes c 8 rfl).symm

theorem wadd_fromLanes_small (xs ys : List Nat) (hx8 : xs.length = 8) (hy8 : ys.length = 8)
    (bx cy : Nat) (hxb : ∀ x ∈ xs, x ≤ bx) (hyb : ∀ y ∈ ys, y ≤ cy) (hsum : bx + cy ≤ 255) :
    wadd (fromLanes xs) (fromLanes ys) = fromLanes (List.zipWith (· + ·) xs ys) := by
  have h1 : fromLanes xs ≤ ONES * bx := by
    have := fromLanes_le_rep xs bx hxb
    rw [hx8, fromLanes_rep_eq] at this
    exact this
  have h2 : fromLanes ys ≤ ONES * cy := by
    have := fromLanes_le_rep ys cy hyb
    rw [hy8, fromLanes_rep_eq] at this
    exact this
  have h3 : ONES * bx + ONES * cy ≤ ONES * 255 := by
    have : ONES * bx + ONES * cy = ONES * (bx + cy) := by ring
    rw [this]
    exact Nat.mul_le_mul_left ONES hsum
  have h4 : ONES * 255 < WORD := by decide
  rw [wadd_eq _ _ (by omega), fromLanes_add xs ys (by rw [hx8, hy8])]

theorem map_bound_one (g : Nat → Nat) (hg : ∀ d, d < 256 → g d ≤ 1) (c : List Nat)
    (hc : Lanes c) : ∀ x ∈ c.map g, x ≤ 1 := by
  intro x hx
  rcases List.mem_map.mp hx with ⟨d, hd, rfl⟩
  exact hg d (hc d hd)

theorem zipWith_add_bound (xs ys : List Nat) (bx cy : Nat)
    (hxb : ∀ x ∈ xs, x ≤ bx) (hyb : ∀ y ∈ ys, y ≤ cy) :
    ∀ z ∈ List.zipWith (· + ·) xs ys, z ≤ bx + cy := by
  induction xs generalizing ys with
  | nil => simp
  | cons x xs ih =>
    cases ys with
    | nil => simp
    | cons y ys =>
      intro z hz
      rcases List.mem_cons.mp hz with rfl | hz2
      · have h1 := hxb x (by simp)
        have h2 := hyb y (by simp)
        exact Nat.add_le_add h1 h2
      · exact ih ys (fun v hv => hxb v (by simp [hv])) (fun v hv => hyb v (by simp [hv])) z hz2

theorem group4_word_sum (f g : Nat → Nat)
    (hf : ∀ ds, Lanes ds → ds.length = 8 → f (fromLanes ds) = fromLanes (ds.map g))
    (hg : ∀ d, d < 256 → g d ≤ 1)
    (m : List Nat) (hB : ByteList m) (h32 : 32 ≤ m.length) :
    sumBytes (wadd (wadd (f (fromLanes (m.take 8))) (f (fromLanes ((m.drop 8).take 8))))
        (wadd (f (fromLanes ((m.drop 16).take 8))) (f (fromLanes ((m.drop 24).take 8)))))
      = ((m.take 32).map g).sum := by
  have hl := fun (j : Nat) => List.length_drop j m
  have hc1 : Lanes (m.take 8) := byteList_take m 8 hB
  have hc2 : Lanes ((m.drop 8).take 8) := byteList_take _ 8 (byteList_drop m 8 hB)
  have hc3 : Lanes ((m.drop 16).take 8) := byteList_take _ 8 (byteList_drop m 16 hB)
  have hc4 : Lanes ((m.drop 24).take 8) := byteList_take _ 8 (byteList_drop m 24 hB)
  have hn1 : (m.take 8).length = 8 := length_take8 m (by omega)
  have hn2 : ((m.drop 8).take 8).length = 8 := length_take8 _ (by rw [hl 8]; omega)
  have hn3 : ((m.drop 16).take 8).length = 8 := length_take8 _ (by rw [hl 16]; omega)
  have hn4 : ((m.drop 24).take 8).length = 8 := length_take8 _ (by rw [hl 24]; omega)
  rw [hf _ hc1 hn1, hf _ hc2 hn2, hf _ hc3 hn3, hf _ hc4 hn4]
  rw [wadd_fromLanes_small _ _ (by rw [List.length_map, hn1]) (by rw [List.length_map, hn2]) 1 1
      (map_bound_one g hg _ hc1) (map_bound_one g hg _ hc2) (by norm_num),
    wadd_fromLanes_small _ _ (by rw [List.length_map, hn3]) (by rw [List.length_map, hn4]) 1 1
      (map_bound_one g hg _ hc3) (map_bound_one g hg _ hc4) (by norm_num),
    wadd_fromLanes_small _ _
      (by rw [List.length_zipWith, List.length_map, List.length_map, hn1, hn2]; norm_num)
      (by rw [List.length_zipWith, List.length_map, List.length_map, hn3, hn4]; norm_num) 2 2
      (zipWith_add_bound _ _ 1 1 (map_bound_one g hg _ hc1) (map_bound_one g hg _ hc2))
      (zipWith_add_bound _ _ 1 1 (map_bound_one g hg _ hc3) (map_bound_one g hg _ hc4))
      (by norm_num)]
  have hz8 : (List.zipWith (· + ·) (List.zipWith (· + ·) ((m.take 8).map g) (((m.drop 8).take 8).map g))
      (List.zipWith (· + ·) (((m.drop 16).take 8).map g) (((m.drop 24).take 8).map g))).length = 8 := by
    simp only [List.length_zipWith, List.length_map, hn1, hn2, hn3, hn4]
    norm_num
  rw [sumBytes_fromLanes_small _ hz8 (by
    have hb := zipWith_add_bound _ _ 2 2
      (zipWith_add_bound _ _ 1 1 (map_bound_one g hg _ hc1) (map_bound_one g hg _ hc2))
      (zipWith_add_bound _ _ 1 1 (map_bound_one g hg _ hc3) (map_bound_one g hg _ hc4))
    have : (List.zipWith (· + ·) (List.zipWith (· + ·) ((m.take 8).map g) (((m.drop 8).take 8).map g))
        (List.zipWith (· + ·) (((m.drop 16).take 8).map g) (((m.drop 24).take 8).map g))).sum
        ≤ 8 * 4 := by
      calc _ ≤ _ := List.sum_le_card_nsmul _ 4 hb
      _ = 8 * 4 := by rw [hz8, smul_eq_mul]
    omega)]
  rw [zipWith_add_sum _ _
      (by simp only [List.length_zipWith, List.length_map, hn1, hn2, hn3, hn4]),
    zipWith_add_sum _ _ (by rw [List.length_map, List.length_map, hn1, hn2]),
    zipWith_add_sum _ _ (by rw [List.length_map, List.length_map, hn3, hn4])]
  have hdd8 : (m.drop 8).drop 8 = m.drop 16 := by
    rw [List.drop_drop]
  have hdd16 : (m.drop 16).drop 8 = m.drop 24 := by
    rw [List.drop_drop]
  have hsplit : m.take 32 = m.take 8 ++ ((m.drop 8).take 8
      ++ ((m.drop 16).take 8 ++ (m.drop 24).take 8)) := by
    rw [show (32:Nat) = 8 + 24 from rfl, List.take_add]
    congr 1
    rw [show (24:Nat) = 8 + 16 from rfl, List.take_add, hdd8]
    congr 1
    rw [show (16:Nat) = 8 + 8 from rfl, List.take_add, hdd16]
  rw [hsplit]
  simp only [List.map_append, List.sum_append]
  ring

/-- The unrolled-by-four middle loop counts exactly the matching bytes. -/
theorem chunkGroups4_sum (f g : Nat → Nat)
    (hf : ∀ ds, Lanes ds → ds.length = 8 → f (fromLanes ds) = fromLanes (ds.map g))
    (hg : ∀ d, d < 256 → g d ≤ 1) :
    ∀ n, ∀ m : List Nat, m.length ≤ n → ByteList m → 8 ∣ m.length →
      chunkGroups4 f m = (m.map g).sum := by
  intro n
  induction n with
  | zero =>
    intro m hlen hB hdvd
    have hm : m = [] := List.eq_nil_of_length_eq_zero (by omega)
    subst hm
    rw [chunkGroups4]
    norm_num
    rw [chunkFold]
    norm_num [sumBytes]
  | succ n ih =>
    intro m hlen hB hdvd
    by_cases h32 : 32 ≤ m.length
    · rw [chunkGroups4, if_pos h32, group4_word_sum f g hf hg m hB h32,
        ih (m.drop 32) (by simp only [List.length_drop]; omega) (byteList_drop m 32 hB)
          (by rcases hdvd with ⟨k, hk⟩; exact ⟨k - 4, by simp only [List.length_drop]; omega⟩)]
      conv_lhs => rw [show ((m.take 32).map g).sum + ((m.drop 32).map g).sum
        = (m.map g).sum from by
          conv_rhs => rw [← List.take_append_drop 32 m]
          rw [List.map_append, List.sum_append]]
    · rw [chunkGroups4, if_neg h32]
      rcases hdvd with ⟨k, hk⟩
      rw [chunkFold_sumBytes f g hf hg k m hB hk (by omega)]

/-- The chunks(MAX_ACC) middle loop counts exactly the matching bytes. -/
theorem chunkGroupsAcc_sum (f g : Nat → Nat)
    (hf : ∀ ds, Lanes ds → ds.length = 8 → f (fromLanes ds) = fromLanes (ds.map g))
    (hg : ∀ d, d < 256 → g d ≤ 1) :
    ∀ n, ∀ m : List Nat, m.length ≤ n → ByteList m → 8 ∣ m.length →
      chunkGroupsAcc f m = (m.map g).sum := by
  intro n
  induction n with
  | zero =>
    intro m hlen hB hdvd
    have hm : m = [] := List.eq_nil_of_length_eq_zero (by omega)
    subst hm
    rw [chunkGroupsAcc]
    norm_num
  | succ n ih =>
    intro m hlen hB hdvd
    rcases hdvd with ⟨k, hk⟩
    by_cases h8 : 8 ≤ m.length
    · rw [chunkGroupsAcc, if_pos h8]
      by_cases h248 : 248 ≤ m.length
      · have ht248 : (m.take 248).length = 8 * 31 := by
          rw [List.length_take]
          omega
        rw [chunkFold_sumBytes f g hf hg 31 (m.take 248) (byteList_take m 248 hB) ht248
            (by omega),
          ih (m.drop 248) (by simp only [List.length_drop]; omega) (byteList_drop m 248 hB)
            (⟨k - 31, by simp only [List.length_drop]; omega⟩)]
        conv_rhs => rw [← List.take_append_drop 248 m]
        rw [List.map_append, List.sum_append]
      · have hkk : k ≤ 31 := by omega
        have htm : m.take 248 = m := List.take_of_length_le (by omega)
        have hdm : m.drop 248 = [] := List.drop_eq_nil_of_le (by omega)
        rw [htm, chunkFold_sumBytes f g hf hg k m hB hk hkk, hdm, chunkGroupsAcc]
        norm_num
    · have hm : m = [] := List.eq_nil_of_length_eq_zero (by omega)
      subst hm
      rw [chunkGroupsAcc]
      norm_num

theorem filter_not_split (p : Nat → Bool) (l : List Nat) :
    (l.filter p).length + (l.filter (fun b => ! p b)).length = l.length := by
  induction l with
  | nil => rfl
  | cons b bs ih =>
    by_cases h : p b <;> simp [List.filter_cons, h] <;> omega

theorem trailCount_append (l1 l2 : List Nat) :
    trailCount (l1 ++ l2) = trailCount l1 + trailCount l2 := by
  simp [trailCount, List.filter_append]

theorem lead_eq_not_trail (b : Nat) : is_leading_byte b = ! is_trailing_byte b := by
  simp [is_leading_byte, is_trailing_byte, bne]

/-- The chunked continuation-byte flags are the per-byte flags. -/
theorem count_trailing_chunk_lanes (ds : List Nat) (hds : Lanes ds) (h8 : ds.length = 8) :
    count_trailing_chunk (fromLanes ds)
      = fromLanes (ds.map fun d => if is_trailing_byte d then 1 else 0) := by
  rw [count_trailing_chunk, maskEq_chunk_lanes ds 0xC0 0x80 hds h8 (by norm_num) (by norm_num)]
  congr 1
  refine List.map_congr_left (fun d hd => ?_)
  simp [is_trailing_byte]

/-- chars::count_impl counts the non-continuation bytes, for every
alignment. -/
theorem count_impl_eq (a : Nat) (text : List Nat) (hB : ByteList text) :
    count_impl a text = text.length - trailCount text := by
  rw [count_impl]
  by_cases hshort : text.length < 8
  · rw [if_pos hshort, sum_ind_eq_filter_length]
    have hsplit := filter_not_split (fun b => is_leading_byte b) text
    have : (text.filter fun b => ! is_leading_byte b) = text.filter fun b => is_trailing_byte b := by
      congr 1
      funext b
      simp [is_leading_byte, is_trailing_byte, bne]
    rw [this] at hsplit
    show (text.filter fun b => is_leading_byte b).length
      = text.length - (text.filter fun b => is_trailing_byte b).length
    omega
  · rw [if_neg hshort]
    have h8 : 8 ≤ text.length := by omega
    show text.length -
        (trailCount (text.take (min a text.length))
          + chunkGroups4 count_trailing_chunk
            ((text.drop (min a text.length)).take
              (8 * ((text.drop (min a text.length)).length / 8)))
          + trailCount ((text.drop (min a text.length)).drop
              (8 * ((text.drop (min a text.length)).length / 8))))
      = text.length - trailCount text
    generalize min a text.length = s
    set rest := text.drop s with hrest
    set nChunks := rest.length / 8 with hnc
    have hmidlen : (rest.take (8 * nChunks)).length = 8 * nChunks := by
      rw [List.length_take]
      have := Nat.div_mul_le_self rest.length 8
      simp only [hnc]
      omega
    have hmid : chunkGroups4 count_trailing_chunk (rest.take (8 * nChunks))
        = trailCount (rest.take (8 * nChunks)) := by
      rw [chunkGroups4_sum count_trailing_chunk (fun d => if is_trailing_byte d then 1 else 0)
          (fun ds hds hl => count_trailing_chunk_lanes ds hds hl)
          (fun d hd => by by_cases hsp : is_trailing_byte d <;> simp [hsp])
          (rest.take (8 * nChunks)).length _ (le_refl _)
          (byteList_take _ _ (byteList_drop _ _ hB)) (by rw [hmidlen]; exact ⟨nChunks, by ring⟩),
        sum_ind_eq_filter_length]
      rfl
    rw [hmid]
    have hdecomp : trailCount text = trailCount (text.take s) + trailCount (rest.take (8 * nChunks))
        + trailCount (rest.drop (8 * nChunks)) := by
      conv_lhs => rw [← List.take_append_drop s text, trailCount_append, ← hrest,
        ← List.take_append_drop (8 * nChunks) rest, trailCount_append]
      ring
    have htb : trailCount text ≤ text.length := by
      have := filter_not_split (fun b => is_trailing_byte b) text
      rw [trailCount]
      omega
    omega

/-! ## UTF-8 structure -/

theorem trailing_iff : ∀ b < 256, is_trailing_byte b = decide (0x80 ≤ b ∧ b ≤ 0xBF) := by
  decide

theorem trailCount_cons (b : Nat) (l : List Nat) :
    trailCount (b :: l) = (if is_trailing_byte b then 1 else 0) + trailCount l := by
  by_cases h : is_trailing_byte b <;> simp [trailCount, List.filter_cons, h] <;> omega

theorem utf8ValidGo_fuel : ∀ f1 f2 (l : List Nat), l.length ≤ f1 → l.length ≤ f2 →
    utf8ValidGo f1 l = utf8ValidGo f2 l := by
  intro f1
  induction f1 with
  | zero =>
    intro f2 l h1 h2
    have : l = [] := List.eq_nil_of_length_eq_zero (by omega)
    subst this
    cases f2 <;> rfl
  | succ f1 ih =>
    intro f2 l h1 h2
    cases l with
    | nil => cases f2 <;> rfl
    | cons b rest =>
      cases f2 with
      | zero => simp at h2
      | succ f2 =>
        show (utf8SeqOk b rest && utf8ValidGo f1 (rest.drop (seqLen b - 1)))
          = (utf8SeqOk b rest && utf8ValidGo f2 (rest.drop (seqLen b - 1)))
        congr 1
        refine ih f2 _ ?_ ?_ <;> simp only [List.length_drop, List.length_cons] at * <;> omega

theorem utf8Valid_cons (b : Nat) (rest : List Nat) :
    utf8Valid (b :: rest)
      = (utf8SeqOk b rest && utf8Valid (rest.drop (seqLen b - 1))) := by
  show utf8ValidGo (b :: rest).length (b :: rest) = _
  rw [show (b :: rest).length = rest.length + 1 from by simp]
  show (utf8SeqOk b rest && utf8ValidGo rest.length (rest.drop (seqLen b - 1))) = _
  congr 1
  exact utf8ValidGo_fuel rest.length _ _ (by simp [List.length_drop]) (le_refl _)

theorem seq_ok_facts (b : Nat) (rest : List Nat) (hb : b < 256) (hB : ByteList rest)
    (h : utf8SeqOk b rest = true) :
    is_trailing_byte b = false ∧ seqLen b - 1 ≤ rest.length ∧
      trailCount (rest.take (seqLen b - 1)) = seqLen b - 1 := by
  have hc0 : 1 ≤ rest.length → bget rest 0 < 256 := by
    intro hr
    have hmem : bget rest 0 ∈ rest := by
      rw [bget, List.getD_eq_getElem _ _ (by omega)]
      exact List.getElem_mem _
    exact hB _ hmem
  rw [utf8SeqOk] at h
  by_cases h1 : b ≤ 0x7F
  · rw [if_pos h1] at h
    refine ⟨by rw [trailing_iff b hb]; simp; omega, by simp [seqLen, h1], ?_⟩
    simp [seqLen, h1, trailCount]
  · rw [if_neg h1] at h
    have hnt : is_trailing_byte b = false := by
      rw [trailing_iff b hb]
      simp only [decide_eq_false_iff_not, not_and, not_le]
      intro hge
      by_contra hle
      push_neg at hle
      rw [if_neg (by omega), if_neg (by omega), if_neg (by omega), if_neg (by omega),
        if_neg (by omega), if_neg (by omega), if_neg (by omega)] at h
      exact Bool.false_ne_true h
    refine ⟨hnt, ?_⟩
    by_cases h2 : 0xC2 ≤ b ∧ b ≤ 0xDF
    · rw [if_pos h2] at h
      simp only [Bool.and_eq_true, decide_eq_true_eq] at h
      obtain ⟨h1l, htr0⟩ := h
      have hsl : seqLen b = 2 := by rw [seqLen, if_neg h1, if_pos (by omega)]
      rw [hsl]
      refine ⟨by omega, ?_⟩
      cases rest with
      | nil => simp at h1l
      | cons c1 r =>
        simp only [List.take_succ_cons, List.take_zero]
        rw [show bget (c1 :: r) 0 = c1 from rfl] at htr0
        rw [trailCount_cons, htr0]
        simp [trailCount]
    · rw [if_neg h2] at h
      by_cases hbad : b ≤ 0xDF
      · exfalso
        rw [if_neg (by omega), if_neg (by omega), if_neg (by omega), if_neg (by omega),
          if_neg (by omega), if_neg (by omega)] at h
        exact Bool.false_ne_true h
      by_cases h3 : b ≤ 0xEF
      · have hsl : seqLen b = 3 := by
          rw [seqLen, if_neg h1, if_neg (by omega), if_pos (by omega)]
        have hfacts : 2 ≤ rest.length ∧ is_trailing_byte (bget rest 0) = true ∧
            is_trailing_byte (bget rest 1) = true := by
          by_cases hE0 : b = 0xE0
          · rw [if_pos hE0] at h
            simp only [Bool.and_eq_true, decide_eq_true_eq] at h
            obtain ⟨⟨h2l, hr1, hr2⟩, htr1⟩ := h
            refine ⟨h2l, ?_, htr1⟩
            rw [trailing_iff _ (hc0 (by omega))]
            simp only [decide_eq_true_eq]
            omega
          · rw [if_neg hE0] at h
            by_cases hmid : (0xE1 ≤ b ∧ b ≤ 0xEC) ∨ (0xEE ≤ b ∧ b ≤ 0xEF)
            · rw [if_pos hmid] at h
              simp only [Bool.and_eq_true, decide_eq_true_eq] at h
              obtain ⟨⟨h2l, htr0⟩, htr1⟩ := h
              exact ⟨h2l, htr0, htr1⟩
            · have hED : b = 0xED := by omega
              rw [if_neg hmid, if_pos hED] at h
              simp only [Bool.and_eq_true, decide_eq_true_eq] at h
              obtain ⟨⟨h2l, hr1, hr2⟩, htr1⟩ := h
              refine ⟨h2l, ?_, htr1⟩
              rw [trailing_iff _ (hc0 (by omega))]
              simp only [decide_eq_true_eq]
              omega
        rw [hsl]
        obtain ⟨h2l, htr0, htr1⟩ := hfacts
        refine ⟨by omega, ?_⟩
        cases rest with
        | nil => simp at h2l
        | cons c1 r =>
          cases r with
          | nil => simp at h2l
          | cons c2 r2 =>
            simp only [List.take_succ_cons, List.take_zero]
            rw [show bget (c1 :: c2 :: r2) 0 = c1 from rfl] at htr0
            rw [show bget (c1 :: c2 :: r2) 1 = c2 from rfl] at htr1
            rw [trailCount_cons, trailCount_cons, htr0, htr1]
            simp [trailCount]
      · have hsl : seqLen b = 4 := by
          rw [seqLen, if_neg h1, if_neg (by omega), if_neg (by omega)]
        have hfacts : 3 ≤ rest.length ∧ is_trailing_byte (bget rest 0) = true ∧
            is_trailing_byte (bget rest 1) = true ∧ is_trailing_byte (bget rest 2) = true := by
          rw [if_neg (by omega), if_neg (by omega), if_neg (by omega)] at h
          by_cases hF0 : b = 0xF0
          · rw [if_pos hF0] at h
            simp only [Bool.and_eq_true, decide_eq_true_eq] at h
            obtain ⟨⟨⟨h3l, hr1, hr2⟩, htr1⟩, htr2⟩ := h
            refine ⟨h3l, ?_, htr1, htr2⟩
            rw [trailing_iff _ (hc0 (by omega))]
            simp only [decide_eq_true_eq]
            omega
          · rw [if_neg hF0] at h
            by_cases hmid : 0xF1 ≤ b ∧ b ≤ 0xF3
            · rw [if_pos hmid] at h
              simp only [Bool.and_eq_true, decide_eq_true_eq] at h
              obtain ⟨⟨⟨h3l, htr0⟩, htr1⟩, htr2⟩ := h
              exact ⟨h3l, htr0, htr1, htr2⟩
            · by_cases hF4 : b = 0xF4
              · rw [if_neg hmid, if_pos hF4] at h
                simp only [Bool.and_eq_true, decide_eq_true_eq] at h
                obtain ⟨⟨⟨h3l, hr1, hr2⟩, htr1⟩, htr2⟩ := h
                refine ⟨h3l, ?_, htr1, htr2⟩
                rw [trailing_iff _ (hc0 (by omega))]
                simp only [decide_eq_true_eq]
                omega
              · rw [if_neg hmid, if_neg hF4] at h
                exact absurd h (Bool.false_ne_true)
        rw [hsl]
        obtain ⟨h3l, htr0, htr1, htr2⟩ := hfacts
        refine ⟨by omega, ?_⟩
        cases rest with
        | nil => simp at h3l
        | cons c1 r =>
          cases r with
          | nil => simp at h3l
          | cons c2 r2 =>
            cases r2 with
            | nil => simp at h3l
            | cons c3 r3 =>
              simp only [List.take_succ_cons, List.take_zero]
              rw [show bget (c1 :: c2 :: c3 :: r3) 0 = c1 from rfl] at htr0
              rw [show bget (c1 :: c2 :: c3 :: r3) 1 = c2 from rfl] at htr1
              rw [show bget (c1 :: c2 :: c3 :: r3) 2 = c3 from rfl] at htr2
              rw [trailCount_cons, trailCount_cons, trailCount_cons, htr0, htr1, htr2]
              simp [trailCount]

theorem utf8_len_eq : ∀ n, ∀ l : List Nat, l.length ≤ n → ByteList l → utf8Valid l →
    l.length = scalarCount l + trailCount l := by
  intro n
  induction n with
  | zero =>
    intro l hlen hB hv
    have hl : l = [] := List.eq_nil_of_length_eq_zero (by omega)
    subst hl
    simp [scalarCount, trailCount]
  | succ n ih =>
    intro l hlen hB hv
    cases l with
    | nil => simp [scalarCount, trailCount]
    | cons b rest =>
      have hb : b < 256 := hB b (by simp)
      have hrB : ByteList rest := fun x hx => hB x (by simp [hx])
      rw [utf8Valid_cons] at hv
      simp only [Bool.and_eq_true] at hv
      obtain ⟨hok, hrec⟩ := hv
      obtain ⟨hbt, hlen2, htk⟩ := seq_ok_facts b rest hb hrB hok
      rw [scalarCount, trailCount_cons, hbt]
      have hIH := ih (rest.drop (seqLen b - 1))
        (by simp only [List.length_drop, List.length_cons] at hlen ⊢; omega)
        (byteList_drop _ _ hrB) hrec
      have hdec : trailCount rest = trailCount (rest.take (seqLen b - 1))
          + trailCount (rest.drop (seqLen b - 1)) := by
        conv_lhs => rw [← List.take_append_drop (seqLen b - 1) rest]
        rw [trailCount_append]
      simp only [List.length_drop] at hIH
      simp only [List.length_cons, Bool.false_eq_true, if_false]
      omega

/-- Valid UTF-8: the byte length minus the continuation bytes is the
scalar-value count. -/
theorem utf8_scalar_eq (l : List Nat) (hB : ByteList l) (hv : utf8Valid l) :
    l.length - trailCount l = scalarCount l := by
  have := utf8_len_eq l.length l (le_refl _) hB hv
  omega

/-! ## Claim C2 -/

/-- C2: for every valid UTF-8 text (under any buffer alignment a < 8),
chars::count equals the byte length of the text minus the number of UTF-8
continuation bytes, which equals the number of Unicode scalar values of
the text (the chars().count() reference scan). -/
theorem claim_C2_chars_count (a : Nat) (text : List Nat) (ha : a < 8)
    (hB : ByteList text) (hv : utf8Valid text) :
    chars_count a text = text.length - trailCount text
      ∧ chars_count a text = scalarCount text := by
  have h1 : chars_count a text = count_impl a text := rfl
  have h2 := count_impl_eq a text hB
  refine ⟨by rw [h1, h2], ?_⟩
  rw [h1, h2, utf8_scalar_eq text hB hv]

theorem claim_C2_chars_count_witness :
    ((0 : Nat) < 8 ∧ ByteList sampleMixed ∧ utf8Valid sampleMixed = true)
      ∧ (chars_count 0 sampleMixed = sampleMixed.length - trailCount sampleMixed
        ∧ chars_count 0 sampleMixed = scalarCount sampleMixed) :=
  ⟨⟨by norm_num, by decide, by decide⟩,
    claim_C2_chars_count 0 sampleMixed (by norm_num) (by decide) (by decide)⟩

/-! ## Claim C9 -/

theorem foldl_wadd_lanes :
    ∀ (ws : List (List Nat)) (es : List Nat), es.length = 8 →
      (∀ e ∈ es, e + ws.length ≤ 31) →
      (∀ c ∈ ws, c.length = 8 ∧ ∀ e ∈ c, e ≤ 1) →
      ∃ es2 : List Nat, es2.length = 8 ∧ (∀ e ∈ es2, e ≤ 31) ∧
        List.foldl (fun acc c => wadd acc (fromLanes c)) (fromLanes es) ws = fromLanes es2 ∧
        es2.sum = es.sum + (ws.map List.sum).sum := by
  intro ws
  induction ws with
  | nil =>
    intro es h8 hsmall hc
    exact ⟨es, h8, fun e he => by have := hsmall e he; simp at this; omega,
      by simp, by simp⟩
  | cons c ws ih =>
    intro es h8 hsmall hc
    obtain ⟨hc8, hc1⟩ := hc c (by simp)
    have hstep : wadd (fromLanes es) (fromLanes c)
        = fromLanes (List.zipWith (· + ·) es c) :=
      wadd_fromLanes_small es c h8 hc8 31 1
        (fun e he => by have := hsmall e he; simp at this; omega) hc1 (by norm_num)
    have hzlen : (List.zipWith (· + ·) es c).length = 8 := by
      rw [List.length_zipWith, h8, hc8]
      rfl
    have hznext : ∀ e ∈ List.zipWith (· + ·) es c, e + ws.length ≤ 31 := by
      intro e he
      rcases List.mem_iff_getElem.mp he with ⟨i, hi, rfl⟩
      rw [List.getElem_zipWith]
      have hi1 : i < es.length := by rw [List.length_zipWith] at hi; omega
      have hi2 : i < c.length := by rw [List.length_zipWith] at hi; omega
      have h1 := hsmall _ (List.getElem_mem hi1)
      have h2 := hc1 _ (List.getElem_mem hi2)
      simp only [List.length_cons] at h1
      omega
    obtain ⟨es2, hlen2, hb2, heq2, hsum2⟩ := ih (List.zipWith (· + ·) es c) hzlen hznext
      (fun d hd => hc d (by simp [hd]))
    refine ⟨es2, hlen2, hb2, ?_, ?_⟩
    · rw [List.foldl_cons, hstep, heq2]
    · rw [hsum2, zipWith_add_sum es c (by rw [h8, hc8])]
      simp only [List.map_cons, List.sum_cons]
      omega

/-- C9: accumulating at most MAX_ACC = 31 chunks whose byte lanes are each
0 or 1 into the zero chunk with add keeps every lane below overflow, and
sum_bytes of the accumulator is exactly the total number of 1 lanes added;
moreover cmp_eq_byte and bytes_between_127 (at the 0x0A..0x0D window used
by the line counters) produce exactly such 0/1-lane chunks. -/
theorem claim_C9_sum_bytes_acc (ws : List (List Nat)) (b : Nat) (ds : List Nat)
    (hlen : ws.length ≤ MAX_ACC)
    (hc : ∀ c ∈ ws, c.length = 8 ∧ ∀ e ∈ c, e ≤ 1)
    (hb : b < 256) (hds : Lanes ds) (hds8 : ds.length = 8) :
    sumBytes (List.foldl (fun acc c => wadd acc (fromLanes c)) 0 ws)
        = (ws.map List.sum).sum
      ∧ cmpEqByte (fromLanes ds) b = fromLanes (ds.map fun d => if d = b then 1 else 0)
      ∧ bytesBetween127 (fromLanes ds) 9 14
          = fromLanes (ds.map fun d => if 9 < d ∧ d < 14 then 1 else 0) := by
  refine ⟨?_, cmpEqByte_lanes ds b hds hds8 hb, bytesBetween127_lanes ds hds hds8⟩
  have hMA : MAX_ACC = 31 := rfl
  have h0 : (0 : Nat) = fromLanes (List.replicate 8 0) := by decide
  obtain ⟨es2, hlen2, hb2, heq2, hsum2⟩ := foldl_wadd_lanes ws (List.replicate 8 0)
    (by simp) (fun e he => by rw [List.eq_of_mem_replicate he]; omega) hc
  rw [h0, heq2, sumBytes_fromLanes_small es2 hlen2 (by
    have : es2.sum ≤ es2.length * 31 := List.sum_le_card_nsmul es2 31 hb2
    rw [hlen2] at this
    omega)]
  rw [hsum2]
  simp

theorem claim_C9_sum_bytes_acc_witness :
    (([[1,0,1,0,0,0,0,0],[1,1,1,1,1,1,1,1]] : List (List Nat)).length ≤ MAX_ACC
      ∧ (∀ c ∈ ([[1,0,1,0,0,0,0,0],[1,1,1,1,1,1,1,1]] : List (List Nat)),
          c.length = 8 ∧ ∀ e ∈ c, e ≤ 1)
      ∧ (10 : Nat) < 256 ∧ Lanes [0,10,13,255,1,9,14,10]
      ∧ ([0,10,13,255,1,9,14,10] : List Nat).length = 8)
    ∧ (sumBytes (List.foldl (fun acc c => wadd acc (fromLanes c)) 0
          ([[1,0,1,0,0,0,0,0],[1,1,1,1,1,1,1,1]] : List (List Nat)))
        = (([[1,0,1,0,0,0,0,0],[1,1,1,1,1,1,1,1]] : List (List Nat)).map List.sum).sum
      ∧ cmpEqByte (fromLanes [0,10,13,255,1,9,14,10]) 10
          = fromLanes (([0,10,13,255,1,9,14,10] : List Nat).map fun d => if d = 10 then 1 else 0)
      ∧ bytesBetween127 (fromLanes [0,10,13,255,1,9,14,10]) 9 14
          = fromLanes (([0,10,13,255,1,9,14,10] : List Nat).map
              fun d => if 9 < d ∧ d < 14 then 1 else 0)) :=
  ⟨⟨by decide, by decide, by decide, by decide, by decide⟩,
    claim_C9_sum_bytes_acc [[1,0,1,0,0,0,0,0],[1,1,1,1,1,1,1,1]] 10 [0,10,13,255,1,9,14,10]
      (by decide) (by decide) (by decide) (by decide) (by decide)⟩

/-! ## Claim C3 -/

theorem trailing_not_surr : ∀ b < 256, is_trailing_byte b = true → surrByte b = false := by
  decide

theorem seq4_surr : ∀ b < 256, decide (seqLen b = 4) = surrByte b := by
  decide

theorem surrCount_cons (b : Nat) (l : List Nat) :
    surrCount (b :: l) = (if surrByte b then 1 else 0) + surrCount l := by
  by_cases h : surrByte b <;> simp [surrCount, List.filter_cons, h] <;> omega

theorem surrCount_append (l1 l2 : List Nat) :
    surrCount (l1 ++ l2) = surrCount l1 + surrCount l2 := by
  simp [surrCount, List.filter_append]

theorem all_filter_len (p : Nat → Bool) :
    ∀ l : List Nat, (l.filter p).length = l.length → ∀ x ∈ l, p x := by
  intro l
  induction l with
  | nil => simp
  | cons b bs ih =>
    intro h x hx
    by_cases hb : p b
    · rcases List.mem_cons.mp hx with rfl | hx2
      · exact hb
      · rw [List.filter_cons, if_pos hb] at h
        simp only [List.length_cons] at h
        exact ih (by omega) x hx2
    · exfalso
      rw [List.filter_cons, if_neg hb] at h
      have := List.length_filter_le p bs
      simp only [List.length_cons] at h
      omega

theorem surrCount_zero_of_trailing (l : List Nat) (hB : ByteList l)
    (h : ∀ x ∈ l, is_trailing_byte x = true) : surrCount l = 0 := by
  induction l with
  | nil => simp [surrCount]
  | cons b bs ih =>
    rw [surrCount_cons, trailing_not_surr b (hB b (by simp)) (h b (by simp))]
    simp only [if_false, Bool.false_eq_true]
    exact Nat.zero_add _ ▸ ih (fun x hx => hB x (by simp [hx])) (fun x hx => h x (by simp [hx]))

/-- The chunked four-byte-lead flags are the per-byte flags. -/
theorem surrChunk_lanes (ds : List Nat) (hds : Lanes ds) (h8 : ds.length = 8) :
    surrChunk (fromLanes ds) = fromLanes (ds.map fun d => if surrByte d then 1 else 0) := by
  rw [surrChunk, maskEq_chunk_lanes ds 0xF0 0xF0 hds h8 (by norm_num) (by norm_num)]
  congr 1
  refine List.map_congr_left (fun d hd => ?_)
  simp [surrByte]

theorem surr_core (a : Nat) (t : List Nat) (hB : ByteList t) :
    surrCount (t.take (min a t.length))
      + chunkGroupsAcc surrChunk ((t.drop (min a t.length)).take
          (8 * ((t.drop (min a t.length)).length / 8)))
      + surrCount ((t.drop (min a t.length)).drop
          (8 * ((t.drop (min a t.length)).length / 8)))
      = surrCount t := by
  generalize min a t.length = s
  set rest := t.drop s with hrest
  set nChunks := rest.length / 8 with hnc
  have hmidlen : (rest.take (8 * nChunks)).length = 8 * nChunks := by
    rw [List.length_take]
    have := Nat.div_mul_le_self rest.length 8
    simp only [hnc]
    omega
  have hmid : chunkGroupsAcc surrChunk (rest.take (8 * nChunks))
      = surrCount (rest.take (8 * nChunks)) := by
    rw [chunkGroupsAcc_sum surrChunk (fun d => if surrByte d then 1 else 0)
        (fun ds hds hl => surrChunk_lanes ds hds hl)
        (fun d hd => by by_cases hsp : surrByte d <;> simp [hsp])
        (rest.take (8 * nChunks)).length _ (le_refl _)
        (byteList_take _ _ (byteList_drop _ _ hB)) (by rw [hmidlen]; exact ⟨nChunks, by ring⟩),
      sum_ind_eq_filter_length]
    rfl
  rw [hmid]
  have hdecomp : surrCount t = surrCount (t.take s) + surrCount (rest.take (8 * nChunks))
      + surrCount (rest.drop (8 * nChunks)) := by
    conv_lhs => rw [← List.take_append_drop s t, surrCount_append, ← hrest,
      ← List.take_append_drop (8 * nChunks) rest, surrCount_append]
    ring
  omega

/-- utf16::count_surrogates_impl counts the four-byte-lead bytes of the
text trimmed by its final three bytes, for every alignment. -/
theorem count_surrogates_impl_eq (a : Nat) (text : List Nat) (hB : ByteList text) :
    count_surrogates_impl a text = surrCount (text.take (text.length - 3)) := by
  rw [count_surrogates_impl]
  by_cases hshort : text.length ≤ 3
  · rw [if_pos hshort, show text.length - 3 = 0 from by omega]
    simp [surrCount]
  · rw [if_neg hshort]
    show surrCount ((text.take (text.length - 3)).take (min a (text.take (text.length - 3)).length))
      + chunkGroupsAcc surrChunk (((text.take (text.length - 3)).drop
          (min a (text.take (text.length - 3)).length)).take
          (8 * (((text.take (text.length - 3)).drop
            (min a (text.take (text.length - 3)).length)).length / 8)))
      + surrCount (((text.take (text.length - 3)).drop
          (min a (text.take (text.length - 3)).length)).drop
          (8 * (((text.take (text.length - 3)).drop
            (min a (text.take (text.length - 3)).length)).length / 8)))
      = surrCount (text.take (text.length - 3))
    exact surr_core a _ (byteList_take _ _ hB)

/-- In valid UTF-8, no four-byte lead appears among the final three bytes:
every suffix of length at most 3 is free of 0xF0-masked bytes. -/
theorem surr_tail_zero : ∀ n, ∀ l : List Nat, l.length ≤ n → ByteList l → utf8Valid l →
    ∀ k, l.length ≤ k + 3 → surrCount (l.drop k) = 0 := by
  intro n
  induction n with
  | zero =>
    intro l hlen hB hv k hk
    have hl : l = [] := List.eq_nil_of_length_eq_zero (by omega)
    subst hl
    simp [surrCount]
  | succ n ih =>
    intro l hlen hB hv k hk
    cases l with
    | nil => simp [surrCount]
    | cons b rest =>
      have hb : b < 256 := hB b (by simp)
      have hrB : ByteList rest := fun x hx => hB x (by simp [hx])
      rw [utf8Valid_cons] at hv
      simp only [Bool.and_eq_true] at hv
      obtain ⟨hok, hrec⟩ := hv
      obtain ⟨hbt, hlen2, htk⟩ := seq_ok_facts b rest hb hrB hok
      have htklen : (rest.take (seqLen b - 1)).length = seqLen b - 1 :=
        List.length_take_of_le hlen2
      have halltr : ∀ x ∈ rest.take (seqLen b - 1), is_trailing_byte x = true := by
        refine all_filter_len _ _ ?_
        rw [htklen]
        exact htk
      have hsurrtr : surrCount (rest.take (seqLen b - 1)) = 0 :=
        surrCount_zero_of_trailing _ (byteList_take _ _ hrB) halltr
      have hlenrec : (rest.drop (seqLen b - 1)).length ≤ n := by
        simp only [List.length_drop]
        simp only [List.length_cons] at hlen
        omega
      cases k with
      | zero =>
        have hsurr_b : surrByte b = false := by
          by_cases hs : surrByte b
          · exfalso
            have h4 : seqLen b = 4 := by
              have hd := seq4_surr b hb
              rw [hs] at hd
              exact of_decide_eq_true hd
            simp only [List.length_cons] at hk
            omega
          · simp only [Bool.not_eq_true] at hs
            exact hs
        simp only [List.drop_zero]
        rw [surrCount_cons, hsurr_b]
        simp only [if_false, Bool.false_eq_true]
        have hrec0 := ih (rest.drop (seqLen b - 1)) hlenrec (byteList_drop _ _ hrB) hrec 0 (by
          simp only [List.length_drop]
          simp only [List.length_cons] at hk
          omega)
        simp only [List.drop_zero] at hrec0
        have hdec : surrCount rest = surrCount (rest.take (seqLen b - 1))
            + surrCount (rest.drop (seqLen b - 1)) := by
          conv_lhs => rw [← List.take_append_drop (seqLen b - 1) rest]
          rw [surrCount_append]
        omega
      | succ k2 =>
        simp only [List.drop_succ_cons]
        by_cases hcase : seqLen b - 1 ≤ k2
        · have hsplit : rest.drop k2 = (rest.drop (seqLen b - 1)).drop (k2 - (seqLen b - 1)) := by
            rw [List.drop_drop]
            congr 1
            omega
          rw [hsplit]
          refine ih (rest.drop (seqLen b - 1)) hlenrec (byteList_drop _ _ hrB) hrec
            (k2 - (seqLen b - 1)) ?_
          simp only [List.length_drop]
          simp only [List.length_cons] at hk
          omega
        · push_neg at hcase
          have hdropsplit : rest.drop k2 = (rest.take (seqLen b - 1)).drop k2
              ++ rest.drop (seqLen b - 1) := by
            conv_lhs => rw [← List.take_append_drop (seqLen b - 1) rest]
            rw [List.drop_append_of_le_length (by rw [htklen]; omega)]
          rw [hdropsplit, surrCount_append]
          have h1 : surrCount ((rest.take (seqLen b - 1)).drop k2) = 0 :=
            surrCount_zero_of_trailing _ (byteList_drop _ _ (byteList_take _ _ hrB))
              (fun x hx => halltr x (List.mem_of_mem_drop hx))
          have h2 := ih (rest.drop (seqLen b - 1)) hlenrec (byteList_drop _ _ hrB) hrec 0 (by
            simp only [List.length_drop]
            simp only [List.length_cons] at hk
            omega)
          simp only [List.drop_zero] at h2
          omega

theorem surrCount_valid_take (l : List Nat) (hB : ByteList l) (hv : utf8Valid l) :
    surrCount (l.take (l.length - 3)) = surrCount l := by
  have h := surr_tail_zero l.length l (le_refl _) hB hv (l.length - 3) (by omega)
  conv_rhs => rw [← List.take_append_drop (l.length - 3) l]
  rw [surrCount_append, h]
  omega

/-- The reference UTF-16 unit count decomposes into scalar count plus
four-byte-lead count on valid texts. -/
theorem utf16Units_eq : ∀ n, ∀ l : List Nat, l.length ≤ n → ByteList l → utf8Valid l →
    utf16Units l = scalarCount l + surrCount l := by
  intro n
  induction n with
  | zero =>
    intro l hlen hB hv
    have hl : l = [] := List.eq_nil_of_length_eq_zero (by omega)
    subst hl
    simp [utf16Units, scalarCount, surrCount]
  | succ n ih =>
    intro l hlen hB hv
    cases l with
    | nil => simp [utf16Units, scalarCount, surrCount]
    | cons b rest =>
      have hb : b < 256 := hB b (by simp)
      have hrB : ByteList rest := fun x hx => hB x (by simp [hx])
      rw [utf8Valid_cons] at hv
      simp only [Bool.and_eq_true] at hv
      obtain ⟨hok, hrec⟩ := hv
      obtain ⟨hbt, hlen2, htk⟩ := seq_ok_facts b rest hb hrB hok
      have htklen : (rest.take (seqLen b - 1)).length = seqLen b - 1 :=
        List.length_take_of_le hlen2
      have halltr : ∀ x ∈ rest.take (seqLen b - 1), is_trailing_byte x = true := by
        refine all_filter_len _ _ ?_
        rw [htklen]
        exact htk
      have hsurrtr : surrCount (rest.take (seqLen b - 1)) = 0 :=
        surrCount_zero_of_trailing _ (byteList_take _ _ hrB) halltr
      rw [utf16Units, scalarCount, surrCount_cons]
      have hIH := ih (rest.drop (seqLen b - 1)) (by
          simp only [List.length_drop]
          simp only [List.length_cons] at hlen
          omega) (byteList_drop _ _ hrB) hrec
      have hw : (if seqLen b = 4 then 2 else 1) = 1 + (if surrByte b then 1 else 0) := by
        have h4 := seq4_surr b hb
        by_cases hs : seqLen b = 4
        · rw [if_pos hs]
          have hsb : surrByte b = true := by
            rw [← h4]
            exact decide_eq_true hs
          rw [hsb]
          simp
        · rw [if_neg hs]
          have hsb : surrByte b = false := by
            rw [← h4]
            exact decide_eq_false hs
          rw [hsb]
          simp
      have hdec : surrCount rest = surrCount (rest.take (seqLen b - 1))
          + surrCount (rest.drop (seqLen b - 1)) := by
        conv_lhs => rw [← List.take_append_drop (seqLen b - 1) rest]
        rw [surrCount_append]
      rw [hw]
      omega

/-- C3: for every valid UTF-8 text (under any buffer alignment a < 8),
utf16::count is chars::count plus utf16::count_surrogates, the surrogate
count is the number of bytes b with b & 0xF0 == 0xF0 (the four-byte-sequence
leads), and utf16::count is the reference UTF-16 code-unit count that
charges 2 units per four-byte sequence and 1 unit otherwise. -/
theorem claim_C3_utf16_count (a : Nat) (text : List Nat) (ha : a < 8)
    (hB : ByteList text) (hv : utf8Valid text) :
    utf16_count a text = chars_count a text + utf16_count_surrogates a text
      ∧ utf16_count_surrogates a text = surrCount text
      ∧ utf16_count a text = utf16Units text := by
  have h2 : utf16_count_surrogates a text = surrCount text := by
    show count_surrogates_impl a text = surrCount text
    rw [count_surrogates_impl_eq a text hB, surrCount_valid_take text hB hv]
  refine ⟨rfl, h2, ?_⟩
  show count_impl a text + count_surrogates_impl a text = utf16Units text
  rw [count_impl_eq a text hB, utf8_scalar_eq text hB hv,
    show count_surrogates_impl a text = surrCount text from h2,
    utf16Units_eq text.length text (le_refl _) hB hv]

theorem claim_C3_utf16_count_witness :
    ((3 : Nat) < 8 ∧ ByteList sampleU16 ∧ utf8Valid sampleU16 = true)
      ∧ (utf16_count 3 sampleU16 = chars_count 3 sampleU16 + utf16_count_surrogates 3 sampleU16
        ∧ utf16_count_surrogates 3 sampleU16 = surrCount sampleU16
        ∧ utf16_count 3 sampleU16 = utf16Units sampleU16) :=
  ⟨⟨by norm_num, by decide, by decide⟩,
    claim_C3_utf16_count 3 sampleU16 (by norm_num) (by decide) (by decide)⟩

/-! ## Reference recognizer infrastructure -/

theorem bget_drop (l : List Nat) (k p : Nat) : bget (l.drop k) p = bget l (k + p) := by
  rw [bget, bget, List.getD_eq_getElem?_getD, List.getD_eq_getElem?_getD, List.getElem?_drop]

theorem breakAtLf_drop (l : List Nat) (k p : Nat) :
    breakAtLf (l.drop k) p = breakAtLf l (k + p) := by
  simp only [breakAtLf, bget_drop]

theorem breakAtCrlf_drop (l : List Nat) (k p : Nat) :
    breakAtCrlf (l.drop k) p = breakAtCrlf l (k + p) := by
  have h1 : (p + 1 < (l.drop k).length) = (k + (p + 1) < l.length) := by
    rw [List.length_drop]
    exact propext (by omega)
  simp only [breakAtCrlf, bget_drop, h1, Nat.add_assoc]

theorem breakAtUni_drop (l : List Nat) (k p : Nat) :
    breakAtUni (l.drop k) p = breakAtUni l (k + p) := by
  have h1 : (p + 1 < (l.drop k).length) = (k + (p + 1) < l.length) := by
    rw [List.length_drop]
    exact propext (by omega)
  have h2 : (p + 2 < (l.drop k).length) = (k + (p + 2) < l.length) := by
    rw [List.length_drop]
    exact propext (by omega)
  simp only [breakAtUni, bget_drop, h1, h2, Nat.add_assoc]

theorem indSum_succ (ind : List Nat → Nat → Bool) (l : List Nat) (n : Nat) :
    indSum ind l (n + 1) = indSum ind l n + (if ind l n then 1 else 0) := rfl

theorem indSum_mono (ind : List Nat → Nat → Bool) (l : List Nat) (m : Nat) :
    ∀ n, m ≤ n → indSum ind l m ≤ indSum ind l n := by
  intro n
  induction n with
  | zero =>
    intro h
    have : m = 0 := by omega
    subst this
    exact le_refl _
  | succ n ih =>
    intro h
    by_cases hm : m = n + 1
    · subst hm
      exact le_refl _
    · refine le_trans (ih (by omega)) ?_
      rw [indSum_succ]
      exact Nat.le_add_right _ _

theorem indSum_add_drop (ind : List Nat → Nat → Bool) (l : List Nat) (k : Nat)
    (hshift : ∀ p, ind (l.drop k) p = ind l (k + p)) :
    ∀ m, indSum ind l (k + m) = indSum ind l k + indSum ind (l.drop k) m := by
  intro m
  induction m with
  | zero => simp [indSum]
  | succ m ih =>
    rw [show k + (m + 1) = (k + m) + 1 from rfl, indSum_succ, ih, indSum_succ, hshift m]
    omega

theorem indSum_le_of_imp (ind1 ind2 : List Nat → Nat → Bool) (l : List Nat)
    (h : ∀ p, ind1 l p = true → ind2 l p = true) :
    ∀ n, indSum ind1 l n ≤ indSum ind2 l n := by
  intro n
  induction n with
  | zero => exact le_refl _
  | succ n ih =>
    rw [indSum_succ, indSum_succ]
    by_cases h1 : ind1 l n
    · rw [if_pos h1, if_pos (h n h1)]
      omega
    · refine le_trans ?_ (Nat.le_add_right _ _)
      rw [if_neg h1]
      omega

/-! ## lines_lf count equivalence -/

theorem lfCount_append (l1 l2 : List Nat) : lfCount (l1 ++ l2) = lfCount l1 + lfCount l2 := by
  simp [lfCount]

theorem lfCount_indSum (l : List Nat) : lfCount l = indSum breakAtLf l l.length := by
  induction l with
  | nil => rfl
  | cons b bs ih =>
    have hd := indSum_add_drop breakAtLf (b :: bs) 1
      (fun p => breakAtLf_drop (b :: bs) 1 p) bs.length
    simp only [List.drop_one, List.tail_cons] at hd
    rw [show (b :: bs).length = 1 + bs.length from by simp [Nat.add_comm], hd, ← ih]
    show (if b = 0x0A then 1 else 0) + lfCount bs = indSum breakAtLf (b :: bs) 1 + lfCount bs
    congr 1
    show _ = indSum breakAtLf (b :: bs) 0 + (if breakAtLf (b :: bs) 0 then 1 else 0)
    simp only [indSum, breakAtLf, bget, List.getD]
    by_cases hb : b = 10 <;> simp [hb]

theorem count_breaks_impl_lf_eq (a : Nat) (text : List Nat) (hB : ByteList text) :
    count_breaks_impl_lf a text = lfCount text := by
  rw [count_breaks_impl_lf]
  by_cases hshort : text.length < 8
  · rw [if_pos hshort]
  · rw [if_neg hshort]
    show lfCount (text.take (min a text.length))
      + chunkGroups4 lfChunk ((text.drop (min a text.length)).take
          (8 * ((text.drop (min a text.length)).length / 8)))
      + lfCount ((text.drop (min a text.length)).drop
          (8 * ((text.drop (min a text.length)).length / 8)))
      = lfCount text
    generalize min a text.length = s
    set rest := text.drop s with hrest
    set nChunks := rest.length / 8 with hnc
    have hmidlen : (rest.take (8 * nChunks)).length = 8 * nChunks := by
      rw [List.length_take]
      have := Nat.div_mul_le_self rest.length 8
      simp only [hnc]
      omega
    have hmid : chunkGroups4 lfChunk (rest.take (8 * nChunks))
        = lfCount (rest.take (8 * nChunks)) := by
      rw [chunkGroups4_sum lfChunk (fun d => if d = 0x0A then 1 else 0)
        (fun ds hds hl => cmpEqByte_lanes ds 0x0A hds hl (by norm_num))
        (fun d hd => by by_cases h10 : d = 10 <;> simp [h10])
        (rest.take (8 * nChunks)).length _ (le_refl _)
        (byteList_take _ _ (byteList_drop _ _ hB)) (by rw [hmidlen]; exact ⟨nChunks, by ring⟩)]
      rfl
    rw [hmid]
    have hdecomp : lfCount text = lfCount (text.take s) + lfCount (rest.take (8 * nChunks))
        + lfCount (rest.drop (8 * nChunks)) := by
      conv_lhs => rw [← List.take_append_drop s text, lfCount_append, ← hrest,
        ← List.take_append_drop (8 * nChunks) rest, lfCount_append]
      ring
    omega

/-- lines_lf::count_breaks equals the LF-only reference recognizer count. -/
theorem lines_lf_count_eq (a : Nat) (text : List Nat) (hB : ByteList text) :
    lines_lf_count_breaks a text = indSum breakAtLf text text.length := by
  show count_breaks_impl_lf a text = _
  rw [count_breaks_impl_lf_eq a text hB, lfCount_indSum]

/-! ## lines_crlf count equivalence -/

theorem fromLanes7_pad (a1 a2 a3 a4 a5 a6 a7 : Nat) :
    fromLanes [a1, a2, a3, a4, a5, a6, a7] = fromLanes [a1, a2, a3, a4, a5, a6, a7, 0] := by
  simp [fromLanes]

theorem ind_land (P Q : Prop) [Decidable P] [Decidable Q] :
    (if P then (1:Nat) else 0) &&& (if Q then 1 else 0) = if P ∧ Q then 1 else 0 := by
  by_cases hp : P <;> by_cases hq : Q <;> simp [hp, hq]

theorem ind_sub (P Q : Prop) [Decidable P] [Decidable Q] :
    (if P then (1:Nat) else 0) - (if P ∧ Q then 1 else 0) = if P ∧ ¬ Q then 1 else 0 := by
  by_cases hp : P <;> by_cases hq : Q <;> simp [hp, hq]

theorem ind_add_disj (b : Nat) (X : Prop) [Decidable X] :
    (if b = 0x0A then (1:Nat) else 0) + (if b = 0x0D ∧ X then 1 else 0)
      = if b = 0x0A ∨ (b = 0x0D ∧ X) then 1 else 0 := by
  by_cases h1 : b = 0x0A <;> by_cases h2 : b = 0x0D <;> by_cases h3 : X <;>
    simp [h1, h2, h3] <;> omega

theorem indSum_range (ind : List Nat → Nat → Bool) (l : List Nat) :
    ∀ n, indSum ind l n = ((List.range n).map fun p => if ind l p then 1 else 0).sum := by
  intro n
  induction n with
  | zero => rfl
  | succ n ih =>
    rw [indSum_succ, List.range_succ, ih]
    simp

theorem destruct8 (l : List Nat) (h : 8 ≤ l.length) :
    ∃ d0 d1 d2 d3 d4 d5 d6 d7 t,
      l = d0 :: d1 :: d2 :: d3 :: d4 :: d5 :: d6 :: d7 :: t := by
  rcases l with _ | ⟨d0, _ | ⟨d1, _ | ⟨d2, _ | ⟨d3, _ | ⟨d4, _ | ⟨d5, _ | ⟨d6, _ | ⟨d7, t⟩⟩⟩⟩⟩⟩⟩⟩
  · simp at h
  · simp at h
  · simp at h
  · simp at h
  · simp at h
  · simp at h
  · simp at h
  · simp at h
  · exact ⟨d0, d1, d2, d3, d4, d5, d6, d7, t, rfl⟩

/-- The byte-at-a-time CR/CRLF fold counts the forward reference breaks,
less one when an initial LF completes a CRLF pair begun before the
region. -/
theorem crlfScalarFold_eq : ∀ (rest : List Nat) (cnt : Int) (lastCr : Bool),
    (crlfScalarFold rest cnt lastCr).1
      = cnt + (indSum breakAtCrlf rest rest.length : Nat)
        - (if lastCr ∧ bget rest 0 = 0x0A ∧ 0 < rest.length then 1 else 0) := by
  intro rest
  induction rest with
  | nil =>
    intro cnt lastCr
    simp [crlfScalarFold, indSum, bget]
  | cons b bs ih =>
    intro cnt lastCr
    show (crlfScalarFold bs
        (cnt + (if b = 0x0D ∨ (b = 0x0A ∧ ¬ lastCr) then 1 else 0)) (b = 0x0D)).1 = _
    rw [ih]
    have hsum : indSum breakAtCrlf (b :: bs) (b :: bs).length
        = indSum breakAtCrlf (b :: bs) 1 + indSum breakAtCrlf bs bs.length := by
      have hd := indSum_add_drop breakAtCrlf (b :: bs) 1
        (fun p => breakAtCrlf_drop (b :: bs) 1 p) bs.length
      simp only [List.drop_one, List.tail_cons] at hd
      rw [show (b :: bs).length = 1 + bs.length from by simp [Nat.add_comm], hd]
    rw [hsum]
    have hone : indSum breakAtCrlf (b :: bs) 1
        = if b = 0x0A ∨ (b = 0x0D ∧ ¬ (0 < bs.length ∧ bget bs 0 = 0x0A)) then 1 else 0 := by
      show (0 + if breakAtCrlf (b :: bs) 0 then 1 else 0) = _
      rw [Nat.zero_add]
      rw [breakAtCrlf]
      have hb0 : bget (b :: bs) 0 = b := rfl
      have hb1 : bget (b :: bs) (0 + 1) = bget bs 0 := rfl
      have hlen : (0 + 1 < (b :: bs).length) = (0 < bs.length) := by
        simp only [List.length_cons]
        exact propext (by omega)
      simp only [hb0, hb1, hlen]
      by_cases h1 : b = 0x0A <;> by_cases h2 : b = 0x0D <;>
        by_cases h3 : 0 < bs.length ∧ bget bs 0 = 0x0A <;> simp [h1, h2, h3]
    rw [hone]
    have hb0x : bget (b :: bs) 0 = b := rfl
    simp only [hb0x, List.length_cons, decide_eq_true_eq]
    by_cases h1 : b = 0x0A <;> by_cases h2 : b = 0x0D <;>
      by_cases h3a : bget bs 0 = 0x0A <;> by_cases h3b : 0 < bs.length <;>
      by_cases h4 : lastCr = true <;>
      simp [h1, h2, h3a, h3b, h4] <;> omega

/-- The final carried CR flag of the byte-at-a-time CR/CRLF fold. -/
theorem crlfScalarFold_snd : ∀ (rest : List Nat) (cnt : Int) (lastCr : Bool),
    (crlfScalarFold rest cnt lastCr).2
      = if 0 < rest.length then decide (bget rest (rest.length - 1) = 0x0D) else lastCr := by
  intro rest
  induction rest with
  | nil => intro cnt lastCr; rfl
  | cons b bs ih =>
    intro cnt lastCr
    show (crlfScalarFold bs _ (b = 0x0D)).2 = _
    rw [ih]
    cases bs with
    | nil => simp [bget]
    | cons c cs =>
      have e1 : bget (b :: c :: cs) ((b :: c :: cs).length - 1)
          = bget (c :: cs) ((c :: cs).length - 1) := by
        have e2 : (b :: c :: cs).length - 1 = 1 + ((c :: cs).length - 1) := by
          simp only [List.length_cons]
          omega
        rw [e2, ← bget_drop (b :: c :: cs) 1 ((c :: cs).length - 1)]
        rfl
      rw [if_pos (by simp : 0 < (c :: cs).length),
        if_pos (by simp : 0 < (b :: c :: cs).length), e1]

theorem ind_le_one (P : Prop) [Decidable P] : (if P then (1:Nat) else 0) ≤ 1 := by
  split <;> norm_num

theorem ind_lt_256 (P : Prop) [Decidable P] : (if P then (1:Nat) else 0) < 256 :=
  lt_of_le_of_lt (ind_le_one P) (by norm_num)

theorem ind_le_ind (P Q : Prop) [Decidable P] [Decidable Q] (h : Q → P) :
    (if Q then (1:Nat) else 0) ≤ if P then 1 else 0 := by
  by_cases hq : Q
  · rw [if_pos hq, if_pos (h hq)]
  · rw [if_neg hq]
    exact Nat.zero_le _

/-- The CR-minus-CRLF flag word of one CR/CRLF chunk, lane by lane: a CR
not followed inside the chunk by an LF (the final lane sees no successor). -/
theorem crlf_word_lanes (d0 d1 d2 d3 d4 d5 d6 d7 : Nat)
    (hall : Lanes [d0, d1, d2, d3, d4, d5, d6, d7]) :
    wsub (cmpEqByte (fromLanes [d0, d1, d2, d3, d4, d5, d6, d7]) 0x0D)
        (cmpEqByte (fromLanes [d0, d1, d2, d3, d4, d5, d6, d7]) 0x0D &&&
          shiftBackLex (cmpEqByte (fromLanes [d0, d1, d2, d3, d4, d5, d6, d7]) 0x0A) 1)
      = fromLanes [if d0 = 0x0D ∧ ¬ d1 = 0x0A then 1 else 0,
          if d1 = 0x0D ∧ ¬ d2 = 0x0A then 1 else 0,
          if d2 = 0x0D ∧ ¬ d3 = 0x0A then 1 else 0,
          if d3 = 0x0D ∧ ¬ d4 = 0x0A then 1 else 0,
          if d4 = 0x0D ∧ ¬ d5 = 0x0A then 1 else 0,
          if d5 = 0x0D ∧ ¬ d6 = 0x0A then 1 else 0,
          if d6 = 0x0D ∧ ¬ d7 = 0x0A then 1 else 0,
          if d7 = 0x0D then 1 else 0] := by
  have hcr := cmpEqByte_lanes [d0, d1, d2, d3, d4, d5, d6, d7] 0x0D hall rfl (by norm_num)
  simp only [List.map_cons, List.map_nil] at hcr
  have hlf := cmpEqByte_lanes [d0, d1, d2, d3, d4, d5, d6, d7] 0x0A hall rfl (by norm_num)
  simp only [List.map_cons, List.map_nil] at hlf
  have hlfLanes : Lanes [if d0 = 0x0A then (1:Nat) else 0, if d1 = 0x0A then 1 else 0,
      if d2 = 0x0A then 1 else 0, if d3 = 0x0A then 1 else 0, if d4 = 0x0A then 1 else 0,
      if d5 = 0x0A then 1 else 0, if d6 = 0x0A then 1 else 0, if d7 = 0x0A then 1 else 0] := by
    intro x hx
    simp only [List.mem_cons, List.not_mem_nil, or_false] at hx
    rcases hx with rfl | rfl | rfl | rfl | rfl | rfl | rfl | rfl <;> exact ind_lt_256 _
  have hcrLanes : Lanes [if d0 = 0x0D then (1:Nat) else 0, if d1 = 0x0D then 1 else 0,
      if d2 = 0x0D then 1 else 0, if d3 = 0x0D then 1 else 0, if d4 = 0x0D then 1 else 0,
      if d5 = 0x0D then 1 else 0, if d6 = 0x0D then 1 else 0, if d7 = 0x0D then 1 else 0] := by
    intro x hx
    simp only [List.mem_cons, List.not_mem_nil, or_false] at hx
    rcases hx with rfl | rfl | rfl | rfl | rfl | rfl | rfl | rfl <;> exact ind_lt_256 _
  have hpadLanes : Lanes [if d1 = 0x0A then (1:Nat) else 0, if d2 = 0x0A then 1 else 0,
      if d3 = 0x0A then 1 else 0, if d4 = 0x0A then 1 else 0, if d5 = 0x0A then 1 else 0,
      if d6 = 0x0A then 1 else 0, if d7 = 0x0A then 1 else 0, 0] := by
    intro x hx
    simp only [List.mem_cons, List.not_mem_nil, or_false] at hx
    rcases hx with rfl | rfl | rfl | rfl | rfl | rfl | rfl | rfl
    · exact ind_lt_256 _
    · exact ind_lt_256 _
    · exact ind_lt_256 _
    · exact ind_lt_256 _
    · exact ind_lt_256 _
    · exact ind_lt_256 _
    · exact ind_lt_256 _
    · norm_num
  rw [hcr, hlf, fromLanes_shiftBackLex _ hlfLanes 1]
  rw [show List.drop 1 [if d0 = 0x0A then (1:Nat) else 0, if d1 = 0x0A then 1 else 0,
      if d2 = 0x0A then 1 else 0, if d3 = 0x0A then 1 else 0, if d4 = 0x0A then 1 else 0,
      if d5 = 0x0A then 1 else 0, if d6 = 0x0A then 1 else 0, if d7 = 0x0A then 1 else 0]
    = [if d1 = 0x0A then (1:Nat) else 0, if d2 = 0x0A then 1 else 0,
      if d3 = 0x0A then 1 else 0, if d4 = 0x0A then 1 else 0, if d5 = 0x0A then 1 else 0,
      if d6 = 0x0A then 1 else 0, if d7 = 0x0A then 1 else 0] from rfl]
  rw [fromLanes7_pad, fromLanes_land _ _ hcrLanes hpadLanes (by rfl)]
  simp only [List.zipWith_cons_cons, List.zipWith_nil_left, ind_land, Nat.and_zero]
  have hpoint : ∀ i, i < ([if d0 = 0x0D then (1:Nat) else 0, if d1 = 0x0D then 1 else 0,
      if d2 = 0x0D then 1 else 0, if d3 = 0x0D then 1 else 0, if d4 = 0x0D then 1 else 0,
      if d5 = 0x0D then 1 else 0, if d6 = 0x0D then 1 else 0, if d7 = 0x0D then 1 else 0]).length →
      ([if d0 = 0x0D ∧ d1 = 0x0A then (1:Nat) else 0, if d1 = 0x0D ∧ d2 = 0x0A then 1 else 0,
        if d2 = 0x0D ∧ d3 = 0x0A then 1 else 0, if d3 = 0x0D ∧ d4 = 0x0A then 1 else 0,
        if d4 = 0x0D ∧ d5 = 0x0A then 1 else 0, if d5 = 0x0D ∧ d6 = 0x0A then 1 else 0,
        if d6 = 0x0D ∧ d7 = 0x0A then 1 else 0, 0]).getD i 0
        ≤ ([if d0 = 0x0D then (1:Nat) else 0, if d1 = 0x0D then 1 else 0,
        if d2 = 0x0D then 1 else 0, if d3 = 0x0D then 1 else 0, if d4 = 0x0D then 1 else 0,
        if d5 = 0x0D then 1 else 0, if d6 = 0x0D then 1 else 0,
        if d7 = 0x0D then 1 else 0]).getD i 0 := by
    intro i hi
    simp only [List.length_cons, List.length_nil] at hi
    interval_cases i <;> simp only [List.getD_cons_zero, List.getD_cons_succ] <;>
      first
        | exact ind_le_ind _ _ (fun h => h.1)
        | exact Nat.zero_le _
  have hle : fromLanes [if d0 = 0x0D ∧ d1 = 0x0A then (1:Nat) else 0,
      if d1 = 0x0D ∧ d2 = 0x0A then 1 else 0, if d2 = 0x0D ∧ d3 = 0x0A then 1 else 0,
      if d3 = 0x0D ∧ d4 = 0x0A then 1 else 0, if d4 = 0x0D ∧ d5 = 0x0A then 1 else 0,
      if d5 = 0x0D ∧ d6 = 0x0A then 1 else 0, if d6 = 0x0D ∧ d7 = 0x0A then 1 else 0, 0]
      ≤ fromLanes [if d0 = 0x0D then (1:Nat) else 0, if d1 = 0x0D then 1 else 0,
      if d2 = 0x0D then 1 else 0, if d3 = 0x0D then 1 else 0, if d4 = 0x0D then 1 else 0,
      if d5 = 0x0D then 1 else 0, if d6 = 0x0D then 1 else 0, if d7 = 0x0D then 1 else 0] :=
    fromLanes_le_of_le _ _ (by rfl) hpoint
  have hwd : fromLanes [if d0 = 0x0D then (1:Nat) else 0, if d1 = 0x0D then 1 else 0,
      if d2 = 0x0D then 1 else 0, if d3 = 0x0D then 1 else 0, if d4 = 0x0D then 1 else 0,
      if d5 = 0x0D then 1 else 0, if d6 = 0x0D then 1 else 0, if d7 = 0x0D then 1 else 0]
      < WORD :=
    fromLanes8_lt_word _ hcrLanes (by rfl)
  rw [wsub_eq _ _ hle hwd, fromLanes_sub _ _ (by rfl) hpoint]
  simp only [List.zipWith_cons_cons, List.zipWith_nil_left, ind_sub, Nat.sub_zero]

/-- A non-final position of the CR/CRLF reference splits into the LF flag
plus the CR-not-followed-by-LF flag. -/
theorem crlfInd_mid (l : List Nat) (p : Nat) (hp : p + 1 < l.length) :
    (if breakAtCrlf l p then (1:Nat) else 0)
      = (if bget l p = 0x0A then 1 else 0)
        + (if bget l p = 0x0D ∧ ¬ bget l (p + 1) = 0x0A then 1 else 0) := by
  rw [breakAtCrlf]
  have h1 : (p + 1 < l.length) = True := eq_true hp
  simp only [h1, true_and]
  by_cases ha : bget l p = 0x0A <;> by_cases hb : bget l p = 0x0D <;>
    by_cases hc : bget l (p + 1) = 0x0A <;> simp [ha, hb, hc]

theorem crlfCntLoop_step_flush (d0 d1 d2 d3 d4 d5 d6 d7 : Nat) (t : List Nat)
    (cnt : Int) (accW i : Nat) (lastCr : Bool) (hfl : 31 ≤ i + 1) :
    crlfCntChunkLoop (d0 :: d1 :: d2 :: d3 :: d4 :: d5 :: d6 :: d7 :: t) cnt accW i lastCr
      = crlfCntChunkLoop t
          (cnt + (sumBytes (wadd (wadd accW (cmpEqByte (fromLanes [d0, d1, d2, d3, d4, d5, d6, d7]) 0x0A))
              (wsub (cmpEqByte (fromLanes [d0, d1, d2, d3, d4, d5, d6, d7]) 0x0D)
                (cmpEqByte (fromLanes [d0, d1, d2, d3, d4, d5, d6, d7]) 0x0D &&&
                  shiftBackLex (cmpEqByte (fromLanes [d0, d1, d2, d3, d4, d5, d6, d7]) 0x0A) 1))) : Int)
            - (if d0 = 0x0A ∧ lastCr = true then 1 else 0))
          0 0 (decide (d7 = 0x0D)) := by
  rw [crlfCntChunkLoop, dif_pos (by simp only [List.length_cons]; omega :
    (8:Nat) ≤ (d0 :: d1 :: d2 :: d3 :: d4 :: d5 :: d6 :: d7 :: t).length)]
  simp only [show (d0 :: d1 :: d2 :: d3 :: d4 :: d5 :: d6 :: d7 :: t).take 8
      = [d0, d1, d2, d3, d4, d5, d6, d7] from rfl,
    show (d0 :: d1 :: d2 :: d3 :: d4 :: d5 :: d6 :: d7 :: t).drop 8 = t from rfl,
    show bget (d0 :: d1 :: d2 :: d3 :: d4 :: d5 :: d6 :: d7 :: t) 0 = d0 from rfl,
    show bget (d0 :: d1 :: d2 :: d3 :: d4 :: d5 :: d6 :: d7 :: t) 7 = d7 from rfl,
    if_pos hfl]

theorem crlfCntLoop_step_go (d0 d1 d2 d3 d4 d5 d6 d7 : Nat) (t : List Nat)
    (cnt : Int) (accW i : Nat) (lastCr : Bool) (hfl : ¬ 31 ≤ i + 1) :
    crlfCntChunkLoop (d0 :: d1 :: d2 :: d3 :: d4 :: d5 :: d6 :: d7 :: t) cnt accW i lastCr
      = crlfCntChunkLoop t
          (cnt - (if d0 = 0x0A ∧ lastCr = true then 1 else 0))
          (wadd (wadd accW (cmpEqByte (fromLanes [d0, d1, d2, d3, d4, d5, d6, d7]) 0x0A))
            (wsub (cmpEqByte (fromLanes [d0, d1, d2, d3, d4, d5, d6, d7]) 0x0D)
              (cmpEqByte (fromLanes [d0, d1, d2, d3, d4, d5, d6, d7]) 0x0D &&&
                shiftBackLex (cmpEqByte (fromLanes [d0, d1, d2, d3, d4, d5, d6, d7]) 0x0A) 1)))
          (i + 1) (decide (d7 = 0x0D)) := by
  rw [crlfCntChunkLoop, dif_pos (by simp only [List.length_cons]; omega :
    (8:Nat) ≤ (d0 :: d1 :: d2 :: d3 :: d4 :: d5 :: d6 :: d7 :: t).length)]
  simp only [show (d0 :: d1 :: d2 :: d3 :: d4 :: d5 :: d6 :: d7 :: t).take 8
      = [d0, d1, d2, d3, d4, d5, d6, d7] from rfl,
    show (d0 :: d1 :: d2 :: d3 :: d4 :: d5 :: d6 :: d7 :: t).drop 8 = t from rfl,
    show bget (d0 :: d1 :: d2 :: d3 :: d4 :: d5 :: d6 :: d7 :: t) 0 = d0 from rfl,
    show bget (d0 :: d1 :: d2 :: d3 :: d4 :: d5 :: d6 :: d7 :: t) 7 = d7 from rfl,
    if_neg hfl]

theorem ind10_13_le (d : Nat) (X : Prop) [Decidable X] :
    (if d = 0x0A then (1:Nat) else 0) + (if d = 0x0D ∧ X then 1 else 0) ≤ 1 := by
  by_cases h1 : d = 0x0A
  · subst h1
    simp
  · by_cases h2 : d = 0x0D
    · subst h2
      by_cases h3 : X <;> simp [h3]
    · simp [h1, h2]

theorem ind10_13_le2 (d : Nat) :
    (if d = 0x0A then (1:Nat) else 0) + (if d = 0x0D then 1 else 0) ≤ 1 := by
  by_cases h1 : d = 0x0A
  · subst h1
    simp
  · by_cases h2 : d = 0x0D
    · subst h2
      simp
    · simp [h1, h2]

/-- One CR/CRLF chunk accumulation step in lane form. -/
theorem crlf_acc2_lanes (e0 e1 e2 e3 e4 e5 e6 e7 d0 d1 d2 d3 d4 d5 d6 d7 i : Nat)
    (hes : ∀ e ∈ [e0, e1, e2, e3, e4, e5, e6, e7], e ≤ i) (hi : i ≤ 30)
    (hall : Lanes [d0, d1, d2, d3, d4, d5, d6, d7]) :
    wadd (wadd (fromLanes [e0, e1, e2, e3, e4, e5, e6, e7])
          (cmpEqByte (fromLanes [d0, d1, d2, d3, d4, d5, d6, d7]) 0x0A))
        (wsub (cmpEqByte (fromLanes [d0, d1, d2, d3, d4, d5, d6, d7]) 0x0D)
          (cmpEqByte (fromLanes [d0, d1, d2, d3, d4, d5, d6, d7]) 0x0D &&&
            shiftBackLex (cmpEqByte (fromLanes [d0, d1, d2, d3, d4, d5, d6, d7]) 0x0A) 1))
      = fromLanes
          [e0 + (if d0 = 0x0A then 1 else 0) + (if d0 = 0x0D ∧ ¬ d1 = 0x0A then 1 else 0),
           e1 + (if d1 = 0x0A then 1 else 0) + (if d1 = 0x0D ∧ ¬ d2 = 0x0A then 1 else 0),
           e2 + (if d2 = 0x0A then 1 else 0) + (if d2 = 0x0D ∧ ¬ d3 = 0x0A then 1 else 0),
           e3 + (if d3 = 0x0A then 1 else 0) + (if d3 = 0x0D ∧ ¬ d4 = 0x0A then 1 else 0),
           e4 + (if d4 = 0x0A then 1 else 0) + (if d4 = 0x0D ∧ ¬ d5 = 0x0A then 1 else 0),
           e5 + (if d5 = 0x0A then 1 else 0) + (if d5 = 0x0D ∧ ¬ d6 = 0x0A then 1 else 0),
           e6 + (if d6 = 0x0A then 1 else 0) + (if d6 = 0x0D ∧ ¬ d7 = 0x0A then 1 else 0),
           e7 + (if d7 = 0x0A then 1 else 0) + (if d7 = 0x0D then 1 else 0)] := by
  rw [crlf_word_lanes d0 d1 d2 d3 d4 d5 d6 d7 hall]
  have hlf := cmpEqByte_lanes [d0, d1, d2, d3, d4, d5, d6, d7] 0x0A hall rfl (by norm_num)
  simp only [List.map_cons, List.map_nil] at hlf
  rw [hlf]
  rw [wadd_fromLanes_small _ _ (by simp) (by simp) i 1 hes
    (by
      intro x hx
      simp only [List.mem_cons, List.not_mem_nil, or_false] at hx
      rcases hx with rfl | rfl | rfl | rfl | rfl | rfl | rfl | rfl <;> exact ind_le_one _)
    (by omega)]
  simp only [List.zipWith_cons_cons, List.zipWith_nil_left]
  rw [wadd_fromLanes_small _ _ (by simp) (by simp) (i + 1) 1
    (by
      intro x hx
      simp only [List.mem_cons, List.not_mem_nil, or_false] at hx
      have q0 := hes e0 (by simp)
      have q1 := hes e1 (by simp)
      have q2 := hes e2 (by simp)
      have q3 := hes e3 (by simp)
      have q4 := hes e4 (by simp)
      have q5 := hes e5 (by simp)
      have q6 := hes e6 (by simp)
      have q7 := hes e7 (by simp)
      have z0 := ind_le_one (d0 = 0x0A)
      have z1 := ind_le_one (d1 = 0x0A)
      have z2 := ind_le_one (d2 = 0x0A)
      have z3 := ind_le_one (d3 = 0x0A)
      have z4 := ind_le_one (d4 = 0x0A)
      have z5 := ind_le_one (d5 = 0x0A)
      have z6 := ind_le_one (d6 = 0x0A)
      have z7 := ind_le_one (d7 = 0x0A)
      rcases hx with rfl | rfl | rfl | rfl | rfl | rfl | rfl | rfl <;> omega)
    (by
      intro x hx
      simp only [List.mem_cons, List.not_mem_nil, or_false] at hx
      rcases hx with rfl | rfl | rfl | rfl | rfl | rfl | rfl | rfl <;> exact ind_le_one _)
    (by omega)]
  simp only [List.zipWith_cons_cons, List.zipWith_nil_left]

theorem crlfCntLoop_scalar (rest : List Nat) (cnt : Int) (es : List Nat) (i : Nat)
    (lastCr : Bool) (h8 : es.length = 8) (hes : ∀ e ∈ es, e ≤ i) (hi : i ≤ 30)
    (hshort : ¬ 8 ≤ rest.length) :
    crlfCntChunkLoop rest cnt (fromLanes es) i lastCr
      = cnt + (es.sum : Int) + (indSum breakAtCrlf rest rest.length : Nat)
        - (if lastCr = true ∧ bget rest 0 = 0x0A ∧ 0 < rest.length then 1 else 0) := by
  rw [crlfCntChunkLoop, dif_neg hshort, crlfScalarFold_eq]
  have hsb : sumBytes (fromLanes es) = es.sum := by
    refine sumBytes_fromLanes_small es h8 ?_
    have hsle : es.sum ≤ es.length * 30 := by
      have := List.sum_le_card_nsmul es 30 (fun x hx => le_trans (hes x hx) hi)
      simpa [smul_eq_mul] using this
    rw [h8] at hsle
    omega
  rw [hsb]

set_option maxHeartbeats 1600000 in
/-- The CR/CRLF chunk loop computes the forward reference break count of
its suffix, adjusted for a CRLF pair split at the entry boundary. -/
theorem crlfCntLoop_eq : ∀ n (rest : List Nat) (cnt : Int) (es : List Nat) (i : Nat)
    (lastCr : Bool), rest.length ≤ n → ByteList rest → es.length = 8 →
    (∀ e ∈ es, e ≤ i) → i ≤ 30 →
    crlfCntChunkLoop rest cnt (fromLanes es) i lastCr
      = cnt + (es.sum : Int) + (indSum breakAtCrlf rest rest.length : Nat)
        - (if lastCr = true ∧ bget rest 0 = 0x0A ∧ 0 < rest.length then 1 else 0) := by
  intro n
  induction n with
  | zero =>
    intro rest cnt es i lastCr hlen hB h8 hes hi
    exact crlfCntLoop_scalar rest cnt es i lastCr h8 hes hi (by omega)
  | succ n ih =>
    intro rest cnt es i lastCr hlen hB h8 hes hi
    by_cases h8r : 8 ≤ rest.length
    · obtain ⟨d0, d1, d2, d3, d4, d5, d6, d7, t, rfl⟩ := destruct8 rest h8r
      obtain ⟨e0, e1, e2, e3, e4, e5, e6, e7, rfl⟩ := length8_destruct es h8
      have hall : Lanes [d0, d1, d2, d3, d4, d5, d6, d7] := by
        intro x hx
        simp only [List.mem_cons, List.not_mem_nil, or_false] at hx
        rcases hx with rfl | rfl | rfl | rfl | rfl | rfl | rfl | rfl <;> exact hB _ (by simp)
      have htB : ByteList t := fun x hx => hB x (by simp [hx])
      have htlen : t.length ≤ n := by
        simp only [List.length_cons] at hlen
        omega
      have hsplit := indSum_add_drop breakAtCrlf (d0 :: d1 :: d2 :: d3 :: d4 :: d5 :: d6 :: d7 :: t) 8
        (fun p => breakAtCrlf_drop _ 8 p) t.length
      rw [show (d0 :: d1 :: d2 :: d3 :: d4 :: d5 :: d6 :: d7 :: t).drop 8 = t from rfl] at hsplit
      rw [indSum_range breakAtCrlf _ 8, show List.range 8 = [0,1,2,3,4,5,6,7] from rfl] at hsplit
      simp only [List.map_cons, List.map_nil, List.sum_cons, List.sum_nil] at hsplit
      have hm0 := crlfInd_mid (d0 :: d1 :: d2 :: d3 :: d4 :: d5 :: d6 :: d7 :: t) 0 (by simp only [List.length_cons]; omega)
      simp only [show bget (d0 :: d1 :: d2 :: d3 :: d4 :: d5 :: d6 :: d7 :: t) 0 = d0 from rfl,
        show bget (d0 :: d1 :: d2 :: d3 :: d4 :: d5 :: d6 :: d7 :: t) (0 + 1) = d1 from rfl] at hm0
      have hm1 := crlfInd_mid (d0 :: d1 :: d2 :: d3 :: d4 :: d5 :: d6 :: d7 :: t) 1 (by simp only [List.length_cons]; omega)
      simp only [show bget (d0 :: d1 :: d2 :: d3 :: d4 :: d5 :: d6 :: d7 :: t) 1 = d1 from rfl,
        show bget (d0 :: d1 :: d2 :: d3 :: d4 :: d5 :: d6 :: d7 :: t) (1 + 1) = d2 from rfl] at hm1
      have hm2 := crlfInd_mid (d0 :: d1 :: d2 :: d3 :: d4 :: d5 :: d6 :: d7 :: t) 2 (by simp only [List.length_cons]; omega)
      simp only [show bget (d0 :: d1 :: d2 :: d3 :: d4 :: d5 :: d6 :: d7 :: t) 2 = d2 from rfl,
        show bget (d0 :: d1 :: d2 :: d3 :: d4 :: d5 :: d6 :: d7 :: t) (2 + 1) = d3 from rfl] at hm2
      have hm3 := crlfInd_mid (d0 :: d1 :: d2 :: d3 :: d4 :: d5 :: d6 :: d7 :: t) 3 (by simp only [List.length_cons]; omega)
      simp only [show bget (d0 :: d1 :: d2 :: d3 :: d4 :: d5 :: d6 :: d7 :: t) 3 = d3 from rfl,
        show bget (d0 :: d1 :: d2 :: d3 :: d4 :: d5 :: d6 :: d7 :: t) (3 + 1) = d4 from rfl] at hm3
      have hm4 := crlfInd_mid (d0 :: d1 :: d2 :: d3 :: d4 :: d5 :: d6 :: d7 :: t) 4 (by simp only [List.length_cons]; omega)
      simp only [show bget (d0 :: d1 :: d2 :: d3 :: d4 :: d5 :: d6 :: d7 :: t) 4 = d4 from rfl,
        show bget (d0 :: d1 :: d2 :: d3 :: d4 :: d5 :: d6 :: d7 :: t) (4 + 1) = d5 from rfl] at hm4
      have hm5 := crlfInd_mid (d0 :: d1 :: d2 :: d3 :: d4 :: d5 :: d6 :: d7 :: t) 5 (by simp only [List.length_cons]; omega)
      simp only [show bget (d0 :: d1 :: d2 :: d3 :: d4 :: d5 :: d6 :: d7 :: t) 5 = d5 from rfl,
        show bget (d0 :: d1 :: d2 :: d3 :: d4 :: d5 :: d6 :: d7 :: t) (5 + 1) = d6 from rfl] at hm5
      have hm6 := crlfInd_mid (d0 :: d1 :: d2 :: d3 :: d4 :: d5 :: d6 :: d7 :: t) 6 (by simp only [List.length_cons]; omega)
      simp only [show bget (d0 :: d1 :: d2 :: d3 :: d4 :: d5 :: d6 :: d7 :: t) 6 = d6 from rfl,
        show bget (d0 :: d1 :: d2 :: d3 :: d4 :: d5 :: d6 :: d7 :: t) (6 + 1) = d7 from rfl] at hm6
      rw [hm0, hm1, hm2, hm3, hm4, hm5, hm6] at hsplit
      have h7 : (if breakAtCrlf (d0 :: d1 :: d2 :: d3 :: d4 :: d5 :: d6 :: d7 :: t) 7 then (1:Nat) else 0)
          + (if d7 = 0x0D ∧ bget t 0 = 0x0A ∧ 0 < t.length then 1 else 0)
          = (if d7 = 0x0A then 1 else 0) + (if d7 = 0x0D then 1 else 0) := by
        rw [breakAtCrlf]
        simp only [show bget (d0 :: d1 :: d2 :: d3 :: d4 :: d5 :: d6 :: d7 :: t) 7 = d7 from rfl,
          show bget (d0 :: d1 :: d2 :: d3 :: d4 :: d5 :: d6 :: d7 :: t) (7 + 1) = bget t 0 from rfl,
          show (7 + 1 < (d0 :: d1 :: d2 :: d3 :: d4 :: d5 :: d6 :: d7 :: t).length) = (0 < t.length) from by
            simp only [List.length_cons]; exact propext (by omega)]
        by_cases h1 : d7 = 0x0A
        · subst h1
          by_cases h3 : bget t 0 = 0x0A <;> by_cases h4 : 0 < t.length <;> simp [h3, h4]
        · by_cases h2 : d7 = 0x0D
          · subst h2
            by_cases h3 : bget t 0 = 0x0A <;> by_cases h4 : 0 < t.length <;> simp [h1, h3, h4]
          · by_cases h3 : bget t 0 = 0x0A <;> by_cases h4 : 0 < t.length <;>
              simp [h1, h2, h3, h4]
      simp only [show bget (d0 :: d1 :: d2 :: d3 :: d4 :: d5 :: d6 :: d7 :: t) 0 = d0 from rfl,
        show (0 < (d0 :: d1 :: d2 :: d3 :: d4 :: d5 :: d6 :: d7 :: t).length) = True from eq_true (by simp), and_true]
      rw [show (d0 :: d1 :: d2 :: d3 :: d4 :: d5 :: d6 :: d7 :: t).length = 8 + t.length from by simp only [List.length_cons]; omega]
      rw [hsplit]
      have hcomm : (if d0 = 0x0A ∧ lastCr = true then (1:Int) else 0)
          = (if lastCr = true ∧ d0 = 0x0A then 1 else 0) := by
        by_cases h1 : d0 = 0x0A <;> by_cases h2 : lastCr = true <;> simp [h1, h2]
      by_cases hfl : 31 ≤ i + 1
      · rw [crlfCntLoop_step_flush d0 d1 d2 d3 d4 d5 d6 d7 t cnt
            (fromLanes [e0, e1, e2, e3, e4, e5, e6, e7]) i lastCr hfl,
          crlf_acc2_lanes e0 e1 e2 e3 e4 e5 e6 e7 d0 d1 d2 d3 d4 d5 d6 d7 i hes hi hall,
          sumBytes_fromLanes_small _ (by simp) (by
          simp only [List.sum_cons, List.sum_nil]
          have q0 := hes e0 (by simp)
          have q1 := hes e1 (by simp)
          have q2 := hes e2 (by simp)
          have q3 := hes e3 (by simp)
          have q4 := hes e4 (by simp)
          have q5 := hes e5 (by simp)
          have q6 := hes e6 (by simp)
          have q7 := hes e7 (by simp)
          have w0 := ind10_13_le d0 (¬ d1 = 0x0A)
          have w1 := ind10_13_le d1 (¬ d2 = 0x0A)
          have w2 := ind10_13_le d2 (¬ d3 = 0x0A)
          have w3 := ind10_13_le d3 (¬ d4 = 0x0A)
          have w4 := ind10_13_le d4 (¬ d5 = 0x0A)
          have w5 := ind10_13_le d5 (¬ d6 = 0x0A)
          have w6 := ind10_13_le d6 (¬ d7 = 0x0A)
          have w7 := ind10_13_le2 d7
          omega)]
        have hrec := ih t (cnt + (([e0 + (if d0 = 0x0A then 1 else 0) + (if d0 = 0x0D ∧ ¬ d1 = 0x0A then 1 else 0),
           e1 + (if d1 = 0x0A then 1 else 0) + (if d1 = 0x0D ∧ ¬ d2 = 0x0A then 1 else 0),
           e2 + (if d2 = 0x0A then 1 else 0) + (if d2 = 0x0D ∧ ¬ d3 = 0x0A then 1 else 0),
           e3 + (if d3 = 0x0A then 1 else 0) + (if d3 = 0x0D ∧ ¬ d4 = 0x0A then 1 else 0),
           e4 + (if d4 = 0x0A then 1 else 0) + (if d4 = 0x0D ∧ ¬ d5 = 0x0A then 1 else 0),
           e5 + (if d5 = 0x0A then 1 else 0) + (if d5 = 0x0D ∧ ¬ d6 = 0x0A then 1 else 0),
           e6 + (if d6 = 0x0A then 1 else 0) + (if d6 = 0x0D ∧ ¬ d7 = 0x0A then 1 else 0),
           e7 + (if d7 = 0x0A then 1 else 0) + (if d7 = 0x0D then 1 else 0)].sum : Nat) : Int)
              - (if d0 = 0x0A ∧ lastCr = true then 1 else 0))
            (List.replicate 8 0) 0 (decide (d7 = 0x0D)) htlen htB (by simp)
            (fun e he => by rw [List.eq_of_mem_replicate he]) (by norm_num)
        rw [show fromLanes (List.replicate 8 0) = (0:Nat) from by decide] at hrec
        rw [hrec]
        simp only [show (List.replicate 8 (0:Nat)).sum = 0 from rfl, Nat.cast_zero, add_zero,
          decide_eq_true_eq, List.sum_cons, List.sum_nil]
        clear hrec
        have h7i : ((if breakAtCrlf (d0 :: d1 :: d2 :: d3 :: d4 :: d5 :: d6 :: d7 :: t) 7 = true then (1:Nat) else 0) : Int)
            + (if d7 = 0x0D ∧ bget t 0 = 0x0A ∧ 0 < t.length then (1:Int) else 0)
            = ((if d7 = 0x0A then (1:Nat) else 0) : Int)
              + ((if d7 = 0x0D then (1:Nat) else 0) : Int) := by
          rw [show (if d7 = 0x0D ∧ bget t 0 = 0x0A ∧ 0 < t.length then (1:Int) else 0)
              = ((if d7 = 0x0D ∧ bget t 0 = 0x0A ∧ 0 < t.length then (1:Nat) else 0) : Int) from by
            by_cases hx : d7 = 0x0D ∧ bget t 0 = 0x0A ∧ 0 < t.length <;> simp [hx]]
          exact_mod_cast h7
        push_cast at h7i ⊢
        linarith [h7i, hcomm]
      · rw [crlfCntLoop_step_go d0 d1 d2 d3 d4 d5 d6 d7 t cnt
            (fromLanes [e0, e1, e2, e3, e4, e5, e6, e7]) i lastCr hfl,
          crlf_acc2_lanes e0 e1 e2 e3 e4 e5 e6 e7 d0 d1 d2 d3 d4 d5 d6 d7 i hes hi hall]
        have hrec := ih t (cnt - (if d0 = 0x0A ∧ lastCr = true then 1 else 0))
            ([e0 + (if d0 = 0x0A then 1 else 0) + (if d0 = 0x0D ∧ ¬ d1 = 0x0A then 1 else 0),
           e1 + (if d1 = 0x0A then 1 else 0) + (if d1 = 0x0D ∧ ¬ d2 = 0x0A then 1 else 0),
           e2 + (if d2 = 0x0A then 1 else 0) + (if d2 = 0x0D ∧ ¬ d3 = 0x0A then 1 else 0),
           e3 + (if d3 = 0x0A then 1 else 0) + (if d3 = 0x0D ∧ ¬ d4 = 0x0A then 1 else 0),
           e4 + (if d4 = 0x0A then 1 else 0) + (if d4 = 0x0D ∧ ¬ d5 = 0x0A then 1 else 0),
           e5 + (if d5 = 0x0A then 1 else 0) + (if d5 = 0x0D ∧ ¬ d6 = 0x0A then 1 else 0),
           e6 + (if d6 = 0x0A then 1 else 0) + (if d6 = 0x0D ∧ ¬ d7 = 0x0A then 1 else 0),
           e7 + (if d7 = 0x0A then 1 else 0) + (if d7 = 0x0D then 1 else 0)]) (i + 1) (decide (d7 = 0x0D)) htlen htB (by simp)
            (by
              intro x hx
              simp only [List.mem_cons, List.not_mem_nil, or_false] at hx
              have q0 := hes e0 (by simp)
              have q1 := hes e1 (by simp)
              have q2 := hes e2 (by simp)
              have q3 := hes e3 (by simp)
              have q4 := hes e4 (by simp)
              have q5 := hes e5 (by simp)
              have q6 := hes e6 (by simp)
              have q7 := hes e7 (by simp)
              have w0 := ind10_13_le d0 (¬ d1 = 0x0A)
              have w1 := ind10_13_le d1 (¬ d2 = 0x0A)
              have w2 := ind10_13_le d2 (¬ d3 = 0x0A)
              have w3 := ind10_13_le d3 (¬ d4 = 0x0A)
              have w4 := ind10_13_le d4 (¬ d5 = 0x0A)
              have w5 := ind10_13_le d5 (¬ d6 = 0x0A)
              have w6 := ind10_13_le d6 (¬ d7 = 0x0A)
              have w7 := ind10_13_le2 d7
              rcases hx with rfl | rfl | rfl | rfl | rfl | rfl | rfl | rfl <;> omega)
            (by omega)
        rw [hrec]
        simp only [decide_eq_true_eq, List.sum_cons, List.sum_nil]
        clear hrec
        have h7i : ((if breakAtCrlf (d0 :: d1 :: d2 :: d3 :: d4 :: d5 :: d6 :: d7 :: t) 7 = true then (1:Nat) else 0) : Int)
            + (if d7 = 0x0D ∧ bget t 0 = 0x0A ∧ 0 < t.length then (1:Int) else 0)
            = ((if d7 = 0x0A then (1:Nat) else 0) : Int)
              + ((if d7 = 0x0D then (1:Nat) else 0) : Int) := by
          rw [show (if d7 = 0x0D ∧ bget t 0 = 0x0A ∧ 0 < t.length then (1:Int) else 0)
              = ((if d7 = 0x0D ∧ bget t 0 = 0x0A ∧ 0 < t.length then (1:Nat) else 0) : Int) from by
            by_cases hx : d7 = 0x0D ∧ bget t 0 = 0x0A ∧ 0 < t.length <;> simp [hx]]
          exact_mod_cast h7
        push_cast at h7i ⊢
        linarith [h7i, hcomm]
    · exact crlfCntLoop_scalar rest cnt es i lastCr h8 hes hi h8r

theorem bget_take (l : List Nat) (s p : Nat) (hp : p < s) : bget (l.take s) p = bget l p := by
  rw [bget, bget, List.getD_eq_getElem?_getD, List.getD_eq_getElem?_getD, List.getElem?_take,
    if_pos hp]

theorem indSum_congr (ind1 ind2 : List Nat → Nat → Bool) (l1 l2 : List Nat) :
    ∀ n, (∀ p, p < n → ind1 l1 p = ind2 l2 p) → indSum ind1 l1 n = indSum ind2 l2 n := by
  intro n
  induction n with
  | zero => intro h; rfl
  | succ n ih =>
    intro h
    rw [indSum_succ, indSum_succ, ih (fun p hp => h p (by omega)), h n (by omega)]

theorem breakAtCrlf_take (l : List Nat) (s p : Nat) (hs : s ≤ l.length) (hp : p + 1 < s) :
    breakAtCrlf (l.take s) p = breakAtCrlf l p := by
  rw [breakAtCrlf, breakAtCrlf]
  have hb1 : bget (l.take s) p = bget l p := bget_take l s p (by omega)
  have hb2 : bget (l.take s) (p + 1) = bget l (p + 1) := bget_take l s (p + 1) hp
  have hlen : (p + 1 < (l.take s).length) = (p + 1 < l.length) := by
    rw [List.length_take]
    exact propext (by omega)
  simp only [hb1, hb2, hlen]

/-- Counting CR/CRLF reference breaks over a prefix taken as a standalone
slice counts one break more than the full-text scan exactly when the cut
splits a CRLF pair. -/
theorem indSum_take_crlf (text : List Nat) (s : Nat) (hs : s ≤ text.length) :
    indSum breakAtCrlf (text.take s) s
      = indSum breakAtCrlf text s
        + (if 0 < s ∧ bget text (s - 1) = 0x0D ∧ s < text.length ∧ bget text s = 0x0A
           then 1 else 0) := by
  rcases Nat.eq_zero_or_pos s with rfl | hpos
  · simp [indSum]
  · obtain ⟨m, rfl⟩ : ∃ m, s = m + 1 := ⟨s - 1, by omega⟩
    rw [indSum_succ, indSum_succ,
      indSum_congr breakAtCrlf breakAtCrlf (text.take (m + 1)) text m
        (fun p hp => breakAtCrlf_take text (m + 1) p hs (by omega))]
    have hbm : bget (text.take (m + 1)) m = bget text m := bget_take text (m + 1) m (by omega)
    have hlenT : (m + 1 < (text.take (m + 1)).length) = False := by
      rw [List.length_take_of_le hs]
      simp
    have hsm : m + 1 - 1 = m := by omega
    rw [breakAtCrlf, breakAtCrlf]
    simp only [hbm, hlenT, hsm, false_and, not_false_iff, decide_True]
    by_cases h1 : bget text m = 0x0A <;> by_cases h2 : bget text m = 0x0D <;>
      by_cases h3 : m + 1 < text.length <;> by_cases h4 : bget text (m + 1) = 0x0A <;>
      simp [h1, h2, h3, h4]

/-- lines_crlf::count_breaks equals the CR/CRLF reference recognizer
count. -/
theorem lines_crlf_count_eq (a : Nat) (text : List Nat) (hB : ByteList text) :
    lines_crlf_count_breaks a text = indSum breakAtCrlf text text.length := by
  show (crlfCntChunkLoop (text.drop (min a text.length))
      ((crlfScalarFold (text.take (min a text.length)) 0 false).1) 0 0
      ((crlfScalarFold (text.take (min a text.length)) 0 false).2)).toNat = _
  have hsle : min a text.length ≤ text.length := Nat.min_le_right a text.length
  have htlen : (text.take (min a text.length)).length = min a text.length :=
    List.length_take_of_le hsle
  have hloop := crlfCntLoop_eq (text.drop (min a text.length)).length
    (text.drop (min a text.length))
    ((crlfScalarFold (text.take (min a text.length)) 0 false).1)
    (List.replicate 8 0) 0
    ((crlfScalarFold (text.take (min a text.length)) 0 false).2)
    (le_refl _) (byteList_drop _ _ hB) (by simp)
    (fun e he => by rw [List.eq_of_mem_replicate he]) (by norm_num)
  rw [show fromLanes (List.replicate 8 0) = (0:Nat) from by decide] at hloop
  rw [hloop, crlfScalarFold_eq, crlfScalarFold_snd]
  simp only [htlen, Bool.false_eq_true, false_and, if_false, sub_zero, zero_add,
    show (List.replicate 8 (0:Nat)).sum = 0 from rfl, Nat.cast_zero, add_zero]
  rw [indSum_take_crlf text (min a text.length) hsle]
  have hsplitT := indSum_add_drop breakAtCrlf text (min a text.length)
    (fun p => breakAtCrlf_drop text (min a text.length) p) (text.length - min a text.length)
  rw [show min a text.length + (text.length - min a text.length) = text.length from by omega]
    at hsplitT
  rw [show (text.drop (min a text.length)).length = text.length - min a text.length from by
    simp [List.length_drop]]
  rw [hsplitT]
  have hadj : (if (if 0 < min a text.length
          then decide (bget (text.take (min a text.length)) (min a text.length - 1) = 0x0D)
          else false) = true
        ∧ bget (text.drop (min a text.length)) 0 = 0x0A
        ∧ 0 < text.length - min a text.length then (1:Int) else 0)
      = (if 0 < min a text.length ∧ bget text (min a text.length - 1) = 0x0D
          ∧ min a text.length < text.length ∧ bget text (min a text.length) = 0x0A
         then 1 else 0) := by
    have hb0 : bget (text.drop (min a text.length)) 0 = bget text (min a text.length) := by
      rw [bget_drop, Nat.add_zero]
    by_cases h0 : 0 < min a text.length
    · have hbm : bget (text.take (min a text.length)) (min a text.length - 1)
          = bget text (min a text.length - 1) := bget_take _ _ _ (by omega)
      simp only [h0, if_true, hbm, hb0, decide_eq_true_eq, true_and]
      by_cases h1 : bget text (min a text.length - 1) = 0x0D <;>
        by_cases h2 : bget text (min a text.length) = 0x0A <;>
        by_cases h3 : 0 < text.length - min a text.length <;>
        simp [h1, h2, h3] <;> omega
    · simp only [h0, if_false, Bool.false_eq_true, false_and, if_false]
  rw [hadj]
  push_cast
  by_cases hseam : 0 < min a text.length ∧ bget text (min a text.length - 1) = 0x0D
      ∧ min a text.length < text.length ∧ bget text (min a text.length) = 0x0A <;>
    simp [hseam] <;> omega

/-! ## lines (Unicode) count equivalence -/

theorem uniLane_mid (b c e : Nat) :
    (if b = 0xC2 ∧ c = 0x85 then (1:Nat) else 0)
      + (if (c = 0x80 ∧ b = 0xE2) ∧ e >>> 1 = 0x54 then 1 else 0)
      + (if 9 < b ∧ b < 14 then 1 else 0)
      - (if b = 0x0D ∧ c = 0x0A then 1 else 0)
      = if (if 0x0A ≤ b ∧ b ≤ 0x0D then decide (¬ (b = 0x0D ∧ c = 0x0A))
            else if b = 0xC2 then decide (c = 0x85)
            else if b = 0xE2 then decide (c = 0x80 ∧ e >>> 1 = 0x54)
            else false) = true then 1 else 0 := by
  by_cases h2 : b = 0xC2
  · subst h2
    by_cases h4 : c = 0x85 <;> simp [h4]
  · by_cases h3 : b = 0xE2
    · subst h3
      by_cases h5 : c = 0x80 <;> by_cases h8 : e >>> 1 = 0x54 <;> simp [h5, h8]
    · by_cases h6 : b = 0x0D
      · subst h6
        by_cases h7 : c = 0x0A <;> simp [h7]
      · by_cases h1 : 0x0A ≤ b ∧ b ≤ 0x0D
        · have hf : (9 < b ∧ b < 14) := by omega
          simp [h1, h2, h3, h6, hf]
        · have hf : ¬ (9 < b ∧ b < 14) := by omega
          simp [h1, h2, h3, h6, hf]

theorem uniLane_six (b c e : Nat) (Q1 : Prop) [Decidable Q1] :
    (if b = 0xC2 ∧ c = 0x85 then (1:Nat) else 0)
      + (if Q1 ∧ b = 0xE2 ∧ c = 0x80 ∧ e >>> 1 = 0x54 then 1 else 0)
      + (if 9 < b ∧ b < 14 then 1 else 0)
      - (if b = 0x0D ∧ c = 0x0A then 1 else 0)
      = if (if 0x0A ≤ b ∧ b ≤ 0x0D then decide (¬ (b = 0x0D ∧ c = 0x0A))
            else if b = 0xC2 then decide (c = 0x85)
            else if b = 0xE2 then decide (Q1 ∧ c = 0x80 ∧ e >>> 1 = 0x54)
            else false) = true then 1 else 0 := by
  by_cases h2 : b = 0xC2
  · subst h2
    by_cases h4 : c = 0x85 <;> simp [h4]
  · by_cases h3 : b = 0xE2
    · subst h3
      by_cases hq : Q1 <;> by_cases h5 : c = 0x80 <;> by_cases h8 : e >>> 1 = 0x54 <;>
        simp [hq, h5, h8]
    · by_cases h6 : b = 0x0D
      · subst h6
        by_cases h7 : c = 0x0A <;> simp [h7]
      · by_cases h1 : 0x0A ≤ b ∧ b ≤ 0x0D
        · have hf : (9 < b ∧ b < 14) := by omega
          simp [h1, h2, h3, h6, hf]
        · have hf : ¬ (9 < b ∧ b < 14) := by omega
          simp [h1, h2, h3, h6, hf]

theorem uniLane_seven (b c e : Nat) (Q1 Q2 : Prop) [Decidable Q1] [Decidable Q2] :
    (if Q1 ∧ b = 0xC2 ∧ c = 0x85 then (1:Nat) else 0)
      + (if Q2 ∧ b = 0xE2 ∧ c = 0x80 ∧ e >>> 1 = 0x54 then 1 else 0)
      + (if 9 < b ∧ b < 14 then 1 else 0)
      - (if Q1 ∧ b = 0x0D ∧ c = 0x0A then 1 else 0)
      = if (if 0x0A ≤ b ∧ b ≤ 0x0D then decide (¬ (b = 0x0D ∧ Q1 ∧ c = 0x0A))
            else if b = 0xC2 then decide (Q1 ∧ c = 0x85)
            else if b = 0xE2 then decide (Q2 ∧ c = 0x80 ∧ e >>> 1 = 0x54)
            else false) = true then 1 else 0 := by
  by_cases h2 : b = 0xC2
  · subst h2
    by_cases hq : Q1 <;> by_cases h4 : c = 0x85 <;> simp [hq, h4]
  · by_cases h3 : b = 0xE2
    · subst h3
      by_cases hq : Q2 <;> by_cases h5 : c = 0x80 <;> by_cases h8 : e >>> 1 = 0x54 <;>
        simp [hq, h5, h8]
    · by_cases h6 : b = 0x0D
      · subst h6
        by_cases hq : Q1 <;> by_cases h7 : c = 0x0A <;> simp [hq, h7]
      · by_cases h1 : 0x0A ≤ b ∧ b ≤ 0x0D
        · have hf : (9 < b ∧ b < 14) := by omega
          simp [h1, h2, h3, h6, hf]
        · have hf : ¬ (9 < b ∧ b < 14) := by omega
          simp [h1, h2, h3, h6, hf]

theorem lanes_of_all_le_one (l : List Nat) (h : ∀ x ∈ l, x ≤ 1) : Lanes l :=
  fun x hx => lt_of_le_of_lt (h x hx) (by norm_num)

theorem cmp_shift1_land (d0 d1 d2 d3 d4 d5 d6 d7 x y : Nat)
    (hall : Lanes [d0, d1, d2, d3, d4, d5, d6, d7]) (hx : x < 256) (hy : y < 256) :
    cmpEqByte (fromLanes [d0, d1, d2, d3, d4, d5, d6, d7]) x &&&
        shiftBackLex (cmpEqByte (fromLanes [d0, d1, d2, d3, d4, d5, d6, d7]) y) 1
      = fromLanes [if d0 = x ∧ d1 = y then (1:Nat) else 0, if d1 = x ∧ d2 = y then 1 else 0,
          if d2 = x ∧ d3 = y then 1 else 0, if d3 = x ∧ d4 = y then 1 else 0,
          if d4 = x ∧ d5 = y then 1 else 0, if d5 = x ∧ d6 = y then 1 else 0,
          if d6 = x ∧ d7 = y then 1 else 0, 0] := by
  have hxw := cmpEqByte_lanes [d0, d1, d2, d3, d4, d5, d6, d7] x hall rfl hx
  simp only [List.map_cons, List.map_nil] at hxw
  have hyw := cmpEqByte_lanes [d0, d1, d2, d3, d4, d5, d6, d7] y hall rfl hy
  simp only [List.map_cons, List.map_nil] at hyw
  have hyl : Lanes [if d0 = y then (1:Nat) else 0, if d1 = y then 1 else 0,
      if d2 = y then 1 else 0, if d3 = y then 1 else 0, if d4 = y then 1 else 0,
      if d5 = y then 1 else 0, if d6 = y then 1 else 0, if d7 = y then 1 else 0] := by
    refine lanes_of_all_le_one _ ?_
    intro v hv
    simp only [List.mem_cons, List.not_mem_nil, or_false] at hv
    rcases hv with rfl | rfl | rfl | rfl | rfl | rfl | rfl | rfl <;> exact ind_le_one _
  have hxl : Lanes [if d0 = x then (1:Nat) else 0, if d1 = x then 1 else 0,
      if d2 = x then 1 else 0, if d3 = x then 1 else 0, if d4 = x then 1 else 0,
      if d5 = x then 1 else 0, if d6 = x then 1 else 0, if d7 = x then 1 else 0] := by
    refine lanes_of_all_le_one _ ?_
    intro v hv
    simp only [List.mem_cons, List.not_mem_nil, or_false] at hv
    rcases hv with rfl | rfl | rfl | rfl | rfl | rfl | rfl | rfl <;> exact ind_le_one _
  have hpl : Lanes [if d1 = y then (1:Nat) else 0, if d2 = y then 1 else 0,
      if d3 = y then 1 else 0, if d4 = y then 1 else 0, if d5 = y then 1 else 0,
      if d6 = y then 1 else 0, if d7 = y then 1 else 0, 0] := by
    refine lanes_of_all_le_one _ ?_
    intro v hv
    simp only [List.mem_cons, List.not_mem_nil, or_false] at hv
    rcases hv with rfl | rfl | rfl | rfl | rfl | rfl | rfl | rfl <;>
      first
        | exact ind_le_one _
        | exact Nat.zero_le _
  rw [hxw, hyw, fromLanes_shiftBackLex _ hyl 1]
  rw [show List.drop 1 [if d0 = y then (1:Nat) else 0, if d1 = y then 1 else 0,
      if d2 = y then 1 else 0, if d3 = y then 1 else 0, if d4 = y then 1 else 0,
      if d5 = y then 1 else 0, if d6 = y then 1 else 0, if d7 = y then 1 else 0]
    = [if d1 = y then (1:Nat) else 0, if d2 = y then 1 else 0, if d3 = y then 1 else 0,
      if d4 = y then 1 else 0, if d5 = y then 1 else 0, if d6 = y then 1 else 0,
      if d7 = y then 1 else 0] from rfl]
  rw [fromLanes7_pad, fromLanes_land _ _ hxl hpl (by rfl)]
  simp only [List.zipWith_cons_cons, List.zipWith_nil_left, ind_land, Nat.and_zero]

theorem shift1_cmp_land (d0 d1 d2 d3 d4 d5 d6 d7 x y : Nat)
    (hall : Lanes [d0, d1, d2, d3, d4, d5, d6, d7]) (hx : x < 256) (hy : y < 256) :
    shiftBackLex (cmpEqByte (fromLanes [d0, d1, d2, d3, d4, d5, d6, d7]) y) 1 &&&
        cmpEqByte (fromLanes [d0, d1, d2, d3, d4, d5, d6, d7]) x
      = fromLanes [if d1 = y ∧ d0 = x then (1:Nat) else 0, if d2 = y ∧ d1 = x then 1 else 0,
          if d3 = y ∧ d2 = x then 1 else 0, if d4 = y ∧ d3 = x then 1 else 0,
          if d5 = y ∧ d4 = x then 1 else 0, if d6 = y ∧ d5 = x then 1 else 0,
          if d7 = y ∧ d6 = x then 1 else 0, 0] := by
  have hxw := cmpEqByte_lanes [d0, d1, d2, d3, d4, d5, d6, d7] x hall rfl hx
  simp only [List.map_cons, List.map_nil] at hxw
  have hyw := cmpEqByte_lanes [d0, d1, d2, d3, d4, d5, d6, d7] y hall rfl hy
  simp only [List.map_cons, List.map_nil] at hyw
  have hyl : Lanes [if d0 = y then (1:Nat) else 0, if d1 = y then 1 else 0,
      if d2 = y then 1 else 0, if d3 = y then 1 else 0, if d4 = y then 1 else 0,
      if d5 = y then 1 else 0, if d6 = y then 1 else 0, if d7 = y then 1 else 0] := by
    refine lanes_of_all_le_one _ ?_
    intro v hv
    simp only [List.mem_cons, List.not_mem_nil, or_false] at hv
    rcases hv with rfl | rfl | rfl | rfl | rfl | rfl | rfl | rfl <;> exact ind_le_one _
  have hxl : Lanes [if d0 = x then (1:Nat) else 0, if d1 = x then 1 else 0,
      if d2 = x then 1 else 0, if d3 = x then 1 else 0, if d4 = x then 1 else 0,
      if d5 = x then 1 else 0, if d6 = x then 1 else 0, if d7 = x then 1 else 0] := by
    refine lanes_of_all_le_one _ ?_
    intro v hv
    simp only [List.mem_cons, List.not_mem_nil, or_false] at hv
    rcases hv with rfl | rfl | rfl | rfl | rfl | rfl | rfl | rfl <;> exact ind_le_one _
  have hpl : Lanes [if d1 = y then (1:Nat) else 0, if d2 = y then 1 else 0,
      if d3 = y then 1 else 0, if d4 = y then 1 else 0, if d5 = y then 1 else 0,
      if d6 = y then 1 else 0, if d7 = y then 1 else 0, 0] := by
    refine lanes_of_all_le_one _ ?_
    intro v hv
    simp only [List.mem_cons, List.not_mem_nil, or_false] at hv
    rcases hv with rfl | rfl | rfl | rfl | rfl | rfl | rfl | rfl <;>
      first
        | exact ind_le_one _
        | exact Nat.zero_le _
  rw [hxw, hyw, fromLanes_shiftBackLex _ hyl 1]
  rw [show List.drop 1 [if d0 = y then (1:Nat) else 0, if d1 = y then 1 else 0,
      if d2 = y then 1 else 0, if d3 = y then 1 else 0, if d4 = y then 1 else 0,
      if d5 = y then 1 else 0, if d6 = y then 1 else 0, if d7 = y then 1 else 0]
    = [if d1 = y then (1:Nat) else 0, if d2 = y then 1 else 0, if d3 = y then 1 else 0,
      if d4 = y then 1 else 0, if d5 = y then 1 else 0, if d6 = y then 1 else 0,
      if d7 = y then 1 else 0] from rfl]
  rw [fromLanes7_pad, fromLanes_land _ _ hpl hxl (by rfl)]
  simp only [List.zipWith_cons_cons, List.zipWith_nil_left, ind_land, Nat.zero_and]

theorem fromLanes6_pad2 (a1 a2 a3 a4 a5 a6 : Nat) :
    fromLanes [a1, a2, a3, a4, a5, a6] = fromLanes [a1, a2, a3, a4, a5, a6, 0, 0] := by
  simp [fromLanes]

/-- The LS and PS third-byte flag word: half each byte, compare with 0x54
and pull the flag two lanes back. -/
theorem uni_sp3_word (d0 d1 d2 d3 d4 d5 d6 d7 : Nat)
    (hall : Lanes [d0, d1, d2, d3, d4, d5, d6, d7]) :
    shiftBackLex (cmpEqByte ((fromLanes [d0, d1, d2, d3, d4, d5, d6, d7] >>> 1) &&&
        splat 0x7F) 0x54) 2
      = fromLanes [if d2 >>> 1 = 0x54 then (1:Nat) else 0, if d3 >>> 1 = 0x54 then 1 else 0,
          if d4 >>> 1 = 0x54 then 1 else 0, if d5 >>> 1 = 0x54 then 1 else 0,
          if d6 >>> 1 = 0x54 then 1 else 0, if d7 >>> 1 = 0x54 then 1 else 0, 0, 0] := by
  have hhalf := shr1_mask_lanes [d0, d1, d2, d3, d4, d5, d6, d7] hall
  simp only [List.length_cons, List.length_nil, List.map_cons, List.map_nil] at hhalf
  rw [splat_lanes 0x7F 8 rfl]
  rw [show (0 + 1 + 1 + 1 + 1 + 1 + 1 + 1 + 1 : Nat) = 8 from rfl] at hhalf
  rw [hhalf]
  have hml : Lanes [d0 >>> 1, d1 >>> 1, d2 >>> 1, d3 >>> 1, d4 >>> 1, d5 >>> 1,
      d6 >>> 1, d7 >>> 1] := by
    intro v hv
    simp only [List.mem_cons, List.not_mem_nil, or_false] at hv
    have l0 := hall d0 (by simp)
    have l1 := hall d1 (by simp)
    have l2 := hall d2 (by simp)
    have l3 := hall d3 (by simp)
    have l4 := hall d4 (by simp)
    have l5 := hall d5 (by simp)
    have l6 := hall d6 (by simp)
    have l7 := hall d7 (by simp)
    rcases hv with rfl | rfl | rfl | rfl | rfl | rfl | rfl | rfl <;>
      (rw [Nat.shiftRight_eq_div_pow]; omega)
  have hcmp := cmpEqByte_lanes [d0 >>> 1, d1 >>> 1, d2 >>> 1, d3 >>> 1, d4 >>> 1, d5 >>> 1,
      d6 >>> 1, d7 >>> 1] 0x54 hml rfl (by norm_num)
  simp only [List.map_cons, List.map_nil] at hcmp
  rw [hcmp, fromLanes_shiftBackLex _ (by
    refine lanes_of_all_le_one _ ?_
    intro v hv
    simp only [List.mem_cons, List.not_mem_nil, or_false] at hv
    rcases hv with rfl | rfl | rfl | rfl | rfl | rfl | rfl | rfl <;> exact ind_le_one _) 2]
  rw [show List.drop 2 [if d0 >>> 1 = 0x54 then (1:Nat) else 0, if d1 >>> 1 = 0x54 then 1 else 0,
      if d2 >>> 1 = 0x54 then 1 else 0, if d3 >>> 1 = 0x54 then 1 else 0,
      if d4 >>> 1 = 0x54 then 1 else 0, if d5 >>> 1 = 0x54 then 1 else 0,
      if d6 >>> 1 = 0x54 then 1 else 0, if d7 >>> 1 = 0x54 then 1 else 0]
    = [if d2 >>> 1 = 0x54 then (1:Nat) else 0, if d3 >>> 1 = 0x54 then 1 else 0,
      if d4 >>> 1 = 0x54 then 1 else 0, if d5 >>> 1 = 0x54 then 1 else 0,
      if d6 >>> 1 = 0x54 then 1 else 0, if d7 >>> 1 = 0x54 then 1 else 0] from rfl]
  exact fromLanes6_pad2 _ _ _ _ _ _

/-- The combined LS and PS flag word. -/
theorem uni_sp_prod (d0 d1 d2 d3 d4 d5 d6 d7 : Nat) :
    fromLanes [if d1 = 0x80 ∧ d0 = 0xE2 then (1:Nat) else 0,
        if d2 = 0x80 ∧ d1 = 0xE2 then 1 else 0, if d3 = 0x80 ∧ d2 = 0xE2 then 1 else 0,
        if d4 = 0x80 ∧ d3 = 0xE2 then 1 else 0, if d5 = 0x80 ∧ d4 = 0xE2 then 1 else 0,
        if d6 = 0x80 ∧ d5 = 0xE2 then 1 else 0, if d7 = 0x80 ∧ d6 = 0xE2 then 1 else 0, 0] &&&
      fromLanes [if d2 >>> 1 = 0x54 then (1:Nat) else 0, if d3 >>> 1 = 0x54 then 1 else 0,
        if d4 >>> 1 = 0x54 then 1 else 0, if d5 >>> 1 = 0x54 then 1 else 0,
        if d6 >>> 1 = 0x54 then 1 else 0, if d7 >>> 1 = 0x54 then 1 else 0, 0, 0]
      = fromLanes [if (d1 = 0x80 ∧ d0 = 0xE2) ∧ d2 >>> 1 = 0x54 then (1:Nat) else 0,
          if (d2 = 0x80 ∧ d1 = 0xE2) ∧ d3 >>> 1 = 0x54 then 1 else 0,
          if (d3 = 0x80 ∧ d2 = 0xE2) ∧ d4 >>> 1 = 0x54 then 1 else 0,
          if (d4 = 0x80 ∧ d3 = 0xE2) ∧ d5 >>> 1 = 0x54 then 1 else 0,
          if (d5 = 0x80 ∧ d4 = 0xE2) ∧ d6 >>> 1 = 0x54 then 1 else 0,
          if (d6 = 0x80 ∧ d5 = 0xE2) ∧ d7 >>> 1 = 0x54 then 1 else 0, 0, 0] := by
  rw [fromLanes_land _ _ (by
      refine lanes_of_all_le_one _ ?_
      intro v hv
      simp only [List.mem_cons, List.not_mem_nil, or_false] at hv
      rcases hv with rfl | rfl | rfl | rfl | rfl | rfl | rfl | rfl <;>
        first
          | exact ind_le_one _
          | exact Nat.zero_le _)
    (by
      refine lanes_of_all_le_one _ ?_
      intro v hv
      simp only [List.mem_cons, List.not_mem_nil, or_false] at hv
      rcases hv with rfl | rfl | rfl | rfl | rfl | rfl | rfl | rfl <;>
        first
          | exact ind_le_one _
          | exact Nat.zero_le _) (by rfl)]
  simp only [List.zipWith_cons_cons, List.zipWith_nil_left, ind_land, Nat.and_zero,
    Nat.zero_and]

theorem wadd_zero_left (x : Nat) (hx : x < WORD) : wadd 0 x = x := by
  simpa [wadd] using Nat.mod_eq_of_lt hx

theorem ind_zero (P : Prop) [Decidable P] (h : (if P then (1:Nat) else 0) = 0) : ¬ P := by
  intro hp
  rw [if_pos hp] at h
  omega

theorem ind_crlf_le_F (b c : Nat) :
    (if b = 0x0D ∧ c = 0x0A then (1:Nat) else 0) ≤ if 9 < b ∧ b < 14 then 1 else 0 := by
  by_cases h : b = 0x0D ∧ c = 0x0A
  · rw [if_pos h, if_pos (by omega)]
  · rw [if_neg h]
    exact Nat.zero_le _

theorem lanes_of_le (l : List Nat) (c : Nat) (hc : c < 256) (h : ∀ x ∈ l, x ≤ c) : Lanes l :=
  fun x hx => lt_of_le_of_lt (h x hx) hc


set_option maxHeartbeats 3200000 in
/-- The break flags of one Unicode chunk, lane by lane: each lane holds the
reference recognizer indicator of its position (the last lanes consult the
slice beyond the chunk). -/
theorem cbic_lanes (d0 d1 d2 d3 d4 d5 d6 d7 : Nat) (t : List Nat)
    (hall : Lanes [d0, d1, d2, d3, d4, d5, d6, d7]) :
    count_breaks_in_chunk (d0 :: d1 :: d2 :: d3 :: d4 :: d5 :: d6 :: d7 :: t)
      = fromLanes [(if breakAtUni (d0 :: d1 :: d2 :: d3 :: d4 :: d5 :: d6 :: d7 :: t) 0 then (1:Nat) else 0),
      (if breakAtUni (d0 :: d1 :: d2 :: d3 :: d4 :: d5 :: d6 :: d7 :: t) 1 then (1:Nat) else 0),
      (if breakAtUni (d0 :: d1 :: d2 :: d3 :: d4 :: d5 :: d6 :: d7 :: t) 2 then (1:Nat) else 0),
      (if breakAtUni (d0 :: d1 :: d2 :: d3 :: d4 :: d5 :: d6 :: d7 :: t) 3 then (1:Nat) else 0),
      (if breakAtUni (d0 :: d1 :: d2 :: d3 :: d4 :: d5 :: d6 :: d7 :: t) 4 then (1:Nat) else 0),
      (if breakAtUni (d0 :: d1 :: d2 :: d3 :: d4 :: d5 :: d6 :: d7 :: t) 5 then (1:Nat) else 0),
      (if breakAtUni (d0 :: d1 :: d2 :: d3 :: d4 :: d5 :: d6 :: d7 :: t) 6 then (1:Nat) else 0),
      (if breakAtUni (d0 :: d1 :: d2 :: d3 :: d4 :: d5 :: d6 :: d7 :: t) 7 then (1:Nat) else 0)] := by
  show (if cmpEqByte (fromLanes [d0, d1, d2, d3, d4, d5, d6, d7]) 0x0D ≠ 0 then
    (if 8 < (d0 :: d1 :: d2 :: d3 :: d4 :: d5 :: d6 :: d7 :: t).length ∧ d7 = 0x0D ∧ bget t 0 = 0x0A then
      decLastLexByte (wsub (wadd (if cmpEqByte (fromLanes [d0, d1, d2, d3, d4, d5, d6, d7]) 0xE2 ≠ 0 then
    (if 8 < (d0 :: d1 :: d2 :: d3 :: d4 :: d5 :: d6 :: d7 :: t).length ∧ d6 = 0xE2 ∧ d7 = 0x80 ∧ bget t 0 >>> 1 = 0x54 then
      incNthFromEndLexByte (if (shiftBackLex (cmpEqByte (fromLanes [d0, d1, d2, d3, d4, d5, d6, d7]) 0x80) 1 &&& cmpEqByte (fromLanes [d0, d1, d2, d3, d4, d5, d6, d7]) 0xE2) ≠ 0 then
      wadd (if cmpEqByte (fromLanes [d0, d1, d2, d3, d4, d5, d6, d7]) 0xC2 ≠ 0 then
    (if 8 < (d0 :: d1 :: d2 :: d3 :: d4 :: d5 :: d6 :: d7 :: t).length ∧ d7 = 0xC2 ∧ bget t 0 = 0x85 then
      incNthFromEndLexByte (wadd 0 (cmpEqByte (fromLanes [d0, d1, d2, d3, d4, d5, d6, d7]) 0xC2 &&& shiftBackLex (cmpEqByte (fromLanes [d0, d1, d2, d3, d4, d5, d6, d7]) 0x85) 1)) 0
    else wadd 0 (cmpEqByte (fromLanes [d0, d1, d2, d3, d4, d5, d6, d7]) 0xC2 &&& shiftBackLex (cmpEqByte (fromLanes [d0, d1, d2, d3, d4, d5, d6, d7]) 0x85) 1))
  else 0) ((shiftBackLex (cmpEqByte (fromLanes [d0, d1, d2, d3, d4, d5, d6, d7]) 0x80) 1 &&& cmpEqByte (fromLanes [d0, d1, d2, d3, d4, d5, d6, d7]) 0xE2) &&& (shiftBackLex (cmpEqByte ((fromLanes [d0, d1, d2, d3, d4, d5, d6, d7] >>> 1) &&& splat 0x7F) 0x54) 2))
    else (if cmpEqByte (fromLanes [d0, d1, d2, d3, d4, d5, d6, d7]) 0xC2 ≠ 0 then
    (if 8 < (d0 :: d1 :: d2 :: d3 :: d4 :: d5 :: d6 :: d7 :: t).length ∧ d7 = 0xC2 ∧ bget t 0 = 0x85 then
      incNthFromEndLexByte (wadd 0 (cmpEqByte (fromLanes [d0, d1, d2, d3, d4, d5, d6, d7]) 0xC2 &&& shiftBackLex (cmpEqByte (fromLanes [d0, d1, d2, d3, d4, d5, d6, d7]) 0x85) 1)) 0
    else wadd 0 (cmpEqByte (fromLanes [d0, d1, d2, d3, d4, d5, d6, d7]) 0xC2 &&& shiftBackLex (cmpEqByte (fromLanes [d0, d1, d2, d3, d4, d5, d6, d7]) 0x85) 1))
  else 0)) 1
    else if 9 < (d0 :: d1 :: d2 :: d3 :: d4 :: d5 :: d6 :: d7 :: t).length ∧ d7 = 0xE2 ∧ bget t 0 = 0x80 ∧ bget t 1 >>> 1 = 0x54 then
      incNthFromEndLexByte (if (shiftBackLex (cmpEqByte (fromLanes [d0, d1, d2, d3, d4, d5, d6, d7]) 0x80) 1 &&& cmpEqByte (fromLanes [d0, d1, d2, d3, d4, d5, d6, d7]) 0xE2) ≠ 0 then
      wadd (if cmpEqByte (fromLanes [d0, d1, d2, d3, d4, d5, d6, d7]) 0xC2 ≠ 0 then
    (if 8 < (d0 :: d1 :: d2 :: d3 :: d4 :: d5 :: d6 :: d7 :: t).length ∧ d7 = 0xC2 ∧ bget t 0 = 0x85 then
      incNthFromEndLexByte (wadd 0 (cmpEqByte (fromLanes [d0, d1, d2, d3, d4, d5, d6, d7]) 0xC2 &&& shiftBackLex (cmpEqByte (fromLanes [d0, d1, d2, d3, d4, d5, d6, d7]) 0x85) 1)) 0
    else wadd 0 (cmpEqByte (fromLanes [d0, d1, d2, d3, d4, d5, d6, d7]) 0xC2 &&& shiftBackLex (cmpEqByte (fromLanes [d0, d1, d2, d3, d4, d5, d6, d7]) 0x85) 1))
  else 0) ((shiftBackLex (cmpEqByte (fromLanes [d0, d1, d2, d3, d4, d5, d6, d7]) 0x80) 1 &&& cmpEqByte (fromLanes [d0, d1, d2, d3, d4, d5, d6, d7]) 0xE2) &&& (shiftBackLex (cmpEqByte ((fromLanes [d0, d1, d2, d3, d4, d5, d6, d7] >>> 1) &&& splat 0x7F) 0x54) 2))
    else (if cmpEqByte (fromLanes [d0, d1, d2, d3, d4, d5, d6, d7]) 0xC2 ≠ 0 then
    (if 8 < (d0 :: d1 :: d2 :: d3 :: d4 :: d5 :: d6 :: d7 :: t).length ∧ d7 = 0xC2 ∧ bget t 0 = 0x85 then
      incNthFromEndLexByte (wadd 0 (cmpEqByte (fromLanes [d0, d1, d2, d3, d4, d5, d6, d7]) 0xC2 &&& shiftBackLex (cmpEqByte (fromLanes [d0, d1, d2, d3, d4, d5, d6, d7]) 0x85) 1)) 0
    else wadd 0 (cmpEqByte (fromLanes [d0, d1, d2, d3, d4, d5, d6, d7]) 0xC2 &&& shiftBackLex (cmpEqByte (fromLanes [d0, d1, d2, d3, d4, d5, d6, d7]) 0x85) 1))
  else 0)) 0
    else (if (shiftBackLex (cmpEqByte (fromLanes [d0, d1, d2, d3, d4, d5, d6, d7]) 0x80) 1 &&& cmpEqByte (fromLanes [d0, d1, d2, d3, d4, d5, d6, d7]) 0xE2) ≠ 0 then
      wadd (if cmpEqByte (fromLanes [d0, d1, d2, d3, d4, d5, d6, d7]) 0xC2 ≠ 0 then
    (if 8 < (d0 :: d1 :: d2 :: d3 :: d4 :: d5 :: d6 :: d7 :: t).length ∧ d7 = 0xC2 ∧ bget t 0 = 0x85 then
      incNthFromEndLexByte (wadd 0 (cmpEqByte (fromLanes [d0, d1, d2, d3, d4, d5, d6, d7]) 0xC2 &&& shiftBackLex (cmpEqByte (fromLanes [d0, d1, d2, d3, d4, d5, d6, d7]) 0x85) 1)) 0
    else wadd 0 (cmpEqByte (fromLanes [d0, d1, d2, d3, d4, d5, d6, d7]) 0xC2 &&& shiftBackLex (cmpEqByte (fromLanes [d0, d1, d2, d3, d4, d5, d6, d7]) 0x85) 1))
  else 0) ((shiftBackLex (cmpEqByte (fromLanes [d0, d1, d2, d3, d4, d5, d6, d7]) 0x80) 1 &&& cmpEqByte (fromLanes [d0, d1, d2, d3, d4, d5, d6, d7]) 0xE2) &&& (shiftBackLex (cmpEqByte ((fromLanes [d0, d1, d2, d3, d4, d5, d6, d7] >>> 1) &&& splat 0x7F) 0x54) 2))
    else (if cmpEqByte (fromLanes [d0, d1, d2, d3, d4, d5, d6, d7]) 0xC2 ≠ 0 then
    (if 8 < (d0 :: d1 :: d2 :: d3 :: d4 :: d5 :: d6 :: d7 :: t).length ∧ d7 = 0xC2 ∧ bget t 0 = 0x85 then
      incNthFromEndLexByte (wadd 0 (cmpEqByte (fromLanes [d0, d1, d2, d3, d4, d5, d6, d7]) 0xC2 &&& shiftBackLex (cmpEqByte (fromLanes [d0, d1, d2, d3, d4, d5, d6, d7]) 0x85) 1)) 0
    else wadd 0 (cmpEqByte (fromLanes [d0, d1, d2, d3, d4, d5, d6, d7]) 0xC2 &&& shiftBackLex (cmpEqByte (fromLanes [d0, d1, d2, d3, d4, d5, d6, d7]) 0x85) 1))
  else 0)))
  else (if cmpEqByte (fromLanes [d0, d1, d2, d3, d4, d5, d6, d7]) 0xC2 ≠ 0 then
    (if 8 < (d0 :: d1 :: d2 :: d3 :: d4 :: d5 :: d6 :: d7 :: t).length ∧ d7 = 0xC2 ∧ bget t 0 = 0x85 then
      incNthFromEndLexByte (wadd 0 (cmpEqByte (fromLanes [d0, d1, d2, d3, d4, d5, d6, d7]) 0xC2 &&& shiftBackLex (cmpEqByte (fromLanes [d0, d1, d2, d3, d4, d5, d6, d7]) 0x85) 1)) 0
    else wadd 0 (cmpEqByte (fromLanes [d0, d1, d2, d3, d4, d5, d6, d7]) 0xC2 &&& shiftBackLex (cmpEqByte (fromLanes [d0, d1, d2, d3, d4, d5, d6, d7]) 0x85) 1))
  else 0)) (bytesBetween127 (fromLanes [d0, d1, d2, d3, d4, d5, d6, d7]) 0x09 0x0E)) (cmpEqByte (fromLanes [d0, d1, d2, d3, d4, d5, d6, d7]) 0x0D &&& shiftBackLex (cmpEqByte (fromLanes [d0, d1, d2, d3, d4, d5, d6, d7]) 0x0A) 1))
    else wsub (wadd (if cmpEqByte (fromLanes [d0, d1, d2, d3, d4, d5, d6, d7]) 0xE2 ≠ 0 then
    (if 8 < (d0 :: d1 :: d2 :: d3 :: d4 :: d5 :: d6 :: d7 :: t).length ∧ d6 = 0xE2 ∧ d7 = 0x80 ∧ bget t 0 >>> 1 = 0x54 then
      incNthFromEndLexByte (if (shiftBackLex (cmpEqByte (fromLanes [d0, d1, d2, d3, d4, d5, d6, d7]) 0x80) 1 &&& cmpEqByte (fromLanes [d0, d1, d2, d3, d4, d5, d6, d7]) 0xE2) ≠ 0 then
      wadd (if cmpEqByte (fromLanes [d0, d1, d2, d3, d4, d5, d6, d7]) 0xC2 ≠ 0 then
    (if 8 < (d0 :: d1 :: d2 :: d3 :: d4 :: d5 :: d6 :: d7 :: t).length ∧ d7 = 0xC2 ∧ bget t 0 = 0x85 then
      incNthFromEndLexByte (wadd 0 (cmpEqByte (fromLanes [d0, d1, d2, d3, d4, d5, d6, d7]) 0xC2 &&& shiftBackLex (cmpEqByte (fromLanes [d0, d1, d2, d3, d4, d5, d6, d7]) 0x85) 1)) 0
    else wadd 0 (cmpEqByte (fromLanes [d0, d1, d2, d3, d4, d5, d6, d7]) 0xC2 &&& shiftBackLex (cmpEqByte (fromLanes [d0, d1, d2, d3, d4, d5, d6, d7]) 0x85) 1))
  else 0) ((shiftBackLex (cmpEqByte (fromLanes [d0, d1, d2, d3, d4, d5, d6, d7]) 0x80) 1 &&& cmpEqByte (fromLanes [d0, d1, d2, d3, d4, d5, d6, d7]) 0xE2) &&& (shiftBackLex (cmpEqByte ((fromLanes [d0, d1, d2, d3, d4, d5, d6, d7] >>> 1) &&& splat 0x7F) 0x54) 2))
    else (if cmpEqByte (fromLanes [d0, d1, d2, d3, d4, d5, d6, d7]) 0xC2 ≠ 0 then
    (if 8 < (d0 :: d1 :: d2 :: d3 :: d4 :: d5 :: d6 :: d7 :: t).length ∧ d7 = 0xC2 ∧ bget t 0 = 0x85 then
      incNthFromEndLexByte (wadd 0 (cmpEqByte (fromLanes [d0, d1, d2, d3, d4, d5, d6, d7]) 0xC2 &&& shiftBackLex (cmpEqByte (fromLanes [d0, d1, d2, d3, d4, d5, d6, d7]) 0x85) 1)) 0
    else wadd 0 (cmpEqByte (fromLanes [d0, d1, d2, d3, d4, d5, d6, d7]) 0xC2 &&& shiftBackLex (cmpEqByte (fromLanes [d0, d1, d2, d3, d4, d5, d6, d7]) 0x85) 1))
  else 0)) 1
    else if 9 < (d0 :: d1 :: d2 :: d3 :: d4 :: d5 :: d6 :: d7 :: t).length ∧ d7 = 0xE2 ∧ bget t 0 = 0x80 ∧ bget t 1 >>> 1 = 0x54 then
      incNthFromEndLexByte (if (shiftBackLex (cmpEqByte (fromLanes [d0, d1, d2, d3, d4, d5, d6, d7]) 0x80) 1 &&& cmpEqByte (fromLanes [d0, d1, d2, d3, d4, d5, d6, d7]) 0xE2) ≠ 0 then
      wadd (if cmpEqByte (fromLanes [d0, d1, d2, d3, d4, d5, d6, d7]) 0xC2 ≠ 0 then
    (if 8 < (d0 :: d1 :: d2 :: d3 :: d4 :: d5 :: d6 :: d7 :: t).length ∧ d7 = 0xC2 ∧ bget t 0 = 0x85 then
      incNthFromEndLexByte (wadd 0 (cmpEqByte (fromLanes [d0, d1, d2, d3, d4, d5, d6, d7]) 0xC2 &&& shiftBackLex (cmpEqByte (fromLanes [d0, d1, d2, d3, d4, d5, d6, d7]) 0x85) 1)) 0
    else wadd 0 (cmpEqByte (fromLanes [d0, d1, d2, d3, d4, d5, d6, d7]) 0xC2 &&& shiftBackLex (cmpEqByte (fromLanes [d0, d1, d2, d3, d4, d5, d6, d7]) 0x85) 1))
  else 0) ((shiftBackLex (cmpEqByte (fromLanes [d0, d1, d2, d3, d4, d5, d6, d7]) 0x80) 1 &&& cmpEqByte (fromLanes [d0, d1, d2, d3, d4, d5, d6, d7]) 0xE2) &&& (shiftBackLex (cmpEqByte ((fromLanes [d0, d1, d2, d3, d4, d5, d6, d7] >>> 1) &&& splat 0x7F) 0x54) 2))
    else (if cmpEqByte (fromLanes [d0, d1, d2, d3, d4, d5, d6, d7]) 0xC2 ≠ 0 then
    (if 8 < (d0 :: d1 :: d2 :: d3 :: d4 :: d5 :: d6 :: d7 :: t).length ∧ d7 = 0xC2 ∧ bget t 0 = 0x85 then
      incNthFromEndLexByte (wadd 0 (cmpEqByte (fromLanes [d0, d1, d2, d3, d4, d5, d6, d7]) 0xC2 &&& shiftBackLex (cmpEqByte (fromLanes [d0, d1, d2, d3, d4, d5, d6, d7]) 0x85) 1)) 0
    else wadd 0 (cmpEqByte (fromLanes [d0, d1, d2, d3, d4, d5, d6, d7]) 0xC2 &&& shiftBackLex (cmpEqByte (fromLanes [d0, d1, d2, d3, d4, d5, d6, d7]) 0x85) 1))
  else 0)) 0
    else (if (shiftBackLex (cmpEqByte (fromLanes [d0, d1, d2, d3, d4, d5, d6, d7]) 0x80) 1 &&& cmpEqByte (fromLanes [d0, d1, d2, d3, d4, d5, d6, d7]) 0xE2) ≠ 0 then
      wadd (if cmpEqByte (fromLanes [d0, d1, d2, d3, d4, d5, d6, d7]) 0xC2 ≠ 0 then
    (if 8 < (d0 :: d1 :: d2 :: d3 :: d4 :: d5 :: d6 :: d7 :: t).length ∧ d7 = 0xC2 ∧ bget t 0 = 0x85 then
      incNthFromEndLexByte (wadd 0 (cmpEqByte (fromLanes [d0, d1, d2, d3, d4, d5, d6, d7]) 0xC2 &&& shiftBackLex (cmpEqByte (fromLanes [d0, d1, d2, d3, d4, d5, d6, d7]) 0x85) 1)) 0
    else wadd 0 (cmpEqByte (fromLanes [d0, d1, d2, d3, d4, d5, d6, d7]) 0xC2 &&& shiftBackLex (cmpEqByte (fromLanes [d0, d1, d2, d3, d4, d5, d6, d7]) 0x85) 1))
  else 0) ((shiftBackLex (cmpEqByte (fromLanes [d0, d1, d2, d3, d4, d5, d6, d7]) 0x80) 1 &&& cmpEqByte (fromLanes [d0, d1, d2, d3, d4, d5, d6, d7]) 0xE2) &&& (shiftBackLex (cmpEqByte ((fromLanes [d0, d1, d2, d3, d4, d5, d6, d7] >>> 1) &&& splat 0x7F) 0x54) 2))
    else (if cmpEqByte (fromLanes [d0, d1, d2, d3, d4, d5, d6, d7]) 0xC2 ≠ 0 then
    (if 8 < (d0 :: d1 :: d2 :: d3 :: d4 :: d5 :: d6 :: d7 :: t).length ∧ d7 = 0xC2 ∧ bget t 0 = 0x85 then
      incNthFromEndLexByte (wadd 0 (cmpEqByte (fromLanes [d0, d1, d2, d3, d4, d5, d6, d7]) 0xC2 &&& shiftBackLex (cmpEqByte (fromLanes [d0, d1, d2, d3, d4, d5, d6, d7]) 0x85) 1)) 0
    else wadd 0 (cmpEqByte (fromLanes [d0, d1, d2, d3, d4, d5, d6, d7]) 0xC2 &&& shiftBackLex (cmpEqByte (fromLanes [d0, d1, d2, d3, d4, d5, d6, d7]) 0x85) 1))
  else 0)))
  else (if cmpEqByte (fromLanes [d0, d1, d2, d3, d4, d5, d6, d7]) 0xC2 ≠ 0 then
    (if 8 < (d0 :: d1 :: d2 :: d3 :: d4 :: d5 :: d6 :: d7 :: t).length ∧ d7 = 0xC2 ∧ bget t 0 = 0x85 then
      incNthFromEndLexByte (wadd 0 (cmpEqByte (fromLanes [d0, d1, d2, d3, d4, d5, d6, d7]) 0xC2 &&& shiftBackLex (cmpEqByte (fromLanes [d0, d1, d2, d3, d4, d5, d6, d7]) 0x85) 1)) 0
    else wadd 0 (cmpEqByte (fromLanes [d0, d1, d2, d3, d4, d5, d6, d7]) 0xC2 &&& shiftBackLex (cmpEqByte (fromLanes [d0, d1, d2, d3, d4, d5, d6, d7]) 0x85) 1))
  else 0)) (bytesBetween127 (fromLanes [d0, d1, d2, d3, d4, d5, d6, d7]) 0x09 0x0E)) (cmpEqByte (fromLanes [d0, d1, d2, d3, d4, d5, d6, d7]) 0x0D &&& shiftBackLex (cmpEqByte (fromLanes [d0, d1, d2, d3, d4, d5, d6, d7]) 0x0A) 1))
  else (wadd (if cmpEqByte (fromLanes [d0, d1, d2, d3, d4, d5, d6, d7]) 0xE2 ≠ 0 then
    (if 8 < (d0 :: d1 :: d2 :: d3 :: d4 :: d5 :: d6 :: d7 :: t).length ∧ d6 = 0xE2 ∧ d7 = 0x80 ∧ bget t 0 >>> 1 = 0x54 then
      incNthFromEndLexByte (if (shiftBackLex (cmpEqByte (fromLanes [d0, d1, d2, d3, d4, d5, d6, d7]) 0x80) 1 &&& cmpEqByte (fromLanes [d0, d1, d2, d3, d4, d5, d6, d7]) 0xE2) ≠ 0 then
      wadd (if cmpEqByte (fromLanes [d0, d1, d2, d3, d4, d5, d6, d7]) 0xC2 ≠ 0 then
    (if 8 < (d0 :: d1 :: d2 :: d3 :: d4 :: d5 :: d6 :: d7 :: t).length ∧ d7 = 0xC2 ∧ bget t 0 = 0x85 then
      incNthFromEndLexByte (wadd 0 (cmpEqByte (fromLanes [d0, d1, d2, d3, d4, d5, d6, d7]) 0xC2 &&& shiftBackLex (cmpEqByte (fromLanes [d0, d1, d2, d3, d4, d5, d6, d7]) 0x85) 1)) 0
    else wadd 0 (cmpEqByte (fromLanes [d0, d1, d2, d3, d4, d5, d6, d7]) 0xC2 &&& shiftBackLex (cmpEqByte (fromLanes [d0, d1, d2, d3, d4, d5, d6, d7]) 0x85) 1))
  else 0) ((shiftBackLex (cmpEqByte (fromLanes [d0, d1, d2, d3, d4, d5, d6, d7]) 0x80) 1 &&& cmpEqByte (fromLanes [d0, d1, d2, d3, d4, d5, d6, d7]) 0xE2) &&& (shiftBackLex (cmpEqByte ((fromLanes [d0, d1, d2, d3, d4, d5, d6, d7] >>> 1) &&& splat 0x7F) 0x54) 2))
    else (if cmpEqByte (fromLanes [d0, d1, d2, d3, d4, d5, d6, d7]) 0xC2 ≠ 0 then
    (if 8 < (d0 :: d1 :: d2 :: d3 :: d4 :: d5 :: d6 :: d7 :: t).length ∧ d7 = 0xC2 ∧ bget t 0 = 0x85 then
      incNthFromEndLexByte (wadd 0 (cmpEqByte (fromLanes [d0, d1, d2, d3, d4, d5, d6, d7]) 0xC2 &&& shiftBackLex (cmpEqByte (fromLanes [d0, d1, d2, d3, d4, d5, d6, d7]) 0x85) 1)) 0
    else wadd 0 (cmpEqByte (fromLanes [d0, d1, d2, d3, d4, d5, d6, d7]) 0xC2 &&& shiftBackLex (cmpEqByte (fromLanes [d0, d1, d2, d3, d4, d5, d6, d7]) 0x85) 1))
  else 0)) 1
    else if 9 < (d0 :: d1 :: d2 :: d3 :: d4 :: d5 :: d6 :: d7 :: t).length ∧ d7 = 0xE2 ∧ bget t 0 = 0x80 ∧ bget t 1 >>> 1 = 0x54 then
      incNthFromEndLexByte (if (shiftBackLex (cmpEqByte (fromLanes [d0, d1, d2, d3, d4, d5, d6, d7]) 0x80) 1 &&& cmpEqByte (fromLanes [d0, d1, d2, d3, d4, d5, d6, d7]) 0xE2) ≠ 0 then
      wadd (if cmpEqByte (fromLanes [d0, d1, d2, d3, d4, d5, d6, d7]) 0xC2 ≠ 0 then
    (if 8 < (d0 :: d1 :: d2 :: d3 :: d4 :: d5 :: d6 :: d7 :: t).length ∧ d7 = 0xC2 ∧ bget t 0 = 0x85 then
      incNthFromEndLexByte (wadd 0 (cmpEqByte (fromLanes [d0, d1, d2, d3, d4, d5, d6, d7]) 0xC2 &&& shiftBackLex (cmpEqByte (fromLanes [d0, d1, d2, d3, d4, d5, d6, d7]) 0x85) 1)) 0
    else wadd 0 (cmpEqByte (fromLanes [d0, d1, d2, d3, d4, d5, d6, d7]) 0xC2 &&& shiftBackLex (cmpEqByte (fromLanes [d0, d1, d2, d3, d4, d5, d6, d7]) 0x85) 1))
  else 0) ((shiftBackLex (cmpEqByte (fromLanes [d0, d1, d2, d3, d4, d5, d6, d7]) 0x80) 1 &&& cmpEqByte (fromLanes [d0, d1, d2, d3, d4, d5, d6, d7]) 0xE2) &&& (shiftBackLex (cmpEqByte ((fromLanes [d0, d1, d2, d3, d4, d5, d6, d7] >>> 1) &&& splat 0x7F) 0x54) 2))
    else (if cmpEqByte (fromLanes [d0, d1, d2, d3, d4, d5, d6, d7]) 0xC2 ≠ 0 then
    (if 8 < (d0 :: d1 :: d2 :: d3 :: d4 :: d5 :: d6 :: d7 :: t).length ∧ d7 = 0xC2 ∧ bget t 0 = 0x85 then
      incNthFromEndLexByte (wadd 0 (cmpEqByte (fromLanes [d0, d1, d2, d3, d4, d5, d6, d7]) 0xC2 &&& shiftBackLex (cmpEqByte (fromLanes [d0, d1, d2, d3, d4, d5, d6, d7]) 0x85) 1)) 0
    else wadd 0 (cmpEqByte (fromLanes [d0, d1, d2, d3, d4, d5, d6, d7]) 0xC2 &&& shiftBackLex (cmpEqByte (fromLanes [d0, d1, d2, d3, d4, d5, d6, d7]) 0x85) 1))
  else 0)) 0
    else (if (shiftBackLex (cmpEqByte (fromLanes [d0, d1, d2, d3, d4, d5, d6, d7]) 0x80) 1 &&& cmpEqByte (fromLanes [d0, d1, d2, d3, d4, d5, d6, d7]) 0xE2) ≠ 0 then
      wadd (if cmpEqByte (fromLanes [d0, d1, d2, d3, d4, d5, d6, d7]) 0xC2 ≠ 0 then
    (if 8 < (d0 :: d1 :: d2 :: d3 :: d4 :: d5 :: d6 :: d7 :: t).length ∧ d7 = 0xC2 ∧ bget t 0 = 0x85 then
      incNthFromEndLexByte (wadd 0 (cmpEqByte (fromLanes [d0, d1, d2, d3, d4, d5, d6, d7]) 0xC2 &&& shiftBackLex (cmpEqByte (fromLanes [d0, d1, d2, d3, d4, d5, d6, d7]) 0x85) 1)) 0
    else wadd 0 (cmpEqByte (fromLanes [d0, d1, d2, d3, d4, d5, d6, d7]) 0xC2 &&& shiftBackLex (cmpEqByte (fromLanes [d0, d1, d2, d3, d4, d5, d6, d7]) 0x85) 1))
  else 0) ((shiftBackLex (cmpEqByte (fromLanes [d0, d1, d2, d3, d4, d5, d6, d7]) 0x80) 1 &&& cmpEqByte (fromLanes [d0, d1, d2, d3, d4, d5, d6, d7]) 0xE2) &&& (shiftBackLex (cmpEqByte ((fromLanes [d0, d1, d2, d3, d4, d5, d6, d7] >>> 1) &&& splat 0x7F) 0x54) 2))
    else (if cmpEqByte (fromLanes [d0, d1, d2, d3, d4, d5, d6, d7]) 0xC2 ≠ 0 then
    (if 8 < (d0 :: d1 :: d2 :: d3 :: d4 :: d5 :: d6 :: d7 :: t).length ∧ d7 = 0xC2 ∧ bget t 0 = 0x85 then
      incNthFromEndLexByte (wadd 0 (cmpEqByte (fromLanes [d0, d1, d2, d3, d4, d5, d6, d7]) 0xC2 &&& shiftBackLex (cmpEqByte (fromLanes [d0, d1, d2, d3, d4, d5, d6, d7]) 0x85) 1)) 0
    else wadd 0 (cmpEqByte (fromLanes [d0, d1, d2, d3, d4, d5, d6, d7]) 0xC2 &&& shiftBackLex (cmpEqByte (fromLanes [d0, d1, d2, d3, d4, d5, d6, d7]) 0x85) 1))
  else 0)))
  else (if cmpEqByte (fromLanes [d0, d1, d2, d3, d4, d5, d6, d7]) 0xC2 ≠ 0 then
    (if 8 < (d0 :: d1 :: d2 :: d3 :: d4 :: d5 :: d6 :: d7 :: t).length ∧ d7 = 0xC2 ∧ bget t 0 = 0x85 then
      incNthFromEndLexByte (wadd 0 (cmpEqByte (fromLanes [d0, d1, d2, d3, d4, d5, d6, d7]) 0xC2 &&& shiftBackLex (cmpEqByte (fromLanes [d0, d1, d2, d3, d4, d5, d6, d7]) 0x85) 1)) 0
    else wadd 0 (cmpEqByte (fromLanes [d0, d1, d2, d3, d4, d5, d6, d7]) 0xC2 &&& shiftBackLex (cmpEqByte (fromLanes [d0, d1, d2, d3, d4, d5, d6, d7]) 0x85) 1))
  else 0)) (bytesBetween127 (fromLanes [d0, d1, d2, d3, d4, d5, d6, d7]) 0x09 0x0E)))
      = fromLanes [(if breakAtUni (d0 :: d1 :: d2 :: d3 :: d4 :: d5 :: d6 :: d7 :: t) 0 then (1:Nat) else 0),
      (if breakAtUni (d0 :: d1 :: d2 :: d3 :: d4 :: d5 :: d6 :: d7 :: t) 1 then (1:Nat) else 0),
      (if breakAtUni (d0 :: d1 :: d2 :: d3 :: d4 :: d5 :: d6 :: d7 :: t) 2 then (1:Nat) else 0),
      (if breakAtUni (d0 :: d1 :: d2 :: d3 :: d4 :: d5 :: d6 :: d7 :: t) 3 then (1:Nat) else 0),
      (if breakAtUni (d0 :: d1 :: d2 :: d3 :: d4 :: d5 :: d6 :: d7 :: t) 4 then (1:Nat) else 0),
      (if breakAtUni (d0 :: d1 :: d2 :: d3 :: d4 :: d5 :: d6 :: d7 :: t) 5 then (1:Nat) else 0),
      (if breakAtUni (d0 :: d1 :: d2 :: d3 :: d4 :: d5 :: d6 :: d7 :: t) 6 then (1:Nat) else 0),
      (if breakAtUni (d0 :: d1 :: d2 :: d3 :: d4 :: d5 :: d6 :: d7 :: t) 7 then (1:Nat) else 0)]
  have hmapC2 := cmpEqByte_lanes [d0, d1, d2, d3, d4, d5, d6, d7] 0xC2 hall rfl (by norm_num)
  simp only [List.map_cons, List.map_nil] at hmapC2
  have hmapE2 := cmpEqByte_lanes [d0, d1, d2, d3, d4, d5, d6, d7] 0xE2 hall rfl (by norm_num)
  simp only [List.map_cons, List.map_nil] at hmapE2
  have hmapCR := cmpEqByte_lanes [d0, d1, d2, d3, d4, d5, d6, d7] 0x0D hall rfl (by norm_num)
  simp only [List.map_cons, List.map_nil] at hmapCR
  have hacc1 : (if cmpEqByte (fromLanes [d0, d1, d2, d3, d4, d5, d6, d7]) 0xC2 ≠ 0 then
    (if 8 < (d0 :: d1 :: d2 :: d3 :: d4 :: d5 :: d6 :: d7 :: t).length ∧ d7 = 0xC2 ∧ bget t 0 = 0x85 then
      incNthFromEndLexByte (wadd 0 (cmpEqByte (fromLanes [d0, d1, d2, d3, d4, d5, d6, d7]) 0xC2 &&& shiftBackLex (cmpEqByte (fromLanes [d0, d1, d2, d3, d4, d5, d6, d7]) 0x85) 1)) 0
    else wadd 0 (cmpEqByte (fromLanes [d0, d1, d2, d3, d4, d5, d6, d7]) 0xC2 &&& shiftBackLex (cmpEqByte (fromLanes [d0, d1, d2, d3, d4, d5, d6, d7]) 0x85) 1))
  else 0)
      = fromLanes [(if d0 = 0xC2 ∧ d1 = 0x85 then (1:Nat) else 0),
      (if d1 = 0xC2 ∧ d2 = 0x85 then (1:Nat) else 0),
      (if d2 = 0xC2 ∧ d3 = 0x85 then (1:Nat) else 0),
      (if d3 = 0xC2 ∧ d4 = 0x85 then (1:Nat) else 0),
      (if d4 = 0xC2 ∧ d5 = 0x85 then (1:Nat) else 0),
      (if d5 = 0xC2 ∧ d6 = 0x85 then (1:Nat) else 0),
      (if d6 = 0xC2 ∧ d7 = 0x85 then (1:Nat) else 0),
      (if 8 < (d0 :: d1 :: d2 :: d3 :: d4 :: d5 :: d6 :: d7 :: t).length ∧ d7 = 0xC2 ∧ bget t 0 = 0x85 then (1:Nat) else 0)] := by
    by_cases hnl : cmpEqByte (fromLanes [d0, d1, d2, d3, d4, d5, d6, d7]) 0xC2 = 0
    · rw [if_neg (not_not_intro hnl)]
      rw [hmapC2] at hnl
      have hz := (fromLanes_nonneg_zero _).mp hnl
      have hz0 := ind_zero _ (hz (if d0 = 0xC2 then (1:Nat) else 0) (by simp))
      have hz1 := ind_zero _ (hz (if d1 = 0xC2 then (1:Nat) else 0) (by simp))
      have hz2 := ind_zero _ (hz (if d2 = 0xC2 then (1:Nat) else 0) (by simp))
      have hz3 := ind_zero _ (hz (if d3 = 0xC2 then (1:Nat) else 0) (by simp))
      have hz4 := ind_zero _ (hz (if d4 = 0xC2 then (1:Nat) else 0) (by simp))
      have hz5 := ind_zero _ (hz (if d5 = 0xC2 then (1:Nat) else 0) (by simp))
      have hz6 := ind_zero _ (hz (if d6 = 0xC2 then (1:Nat) else 0) (by simp))
      have hz7 := ind_zero _ (hz (if d7 = 0xC2 then (1:Nat) else 0) (by simp))
      have hk0 : ¬ (d0 = 0xC2 ∧ d1 = 0x85) := fun h => hz0 h.1
      have hk1 : ¬ (d1 = 0xC2 ∧ d2 = 0x85) := fun h => hz1 h.1
      have hk2 : ¬ (d2 = 0xC2 ∧ d3 = 0x85) := fun h => hz2 h.1
      have hk3 : ¬ (d3 = 0xC2 ∧ d4 = 0x85) := fun h => hz3 h.1
      have hk4 : ¬ (d4 = 0xC2 ∧ d5 = 0x85) := fun h => hz4 h.1
      have hk5 : ¬ (d5 = 0xC2 ∧ d6 = 0x85) := fun h => hz5 h.1
      have hk6 : ¬ (d6 = 0xC2 ∧ d7 = 0x85) := fun h => hz6 h.1
      have hk7 : ¬ (8 < (d0 :: d1 :: d2 :: d3 :: d4 :: d5 :: d6 :: d7 :: t).length ∧ d7 = 0xC2 ∧ bget t 0 = 0x85) := fun h => hz7 h.2.1
      rw [if_neg hk0, if_neg hk1, if_neg hk2, if_neg hk3, if_neg hk4, if_neg hk5,
        if_neg hk6, if_neg hk7]
      simp [fromLanes]
    · rw [if_pos hnl]
      rw [cmp_shift1_land d0 d1 d2 d3 d4 d5 d6 d7 0xC2 0x85 hall (by norm_num) (by norm_num)]
      rw [wadd_zero_left (fromLanes [(if d0 = 0xC2 ∧ d1 = 0x85 then (1:Nat) else 0),
      (if d1 = 0xC2 ∧ d2 = 0x85 then (1:Nat) else 0),
      (if d2 = 0xC2 ∧ d3 = 0x85 then (1:Nat) else 0),
      (if d3 = 0xC2 ∧ d4 = 0x85 then (1:Nat) else 0),
      (if d4 = 0xC2 ∧ d5 = 0x85 then (1:Nat) else 0),
      (if d5 = 0xC2 ∧ d6 = 0x85 then (1:Nat) else 0),
      (if d6 = 0xC2 ∧ d7 = 0x85 then (1:Nat) else 0),
      0])
        (fromLanes8_lt_word [(if d0 = 0xC2 ∧ d1 = 0x85 then (1:Nat) else 0),
      (if d1 = 0xC2 ∧ d2 = 0x85 then (1:Nat) else 0),
      (if d2 = 0xC2 ∧ d3 = 0x85 then (1:Nat) else 0),
      (if d3 = 0xC2 ∧ d4 = 0x85 then (1:Nat) else 0),
      (if d4 = 0xC2 ∧ d5 = 0x85 then (1:Nat) else 0),
      (if d5 = 0xC2 ∧ d6 = 0x85 then (1:Nat) else 0),
      (if d6 = 0xC2 ∧ d7 = 0x85 then (1:Nat) else 0),
      0]
          (by
          refine lanes_of_le _ 1 (by norm_num) ?_
          intro x hx
          simp only [List.mem_cons, List.not_mem_nil, or_false] at hx
          have hN0 := ind_le_one (d0 = 0xC2 ∧ d1 = 0x85)
          have hN1 := ind_le_one (d1 = 0xC2 ∧ d2 = 0x85)
          have hN2 := ind_le_one (d2 = 0xC2 ∧ d3 = 0x85)
          have hN3 := ind_le_one (d3 = 0xC2 ∧ d4 = 0x85)
          have hN4 := ind_le_one (d4 = 0xC2 ∧ d5 = 0x85)
          have hN5 := ind_le_one (d5 = 0xC2 ∧ d6 = 0x85)
          have hN6 := ind_le_one (d6 = 0xC2 ∧ d7 = 0x85)
          rcases hx with rfl | rfl | rfl | rfl | rfl | rfl | rfl | rfl <;> omega) rfl)]
      by_cases hb : 8 < (d0 :: d1 :: d2 :: d3 :: d4 :: d5 :: d6 :: d7 :: t).length ∧ d7 = 0xC2 ∧ bget t 0 = 0x85
      · rw [if_pos hb]
        rw [incNth0_lanes (if d0 = 0xC2 ∧ d1 = 0x85 then (1:Nat) else 0) (if d1 = 0xC2 ∧ d2 = 0x85 then (1:Nat) else 0)
          (if d2 = 0xC2 ∧ d3 = 0x85 then (1:Nat) else 0) (if d3 = 0xC2 ∧ d4 = 0x85 then (1:Nat) else 0)
          (if d4 = 0xC2 ∧ d5 = 0x85 then (1:Nat) else 0) (if d5 = 0xC2 ∧ d6 = 0x85 then (1:Nat) else 0)
          (if d6 = 0xC2 ∧ d7 = 0x85 then (1:Nat) else 0) 0
          (by
          refine lanes_of_le _ 1 (by norm_num) ?_
          intro x hx
          simp only [List.mem_cons, List.not_mem_nil, or_false] at hx
          have hN0 := ind_le_one (d0 = 0xC2 ∧ d1 = 0x85)
          have hN1 := ind_le_one (d1 = 0xC2 ∧ d2 = 0x85)
          have hN2 := ind_le_one (d2 = 0xC2 ∧ d3 = 0x85)
          have hN3 := ind_le_one (d3 = 0xC2 ∧ d4 = 0x85)
          have hN4 := ind_le_one (d4 = 0xC2 ∧ d5 = 0x85)
          have hN5 := ind_le_one (d5 = 0xC2 ∧ d6 = 0x85)
          have hN6 := ind_le_one (d6 = 0xC2 ∧ d7 = 0x85)
          rcases hx with rfl | rfl | rfl | rfl | rfl | rfl | rfl | rfl <;> omega)
          (by norm_num)]
        rw [if_pos hb]
      · rw [if_neg hb]
        rw [if_neg hb]
  rw [hacc1]
  have hacc2 : (if cmpEqByte (fromLanes [d0, d1, d2, d3, d4, d5, d6, d7]) 0xE2 ≠ 0 then
    (if 8 < (d0 :: d1 :: d2 :: d3 :: d4 :: d5 :: d6 :: d7 :: t).length ∧ d6 = 0xE2 ∧ d7 = 0x80 ∧ bget t 0 >>> 1 = 0x54 then
      incNthFromEndLexByte (if (shiftBackLex (cmpEqByte (fromLanes [d0, d1, d2, d3, d4, d5, d6, d7]) 0x80) 1 &&& cmpEqByte (fromLanes [d0, d1, d2, d3, d4, d5, d6, d7]) 0xE2) ≠ 0 then
      wadd (fromLanes [(if d0 = 0xC2 ∧ d1 = 0x85 then (1:Nat) else 0),
      (if d1 = 0xC2 ∧ d2 = 0x85 then (1:Nat) else 0),
      (if d2 = 0xC2 ∧ d3 = 0x85 then (1:Nat) else 0),
      (if d3 = 0xC2 ∧ d4 = 0x85 then (1:Nat) else 0),
      (if d4 = 0xC2 ∧ d5 = 0x85 then (1:Nat) else 0),
      (if d5 = 0xC2 ∧ d6 = 0x85 then (1:Nat) else 0),
      (if d6 = 0xC2 ∧ d7 = 0x85 then (1:Nat) else 0),
      (if 8 < (d0 :: d1 :: d2 :: d3 :: d4 :: d5 :: d6 :: d7 :: t).length ∧ d7 = 0xC2 ∧ bget t 0 = 0x85 then (1:Nat) else 0)]) ((shiftBackLex (cmpEqByte (fromLanes [d0, d1, d2, d3, d4, d5, d6, d7]) 0x80) 1 &&& cmpEqByte (fromLanes [d0, d1, d2, d3, d4, d5, d6, d7]) 0xE2) &&& (shiftBackLex (cmpEqByte ((fromLanes [d0, d1, d2, d3, d4, d5, d6, d7] >>> 1) &&& splat 0x7F) 0x54) 2))
    else fromLanes [(if d0 = 0xC2 ∧ d1 = 0x85 then (1:Nat) else 0),
      (if d1 = 0xC2 ∧ d2 = 0x85 then (1:Nat) else 0),
      (if d2 = 0xC2 ∧ d3 = 0x85 then (1:Nat) else 0),
      (if d3 = 0xC2 ∧ d4 = 0x85 then (1:Nat) else 0),
      (if d4 = 0xC2 ∧ d5 = 0x85 then (1:Nat) else 0),
      (if d5 = 0xC2 ∧ d6 = 0x85 then (1:Nat) else 0),
      (if d6 = 0xC2 ∧ d7 = 0x85 then (1:Nat) else 0),
      (if 8 < (d0 :: d1 :: d2 :: d3 :: d4 :: d5 :: d6 :: d7 :: t).length ∧ d7 = 0xC2 ∧ bget t 0 = 0x85 then (1:Nat) else 0)]) 1
    else if 9 < (d0 :: d1 :: d2 :: d3 :: d4 :: d5 :: d6 :: d7 :: t).length ∧ d7 = 0xE2 ∧ bget t 0 = 0x80 ∧ bget t 1 >>> 1 = 0x54 then
      incNthFromEndLexByte (if (shiftBackLex (cmpEqByte (fromLanes [d0, d1, d2, d3, d4, d5, d6, d7]) 0x80) 1 &&& cmpEqByte (fromLanes [d0, d1, d2, d3, d4, d5, d6, d7]) 0xE2) ≠ 0 then
      wadd (fromLanes [(if d0 = 0xC2 ∧ d1 = 0x85 then (1:Nat) else 0),
      (if d1 = 0xC2 ∧ d2 = 0x85 then (1:Nat) else 0),
      (if d2 = 0xC2 ∧ d3 = 0x85 then (1:Nat) else 0),
      (if d3 = 0xC2 ∧ d4 = 0x85 then (1:Nat) else 0),
      (if d4 = 0xC2 ∧ d5 = 0x85 then (1:Nat) else 0),
      (if d5 = 0xC2 ∧ d6 = 0x85 then (1:Nat) else 0),
      (if d6 = 0xC2 ∧ d7 = 0x85 then (1:Nat) else 0),
      (if 8 < (d0 :: d1 :: d2 :: d3 :: d4 :: d5 :: d6 :: d7 :: t).length ∧ d7 = 0xC2 ∧ bget t 0 = 0x85 then (1:Nat) else 0)]) ((shiftBackLex (cmpEqByte (fromLanes [d0, d1, d2, d3, d4, d5, d6, d7]) 0x80) 1 &&& cmpEqByte (fromLanes [d0, d1, d2, d3, d4, d5, d6, d7]) 0xE2) &&& (shiftBackLex (cmpEqByte ((fromLanes [d0, d1, d2, d3, d4, d5, d6, d7] >>> 1) &&& splat 0x7F) 0x54) 2))
    else fromLanes [(if d0 = 0xC2 ∧ d1 = 0x85 then (1:Nat) else 0),
      (if d1 = 0xC2 ∧ d2 = 0x85 then (1:Nat) else 0),
      (if d2 = 0xC2 ∧ d3 = 0x85 then (1:Nat) else 0),
      (if d3 = 0xC2 ∧ d4 = 0x85 then (1:Nat) else 0),
      (if d4 = 0xC2 ∧ d5 = 0x85 then (1:Nat) else 0),
      (if d5 = 0xC2 ∧ d6 = 0x85 then (1:Nat) else 0),
      (if d6 = 0xC2 ∧ d7 = 0x85 then (1:Nat) else 0),
      (if 8 < (d0 :: d1 :: d2 :: d3 :: d4 :: d5 :: d6 :: d7 :: t).length ∧ d7 = 0xC2 ∧ bget t 0 = 0x85 then (1:Nat) else 0)]) 0
    else (if (shiftBackLex (cmpEqByte (fromLanes [d0, d1, d2, d3, d4, d5, d6, d7]) 0x80) 1 &&& cmpEqByte (fromLanes [d0, d1, d2, d3, d4, d5, d6, d7]) 0xE2) ≠ 0 then
      wadd (fromLanes [(if d0 = 0xC2 ∧ d1 = 0x85 then (1:Nat) else 0),
      (if d1 = 0xC2 ∧ d2 = 0x85 then (1:Nat) else 0),
      (if d2 = 0xC2 ∧ d3 = 0x85 then (1:Nat) else 0),
      (if d3 = 0xC2 ∧ d4 = 0x85 then (1:Nat) else 0),
      (if d4 = 0xC2 ∧ d5 = 0x85 then (1:Nat) else 0),
      (if d5 = 0xC2 ∧ d6 = 0x85 then (1:Nat) else 0),
      (if d6 = 0xC2 ∧ d7 = 0x85 then (1:Nat) else 0),
      (if 8 < (d0 :: d1 :: d2 :: d3 :: d4 :: d5 :: d6 :: d7 :: t).length ∧ d7 = 0xC2 ∧ bget t 0 = 0x85 then (1:Nat) else 0)]) ((shiftBackLex (cmpEqByte (fromLanes [d0, d1, d2, d3, d4, d5, d6, d7]) 0x80) 1 &&& cmpEqByte (fromLanes [d0, d1, d2, d3, d4, d5, d6, d7]) 0xE2) &&& (shiftBackLex (cmpEqByte ((fromLanes [d0, d1, d2, d3, d4, d5, d6, d7] >>> 1) &&& splat 0x7F) 0x54) 2))
    else fromLanes [(if d0 = 0xC2 ∧ d1 = 0x85 then (1:Nat) else 0),
      (if d1 = 0xC2 ∧ d2 = 0x85 then (1:Nat) else 0),
      (if d2 = 0xC2 ∧ d3 = 0x85 then (1:Nat) else 0),
      (if d3 = 0xC2 ∧ d4 = 0x85 then (1:Nat) else 0),
      (if d4 = 0xC2 ∧ d5 = 0x85 then (1:Nat) else 0),
      (if d5 = 0xC2 ∧ d6 = 0x85 then (1:Nat) else 0),
      (if d6 = 0xC2 ∧ d7 = 0x85 then (1:Nat) else 0),
      (if 8 < (d0 :: d1 :: d2 :: d3 :: d4 :: d5 :: d6 :: d7 :: t).length ∧ d7 = 0xC2 ∧ bget t 0 = 0x85 then (1:Nat) else 0)]))
  else fromLanes [(if d0 = 0xC2 ∧ d1 = 0x85 then (1:Nat) else 0),
      (if d1 = 0xC2 ∧ d2 = 0x85 then (1:Nat) else 0),
      (if d2 = 0xC2 ∧ d3 = 0x85 then (1:Nat) else 0),
      (if d3 = 0xC2 ∧ d4 = 0x85 then (1:Nat) else 0),
      (if d4 = 0xC2 ∧ d5 = 0x85 then (1:Nat) else 0),
      (if d5 = 0xC2 ∧ d6 = 0x85 then (1:Nat) else 0),
      (if d6 = 0xC2 ∧ d7 = 0x85 then (1:Nat) else 0),
      (if 8 < (d0 :: d1 :: d2 :: d3 :: d4 :: d5 :: d6 :: d7 :: t).length ∧ d7 = 0xC2 ∧ bget t 0 = 0x85 then (1:Nat) else 0)])
      = fromLanes [(if d0 = 0xC2 ∧ d1 = 0x85 then (1:Nat) else 0) + (if (d1 = 0x80 ∧ d0 = 0xE2) ∧ d2 >>> 1 = 0x54 then (1:Nat) else 0),
      (if d1 = 0xC2 ∧ d2 = 0x85 then (1:Nat) else 0) + (if (d2 = 0x80 ∧ d1 = 0xE2) ∧ d3 >>> 1 = 0x54 then (1:Nat) else 0),
      (if d2 = 0xC2 ∧ d3 = 0x85 then (1:Nat) else 0) + (if (d3 = 0x80 ∧ d2 = 0xE2) ∧ d4 >>> 1 = 0x54 then (1:Nat) else 0),
      (if d3 = 0xC2 ∧ d4 = 0x85 then (1:Nat) else 0) + (if (d4 = 0x80 ∧ d3 = 0xE2) ∧ d5 >>> 1 = 0x54 then (1:Nat) else 0),
      (if d4 = 0xC2 ∧ d5 = 0x85 then (1:Nat) else 0) + (if (d5 = 0x80 ∧ d4 = 0xE2) ∧ d6 >>> 1 = 0x54 then (1:Nat) else 0),
      (if d5 = 0xC2 ∧ d6 = 0x85 then (1:Nat) else 0) + (if (d6 = 0x80 ∧ d5 = 0xE2) ∧ d7 >>> 1 = 0x54 then (1:Nat) else 0),
      (if d6 = 0xC2 ∧ d7 = 0x85 then (1:Nat) else 0) + (if 8 < (d0 :: d1 :: d2 :: d3 :: d4 :: d5 :: d6 :: d7 :: t).length ∧ d6 = 0xE2 ∧ d7 = 0x80 ∧ bget t 0 >>> 1 = 0x54 then (1:Nat) else 0),
      (if 8 < (d0 :: d1 :: d2 :: d3 :: d4 :: d5 :: d6 :: d7 :: t).length ∧ d7 = 0xC2 ∧ bget t 0 = 0x85 then (1:Nat) else 0) + (if 9 < (d0 :: d1 :: d2 :: d3 :: d4 :: d5 :: d6 :: d7 :: t).length ∧ d7 = 0xE2 ∧ bget t 0 = 0x80 ∧ bget t 1 >>> 1 = 0x54 then (1:Nat) else 0)] := by
    by_cases hsp1 : cmpEqByte (fromLanes [d0, d1, d2, d3, d4, d5, d6, d7]) 0xE2 = 0
    · rw [if_neg (not_not_intro hsp1)]
      rw [hmapE2] at hsp1
      have hz := (fromLanes_nonneg_zero _).mp hsp1
      have hz0 := ind_zero _ (hz (if d0 = 0xE2 then (1:Nat) else 0) (by simp))
      have hz1 := ind_zero _ (hz (if d1 = 0xE2 then (1:Nat) else 0) (by simp))
      have hz2 := ind_zero _ (hz (if d2 = 0xE2 then (1:Nat) else 0) (by simp))
      have hz3 := ind_zero _ (hz (if d3 = 0xE2 then (1:Nat) else 0) (by simp))
      have hz4 := ind_zero _ (hz (if d4 = 0xE2 then (1:Nat) else 0) (by simp))
      have hz5 := ind_zero _ (hz (if d5 = 0xE2 then (1:Nat) else 0) (by simp))
      have hz6 := ind_zero _ (hz (if d6 = 0xE2 then (1:Nat) else 0) (by simp))
      have hz7 := ind_zero _ (hz (if d7 = 0xE2 then (1:Nat) else 0) (by simp))
      have hm0 : ¬ ((d1 = 0x80 ∧ d0 = 0xE2) ∧ d2 >>> 1 = 0x54) := fun h => hz0 h.1.2
      have hm1 : ¬ ((d2 = 0x80 ∧ d1 = 0xE2) ∧ d3 >>> 1 = 0x54) := fun h => hz1 h.1.2
      have hm2 : ¬ ((d3 = 0x80 ∧ d2 = 0xE2) ∧ d4 >>> 1 = 0x54) := fun h => hz2 h.1.2
      have hm3 : ¬ ((d4 = 0x80 ∧ d3 = 0xE2) ∧ d5 >>> 1 = 0x54) := fun h => hz3 h.1.2
      have hm4 : ¬ ((d5 = 0x80 ∧ d4 = 0xE2) ∧ d6 >>> 1 = 0x54) := fun h => hz4 h.1.2
      have hm5 : ¬ ((d6 = 0x80 ∧ d5 = 0xE2) ∧ d7 >>> 1 = 0x54) := fun h => hz5 h.1.2
      have hm6 : ¬ (8 < (d0 :: d1 :: d2 :: d3 :: d4 :: d5 :: d6 :: d7 :: t).length ∧ d6 = 0xE2 ∧ d7 = 0x80 ∧ bget t 0 >>> 1 = 0x54) := fun h => hz6 h.2.1
      have hm7 : ¬ (9 < (d0 :: d1 :: d2 :: d3 :: d4 :: d5 :: d6 :: d7 :: t).length ∧ d7 = 0xE2 ∧ bget t 0 = 0x80 ∧ bget t 1 >>> 1 = 0x54) := fun h => hz7 h.2.1
      rw [if_neg hm0, if_neg hm1, if_neg hm2, if_neg hm3, if_neg hm4, if_neg hm5,
        if_neg hm6, if_neg hm7]
      simp only [Nat.add_zero]
    · rw [if_pos hsp1]
      have hinner : (if (shiftBackLex (cmpEqByte (fromLanes [d0, d1, d2, d3, d4, d5, d6, d7]) 0x80) 1 &&& cmpEqByte (fromLanes [d0, d1, d2, d3, d4, d5, d6, d7]) 0xE2) ≠ 0 then
      wadd (fromLanes [(if d0 = 0xC2 ∧ d1 = 0x85 then (1:Nat) else 0),
      (if d1 = 0xC2 ∧ d2 = 0x85 then (1:Nat) else 0),
      (if d2 = 0xC2 ∧ d3 = 0x85 then (1:Nat) else 0),
      (if d3 = 0xC2 ∧ d4 = 0x85 then (1:Nat) else 0),
      (if d4 = 0xC2 ∧ d5 = 0x85 then (1:Nat) else 0),
      (if d5 = 0xC2 ∧ d6 = 0x85 then (1:Nat) else 0),
      (if d6 = 0xC2 ∧ d7 = 0x85 then (1:Nat) else 0),
      (if 8 < (d0 :: d1 :: d2 :: d3 :: d4 :: d5 :: d6 :: d7 :: t).length ∧ d7 = 0xC2 ∧ bget t 0 = 0x85 then (1:Nat) else 0)]) ((shiftBackLex (cmpEqByte (fromLanes [d0, d1, d2, d3, d4, d5, d6, d7]) 0x80) 1 &&& cmpEqByte (fromLanes [d0, d1, d2, d3, d4, d5, d6, d7]) 0xE2) &&& (shiftBackLex (cmpEqByte ((fromLanes [d0, d1, d2, d3, d4, d5, d6, d7] >>> 1) &&& splat 0x7F) 0x54) 2))
    else fromLanes [(if d0 = 0xC2 ∧ d1 = 0x85 then (1:Nat) else 0),
      (if d1 = 0xC2 ∧ d2 = 0x85 then (1:Nat) else 0),
      (if d2 = 0xC2 ∧ d3 = 0x85 then (1:Nat) else 0),
      (if d3 = 0xC2 ∧ d4 = 0x85 then (1:Nat) else 0),
      (if d4 = 0xC2 ∧ d5 = 0x85 then (1:Nat) else 0),
      (if d5 = 0xC2 ∧ d6 = 0x85 then (1:Nat) else 0),
      (if d6 = 0xC2 ∧ d7 = 0x85 then (1:Nat) else 0),
      (if 8 < (d0 :: d1 :: d2 :: d3 :: d4 :: d5 :: d6 :: d7 :: t).length ∧ d7 = 0xC2 ∧ bget t 0 = 0x85 then (1:Nat) else 0)])
          = fromLanes [(if d0 = 0xC2 ∧ d1 = 0x85 then (1:Nat) else 0) + (if (d1 = 0x80 ∧ d0 = 0xE2) ∧ d2 >>> 1 = 0x54 then (1:Nat) else 0),
      (if d1 = 0xC2 ∧ d2 = 0x85 then (1:Nat) else 0) + (if (d2 = 0x80 ∧ d1 = 0xE2) ∧ d3 >>> 1 = 0x54 then (1:Nat) else 0),
      (if d2 = 0xC2 ∧ d3 = 0x85 then (1:Nat) else 0) + (if (d3 = 0x80 ∧ d2 = 0xE2) ∧ d4 >>> 1 = 0x54 then (1:Nat) else 0),
      (if d3 = 0xC2 ∧ d4 = 0x85 then (1:Nat) else 0) + (if (d4 = 0x80 ∧ d3 = 0xE2) ∧ d5 >>> 1 = 0x54 then (1:Nat) else 0),
      (if d4 = 0xC2 ∧ d5 = 0x85 then (1:Nat) else 0) + (if (d5 = 0x80 ∧ d4 = 0xE2) ∧ d6 >>> 1 = 0x54 then (1:Nat) else 0),
      (if d5 = 0xC2 ∧ d6 = 0x85 then (1:Nat) else 0) + (if (d6 = 0x80 ∧ d5 = 0xE2) ∧ d7 >>> 1 = 0x54 then (1:Nat) else 0),
      (if d6 = 0xC2 ∧ d7 = 0x85 then (1:Nat) else 0) + 0,
      (if 8 < (d0 :: d1 :: d2 :: d3 :: d4 :: d5 :: d6 :: d7 :: t).length ∧ d7 = 0xC2 ∧ bget t 0 = 0x85 then (1:Nat) else 0) + 0] := by
        by_cases hsp2 : (shiftBackLex (cmpEqByte (fromLanes [d0, d1, d2, d3, d4, d5, d6, d7]) 0x80) 1 &&& cmpEqByte (fromLanes [d0, d1, d2, d3, d4, d5, d6, d7]) 0xE2) = 0
        · rw [if_neg (not_not_intro hsp2)]
          rw [shift1_cmp_land d0 d1 d2 d3 d4 d5 d6 d7 0xE2 0x80 hall (by norm_num)
            (by norm_num)] at hsp2
          have hz := (fromLanes_nonneg_zero _).mp hsp2
          have hw0 := ind_zero _ (hz (if d1 = 0x80 ∧ d0 = 0xE2 then (1:Nat) else 0) (by simp))
          have hw1 := ind_zero _ (hz (if d2 = 0x80 ∧ d1 = 0xE2 then (1:Nat) else 0) (by simp))
          have hw2 := ind_zero _ (hz (if d3 = 0x80 ∧ d2 = 0xE2 then (1:Nat) else 0) (by simp))
          have hw3 := ind_zero _ (hz (if d4 = 0x80 ∧ d3 = 0xE2 then (1:Nat) else 0) (by simp))
          have hw4 := ind_zero _ (hz (if d5 = 0x80 ∧ d4 = 0xE2 then (1:Nat) else 0) (by simp))
          have hw5 := ind_zero _ (hz (if d6 = 0x80 ∧ d5 = 0xE2 then (1:Nat) else 0) (by simp))
          have hq0 : ¬ ((d1 = 0x80 ∧ d0 = 0xE2) ∧ d2 >>> 1 = 0x54) := fun h => hw0 h.1
          have hq1 : ¬ ((d2 = 0x80 ∧ d1 = 0xE2) ∧ d3 >>> 1 = 0x54) := fun h => hw1 h.1
          have hq2 : ¬ ((d3 = 0x80 ∧ d2 = 0xE2) ∧ d4 >>> 1 = 0x54) := fun h => hw2 h.1
          have hq3 : ¬ ((d4 = 0x80 ∧ d3 = 0xE2) ∧ d5 >>> 1 = 0x54) := fun h => hw3 h.1
          have hq4 : ¬ ((d5 = 0x80 ∧ d4 = 0xE2) ∧ d6 >>> 1 = 0x54) := fun h => hw4 h.1
          have hq5 : ¬ ((d6 = 0x80 ∧ d5 = 0xE2) ∧ d7 >>> 1 = 0x54) := fun h => hw5 h.1
          rw [if_neg hq0, if_neg hq1, if_neg hq2, if_neg hq3, if_neg hq4, if_neg hq5]
          simp only [Nat.add_zero]
        · rw [if_pos hsp2]
          rw [shift1_cmp_land d0 d1 d2 d3 d4 d5 d6 d7 0xE2 0x80 hall (by norm_num)
            (by norm_num), uni_sp3_word d0 d1 d2 d3 d4 d5 d6 d7 hall,
            uni_sp_prod d0 d1 d2 d3 d4 d5 d6 d7]
          rw [wadd_fromLanes_small [(if d0 = 0xC2 ∧ d1 = 0x85 then (1:Nat) else 0),
      (if d1 = 0xC2 ∧ d2 = 0x85 then (1:Nat) else 0),
      (if d2 = 0xC2 ∧ d3 = 0x85 then (1:Nat) else 0),
      (if d3 = 0xC2 ∧ d4 = 0x85 then (1:Nat) else 0),
      (if d4 = 0xC2 ∧ d5 = 0x85 then (1:Nat) else 0),
      (if d5 = 0xC2 ∧ d6 = 0x85 then (1:Nat) else 0),
      (if d6 = 0xC2 ∧ d7 = 0x85 then (1:Nat) else 0),
      (if 8 < (d0 :: d1 :: d2 :: d3 :: d4 :: d5 :: d6 :: d7 :: t).length ∧ d7 = 0xC2 ∧ bget t 0 = 0x85 then (1:Nat) else 0)]
            [(if (d1 = 0x80 ∧ d0 = 0xE2) ∧ d2 >>> 1 = 0x54 then (1:Nat) else 0),
      (if (d2 = 0x80 ∧ d1 = 0xE2) ∧ d3 >>> 1 = 0x54 then (1:Nat) else 0),
      (if (d3 = 0x80 ∧ d2 = 0xE2) ∧ d4 >>> 1 = 0x54 then (1:Nat) else 0),
      (if (d4 = 0x80 ∧ d3 = 0xE2) ∧ d5 >>> 1 = 0x54 then (1:Nat) else 0),
      (if (d5 = 0x80 ∧ d4 = 0xE2) ∧ d6 >>> 1 = 0x54 then (1:Nat) else 0),
      (if (d6 = 0x80 ∧ d5 = 0xE2) ∧ d7 >>> 1 = 0x54 then (1:Nat) else 0),
      0,
      0] rfl rfl 1 1
            (by
            intro x hx
            simp only [List.mem_cons, List.not_mem_nil, or_false] at hx
            have hN0 := ind_le_one (d0 = 0xC2 ∧ d1 = 0x85)
            have hN1 := ind_le_one (d1 = 0xC2 ∧ d2 = 0x85)
            have hN2 := ind_le_one (d2 = 0xC2 ∧ d3 = 0x85)
            have hN3 := ind_le_one (d3 = 0xC2 ∧ d4 = 0x85)
            have hN4 := ind_le_one (d4 = 0xC2 ∧ d5 = 0x85)
            have hN5 := ind_le_one (d5 = 0xC2 ∧ d6 = 0x85)
            have hN6 := ind_le_one (d6 = 0xC2 ∧ d7 = 0x85)
            have hN7 := ind_le_one (8 < (d0 :: d1 :: d2 :: d3 :: d4 :: d5 :: d6 :: d7 :: t).length ∧ d7 = 0xC2 ∧ bget t 0 = 0x85)
            rcases hx with rfl | rfl | rfl | rfl | rfl | rfl | rfl | rfl <;> omega)
            (by
            intro x hx
            simp only [List.mem_cons, List.not_mem_nil, or_false] at hx
            have hS0 := ind_le_one ((d1 = 0x80 ∧ d0 = 0xE2) ∧ d2 >>> 1 = 0x54)
            have hS1 := ind_le_one ((d2 = 0x80 ∧ d1 = 0xE2) ∧ d3 >>> 1 = 0x54)
            have hS2 := ind_le_one ((d3 = 0x80 ∧ d2 = 0xE2) ∧ d4 >>> 1 = 0x54)
            have hS3 := ind_le_one ((d4 = 0x80 ∧ d3 = 0xE2) ∧ d5 >>> 1 = 0x54)
            have hS4 := ind_le_one ((d5 = 0x80 ∧ d4 = 0xE2) ∧ d6 >>> 1 = 0x54)
            have hS5 := ind_le_one ((d6 = 0x80 ∧ d5 = 0xE2) ∧ d7 >>> 1 = 0x54)
            rcases hx with rfl | rfl | rfl | rfl | rfl | rfl | rfl | rfl <;> omega)
            (by norm_num)]
          simp only [List.zipWith_cons_cons, List.zipWith_nil_left]
      rw [hinner]
      by_cases hbe2a : 8 < (d0 :: d1 :: d2 :: d3 :: d4 :: d5 :: d6 :: d7 :: t).length ∧ d6 = 0xE2 ∧ d7 = 0x80 ∧ bget t 0 >>> 1 = 0x54
      · rw [if_pos hbe2a]
        rw [incNth1_lanes ((if d0 = 0xC2 ∧ d1 = 0x85 then (1:Nat) else 0) + (if (d1 = 0x80 ∧ d0 = 0xE2) ∧ d2 >>> 1 = 0x54 then (1:Nat) else 0))
          ((if d1 = 0xC2 ∧ d2 = 0x85 then (1:Nat) else 0) + (if (d2 = 0x80 ∧ d1 = 0xE2) ∧ d3 >>> 1 = 0x54 then (1:Nat) else 0))
          ((if d2 = 0xC2 ∧ d3 = 0x85 then (1:Nat) else 0) + (if (d3 = 0x80 ∧ d2 = 0xE2) ∧ d4 >>> 1 = 0x54 then (1:Nat) else 0))
          ((if d3 = 0xC2 ∧ d4 = 0x85 then (1:Nat) else 0) + (if (d4 = 0x80 ∧ d3 = 0xE2) ∧ d5 >>> 1 = 0x54 then (1:Nat) else 0))
          ((if d4 = 0xC2 ∧ d5 = 0x85 then (1:Nat) else 0) + (if (d5 = 0x80 ∧ d4 = 0xE2) ∧ d6 >>> 1 = 0x54 then (1:Nat) else 0))
          ((if d5 = 0xC2 ∧ d6 = 0x85 then (1:Nat) else 0) + (if (d6 = 0x80 ∧ d5 = 0xE2) ∧ d7 >>> 1 = 0x54 then (1:Nat) else 0))
          ((if d6 = 0xC2 ∧ d7 = 0x85 then (1:Nat) else 0) + 0) ((if 8 < (d0 :: d1 :: d2 :: d3 :: d4 :: d5 :: d6 :: d7 :: t).length ∧ d7 = 0xC2 ∧ bget t 0 = 0x85 then (1:Nat) else 0) + 0)
          (by
          refine lanes_of_le _ 2 (by norm_num) ?_
          intro x hx
          simp only [List.mem_cons, List.not_mem_nil, or_false] at hx
          have hN0 := ind_le_one (d0 = 0xC2 ∧ d1 = 0x85)
          have hN1 := ind_le_one (d1 = 0xC2 ∧ d2 = 0x85)
          have hN2 := ind_le_one (d2 = 0xC2 ∧ d3 = 0x85)
          have hN3 := ind_le_one (d3 = 0xC2 ∧ d4 = 0x85)
          have hN4 := ind_le_one (d4 = 0xC2 ∧ d5 = 0x85)
          have hN5 := ind_le_one (d5 = 0xC2 ∧ d6 = 0x85)
          have hN6 := ind_le_one (d6 = 0xC2 ∧ d7 = 0x85)
          have hN7 := ind_le_one (8 < (d0 :: d1 :: d2 :: d3 :: d4 :: d5 :: d6 :: d7 :: t).length ∧ d7 = 0xC2 ∧ bget t 0 = 0x85)
          have hS0 := ind_le_one ((d1 = 0x80 ∧ d0 = 0xE2) ∧ d2 >>> 1 = 0x54)
          have hS1 := ind_le_one ((d2 = 0x80 ∧ d1 = 0xE2) ∧ d3 >>> 1 = 0x54)
          have hS2 := ind_le_one ((d3 = 0x80 ∧ d2 = 0xE2) ∧ d4 >>> 1 = 0x54)
          have hS3 := ind_le_one ((d4 = 0x80 ∧ d3 = 0xE2) ∧ d5 >>> 1 = 0x54)
          have hS4 := ind_le_one ((d5 = 0x80 ∧ d4 = 0xE2) ∧ d6 >>> 1 = 0x54)
          have hS5 := ind_le_one ((d6 = 0x80 ∧ d5 = 0xE2) ∧ d7 >>> 1 = 0x54)
          rcases hx with rfl | rfl | rfl | rfl | rfl | rfl | rfl | rfl <;> omega)
          (by
            have hn6 := ind_le_one (d6 = 0xC2 ∧ d7 = 0x85)
            omega)]
        have hS7z : ¬ (9 < (d0 :: d1 :: d2 :: d3 :: d4 :: d5 :: d6 :: d7 :: t).length ∧ d7 = 0xE2 ∧ bget t 0 = 0x80 ∧ bget t 1 >>> 1 = 0x54) := by
          intro h
          have h1 := hbe2a.2.2.1
          have h2 := h.2.1
          omega
        rw [if_pos hbe2a, if_neg hS7z]
      · rw [if_neg hbe2a]
        by_cases hbe2b : 9 < (d0 :: d1 :: d2 :: d3 :: d4 :: d5 :: d6 :: d7 :: t).length ∧ d7 = 0xE2 ∧ bget t 0 = 0x80 ∧ bget t 1 >>> 1 = 0x54
        · rw [if_pos hbe2b]
          rw [incNth0_lanes ((if d0 = 0xC2 ∧ d1 = 0x85 then (1:Nat) else 0) + (if (d1 = 0x80 ∧ d0 = 0xE2) ∧ d2 >>> 1 = 0x54 then (1:Nat) else 0))
            ((if d1 = 0xC2 ∧ d2 = 0x85 then (1:Nat) else 0) + (if (d2 = 0x80 ∧ d1 = 0xE2) ∧ d3 >>> 1 = 0x54 then (1:Nat) else 0))
            ((if d2 = 0xC2 ∧ d3 = 0x85 then (1:Nat) else 0) + (if (d3 = 0x80 ∧ d2 = 0xE2) ∧ d4 >>> 1 = 0x54 then (1:Nat) else 0))
            ((if d3 = 0xC2 ∧ d4 = 0x85 then (1:Nat) else 0) + (if (d4 = 0x80 ∧ d3 = 0xE2) ∧ d5 >>> 1 = 0x54 then (1:Nat) else 0))
            ((if d4 = 0xC2 ∧ d5 = 0x85 then (1:Nat) else 0) + (if (d5 = 0x80 ∧ d4 = 0xE2) ∧ d6 >>> 1 = 0x54 then (1:Nat) else 0))
            ((if d5 = 0xC2 ∧ d6 = 0x85 then (1:Nat) else 0) + (if (d6 = 0x80 ∧ d5 = 0xE2) ∧ d7 >>> 1 = 0x54 then (1:Nat) else 0))
            ((if d6 = 0xC2 ∧ d7 = 0x85 then (1:Nat) else 0) + 0) ((if 8 < (d0 :: d1 :: d2 :: d3 :: d4 :: d5 :: d6 :: d7 :: t).length ∧ d7 = 0xC2 ∧ bget t 0 = 0x85 then (1:Nat) else 0) + 0)
            (by
            refine lanes_of_le _ 2 (by norm_num) ?_
            intro x hx
            simp only [List.mem_cons, List.not_mem_nil, or_false] at hx
            have hN0 := ind_le_one (d0 = 0xC2 ∧ d1 = 0x85)
            have hN1 := ind_le_one (d1 = 0xC2 ∧ d2 = 0x85)
            have hN2 := ind_le_one (d2 = 0xC2 ∧ d3 = 0x85)
            have hN3 := ind_le_one (d3 = 0xC2 ∧ d4 = 0x85)
            have hN4 := ind_le_one (d4 = 0xC2 ∧ d5 = 0x85)
            have hN5 := ind_le_one (d5 = 0xC2 ∧ d6 = 0x85)
            have hN6 := ind_le_one (d6 = 0xC2 ∧ d7 = 0x85)
            have hN7 := ind_le_one (8 < (d0 :: d1 :: d2 :: d3 :: d4 :: d5 :: d6 :: d7 :: t).length ∧ d7 = 0xC2 ∧ bget t 0 = 0x85)
            have hS0 := ind_le_one ((d1 = 0x80 ∧ d0 = 0xE2) ∧ d2 >>> 1 = 0x54)
            have hS1 := ind_le_one ((d2 = 0x80 ∧ d1 = 0xE2) ∧ d3 >>> 1 = 0x54)
            have hS2 := ind_le_one ((d3 = 0x80 ∧ d2 = 0xE2) ∧ d4 >>> 1 = 0x54)
            have hS3 := ind_le_one ((d4 = 0x80 ∧ d3 = 0xE2) ∧ d5 >>> 1 = 0x54)
            have hS4 := ind_le_one ((d5 = 0x80 ∧ d4 = 0xE2) ∧ d6 >>> 1 = 0x54)
            have hS5 := ind_le_one ((d6 = 0x80 ∧ d5 = 0xE2) ∧ d7 >>> 1 = 0x54)
            rcases hx with rfl | rfl | rfl | rfl | rfl | rfl | rfl | rfl <;> omega)
            (by
              have hn7 := ind_le_one (8 < (d0 :: d1 :: d2 :: d3 :: d4 :: d5 :: d6 :: d7 :: t).length ∧ d7 = 0xC2 ∧ bget t 0 = 0x85)
              omega)]
          rw [if_neg hbe2a, if_pos hbe2b]
        · rw [if_neg hbe2b]
          rw [if_neg hbe2a, if_neg hbe2b]
  rw [hacc2]
  have hbt := bytesBetween127_lanes [d0, d1, d2, d3, d4, d5, d6, d7] hall rfl
  simp only [List.map_cons, List.map_nil] at hbt
  have hacc3 : wadd (fromLanes [(if d0 = 0xC2 ∧ d1 = 0x85 then (1:Nat) else 0) + (if (d1 = 0x80 ∧ d0 = 0xE2) ∧ d2 >>> 1 = 0x54 then (1:Nat) else 0),
      (if d1 = 0xC2 ∧ d2 = 0x85 then (1:Nat) else 0) + (if (d2 = 0x80 ∧ d1 = 0xE2) ∧ d3 >>> 1 = 0x54 then (1:Nat) else 0),
      (if d2 = 0xC2 ∧ d3 = 0x85 then (1:Nat) else 0) + (if (d3 = 0x80 ∧ d2 = 0xE2) ∧ d4 >>> 1 = 0x54 then (1:Nat) else 0),
      (if d3 = 0xC2 ∧ d4 = 0x85 then (1:Nat) else 0) + (if (d4 = 0x80 ∧ d3 = 0xE2) ∧ d5 >>> 1 = 0x54 then (1:Nat) else 0),
      (if d4 = 0xC2 ∧ d5 = 0x85 then (1:Nat) else 0) + (if (d5 = 0x80 ∧ d4 = 0xE2) ∧ d6 >>> 1 = 0x54 then (1:Nat) else 0),
      (if d5 = 0xC2 ∧ d6 = 0x85 then (1:Nat) else 0) + (if (d6 = 0x80 ∧ d5 = 0xE2) ∧ d7 >>> 1 = 0x54 then (1:Nat) else 0),
      (if d6 = 0xC2 ∧ d7 = 0x85 then (1:Nat) else 0) + (if 8 < (d0 :: d1 :: d2 :: d3 :: d4 :: d5 :: d6 :: d7 :: t).length ∧ d6 = 0xE2 ∧ d7 = 0x80 ∧ bget t 0 >>> 1 = 0x54 then (1:Nat) else 0),
      (if 8 < (d0 :: d1 :: d2 :: d3 :: d4 :: d5 :: d6 :: d7 :: t).length ∧ d7 = 0xC2 ∧ bget t 0 = 0x85 then (1:Nat) else 0) + (if 9 < (d0 :: d1 :: d2 :: d3 :: d4 :: d5 :: d6 :: d7 :: t).length ∧ d7 = 0xE2 ∧ bget t 0 = 0x80 ∧ bget t 1 >>> 1 = 0x54 then (1:Nat) else 0)]) (bytesBetween127 (fromLanes [d0, d1, d2, d3, d4, d5, d6, d7]) 0x09 0x0E)
      = fromLanes [(if d0 = 0xC2 ∧ d1 = 0x85 then (1:Nat) else 0) + (if (d1 = 0x80 ∧ d0 = 0xE2) ∧ d2 >>> 1 = 0x54 then (1:Nat) else 0) + (if 9 < d0 ∧ d0 < 14 then (1:Nat) else 0),
      (if d1 = 0xC2 ∧ d2 = 0x85 then (1:Nat) else 0) + (if (d2 = 0x80 ∧ d1 = 0xE2) ∧ d3 >>> 1 = 0x54 then (1:Nat) else 0) + (if 9 < d1 ∧ d1 < 14 then (1:Nat) else 0),
      (if d2 = 0xC2 ∧ d3 = 0x85 then (1:Nat) else 0) + (if (d3 = 0x80 ∧ d2 = 0xE2) ∧ d4 >>> 1 = 0x54 then (1:Nat) else 0) + (if 9 < d2 ∧ d2 < 14 then (1:Nat) else 0),
      (if d3 = 0xC2 ∧ d4 = 0x85 then (1:Nat) else 0) + (if (d4 = 0x80 ∧ d3 = 0xE2) ∧ d5 >>> 1 = 0x54 then (1:Nat) else 0) + (if 9 < d3 ∧ d3 < 14 then (1:Nat) else 0),
      (if d4 = 0xC2 ∧ d5 = 0x85 then (1:Nat) else 0) + (if (d5 = 0x80 ∧ d4 = 0xE2) ∧ d6 >>> 1 = 0x54 then (1:Nat) else 0) + (if 9 < d4 ∧ d4 < 14 then (1:Nat) else 0),
      (if d5 = 0xC2 ∧ d6 = 0x85 then (1:Nat) else 0) + (if (d6 = 0x80 ∧ d5 = 0xE2) ∧ d7 >>> 1 = 0x54 then (1:Nat) else 0) + (if 9 < d5 ∧ d5 < 14 then (1:Nat) else 0),
      (if d6 = 0xC2 ∧ d7 = 0x85 then (1:Nat) else 0) + (if 8 < (d0 :: d1 :: d2 :: d3 :: d4 :: d5 :: d6 :: d7 :: t).length ∧ d6 = 0xE2 ∧ d7 = 0x80 ∧ bget t 0 >>> 1 = 0x54 then (1:Nat) else 0) + (if 9 < d6 ∧ d6 < 14 then (1:Nat) else 0),
      (if 8 < (d0 :: d1 :: d2 :: d3 :: d4 :: d5 :: d6 :: d7 :: t).length ∧ d7 = 0xC2 ∧ bget t 0 = 0x85 then (1:Nat) else 0) + (if 9 < (d0 :: d1 :: d2 :: d3 :: d4 :: d5 :: d6 :: d7 :: t).length ∧ d7 = 0xE2 ∧ bget t 0 = 0x80 ∧ bget t 1 >>> 1 = 0x54 then (1:Nat) else 0) + (if 9 < d7 ∧ d7 < 14 then (1:Nat) else 0)] := by
    rw [hbt]
    rw [wadd_fromLanes_small [(if d0 = 0xC2 ∧ d1 = 0x85 then (1:Nat) else 0) + (if (d1 = 0x80 ∧ d0 = 0xE2) ∧ d2 >>> 1 = 0x54 then (1:Nat) else 0),
      (if d1 = 0xC2 ∧ d2 = 0x85 then (1:Nat) else 0) + (if (d2 = 0x80 ∧ d1 = 0xE2) ∧ d3 >>> 1 = 0x54 then (1:Nat) else 0),
      (if d2 = 0xC2 ∧ d3 = 0x85 then (1:Nat) else 0) + (if (d3 = 0x80 ∧ d2 = 0xE2) ∧ d4 >>> 1 = 0x54 then (1:Nat) else 0),
      (if d3 = 0xC2 ∧ d4 = 0x85 then (1:Nat) else 0) + (if (d4 = 0x80 ∧ d3 = 0xE2) ∧ d5 >>> 1 = 0x54 then (1:Nat) else 0),
      (if d4 = 0xC2 ∧ d5 = 0x85 then (1:Nat) else 0) + (if (d5 = 0x80 ∧ d4 = 0xE2) ∧ d6 >>> 1 = 0x54 then (1:Nat) else 0),
      (if d5 = 0xC2 ∧ d6 = 0x85 then (1:Nat) else 0) + (if (d6 = 0x80 ∧ d5 = 0xE2) ∧ d7 >>> 1 = 0x54 then (1:Nat) else 0),
      (if d6 = 0xC2 ∧ d7 = 0x85 then (1:Nat) else 0) + (if 8 < (d0 :: d1 :: d2 :: d3 :: d4 :: d5 :: d6 :: d7 :: t).length ∧ d6 = 0xE2 ∧ d7 = 0x80 ∧ bget t 0 >>> 1 = 0x54 then (1:Nat) else 0),
      (if 8 < (d0 :: d1 :: d2 :: d3 :: d4 :: d5 :: d6 :: d7 :: t).length ∧ d7 = 0xC2 ∧ bget t 0 = 0x85 then (1:Nat) else 0) + (if 9 < (d0 :: d1 :: d2 :: d3 :: d4 :: d5 :: d6 :: d7 :: t).length ∧ d7 = 0xE2 ∧ bget t 0 = 0x80 ∧ bget t 1 >>> 1 = 0x54 then (1:Nat) else 0)]
      [(if 9 < d0 ∧ d0 < 14 then (1:Nat) else 0),
      (if 9 < d1 ∧ d1 < 14 then (1:Nat) else 0),
      (if 9 < d2 ∧ d2 < 14 then (1:Nat) else 0),
      (if 9 < d3 ∧ d3 < 14 then (1:Nat) else 0),
      (if 9 < d4 ∧ d4 < 14 then (1:Nat) else 0),
      (if 9 < d5 ∧ d5 < 14 then (1:Nat) else 0),
      (if 9 < d6 ∧ d6 < 14 then (1:Nat) else 0),
      (if 9 < d7 ∧ d7 < 14 then (1:Nat) else 0)] rfl rfl 2 1
      (by
        intro x hx
        simp only [List.mem_cons, List.not_mem_nil, or_false] at hx
        have hN0 := ind_le_one (d0 = 0xC2 ∧ d1 = 0x85)
        have hN1 := ind_le_one (d1 = 0xC2 ∧ d2 = 0x85)
        have hN2 := ind_le_one (d2 = 0xC2 ∧ d3 = 0x85)
        have hN3 := ind_le_one (d3 = 0xC2 ∧ d4 = 0x85)
        have hN4 := ind_le_one (d4 = 0xC2 ∧ d5 = 0x85)
        have hN5 := ind_le_one (d5 = 0xC2 ∧ d6 = 0x85)
        have hN6 := ind_le_one (d6 = 0xC2 ∧ d7 = 0x85)
        have hN7 := ind_le_one (8 < (d0 :: d1 :: d2 :: d3 :: d4 :: d5 :: d6 :: d7 :: t).length ∧ d7 = 0xC2 ∧ bget t 0 = 0x85)
        have hS0 := ind_le_one ((d1 = 0x80 ∧ d0 = 0xE2) ∧ d2 >>> 1 = 0x54)
        have hS1 := ind_le_one ((d2 = 0x80 ∧ d1 = 0xE2) ∧ d3 >>> 1 = 0x54)
        have hS2 := ind_le_one ((d3 = 0x80 ∧ d2 = 0xE2) ∧ d4 >>> 1 = 0x54)
        have hS3 := ind_le_one ((d4 = 0x80 ∧ d3 = 0xE2) ∧ d5 >>> 1 = 0x54)
        have hS4 := ind_le_one ((d5 = 0x80 ∧ d4 = 0xE2) ∧ d6 >>> 1 = 0x54)
        have hS5 := ind_le_one ((d6 = 0x80 ∧ d5 = 0xE2) ∧ d7 >>> 1 = 0x54)
        have hS6 := ind_le_one (8 < (d0 :: d1 :: d2 :: d3 :: d4 :: d5 :: d6 :: d7 :: t).length ∧ d6 = 0xE2 ∧ d7 = 0x80 ∧ bget t 0 >>> 1 = 0x54)
        have hS7 := ind_le_one (9 < (d0 :: d1 :: d2 :: d3 :: d4 :: d5 :: d6 :: d7 :: t).length ∧ d7 = 0xE2 ∧ bget t 0 = 0x80 ∧ bget t 1 >>> 1 = 0x54)
        rcases hx with rfl | rfl | rfl | rfl | rfl | rfl | rfl | rfl <;> omega)
      (by
        intro x hx
        simp only [List.mem_cons, List.not_mem_nil, or_false] at hx
        have hF0 := ind_le_one (9 < d0 ∧ d0 < 14)
        have hF1 := ind_le_one (9 < d1 ∧ d1 < 14)
        have hF2 := ind_le_one (9 < d2 ∧ d2 < 14)
        have hF3 := ind_le_one (9 < d3 ∧ d3 < 14)
        have hF4 := ind_le_one (9 < d4 ∧ d4 < 14)
        have hF5 := ind_le_one (9 < d5 ∧ d5 < 14)
        have hF6 := ind_le_one (9 < d6 ∧ d6 < 14)
        have hF7 := ind_le_one (9 < d7 ∧ d7 < 14)
        rcases hx with rfl | rfl | rfl | rfl | rfl | rfl | rfl | rfl <;> omega)
      (by norm_num)]
    simp only [List.zipWith_cons_cons, List.zipWith_nil_left]
  rw [hacc3]
  have hfin : (if cmpEqByte (fromLanes [d0, d1, d2, d3, d4, d5, d6, d7]) 0x0D ≠ 0 then
    (if 8 < (d0 :: d1 :: d2 :: d3 :: d4 :: d5 :: d6 :: d7 :: t).length ∧ d7 = 0x0D ∧ bget t 0 = 0x0A then
      decLastLexByte (wsub (fromLanes [(if d0 = 0xC2 ∧ d1 = 0x85 then (1:Nat) else 0) + (if (d1 = 0x80 ∧ d0 = 0xE2) ∧ d2 >>> 1 = 0x54 then (1:Nat) else 0) + (if 9 < d0 ∧ d0 < 14 then (1:Nat) else 0),
      (if d1 = 0xC2 ∧ d2 = 0x85 then (1:Nat) else 0) + (if (d2 = 0x80 ∧ d1 = 0xE2) ∧ d3 >>> 1 = 0x54 then (1:Nat) else 0) + (if 9 < d1 ∧ d1 < 14 then (1:Nat) else 0),
      (if d2 = 0xC2 ∧ d3 = 0x85 then (1:Nat) else 0) + (if (d3 = 0x80 ∧ d2 = 0xE2) ∧ d4 >>> 1 = 0x54 then (1:Nat) else 0) + (if 9 < d2 ∧ d2 < 14 then (1:Nat) else 0),
      (if d3 = 0xC2 ∧ d4 = 0x85 then (1:Nat) else 0) + (if (d4 = 0x80 ∧ d3 = 0xE2) ∧ d5 >>> 1 = 0x54 then (1:Nat) else 0) + (if 9 < d3 ∧ d3 < 14 then (1:Nat) else 0),
      (if d4 = 0xC2 ∧ d5 = 0x85 then (1:Nat) else 0) + (if (d5 = 0x80 ∧ d4 = 0xE2) ∧ d6 >>> 1 = 0x54 then (1:Nat) else 0) + (if 9 < d4 ∧ d4 < 14 then (1:Nat) else 0),
      (if d5 = 0xC2 ∧ d6 = 0x85 then (1:Nat) else 0) + (if (d6 = 0x80 ∧ d5 = 0xE2) ∧ d7 >>> 1 = 0x54 then (1:Nat) else 0) + (if 9 < d5 ∧ d5 < 14 then (1:Nat) else 0),
      (if d6 = 0xC2 ∧ d7 = 0x85 then (1:Nat) else 0) + (if 8 < (d0 :: d1 :: d2 :: d3 :: d4 :: d5 :: d6 :: d7 :: t).length ∧ d6 = 0xE2 ∧ d7 = 0x80 ∧ bget t 0 >>> 1 = 0x54 then (1:Nat) else 0) + (if 9 < d6 ∧ d6 < 14 then (1:Nat) else 0),
      (if 8 < (d0 :: d1 :: d2 :: d3 :: d4 :: d5 :: d6 :: d7 :: t).length ∧ d7 = 0xC2 ∧ bget t 0 = 0x85 then (1:Nat) else 0) + (if 9 < (d0 :: d1 :: d2 :: d3 :: d4 :: d5 :: d6 :: d7 :: t).length ∧ d7 = 0xE2 ∧ bget t 0 = 0x80 ∧ bget t 1 >>> 1 = 0x54 then (1:Nat) else 0) + (if 9 < d7 ∧ d7 < 14 then (1:Nat) else 0)]) (cmpEqByte (fromLanes [d0, d1, d2, d3, d4, d5, d6, d7]) 0x0D &&& shiftBackLex (cmpEqByte (fromLanes [d0, d1, d2, d3, d4, d5, d6, d7]) 0x0A) 1))
    else wsub (fromLanes [(if d0 = 0xC2 ∧ d1 = 0x85 then (1:Nat) else 0) + (if (d1 = 0x80 ∧ d0 = 0xE2) ∧ d2 >>> 1 = 0x54 then (1:Nat) else 0) + (if 9 < d0 ∧ d0 < 14 then (1:Nat) else 0),
      (if d1 = 0xC2 ∧ d2 = 0x85 then (1:Nat) else 0) + (if (d2 = 0x80 ∧ d1 = 0xE2) ∧ d3 >>> 1 = 0x54 then (1:Nat) else 0) + (if 9 < d1 ∧ d1 < 14 then (1:Nat) else 0),
      (if d2 = 0xC2 ∧ d3 = 0x85 then (1:Nat) else 0) + (if (d3 = 0x80 ∧ d2 = 0xE2) ∧ d4 >>> 1 = 0x54 then (1:Nat) else 0) + (if 9 < d2 ∧ d2 < 14 then (1:Nat) else 0),
      (if d3 = 0xC2 ∧ d4 = 0x85 then (1:Nat) else 0) + (if (d4 = 0x80 ∧ d3 = 0xE2) ∧ d5 >>> 1 = 0x54 then (1:Nat) else 0) + (if 9 < d3 ∧ d3 < 14 then (1:Nat) else 0),
      (if d4 = 0xC2 ∧ d5 = 0x85 then (1:Nat) else 0) + (if (d5 = 0x80 ∧ d4 = 0xE2) ∧ d6 >>> 1 = 0x54 then (1:Nat) else 0) + (if 9 < d4 ∧ d4 < 14 then (1:Nat) else 0),
      (if d5 = 0xC2 ∧ d6 = 0x85 then (1:Nat) else 0) + (if (d6 = 0x80 ∧ d5 = 0xE2) ∧ d7 >>> 1 = 0x54 then (1:Nat) else 0) + (if 9 < d5 ∧ d5 < 14 then (1:Nat) else 0),
      (if d6 = 0xC2 ∧ d7 = 0x85 then (1:Nat) else 0) + (if 8 < (d0 :: d1 :: d2 :: d3 :: d4 :: d5 :: d6 :: d7 :: t).length ∧ d6 = 0xE2 ∧ d7 = 0x80 ∧ bget t 0 >>> 1 = 0x54 then (1:Nat) else 0) + (if 9 < d6 ∧ d6 < 14 then (1:Nat) else 0),
      (if 8 < (d0 :: d1 :: d2 :: d3 :: d4 :: d5 :: d6 :: d7 :: t).length ∧ d7 = 0xC2 ∧ bget t 0 = 0x85 then (1:Nat) else 0) + (if 9 < (d0 :: d1 :: d2 :: d3 :: d4 :: d5 :: d6 :: d7 :: t).length ∧ d7 = 0xE2 ∧ bget t 0 = 0x80 ∧ bget t 1 >>> 1 = 0x54 then (1:Nat) else 0) + (if 9 < d7 ∧ d7 < 14 then (1:Nat) else 0)]) (cmpEqByte (fromLanes [d0, d1, d2, d3, d4, d5, d6, d7]) 0x0D &&& shiftBackLex (cmpEqByte (fromLanes [d0, d1, d2, d3, d4, d5, d6, d7]) 0x0A) 1))
  else fromLanes [(if d0 = 0xC2 ∧ d1 = 0x85 then (1:Nat) else 0) + (if (d1 = 0x80 ∧ d0 = 0xE2) ∧ d2 >>> 1 = 0x54 then (1:Nat) else 0) + (if 9 < d0 ∧ d0 < 14 then (1:Nat) else 0),
      (if d1 = 0xC2 ∧ d2 = 0x85 then (1:Nat) else 0) + (if (d2 = 0x80 ∧ d1 = 0xE2) ∧ d3 >>> 1 = 0x54 then (1:Nat) else 0) + (if 9 < d1 ∧ d1 < 14 then (1:Nat) else 0),
      (if d2 = 0xC2 ∧ d3 = 0x85 then (1:Nat) else 0) + (if (d3 = 0x80 ∧ d2 = 0xE2) ∧ d4 >>> 1 = 0x54 then (1:Nat) else 0) + (if 9 < d2 ∧ d2 < 14 then (1:Nat) else 0),
      (if d3 = 0xC2 ∧ d4 = 0x85 then (1:Nat) else 0) + (if (d4 = 0x80 ∧ d3 = 0xE2) ∧ d5 >>> 1 = 0x54 then (1:Nat) else 0) + (if 9 < d3 ∧ d3 < 14 then (1:Nat) else 0),
      (if d4 = 0xC2 ∧ d5 = 0x85 then (1:Nat) else 0) + (if (d5 = 0x80 ∧ d4 = 0xE2) ∧ d6 >>> 1 = 0x54 then (1:Nat) else 0) + (if 9 < d4 ∧ d4 < 14 then (1:Nat) else 0),
      (if d5 = 0xC2 ∧ d6 = 0x85 then (1:Nat) else 0) + (if (d6 = 0x80 ∧ d5 = 0xE2) ∧ d7 >>> 1 = 0x54 then (1:Nat) else 0) + (if 9 < d5 ∧ d5 < 14 then (1:Nat) else 0),
      (if d6 = 0xC2 ∧ d7 = 0x85 then (1:Nat) else 0) + (if 8 < (d0 :: d1 :: d2 :: d3 :: d4 :: d5 :: d6 :: d7 :: t).length ∧ d6 = 0xE2 ∧ d7 = 0x80 ∧ bget t 0 >>> 1 = 0x54 then (1:Nat) else 0) + (if 9 < d6 ∧ d6 < 14 then (1:Nat) else 0),
      (if 8 < (d0 :: d1 :: d2 :: d3 :: d4 :: d5 :: d6 :: d7 :: t).length ∧ d7 = 0xC2 ∧ bget t 0 = 0x85 then (1:Nat) else 0) + (if 9 < (d0 :: d1 :: d2 :: d3 :: d4 :: d5 :: d6 :: d7 :: t).length ∧ d7 = 0xE2 ∧ bget t 0 = 0x80 ∧ bget t 1 >>> 1 = 0x54 then (1:Nat) else 0) + (if 9 < d7 ∧ d7 < 14 then (1:Nat) else 0)])
      = fromLanes [(if d0 = 0xC2 ∧ d1 = 0x85 then (1:Nat) else 0) + (if (d1 = 0x80 ∧ d0 = 0xE2) ∧ d2 >>> 1 = 0x54 then (1:Nat) else 0) + (if 9 < d0 ∧ d0 < 14 then (1:Nat) else 0) - (if d0 = 0x0D ∧ d1 = 0x0A then (1:Nat) else 0),
      (if d1 = 0xC2 ∧ d2 = 0x85 then (1:Nat) else 0) + (if (d2 = 0x80 ∧ d1 = 0xE2) ∧ d3 >>> 1 = 0x54 then (1:Nat) else 0) + (if 9 < d1 ∧ d1 < 14 then (1:Nat) else 0) - (if d1 = 0x0D ∧ d2 = 0x0A then (1:Nat) else 0),
      (if d2 = 0xC2 ∧ d3 = 0x85 then (1:Nat) else 0) + (if (d3 = 0x80 ∧ d2 = 0xE2) ∧ d4 >>> 1 = 0x54 then (1:Nat) else 0) + (if 9 < d2 ∧ d2 < 14 then (1:Nat) else 0) - (if d2 = 0x0D ∧ d3 = 0x0A then (1:Nat) else 0),
      (if d3 = 0xC2 ∧ d4 = 0x85 then (1:Nat) else 0) + (if (d4 = 0x80 ∧ d3 = 0xE2) ∧ d5 >>> 1 = 0x54 then (1:Nat) else 0) + (if 9 < d3 ∧ d3 < 14 then (1:Nat) else 0) - (if d3 = 0x0D ∧ d4 = 0x0A then (1:Nat) else 0),
      (if d4 = 0xC2 ∧ d5 = 0x85 then (1:Nat) else 0) + (if (d5 = 0x80 ∧ d4 = 0xE2) ∧ d6 >>> 1 = 0x54 then (1:Nat) else 0) + (if 9 < d4 ∧ d4 < 14 then (1:Nat) else 0) - (if d4 = 0x0D ∧ d5 = 0x0A then (1:Nat) else 0),
      (if d5 = 0xC2 ∧ d6 = 0x85 then (1:Nat) else 0) + (if (d6 = 0x80 ∧ d5 = 0xE2) ∧ d7 >>> 1 = 0x54 then (1:Nat) else 0) + (if 9 < d5 ∧ d5 < 14 then (1:Nat) else 0) - (if d5 = 0x0D ∧ d6 = 0x0A then (1:Nat) else 0),
      (if d6 = 0xC2 ∧ d7 = 0x85 then (1:Nat) else 0) + (if 8 < (d0 :: d1 :: d2 :: d3 :: d4 :: d5 :: d6 :: d7 :: t).length ∧ d6 = 0xE2 ∧ d7 = 0x80 ∧ bget t 0 >>> 1 = 0x54 then (1:Nat) else 0) + (if 9 < d6 ∧ d6 < 14 then (1:Nat) else 0) - (if d6 = 0x0D ∧ d7 = 0x0A then (1:Nat) else 0),
      (if 8 < (d0 :: d1 :: d2 :: d3 :: d4 :: d5 :: d6 :: d7 :: t).length ∧ d7 = 0xC2 ∧ bget t 0 = 0x85 then (1:Nat) else 0) + (if 9 < (d0 :: d1 :: d2 :: d3 :: d4 :: d5 :: d6 :: d7 :: t).length ∧ d7 = 0xE2 ∧ bget t 0 = 0x80 ∧ bget t 1 >>> 1 = 0x54 then (1:Nat) else 0) + (if 9 < d7 ∧ d7 < 14 then (1:Nat) else 0) - (if 8 < (d0 :: d1 :: d2 :: d3 :: d4 :: d5 :: d6 :: d7 :: t).length ∧ d7 = 0x0D ∧ bget t 0 = 0x0A then (1:Nat) else 0)] := by
    by_cases hcr : cmpEqByte (fromLanes [d0, d1, d2, d3, d4, d5, d6, d7]) 0x0D = 0
    · rw [if_neg (not_not_intro hcr)]
      rw [hmapCR] at hcr
      have hz := (fromLanes_nonneg_zero _).mp hcr
      have hz0 := ind_zero _ (hz (if d0 = 0x0D then (1:Nat) else 0) (by simp))
      have hz1 := ind_zero _ (hz (if d1 = 0x0D then (1:Nat) else 0) (by simp))
      have hz2 := ind_zero _ (hz (if d2 = 0x0D then (1:Nat) else 0) (by simp))
      have hz3 := ind_zero _ (hz (if d3 = 0x0D then (1:Nat) else 0) (by simp))
      have hz4 := ind_zero _ (hz (if d4 = 0x0D then (1:Nat) else 0) (by simp))
      have hz5 := ind_zero _ (hz (if d5 = 0x0D then (1:Nat) else 0) (by simp))
      have hz6 := ind_zero _ (hz (if d6 = 0x0D then (1:Nat) else 0) (by simp))
      have hz7 := ind_zero _ (hz (if d7 = 0x0D then (1:Nat) else 0) (by simp))
      have hc0 : ¬ (d0 = 0x0D ∧ d1 = 0x0A) := fun h => hz0 h.1
      have hc1 : ¬ (d1 = 0x0D ∧ d2 = 0x0A) := fun h => hz1 h.1
      have hc2 : ¬ (d2 = 0x0D ∧ d3 = 0x0A) := fun h => hz2 h.1
      have hc3 : ¬ (d3 = 0x0D ∧ d4 = 0x0A) := fun h => hz3 h.1
      have hc4 : ¬ (d4 = 0x0D ∧ d5 = 0x0A) := fun h => hz4 h.1
      have hc5 : ¬ (d5 = 0x0D ∧ d6 = 0x0A) := fun h => hz5 h.1
      have hc6 : ¬ (d6 = 0x0D ∧ d7 = 0x0A) := fun h => hz6 h.1
      have hc7 : ¬ (8 < (d0 :: d1 :: d2 :: d3 :: d4 :: d5 :: d6 :: d7 :: t).length ∧ d7 = 0x0D ∧ bget t 0 = 0x0A) := fun h => hz7 h.2.1
      rw [if_neg hc0, if_neg hc1, if_neg hc2, if_neg hc3, if_neg hc4, if_neg hc5,
        if_neg hc6, if_neg hc7]
      simp only [Nat.sub_zero]
    · rw [if_pos hcr]
      rw [cmp_shift1_land d0 d1 d2 d3 d4 d5 d6 d7 0x0D 0x0A hall (by norm_num) (by norm_num)]
      have hpoint : ∀ i, i < ([(if d0 = 0xC2 ∧ d1 = 0x85 then (1:Nat) else 0) + (if (d1 = 0x80 ∧ d0 = 0xE2) ∧ d2 >>> 1 = 0x54 then (1:Nat) else 0) + (if 9 < d0 ∧ d0 < 14 then (1:Nat) else 0),
      (if d1 = 0xC2 ∧ d2 = 0x85 then (1:Nat) else 0) + (if (d2 = 0x80 ∧ d1 = 0xE2) ∧ d3 >>> 1 = 0x54 then (1:Nat) else 0) + (if 9 < d1 ∧ d1 < 14 then (1:Nat) else 0),
      (if d2 = 0xC2 ∧ d3 = 0x85 then (1:Nat) else 0) + (if (d3 = 0x80 ∧ d2 = 0xE2) ∧ d4 >>> 1 = 0x54 then (1:Nat) else 0) + (if 9 < d2 ∧ d2 < 14 then (1:Nat) else 0),
      (if d3 = 0xC2 ∧ d4 = 0x85 then (1:Nat) else 0) + (if (d4 = 0x80 ∧ d3 = 0xE2) ∧ d5 >>> 1 = 0x54 then (1:Nat) else 0) + (if 9 < d3 ∧ d3 < 14 then (1:Nat) else 0),
      (if d4 = 0xC2 ∧ d5 = 0x85 then (1:Nat) else 0) + (if (d5 = 0x80 ∧ d4 = 0xE2) ∧ d6 >>> 1 = 0x54 then (1:Nat) else 0) + (if 9 < d4 ∧ d4 < 14 then (1:Nat) else 0),
      (if d5 = 0xC2 ∧ d6 = 0x85 then (1:Nat) else 0) + (if (d6 = 0x80 ∧ d5 = 0xE2) ∧ d7 >>> 1 = 0x54 then (1:Nat) else 0) + (if 9 < d5 ∧ d5 < 14 then (1:Nat) else 0),
      (if d6 = 0xC2 ∧ d7 = 0x85 then (1:Nat) else 0) + (if 8 < (d0 :: d1 :: d2 :: d3 :: d4 :: d5 :: d6 :: d7 :: t).length ∧ d6 = 0xE2 ∧ d7 = 0x80 ∧ bget t 0 >>> 1 = 0x54 then (1:Nat) else 0) + (if 9 < d6 ∧ d6 < 14 then (1:Nat) else 0),
      (if 8 < (d0 :: d1 :: d2 :: d3 :: d4 :: d5 :: d6 :: d7 :: t).length ∧ d7 = 0xC2 ∧ bget t 0 = 0x85 then (1:Nat) else 0) + (if 9 < (d0 :: d1 :: d2 :: d3 :: d4 :: d5 :: d6 :: d7 :: t).length ∧ d7 = 0xE2 ∧ bget t 0 = 0x80 ∧ bget t 1 >>> 1 = 0x54 then (1:Nat) else 0) + (if 9 < d7 ∧ d7 < 14 then (1:Nat) else 0)] : List Nat).length →
          ([(if d0 = 0x0D ∧ d1 = 0x0A then (1:Nat) else 0),
      (if d1 = 0x0D ∧ d2 = 0x0A then (1:Nat) else 0),
      (if d2 = 0x0D ∧ d3 = 0x0A then (1:Nat) else 0),
      (if d3 = 0x0D ∧ d4 = 0x0A then (1:Nat) else 0),
      (if d4 = 0x0D ∧ d5 = 0x0A then (1:Nat) else 0),
      (if d5 = 0x0D ∧ d6 = 0x0A then (1:Nat) else 0),
      (if d6 = 0x0D ∧ d7 = 0x0A then (1:Nat) else 0),
      0] : List Nat).getD i 0
            ≤ ([(if d0 = 0xC2 ∧ d1 = 0x85 then (1:Nat) else 0) + (if (d1 = 0x80 ∧ d0 = 0xE2) ∧ d2 >>> 1 = 0x54 then (1:Nat) else 0) + (if 9 < d0 ∧ d0 < 14 then (1:Nat) else 0),
      (if d1 = 0xC2 ∧ d2 = 0x85 then (1:Nat) else 0) + (if (d2 = 0x80 ∧ d1 = 0xE2) ∧ d3 >>> 1 = 0x54 then (1:Nat) else 0) + (if 9 < d1 ∧ d1 < 14 then (1:Nat) else 0),
      (if d2 = 0xC2 ∧ d3 = 0x85 then (1:Nat) else 0) + (if (d3 = 0x80 ∧ d2 = 0xE2) ∧ d4 >>> 1 = 0x54 then (1:Nat) else 0) + (if 9 < d2 ∧ d2 < 14 then (1:Nat) else 0),
      (if d3 = 0xC2 ∧ d4 = 0x85 then (1:Nat) else 0) + (if (d4 = 0x80 ∧ d3 = 0xE2) ∧ d5 >>> 1 = 0x54 then (1:Nat) else 0) + (if 9 < d3 ∧ d3 < 14 then (1:Nat) else 0),
      (if d4 = 0xC2 ∧ d5 = 0x85 then (1:Nat) else 0) + (if (d5 = 0x80 ∧ d4 = 0xE2) ∧ d6 >>> 1 = 0x54 then (1:Nat) else 0) + (if 9 < d4 ∧ d4 < 14 then (1:Nat) else 0),
      (if d5 = 0xC2 ∧ d6 = 0x85 then (1:Nat) else 0) + (if (d6 = 0x80 ∧ d5 = 0xE2) ∧ d7 >>> 1 = 0x54 then (1:Nat) else 0) + (if 9 < d5 ∧ d5 < 14 then (1:Nat) else 0),
      (if d6 = 0xC2 ∧ d7 = 0x85 then (1:Nat) else 0) + (if 8 < (d0 :: d1 :: d2 :: d3 :: d4 :: d5 :: d6 :: d7 :: t).length ∧ d6 = 0xE2 ∧ d7 = 0x80 ∧ bget t 0 >>> 1 = 0x54 then (1:Nat) else 0) + (if 9 < d6 ∧ d6 < 14 then (1:Nat) else 0),
      (if 8 < (d0 :: d1 :: d2 :: d3 :: d4 :: d5 :: d6 :: d7 :: t).length ∧ d7 = 0xC2 ∧ bget t 0 = 0x85 then (1:Nat) else 0) + (if 9 < (d0 :: d1 :: d2 :: d3 :: d4 :: d5 :: d6 :: d7 :: t).length ∧ d7 = 0xE2 ∧ bget t 0 = 0x80 ∧ bget t 1 >>> 1 = 0x54 then (1:Nat) else 0) + (if 9 < d7 ∧ d7 < 14 then (1:Nat) else 0)] : List Nat).getD i 0 := by
        intro i hi
        simp only [List.length_cons, List.length_nil] at hi
        have hN0 := ind_le_one (d0 = 0xC2 ∧ d1 = 0x85)
        have hN1 := ind_le_one (d1 = 0xC2 ∧ d2 = 0x85)
        have hN2 := ind_le_one (d2 = 0xC2 ∧ d3 = 0x85)
        have hN3 := ind_le_one (d3 = 0xC2 ∧ d4 = 0x85)
        have hN4 := ind_le_one (d4 = 0xC2 ∧ d5 = 0x85)
        have hN5 := ind_le_one (d5 = 0xC2 ∧ d6 = 0x85)
        have hN6 := ind_le_one (d6 = 0xC2 ∧ d7 = 0x85)
        have hN7 := ind_le_one (8 < (d0 :: d1 :: d2 :: d3 :: d4 :: d5 :: d6 :: d7 :: t).length ∧ d7 = 0xC2 ∧ bget t 0 = 0x85)
        have hS0 := ind_le_one ((d1 = 0x80 ∧ d0 = 0xE2) ∧ d2 >>> 1 = 0x54)
        have hS1 := ind_le_one ((d2 = 0x80 ∧ d1 = 0xE2) ∧ d3 >>> 1 = 0x54)
        have hS2 := ind_le_one ((d3 = 0x80 ∧ d2 = 0xE2) ∧ d4 >>> 1 = 0x54)
        have hS3 := ind_le_one ((d4 = 0x80 ∧ d3 = 0xE2) ∧ d5 >>> 1 = 0x54)
        have hS4 := ind_le_one ((d5 = 0x80 ∧ d4 = 0xE2) ∧ d6 >>> 1 = 0x54)
        have hS5 := ind_le_one ((d6 = 0x80 ∧ d5 = 0xE2) ∧ d7 >>> 1 = 0x54)
        have hS6 := ind_le_one (8 < (d0 :: d1 :: d2 :: d3 :: d4 :: d5 :: d6 :: d7 :: t).length ∧ d6 = 0xE2 ∧ d7 = 0x80 ∧ bget t 0 >>> 1 = 0x54)
        have hS7 := ind_le_one (9 < (d0 :: d1 :: d2 :: d3 :: d4 :: d5 :: d6 :: d7 :: t).length ∧ d7 = 0xE2 ∧ bget t 0 = 0x80 ∧ bget t 1 >>> 1 = 0x54)
        have hF0 := ind_le_one (9 < d0 ∧ d0 < 14)
        have hF1 := ind_le_one (9 < d1 ∧ d1 < 14)
        have hF2 := ind_le_one (9 < d2 ∧ d2 < 14)
        have hF3 := ind_le_one (9 < d3 ∧ d3 < 14)
        have hF4 := ind_le_one (9 < d4 ∧ d4 < 14)
        have hF5 := ind_le_one (9 < d5 ∧ d5 < 14)
        have hF6 := ind_le_one (9 < d6 ∧ d6 < 14)
        have hF7 := ind_le_one (9 < d7 ∧ d7 < 14)
        have hx0 := ind_crlf_le_F d0 d1
        have hx1 := ind_crlf_le_F d1 d2
        have hx2 := ind_crlf_le_F d2 d3
        have hx3 := ind_crlf_le_F d3 d4
        have hx4 := ind_crlf_le_F d4 d5
        have hx5 := ind_crlf_le_F d5 d6
        have hx6 := ind_crlf_le_F d6 d7
        interval_cases i <;> simp only [List.getD_cons_zero, List.getD_cons_succ] <;> omega
      have hle := fromLanes_le_of_le [(if d0 = 0x0D ∧ d1 = 0x0A then (1:Nat) else 0),
      (if d1 = 0x0D ∧ d2 = 0x0A then (1:Nat) else 0),
      (if d2 = 0x0D ∧ d3 = 0x0A then (1:Nat) else 0),
      (if d3 = 0x0D ∧ d4 = 0x0A then (1:Nat) else 0),
      (if d4 = 0x0D ∧ d5 = 0x0A then (1:Nat) else 0),
      (if d5 = 0x0D ∧ d6 = 0x0A then (1:Nat) else 0),
      (if d6 = 0x0D ∧ d7 = 0x0A then (1:Nat) else 0),
      0]
        [(if d0 = 0xC2 ∧ d1 = 0x85 then (1:Nat) else 0) + (if (d1 = 0x80 ∧ d0 = 0xE2) ∧ d2 >>> 1 = 0x54 then (1:Nat) else 0) + (if 9 < d0 ∧ d0 < 14 then (1:Nat) else 0),
      (if d1 = 0xC2 ∧ d2 = 0x85 then (1:Nat) else 0) + (if (d2 = 0x80 ∧ d1 = 0xE2) ∧ d3 >>> 1 = 0x54 then (1:Nat) else 0) + (if 9 < d1 ∧ d1 < 14 then (1:Nat) else 0),
      (if d2 = 0xC2 ∧ d3 = 0x85 then (1:Nat) else 0) + (if (d3 = 0x80 ∧ d2 = 0xE2) ∧ d4 >>> 1 = 0x54 then (1:Nat) else 0) + (if 9 < d2 ∧ d2 < 14 then (1:Nat) else 0),
      (if d3 = 0xC2 ∧ d4 = 0x85 then (1:Nat) else 0) + (if (d4 = 0x80 ∧ d3 = 0xE2) ∧ d5 >>> 1 = 0x54 then (1:Nat) else 0) + (if 9 < d3 ∧ d3 < 14 then (1:Nat) else 0),
      (if d4 = 0xC2 ∧ d5 = 0x85 then (1:Nat) else 0) + (if (d5 = 0x80 ∧ d4 = 0xE2) ∧ d6 >>> 1 = 0x54 then (1:Nat) else 0) + (if 9 < d4 ∧ d4 < 14 then (1:Nat) else 0),
      (if d5 = 0xC2 ∧ d6 = 0x85 then (1:Nat) else 0) + (if (d6 = 0x80 ∧ d5 = 0xE2) ∧ d7 >>> 1 = 0x54 then (1:Nat) else 0) + (if 9 < d5 ∧ d5 < 14 then (1:Nat) else 0),
      (if d6 = 0xC2 ∧ d7 = 0x85 then (1:Nat) else 0) + (if 8 < (d0 :: d1 :: d2 :: d3 :: d4 :: d5 :: d6 :: d7 :: t).length ∧ d6 = 0xE2 ∧ d7 = 0x80 ∧ bget t 0 >>> 1 = 0x54 then (1:Nat) else 0) + (if 9 < d6 ∧ d6 < 14 then (1:Nat) else 0),
      (if 8 < (d0 :: d1 :: d2 :: d3 :: d4 :: d5 :: d6 :: d7 :: t).length ∧ d7 = 0xC2 ∧ bget t 0 = 0x85 then (1:Nat) else 0) + (if 9 < (d0 :: d1 :: d2 :: d3 :: d4 :: d5 :: d6 :: d7 :: t).length ∧ d7 = 0xE2 ∧ bget t 0 = 0x80 ∧ bget t 1 >>> 1 = 0x54 then (1:Nat) else 0) + (if 9 < d7 ∧ d7 < 14 then (1:Nat) else 0)] rfl hpoint
      have hwd : fromLanes [(if d0 = 0xC2 ∧ d1 = 0x85 then (1:Nat) else 0) + (if (d1 = 0x80 ∧ d0 = 0xE2) ∧ d2 >>> 1 = 0x54 then (1:Nat) else 0) + (if 9 < d0 ∧ d0 < 14 then (1:Nat) else 0),
      (if d1 = 0xC2 ∧ d2 = 0x85 then (1:Nat) else 0) + (if (d2 = 0x80 ∧ d1 = 0xE2) ∧ d3 >>> 1 = 0x54 then (1:Nat) else 0) + (if 9 < d1 ∧ d1 < 14 then (1:Nat) else 0),
      (if d2 = 0xC2 ∧ d3 = 0x85 then (1:Nat) else 0) + (if (d3 = 0x80 ∧ d2 = 0xE2) ∧ d4 >>> 1 = 0x54 then (1:Nat) else 0) + (if 9 < d2 ∧ d2 < 14 then (1:Nat) else 0),
      (if d3 = 0xC2 ∧ d4 = 0x85 then (1:Nat) else 0) + (if (d4 = 0x80 ∧ d3 = 0xE2) ∧ d5 >>> 1 = 0x54 then (1:Nat) else 0) + (if 9 < d3 ∧ d3 < 14 then (1:Nat) else 0),
      (if d4 = 0xC2 ∧ d5 = 0x85 then (1:Nat) else 0) + (if (d5 = 0x80 ∧ d4 = 0xE2) ∧ d6 >>> 1 = 0x54 then (1:Nat) else 0) + (if 9 < d4 ∧ d4 < 14 then (1:Nat) else 0),
      (if d5 = 0xC2 ∧ d6 = 0x85 then (1:Nat) else 0) + (if (d6 = 0x80 ∧ d5 = 0xE2) ∧ d7 >>> 1 = 0x54 then (1:Nat) else 0) + (if 9 < d5 ∧ d5 < 14 then (1:Nat) else 0),
      (if d6 = 0xC2 ∧ d7 = 0x85 then (1:Nat) else 0) + (if 8 < (d0 :: d1 :: d2 :: d3 :: d4 :: d5 :: d6 :: d7 :: t).length ∧ d6 = 0xE2 ∧ d7 = 0x80 ∧ bget t 0 >>> 1 = 0x54 then (1:Nat) else 0) + (if 9 < d6 ∧ d6 < 14 then (1:Nat) else 0),
      (if 8 < (d0 :: d1 :: d2 :: d3 :: d4 :: d5 :: d6 :: d7 :: t).length ∧ d7 = 0xC2 ∧ bget t 0 = 0x85 then (1:Nat) else 0) + (if 9 < (d0 :: d1 :: d2 :: d3 :: d4 :: d5 :: d6 :: d7 :: t).length ∧ d7 = 0xE2 ∧ bget t 0 = 0x80 ∧ bget t 1 >>> 1 = 0x54 then (1:Nat) else 0) + (if 9 < d7 ∧ d7 < 14 then (1:Nat) else 0)] < WORD :=
        fromLanes8_lt_word _
          (by
          refine lanes_of_le _ 3 (by norm_num) ?_
          intro x hx
          simp only [List.mem_cons, List.not_mem_nil, or_false] at hx
          have hN0 := ind_le_one (d0 = 0xC2 ∧ d1 = 0x85)
          have hN1 := ind_le_one (d1 = 0xC2 ∧ d2 = 0x85)
          have hN2 := ind_le_one (d2 = 0xC2 ∧ d3 = 0x85)
          have hN3 := ind_le_one (d3 = 0xC2 ∧ d4 = 0x85)
          have hN4 := ind_le_one (d4 = 0xC2 ∧ d5 = 0x85)
          have hN5 := ind_le_one (d5 = 0xC2 ∧ d6 = 0x85)
          have hN6 := ind_le_one (d6 = 0xC2 ∧ d7 = 0x85)
          have hN7 := ind_le_one (8 < (d0 :: d1 :: d2 :: d3 :: d4 :: d5 :: d6 :: d7 :: t).length ∧ d7 = 0xC2 ∧ bget t 0 = 0x85)
          have hS0 := ind_le_one ((d1 = 0x80 ∧ d0 = 0xE2) ∧ d2 >>> 1 = 0x54)
          have hS1 := ind_le_one ((d2 = 0x80 ∧ d1 = 0xE2) ∧ d3 >>> 1 = 0x54)
          have hS2 := ind_le_one ((d3 = 0x80 ∧ d2 = 0xE2) ∧ d4 >>> 1 = 0x54)
          have hS3 := ind_le_one ((d4 = 0x80 ∧ d3 = 0xE2) ∧ d5 >>> 1 = 0x54)
          have hS4 := ind_le_one ((d5 = 0x80 ∧ d4 = 0xE2) ∧ d6 >>> 1 = 0x54)
          have hS5 := ind_le_one ((d6 = 0x80 ∧ d5 = 0xE2) ∧ d7 >>> 1 = 0x54)
          have hS6 := ind_le_one (8 < (d0 :: d1 :: d2 :: d3 :: d4 :: d5 :: d6 :: d7 :: t).length ∧ d6 = 0xE2 ∧ d7 = 0x80 ∧ bget t 0 >>> 1 = 0x54)
          have hS7 := ind_le_one (9 < (d0 :: d1 :: d2 :: d3 :: d4 :: d5 :: d6 :: d7 :: t).length ∧ d7 = 0xE2 ∧ bget t 0 = 0x80 ∧ bget t 1 >>> 1 = 0x54)
          have hF0 := ind_le_one (9 < d0 ∧ d0 < 14)
          have hF1 := ind_le_one (9 < d1 ∧ d1 < 14)
          have hF2 := ind_le_one (9 < d2 ∧ d2 < 14)
          have hF3 := ind_le_one (9 < d3 ∧ d3 < 14)
          have hF4 := ind_le_one (9 < d4 ∧ d4 < 14)
          have hF5 := ind_le_one (9 < d5 ∧ d5 < 14)
          have hF6 := ind_le_one (9 < d6 ∧ d6 < 14)
          have hF7 := ind_le_one (9 < d7 ∧ d7 < 14)
          rcases hx with rfl | rfl | rfl | rfl | rfl | rfl | rfl | rfl <;> omega) (by rfl)
      rw [wsub_eq _ _ hle hwd, fromLanes_sub [(if d0 = 0xC2 ∧ d1 = 0x85 then (1:Nat) else 0) + (if (d1 = 0x80 ∧ d0 = 0xE2) ∧ d2 >>> 1 = 0x54 then (1:Nat) else 0) + (if 9 < d0 ∧ d0 < 14 then (1:Nat) else 0),
      (if d1 = 0xC2 ∧ d2 = 0x85 then (1:Nat) else 0) + (if (d2 = 0x80 ∧ d1 = 0xE2) ∧ d3 >>> 1 = 0x54 then (1:Nat) else 0) + (if 9 < d1 ∧ d1 < 14 then (1:Nat) else 0),
      (if d2 = 0xC2 ∧ d3 = 0x85 then (1:Nat) else 0) + (if (d3 = 0x80 ∧ d2 = 0xE2) ∧ d4 >>> 1 = 0x54 then (1:Nat) else 0) + (if 9 < d2 ∧ d2 < 14 then (1:Nat) else 0),
      (if d3 = 0xC2 ∧ d4 = 0x85 then (1:Nat) else 0) + (if (d4 = 0x80 ∧ d3 = 0xE2) ∧ d5 >>> 1 = 0x54 then (1:Nat) else 0) + (if 9 < d3 ∧ d3 < 14 then (1:Nat) else 0),
      (if d4 = 0xC2 ∧ d5 = 0x85 then (1:Nat) else 0) + (if (d5 = 0x80 ∧ d4 = 0xE2) ∧ d6 >>> 1 = 0x54 then (1:Nat) else 0) + (if 9 < d4 ∧ d4 < 14 then (1:Nat) else 0),
      (if d5 = 0xC2 ∧ d6 = 0x85 then (1:Nat) else 0) + (if (d6 = 0x80 ∧ d5 = 0xE2) ∧ d7 >>> 1 = 0x54 then (1:Nat) else 0) + (if 9 < d5 ∧ d5 < 14 then (1:Nat) else 0),
      (if d6 = 0xC2 ∧ d7 = 0x85 then (1:Nat) else 0) + (if 8 < (d0 :: d1 :: d2 :: d3 :: d4 :: d5 :: d6 :: d7 :: t).length ∧ d6 = 0xE2 ∧ d7 = 0x80 ∧ bget t 0 >>> 1 = 0x54 then (1:Nat) else 0) + (if 9 < d6 ∧ d6 < 14 then (1:Nat) else 0),
      (if 8 < (d0 :: d1 :: d2 :: d3 :: d4 :: d5 :: d6 :: d7 :: t).length ∧ d7 = 0xC2 ∧ bget t 0 = 0x85 then (1:Nat) else 0) + (if 9 < (d0 :: d1 :: d2 :: d3 :: d4 :: d5 :: d6 :: d7 :: t).length ∧ d7 = 0xE2 ∧ bget t 0 = 0x80 ∧ bget t 1 >>> 1 = 0x54 then (1:Nat) else 0) + (if 9 < d7 ∧ d7 < 14 then (1:Nat) else 0)]
        [(if d0 = 0x0D ∧ d1 = 0x0A then (1:Nat) else 0),
      (if d1 = 0x0D ∧ d2 = 0x0A then (1:Nat) else 0),
      (if d2 = 0x0D ∧ d3 = 0x0A then (1:Nat) else 0),
      (if d3 = 0x0D ∧ d4 = 0x0A then (1:Nat) else 0),
      (if d4 = 0x0D ∧ d5 = 0x0A then (1:Nat) else 0),
      (if d5 = 0x0D ∧ d6 = 0x0A then (1:Nat) else 0),
      (if d6 = 0x0D ∧ d7 = 0x0A then (1:Nat) else 0),
      0] rfl hpoint]
      simp only [List.zipWith_cons_cons, List.zipWith_nil_left]
      by_cases hbcr : 8 < (d0 :: d1 :: d2 :: d3 :: d4 :: d5 :: d6 :: d7 :: t).length ∧ d7 = 0x0D ∧ bget t 0 = 0x0A
      · rw [if_pos hbcr]
        rw [decLast_lanes ((if d0 = 0xC2 ∧ d1 = 0x85 then (1:Nat) else 0) + (if (d1 = 0x80 ∧ d0 = 0xE2) ∧ d2 >>> 1 = 0x54 then (1:Nat) else 0) + (if 9 < d0 ∧ d0 < 14 then (1:Nat) else 0) - (if d0 = 0x0D ∧ d1 = 0x0A then (1:Nat) else 0))
          ((if d1 = 0xC2 ∧ d2 = 0x85 then (1:Nat) else 0) + (if (d2 = 0x80 ∧ d1 = 0xE2) ∧ d3 >>> 1 = 0x54 then (1:Nat) else 0) + (if 9 < d1 ∧ d1 < 14 then (1:Nat) else 0) - (if d1 = 0x0D ∧ d2 = 0x0A then (1:Nat) else 0))
          ((if d2 = 0xC2 ∧ d3 = 0x85 then (1:Nat) else 0) + (if (d3 = 0x80 ∧ d2 = 0xE2) ∧ d4 >>> 1 = 0x54 then (1:Nat) else 0) + (if 9 < d2 ∧ d2 < 14 then (1:Nat) else 0) - (if d2 = 0x0D ∧ d3 = 0x0A then (1:Nat) else 0))
          ((if d3 = 0xC2 ∧ d4 = 0x85 then (1:Nat) else 0) + (if (d4 = 0x80 ∧ d3 = 0xE2) ∧ d5 >>> 1 = 0x54 then (1:Nat) else 0) + (if 9 < d3 ∧ d3 < 14 then (1:Nat) else 0) - (if d3 = 0x0D ∧ d4 = 0x0A then (1:Nat) else 0))
          ((if d4 = 0xC2 ∧ d5 = 0x85 then (1:Nat) else 0) + (if (d5 = 0x80 ∧ d4 = 0xE2) ∧ d6 >>> 1 = 0x54 then (1:Nat) else 0) + (if 9 < d4 ∧ d4 < 14 then (1:Nat) else 0) - (if d4 = 0x0D ∧ d5 = 0x0A then (1:Nat) else 0))
          ((if d5 = 0xC2 ∧ d6 = 0x85 then (1:Nat) else 0) + (if (d6 = 0x80 ∧ d5 = 0xE2) ∧ d7 >>> 1 = 0x54 then (1:Nat) else 0) + (if 9 < d5 ∧ d5 < 14 then (1:Nat) else 0) - (if d5 = 0x0D ∧ d6 = 0x0A then (1:Nat) else 0))
          ((if d6 = 0xC2 ∧ d7 = 0x85 then (1:Nat) else 0) + (if 8 < (d0 :: d1 :: d2 :: d3 :: d4 :: d5 :: d6 :: d7 :: t).length ∧ d6 = 0xE2 ∧ d7 = 0x80 ∧ bget t 0 >>> 1 = 0x54 then (1:Nat) else 0) + (if 9 < d6 ∧ d6 < 14 then (1:Nat) else 0) - (if d6 = 0x0D ∧ d7 = 0x0A then (1:Nat) else 0))
          ((if 8 < (d0 :: d1 :: d2 :: d3 :: d4 :: d5 :: d6 :: d7 :: t).length ∧ d7 = 0xC2 ∧ bget t 0 = 0x85 then (1:Nat) else 0) + (if 9 < (d0 :: d1 :: d2 :: d3 :: d4 :: d5 :: d6 :: d7 :: t).length ∧ d7 = 0xE2 ∧ bget t 0 = 0x80 ∧ bget t 1 >>> 1 = 0x54 then (1:Nat) else 0) + (if 9 < d7 ∧ d7 < 14 then (1:Nat) else 0) - 0)
          (by
          refine lanes_of_le _ 4 (by norm_num) ?_
          intro x hx
          simp only [List.mem_cons, List.not_mem_nil, or_false] at hx
          have hN0 := ind_le_one (d0 = 0xC2 ∧ d1 = 0x85)
          have hN1 := ind_le_one (d1 = 0xC2 ∧ d2 = 0x85)
          have hN2 := ind_le_one (d2 = 0xC2 ∧ d3 = 0x85)
          have hN3 := ind_le_one (d3 = 0xC2 ∧ d4 = 0x85)
          have hN4 := ind_le_one (d4 = 0xC2 ∧ d5 = 0x85)
          have hN5 := ind_le_one (d5 = 0xC2 ∧ d6 = 0x85)
          have hN6 := ind_le_one (d6 = 0xC2 ∧ d7 = 0x85)
          have hN7 := ind_le_one (8 < (d0 :: d1 :: d2 :: d3 :: d4 :: d5 :: d6 :: d7 :: t).length ∧ d7 = 0xC2 ∧ bget t 0 = 0x85)
          have hS0 := ind_le_one ((d1 = 0x80 ∧ d0 = 0xE2) ∧ d2 >>> 1 = 0x54)
          have hS1 := ind_le_one ((d2 = 0x80 ∧ d1 = 0xE2) ∧ d3 >>> 1 = 0x54)
          have hS2 := ind_le_one ((d3 = 0x80 ∧ d2 = 0xE2) ∧ d4 >>> 1 = 0x54)
          have hS3 := ind_le_one ((d4 = 0x80 ∧ d3 = 0xE2) ∧ d5 >>> 1 = 0x54)
          have hS4 := ind_le_one ((d5 = 0x80 ∧ d4 = 0xE2) ∧ d6 >>> 1 = 0x54)
          have hS5 := ind_le_one ((d6 = 0x80 ∧ d5 = 0xE2) ∧ d7 >>> 1 = 0x54)
          have hS6 := ind_le_one (8 < (d0 :: d1 :: d2 :: d3 :: d4 :: d5 :: d6 :: d7 :: t).length ∧ d6 = 0xE2 ∧ d7 = 0x80 ∧ bget t 0 >>> 1 = 0x54)
          have hS7 := ind_le_one (9 < (d0 :: d1 :: d2 :: d3 :: d4 :: d5 :: d6 :: d7 :: t).length ∧ d7 = 0xE2 ∧ bget t 0 = 0x80 ∧ bget t 1 >>> 1 = 0x54)
          have hF0 := ind_le_one (9 < d0 ∧ d0 < 14)
          have hF1 := ind_le_one (9 < d1 ∧ d1 < 14)
          have hF2 := ind_le_one (9 < d2 ∧ d2 < 14)
          have hF3 := ind_le_one (9 < d3 ∧ d3 < 14)
          have hF4 := ind_le_one (9 < d4 ∧ d4 < 14)
          have hF5 := ind_le_one (9 < d5 ∧ d5 < 14)
          have hF6 := ind_le_one (9 < d6 ∧ d6 < 14)
          have hF7 := ind_le_one (9 < d7 ∧ d7 < 14)
          rcases hx with rfl | rfl | rfl | rfl | rfl | rfl | rfl | rfl <;> omega)
          (by
            have hf7 : (if 9 < d7 ∧ d7 < 14 then (1:Nat) else 0) = 1 := if_pos (by
              have h1 := hbcr.2.1
              omega)
            omega)]
        rw [if_pos hbcr]
        simp only [Nat.sub_zero]
      · rw [if_neg hbcr]
        rw [if_neg hbcr]
  rw [hfin]

  have hL0 : (if d0 = 0xC2 ∧ d1 = 0x85 then (1:Nat) else 0) + (if (d1 = 0x80 ∧ d0 = 0xE2) ∧ d2 >>> 1 = 0x54 then (1:Nat) else 0) + (if 9 < d0 ∧ d0 < 14 then (1:Nat) else 0) - (if d0 = 0x0D ∧ d1 = 0x0A then (1:Nat) else 0)
      = (if breakAtUni (d0 :: d1 :: d2 :: d3 :: d4 :: d5 :: d6 :: d7 :: t) 0 then (1:Nat) else 0) := by
    have hbp : breakAtUni (d0 :: d1 :: d2 :: d3 :: d4 :: d5 :: d6 :: d7 :: t) 0
        = (if 0x0A ≤ d0 ∧ d0 ≤ 0x0D then decide (¬ (d0 = 0x0D ∧ d1 = 0x0A))
           else if d0 = 0xC2 then decide (d1 = 0x85)
           else if d0 = 0xE2 then decide (d1 = 0x80 ∧ d2 >>> 1 = 0x54)
           else false) := by
      rw [breakAtUni]
      simp only [show bget (d0 :: d1 :: d2 :: d3 :: d4 :: d5 :: d6 :: d7 :: t) 0 = d0 from rfl,
        show bget (d0 :: d1 :: d2 :: d3 :: d4 :: d5 :: d6 :: d7 :: t) (0 + 1) = d1 from rfl,
        show bget (d0 :: d1 :: d2 :: d3 :: d4 :: d5 :: d6 :: d7 :: t) (0 + 2) = d2 from rfl,
        show (0 + 1 < (d0 :: d1 :: d2 :: d3 :: d4 :: d5 :: d6 :: d7 :: t).length) = True from eq_true (by
          simp only [List.length_cons]
          omega),
        show (0 + 2 < (d0 :: d1 :: d2 :: d3 :: d4 :: d5 :: d6 :: d7 :: t).length) = True from eq_true (by
          simp only [List.length_cons]
          omega),
        true_and]
    rw [hbp]
    exact uniLane_mid d0 d1 d2
  have hL1 : (if d1 = 0xC2 ∧ d2 = 0x85 then (1:Nat) else 0) + (if (d2 = 0x80 ∧ d1 = 0xE2) ∧ d3 >>> 1 = 0x54 then (1:Nat) else 0) + (if 9 < d1 ∧ d1 < 14 then (1:Nat) else 0) - (if d1 = 0x0D ∧ d2 = 0x0A then (1:Nat) else 0)
      = (if breakAtUni (d0 :: d1 :: d2 :: d3 :: d4 :: d5 :: d6 :: d7 :: t) 1 then (1:Nat) else 0) := by
    have hbp : breakAtUni (d0 :: d1 :: d2 :: d3 :: d4 :: d5 :: d6 :: d7 :: t) 1
        = (if 0x0A ≤ d1 ∧ d1 ≤ 0x0D then decide (¬ (d1 = 0x0D ∧ d2 = 0x0A))
           else if d1 = 0xC2 then decide (d2 = 0x85)
           else if d1 = 0xE2 then decide (d2 = 0x80 ∧ d3 >>> 1 = 0x54)
           else false) := by
      rw [breakAtUni]
      simp only [show bget (d0 :: d1 :: d2 :: d3 :: d4 :: d5 :: d6 :: d7 :: t) 1 = d1 from rfl,
        show bget (d0 :: d1 :: d2 :: d3 :: d4 :: d5 :: d6 :: d7 :: t) (1 + 1) = d2 from rfl,
        show bget (d0 :: d1 :: d2 :: d3 :: d4 :: d5 :: d6 :: d7 :: t) (1 + 2) = d3 from rfl,
        show (1 + 1 < (d0 :: d1 :: d2 :: d3 :: d4 :: d5 :: d6 :: d7 :: t).length) = True from eq_true (by
          simp only [List.length_cons]
          omega),
        show (1 + 2 < (d0 :: d1 :: d2 :: d3 :: d4 :: d5 :: d6 :: d7 :: t).length) = True from eq_true (by
          simp only [List.length_cons]
          omega),
        true_and]
    rw [hbp]
    exact uniLane_mid d1 d2 d3
  have hL2 : (if d2 = 0xC2 ∧ d3 = 0x85 then (1:Nat) else 0) + (if (d3 = 0x80 ∧ d2 = 0xE2) ∧ d4 >>> 1 = 0x54 then (1:Nat) else 0) + (if 9 < d2 ∧ d2 < 14 then (1:Nat) else 0) - (if d2 = 0x0D ∧ d3 = 0x0A then (1:Nat) else 0)
      = (if breakAtUni (d0 :: d1 :: d2 :: d3 :: d4 :: d5 :: d6 :: d7 :: t) 2 then (1:Nat) else 0) := by
    have hbp : breakAtUni (d0 :: d1 :: d2 :: d3 :: d4 :: d5 :: d6 :: d7 :: t) 2
        = (if 0x0A ≤ d2 ∧ d2 ≤ 0x0D then decide (¬ (d2 = 0x0D ∧ d3 = 0x0A))
           else if d2 = 0xC2 then decide (d3 = 0x85)
           else if d2 = 0xE2 then decide (d3 = 0x80 ∧ d4 >>> 1 = 0x54)
           else false) := by
      rw [breakAtUni]
      simp only [show bget (d0 :: d1 :: d2 :: d3 :: d4 :: d5 :: d6 :: d7 :: t) 2 = d2 from rfl,
        show bget (d0 :: d1 :: d2 :: d3 :: d4 :: d5 :: d6 :: d7 :: t) (2 + 1) = d3 from rfl,
        show bget (d0 :: d1 :: d2 :: d3 :: d4 :: d5 :: d6 :: d7 :: t) (2 + 2) = d4 from rfl,
        show (2 + 1 < (d0 :: d1 :: d2 :: d3 :: d4 :: d5 :: d6 :: d7 :: t).length) = True from eq_true (by
          simp only [List.length_cons]
          omega),
        show (2 + 2 < (d0 :: d1 :: d2 :: d3 :: d4 :: d5 :: d6 :: d7 :: t).length) = True from eq_true (by
          simp only [List.length_cons]
          omega),
        true_and]
    rw [hbp]
    exact uniLane_mid d2 d3 d4
  have hL3 : (if d3 = 0xC2 ∧ d4 = 0x85 then (1:Nat) else 0) + (if (d4 = 0x80 ∧ d3 = 0xE2) ∧ d5 >>> 1 = 0x54 then (1:Nat) else 0) + (if 9 < d3 ∧ d3 < 14 then (1:Nat) else 0) - (if d3 = 0x0D ∧ d4 = 0x0A then (1:Nat) else 0)
      = (if breakAtUni (d0 :: d1 :: d2 :: d3 :: d4 :: d5 :: d6 :: d7 :: t) 3 then (1:Nat) else 0) := by
    have hbp : breakAtUni (d0 :: d1 :: d2 :: d3 :: d4 :: d5 :: d6 :: d7 :: t) 3
        = (if 0x0A ≤ d3 ∧ d3 ≤ 0x0D then decide (¬ (d3 = 0x0D ∧ d4 = 0x0A))
           else if d3 = 0xC2 then decide (d4 = 0x85)
           else if d3 = 0xE2 then decide (d4 = 0x80 ∧ d5 >>> 1 = 0x54)
           else false) := by
      rw [breakAtUni]
      simp only [show bget (d0 :: d1 :: d2 :: d3 :: d4 :: d5 :: d6 :: d7 :: t) 3 = d3 from rfl,
        show bget (d0 :: d1 :: d2 :: d3 :: d4 :: d5 :: d6 :: d7 :: t) (3 + 1) = d4 from rfl,
        show bget (d0 :: d1 :: d2 :: d3 :: d4 :: d5 :: d6 :: d7 :: t) (3 + 2) = d5 from rfl,
        show (3 + 1 < (d0 :: d1 :: d2 :: d3 :: d4 :: d5 :: d6 :: d7 :: t).length) = True from eq_true (by
          simp only [List.length_cons]
          omega),
        show (3 + 2 < (d0 :: d1 :: d2 :: d3 :: d4 :: d5 :: d6 :: d7 :: t).length) = True from eq_true (by
          simp only [List.length_cons]
          omega),
        true_and]
    rw [hbp]
    exact uniLane_mid d3 d4 d5
  have hL4 : (if d4 = 0xC2 ∧ d5 = 0x85 then (1:Nat) else 0) + (if (d5 = 0x80 ∧ d4 = 0xE2) ∧ d6 >>> 1 = 0x54 then (1:Nat) else 0) + (if 9 < d4 ∧ d4 < 14 then (1:Nat) else 0) - (if d4 = 0x0D ∧ d5 = 0x0A then (1:Nat) else 0)
      = (if breakAtUni (d0 :: d1 :: d2 :: d3 :: d4 :: d5 :: d6 :: d7 :: t) 4 then (1:Nat) else 0) := by
    have hbp : breakAtUni (d0 :: d1 :: d2 :: d3 :: d4 :: d5 :: d6 :: d7 :: t) 4
        = (if 0x0A ≤ d4 ∧ d4 ≤ 0x0D then decide (¬ (d4 = 0x0D ∧ d5 = 0x0A))
           else if d4 = 0xC2 then decide (d5 = 0x85)
           else if d4 = 0xE2 then decide (d5 = 0x80 ∧ d6 >>> 1 = 0x54)
           else false) := by
      rw [breakAtUni]
      simp only [show bget (d0 :: d1 :: d2 :: d3 :: d4 :: d5 :: d6 :: d7 :: t) 4 = d4 from rfl,
        show bget (d0 :: d1 :: d2 :: d3 :: d4 :: d5 :: d6 :: d7 :: t) (4 + 1) = d5 from rfl,
        show bget (d0 :: d1 :: d2 :: d3 :: d4 :: d5 :: d6 :: d7 :: t) (4 + 2) = d6 from rfl,
        show (4 + 1 < (d0 :: d1 :: d2 :: d3 :: d4 :: d5 :: d6 :: d7 :: t).length) = True from eq_true (by
          simp only [List.length_cons]
          omega),
        show (4 + 2 < (d0 :: d1 :: d2 :: d3 :: d4 :: d5 :: d6 :: d7 :: t).length) = True from eq_true (by
          simp only [List.length_cons]
          omega),
        true_and]
    rw [hbp]
    exact uniLane_mid d4 d5 d6
  have hL5 : (if d5 = 0xC2 ∧ d6 = 0x85 then (1:Nat) else 0) + (if (d6 = 0x80 ∧ d5 = 0xE2) ∧ d7 >>> 1 = 0x54 then (1:Nat) else 0) + (if 9 < d5 ∧ d5 < 14 then (1:Nat) else 0) - (if d5 = 0x0D ∧ d6 = 0x0A then (1:Nat) else 0)
      = (if breakAtUni (d0 :: d1 :: d2 :: d3 :: d4 :: d5 :: d6 :: d7 :: t) 5 then (1:Nat) else 0) := by
    have hbp : breakAtUni (d0 :: d1 :: d2 :: d3 :: d4 :: d5 :: d6 :: d7 :: t) 5
        = (if 0x0A ≤ d5 ∧ d5 ≤ 0x0D then decide (¬ (d5 = 0x0D ∧ d6 = 0x0A))
           else if d5 = 0xC2 then decide (d6 = 0x85)
           else if d5 = 0xE2 then decide (d6 = 0x80 ∧ d7 >>> 1 = 0x54)
           else false) := by
      rw [breakAtUni]
      simp only [show bget (d0 :: d1 :: d2 :: d3 :: d4 :: d5 :: d6 :: d7 :: t) 5 = d5 from rfl,
        show bget (d0 :: d1 :: d2 :: d3 :: d4 :: d5 :: d6 :: d7 :: t) (5 + 1) = d6 from rfl,
        show bget (d0 :: d1 :: d2 :: d3 :: d4 :: d5 :: d6 :: d7 :: t) (5 + 2) = d7 from rfl,
        show (5 + 1 < (d0 :: d1 :: d2 :: d3 :: d4 :: d5 :: d6 :: d7 :: t).length) = True from eq_true (by
          simp only [List.length_cons]
          omega),
        show (5 + 2 < (d0 :: d1 :: d2 :: d3 :: d4 :: d5 :: d6 :: d7 :: t).length) = True from eq_true (by
          simp only [List.length_cons]
          omega),
        true_and]
    rw [hbp]
    exact uniLane_mid d5 d6 d7
  have hL6 : (if d6 = 0xC2 ∧ d7 = 0x85 then (1:Nat) else 0) + (if 8 < (d0 :: d1 :: d2 :: d3 :: d4 :: d5 :: d6 :: d7 :: t).length ∧ d6 = 0xE2 ∧ d7 = 0x80 ∧ bget t 0 >>> 1 = 0x54 then (1:Nat) else 0) + (if 9 < d6 ∧ d6 < 14 then (1:Nat) else 0) - (if d6 = 0x0D ∧ d7 = 0x0A then (1:Nat) else 0)
      = (if breakAtUni (d0 :: d1 :: d2 :: d3 :: d4 :: d5 :: d6 :: d7 :: t) 6 then (1:Nat) else 0) := by
    have hbp : breakAtUni (d0 :: d1 :: d2 :: d3 :: d4 :: d5 :: d6 :: d7 :: t) 6
        = (if 0x0A ≤ d6 ∧ d6 ≤ 0x0D then decide (¬ (d6 = 0x0D ∧ d7 = 0x0A))
           else if d6 = 0xC2 then decide (d7 = 0x85)
           else if d6 = 0xE2 then decide (8 < (d0 :: d1 :: d2 :: d3 :: d4 :: d5 :: d6 :: d7 :: t).length ∧ d7 = 0x80 ∧ bget t 0 >>> 1 = 0x54)
           else false) := by
      rw [breakAtUni]
      simp only [show (6:Nat) + 1 = 7 from rfl, show (6:Nat) + 2 = 8 from rfl,
        show bget (d0 :: d1 :: d2 :: d3 :: d4 :: d5 :: d6 :: d7 :: t) 6 = d6 from rfl,
        show bget (d0 :: d1 :: d2 :: d3 :: d4 :: d5 :: d6 :: d7 :: t) 7 = d7 from rfl,
        show bget (d0 :: d1 :: d2 :: d3 :: d4 :: d5 :: d6 :: d7 :: t) 8 = bget t 0 from rfl,
        show (7 < (d0 :: d1 :: d2 :: d3 :: d4 :: d5 :: d6 :: d7 :: t).length) = True from eq_true (by
          simp only [List.length_cons]
          omega),
        true_and]
    rw [hbp]
    exact uniLane_six d6 d7 (bget t 0) (8 < (d0 :: d1 :: d2 :: d3 :: d4 :: d5 :: d6 :: d7 :: t).length)
  have hL7 : (if 8 < (d0 :: d1 :: d2 :: d3 :: d4 :: d5 :: d6 :: d7 :: t).length ∧ d7 = 0xC2 ∧ bget t 0 = 0x85 then (1:Nat) else 0) + (if 9 < (d0 :: d1 :: d2 :: d3 :: d4 :: d5 :: d6 :: d7 :: t).length ∧ d7 = 0xE2 ∧ bget t 0 = 0x80 ∧ bget t 1 >>> 1 = 0x54 then (1:Nat) else 0) + (if 9 < d7 ∧ d7 < 14 then (1:Nat) else 0) - (if 8 < (d0 :: d1 :: d2 :: d3 :: d4 :: d5 :: d6 :: d7 :: t).length ∧ d7 = 0x0D ∧ bget t 0 = 0x0A then (1:Nat) else 0)
      = (if breakAtUni (d0 :: d1 :: d2 :: d3 :: d4 :: d5 :: d6 :: d7 :: t) 7 then (1:Nat) else 0) := by
    have hbp : breakAtUni (d0 :: d1 :: d2 :: d3 :: d4 :: d5 :: d6 :: d7 :: t) 7
        = (if 0x0A ≤ d7 ∧ d7 ≤ 0x0D then
             decide (¬ (d7 = 0x0D ∧ 8 < (d0 :: d1 :: d2 :: d3 :: d4 :: d5 :: d6 :: d7 :: t).length ∧ bget t 0 = 0x0A))
           else if d7 = 0xC2 then decide (8 < (d0 :: d1 :: d2 :: d3 :: d4 :: d5 :: d6 :: d7 :: t).length ∧ bget t 0 = 0x85)
           else if d7 = 0xE2 then
             decide (9 < (d0 :: d1 :: d2 :: d3 :: d4 :: d5 :: d6 :: d7 :: t).length ∧ bget t 0 = 0x80 ∧ bget t 1 >>> 1 = 0x54)
           else false) := by
      rw [breakAtUni]
      simp only [show (7:Nat) + 1 = 8 from rfl, show (7:Nat) + 2 = 9 from rfl,
        show bget (d0 :: d1 :: d2 :: d3 :: d4 :: d5 :: d6 :: d7 :: t) 7 = d7 from rfl,
        show bget (d0 :: d1 :: d2 :: d3 :: d4 :: d5 :: d6 :: d7 :: t) 8 = bget t 0 from rfl,
        show bget (d0 :: d1 :: d2 :: d3 :: d4 :: d5 :: d6 :: d7 :: t) 9 = bget t 1 from rfl]
    rw [hbp]
    exact uniLane_seven d7 (bget t 0) (bget t 1) (8 < (d0 :: d1 :: d2 :: d3 :: d4 :: d5 :: d6 :: d7 :: t).length) (9 < (d0 :: d1 :: d2 :: d3 :: d4 :: d5 :: d6 :: d7 :: t).length)
  rw [hL0, hL1, hL2, hL3, hL4, hL5, hL6, hL7]


/-! ## lines (Unicode) count equivalence -/

theorem cbStep_core (b : Nat) (A B C : Prop) [Decidable A] [Decidable B] [Decidable C]
    (count : Nat) :
    (if 0x0A ≤ b ∧ b ≤ 0x0D then
       (if b = 0x0D ∧ A then count + 1 - 1 else count + 1)
     else if b = 0xC2 ∧ B then count + 1
     else if b = 0xE2 ∧ C then count + 1
     else count)
    = count + (if (if 0x0A ≤ b ∧ b ≤ 0x0D then decide (¬ (b = 0x0D ∧ A))
        else if b = 0xC2 then decide B
        else if b = 0xE2 then decide C
        else false) = true then 1 else 0) := by
  by_cases h1 : 0x0A ≤ b ∧ b ≤ 0x0D
  · rw [if_pos h1, if_pos h1]
    by_cases h2 : b = 0x0D ∧ A <;> simp [h2]
  · rw [if_neg h1, if_neg h1]
    by_cases h2 : b = 0xC2
    · subst h2
      by_cases h3 : B <;> simp [h3]
    · by_cases h3 : b = 0xE2
      · subst h3
        by_cases h4 : C <;> simp [h2, h4]
      · simp [h2, h3]

/-- One byte of lines::count_breaks_up_to adds the reference recognizer
indicator of its position. -/
theorem cbStep_eq (bytes : List Nat) (ptr count : Nat) :
    (if 0x0A ≤ bget bytes ptr ∧ bget bytes ptr ≤ 0x0D then
       (if bget bytes ptr = 0x0D ∧ ptr + 1 < bytes.length ∧ bget bytes (ptr + 1) = 0x0A then
         count + 1 - 1
       else count + 1)
     else if bget bytes ptr = 0xC2 ∧ ptr + 1 < bytes.length ∧ bget bytes (ptr + 1) = 0x85 then
       count + 1
     else if bget bytes ptr = 0xE2 ∧ ptr + 2 < bytes.length ∧ bget bytes (ptr + 1) = 0x80
         ∧ (bget bytes (ptr + 2)) >>> 1 = 0x54 then
       count + 1
     else count)
    = count + (if breakAtUni bytes ptr then 1 else 0) :=
  cbStep_core (bget bytes ptr) (ptr + 1 < bytes.length ∧ bget bytes (ptr + 1) = 0x0A)
    (ptr + 1 < bytes.length ∧ bget bytes (ptr + 1) = 0x85)
    (ptr + 2 < bytes.length ∧ bget bytes (ptr + 1) = 0x80 ∧ (bget bytes (ptr + 2)) >>> 1 = 0x54)
    count

/-- The byte loop of lines::count_breaks_up_to counts the reference breaks
of the positions it crosses (the break cap equals the byte length of the
slice and never binds). -/
theorem cbUpToGo_eq : ∀ n (bytes : List Nat) (maxBytes ptr count : Nat),
    maxBytes - ptr ≤ n → ptr ≤ maxBytes → maxBytes ≤ bytes.length → count ≤ ptr →
    cbUpToGo bytes maxBytes bytes.length ptr count
      = (count + (indSum breakAtUni bytes maxBytes - indSum breakAtUni bytes ptr),
          maxBytes) := by
  intro n
  induction n with
  | zero =>
    intro bytes maxBytes ptr count hn hpm hmb hcp
    have hpe : ptr = maxBytes := by omega
    subst hpe
    rw [cbUpToGo, dif_neg (by omega)]
    simp [Nat.sub_self]
  | succ n ih =>
    intro bytes maxBytes ptr count hn hpm hmb hcp
    by_cases hlt : ptr < maxBytes
    · rw [cbUpToGo, dif_pos (⟨hlt, by omega⟩ : ptr < maxBytes ∧ count < bytes.length)]
      simp only [cbStep_eq bytes ptr count]
      rw [ih bytes maxBytes (ptr + 1) (count + (if breakAtUni bytes ptr then 1 else 0))
        (by omega) (by omega) hmb (by
          have := ind_le_one (breakAtUni bytes ptr = true)
          omega)]
      have hsucc := indSum_succ breakAtUni bytes ptr
      have hmono := indSum_mono breakAtUni bytes (ptr + 1) maxBytes (by omega)
      have heq : count + (if breakAtUni bytes ptr then 1 else 0)
          + (indSum breakAtUni bytes maxBytes - indSum breakAtUni bytes (ptr + 1))
          = count + (indSum breakAtUni bytes maxBytes - indSum breakAtUni bytes ptr) := by
        omega
      rw [heq]
    · have hpe : ptr = maxBytes := by omega
      subst hpe
      rw [cbUpToGo, dif_neg (by omega)]
      simp [Nat.sub_self]

theorem count_breaks_up_to_eq (bytes : List Nat) (maxBytes : Nat)
    (hmb : maxBytes ≤ bytes.length) :
    count_breaks_up_to bytes maxBytes bytes.length
      = (indSum breakAtUni bytes maxBytes, maxBytes) := by
  show cbUpToGo bytes maxBytes bytes.length 0 0 = _
  rw [cbUpToGo_eq maxBytes bytes maxBytes 0 0 (by omega) (by omega) hmb (by omega)]
  simp only [show indSum breakAtUni bytes 0 = 0 from rfl, Nat.sub_zero, Nat.zero_add]

theorem linesCntLoop_step_flush (d0 d1 d2 d3 d4 d5 d6 d7 : Nat) (t : List Nat)
    (count accW i : Nat) (hfl : i + 1 = 31) :
    linesCntChunkLoop (d0 :: d1 :: d2 :: d3 :: d4 :: d5 :: d6 :: d7 :: t) count accW i
      = linesCntChunkLoop t
          (count + sumBytes (wadd accW (count_breaks_in_chunk (d0 :: d1 :: d2 :: d3 :: d4 :: d5 :: d6 :: d7 :: t)))) 0 0 := by
  rw [linesCntChunkLoop, dif_pos (by simp only [List.length_cons]; omega :
    (8:Nat) ≤ (d0 :: d1 :: d2 :: d3 :: d4 :: d5 :: d6 :: d7 :: t).length)]
  simp only [show (d0 :: d1 :: d2 :: d3 :: d4 :: d5 :: d6 :: d7 :: t).drop 8 = t from rfl, if_pos hfl]

theorem linesCntLoop_step_go (d0 d1 d2 d3 d4 d5 d6 d7 : Nat) (t : List Nat)
    (count accW i : Nat) (hfl : ¬ i + 1 = 31) :
    linesCntChunkLoop (d0 :: d1 :: d2 :: d3 :: d4 :: d5 :: d6 :: d7 :: t) count accW i
      = linesCntChunkLoop t count (wadd accW (count_breaks_in_chunk (d0 :: d1 :: d2 :: d3 :: d4 :: d5 :: d6 :: d7 :: t))) (i + 1) := by
  rw [linesCntChunkLoop, dif_pos (by simp only [List.length_cons]; omega :
    (8:Nat) ≤ (d0 :: d1 :: d2 :: d3 :: d4 :: d5 :: d6 :: d7 :: t).length)]
  simp only [show (d0 :: d1 :: d2 :: d3 :: d4 :: d5 :: d6 :: d7 :: t).drop 8 = t from rfl, if_neg hfl]

theorem linesCntLoop_scalar (rest : List Nat) (count : Nat) (es : List Nat) (i : Nat)
    (h8 : es.length = 8) (hes : ∀ e ∈ es, e ≤ i) (hi : i ≤ 30)
    (hshort : ¬ 8 ≤ rest.length) :
    linesCntChunkLoop rest count (fromLanes es) i
      = count + es.sum + indSum breakAtUni rest rest.length := by
  rw [linesCntChunkLoop, dif_neg hshort]
  have hsb : sumBytes (fromLanes es) = es.sum := by
    refine sumBytes_fromLanes_small es h8 ?_
    have hsle : es.sum ≤ es.length * 30 := by
      have := List.sum_le_card_nsmul es 30 (fun x hx => le_trans (hes x hx) hi)
      simpa [smul_eq_mul] using this
    rw [h8] at hsle
    omega
  rw [hsb, count_breaks_up_to_eq rest rest.length (le_refl _)]

set_option maxHeartbeats 1600000 in
/-- The Unicode chunk loop counts the reference breaks of its suffix. -/
theorem linesCntLoop_eq : ∀ n (rest : List Nat) (count : Nat) (es : List Nat) (i : Nat),
    rest.length ≤ n → ByteList rest → es.length = 8 → (∀ e ∈ es, e ≤ i) → i ≤ 30 →
    linesCntChunkLoop rest count (fromLanes es) i
      = count + es.sum + indSum breakAtUni rest rest.length := by
  intro n
  induction n with
  | zero =>
    intro rest count es i hlen hB h8 hes hi
    exact linesCntLoop_scalar rest count es i h8 hes hi (by omega)
  | succ n ih =>
    intro rest count es i hlen hB h8 hes hi
    by_cases h8r : 8 ≤ rest.length
    · obtain ⟨d0, d1, d2, d3, d4, d5, d6, d7, t, rfl⟩ := destruct8 rest h8r
      obtain ⟨e0, e1, e2, e3, e4, e5, e6, e7, rfl⟩ := length8_destruct es h8
      have hall : Lanes [d0, d1, d2, d3, d4, d5, d6, d7] := by
        intro x hx
        simp only [List.mem_cons, List.not_mem_nil, or_false] at hx
        rcases hx with rfl | rfl | rfl | rfl | rfl | rfl | rfl | rfl <;> exact hB _ (by simp)
      have htB : ByteList t := fun x hx => hB x (by simp [hx])
      have htlen : t.length ≤ n := by
        simp only [List.length_cons] at hlen
        omega
      have hsplit := indSum_add_drop breakAtUni (d0 :: d1 :: d2 :: d3 :: d4 :: d5 :: d6 :: d7 :: t) 8
        (fun p => breakAtUni_drop _ 8 p) t.length
      rw [show (d0 :: d1 :: d2 :: d3 :: d4 :: d5 :: d6 :: d7 :: t).drop 8 = t from rfl] at hsplit
      rw [indSum_range breakAtUni _ 8, show List.range 8 = [0,1,2,3,4,5,6,7] from rfl]
        at hsplit
      simp only [List.map_cons, List.map_nil, List.sum_cons, List.sum_nil] at hsplit
      rw [show (d0 :: d1 :: d2 :: d3 :: d4 :: d5 :: d6 :: d7 :: t).length = 8 + t.length from by simp only [List.length_cons]; omega]
      rw [hsplit]
      have hcb := cbic_lanes d0 d1 d2 d3 d4 d5 d6 d7 t hall
      have q0 := hes e0 (by simp)
      have q1 := hes e1 (by simp)
      have q2 := hes e2 (by simp)
      have q3 := hes e3 (by simp)
      have q4 := hes e4 (by simp)
      have q5 := hes e5 (by simp)
      have q6 := hes e6 (by simp)
      have q7 := hes e7 (by simp)
      have z0 := ind_le_one (breakAtUni (d0 :: d1 :: d2 :: d3 :: d4 :: d5 :: d6 :: d7 :: t) 0 = true)
      have z1 := ind_le_one (breakAtUni (d0 :: d1 :: d2 :: d3 :: d4 :: d5 :: d6 :: d7 :: t) 1 = true)
      have z2 := ind_le_one (breakAtUni (d0 :: d1 :: d2 :: d3 :: d4 :: d5 :: d6 :: d7 :: t) 2 = true)
      have z3 := ind_le_one (breakAtUni (d0 :: d1 :: d2 :: d3 :: d4 :: d5 :: d6 :: d7 :: t) 3 = true)
      have z4 := ind_le_one (breakAtUni (d0 :: d1 :: d2 :: d3 :: d4 :: d5 :: d6 :: d7 :: t) 4 = true)
      have z5 := ind_le_one (breakAtUni (d0 :: d1 :: d2 :: d3 :: d4 :: d5 :: d6 :: d7 :: t) 5 = true)
      have z6 := ind_le_one (breakAtUni (d0 :: d1 :: d2 :: d3 :: d4 :: d5 :: d6 :: d7 :: t) 6 = true)
      have z7 := ind_le_one (breakAtUni (d0 :: d1 :: d2 :: d3 :: d4 :: d5 :: d6 :: d7 :: t) 7 = true)
      by_cases hfl : i + 1 = 31
      · rw [linesCntLoop_step_flush d0 d1 d2 d3 d4 d5 d6 d7 t count
          (fromLanes [e0, e1, e2, e3, e4, e5, e6, e7]) i hfl, hcb]
        rw [wadd_fromLanes_small [e0, e1, e2, e3, e4, e5, e6, e7]
          [(if breakAtUni (d0 :: d1 :: d2 :: d3 :: d4 :: d5 :: d6 :: d7 :: t) 0 then (1:Nat) else 0),
      (if breakAtUni (d0 :: d1 :: d2 :: d3 :: d4 :: d5 :: d6 :: d7 :: t) 1 then (1:Nat) else 0),
      (if breakAtUni (d0 :: d1 :: d2 :: d3 :: d4 :: d5 :: d6 :: d7 :: t) 2 then (1:Nat) else 0),
      (if breakAtUni (d0 :: d1 :: d2 :: d3 :: d4 :: d5 :: d6 :: d7 :: t) 3 then (1:Nat) else 0),
      (if breakAtUni (d0 :: d1 :: d2 :: d3 :: d4 :: d5 :: d6 :: d7 :: t) 4 then (1:Nat) else 0),
      (if breakAtUni (d0 :: d1 :: d2 :: d3 :: d4 :: d5 :: d6 :: d7 :: t) 5 then (1:Nat) else 0),
      (if breakAtUni (d0 :: d1 :: d2 :: d3 :: d4 :: d5 :: d6 :: d7 :: t) 6 then (1:Nat) else 0),
      (if breakAtUni (d0 :: d1 :: d2 :: d3 :: d4 :: d5 :: d6 :: d7 :: t) 7 then (1:Nat) else 0)] rfl rfl i 1 hes
          (by
            intro x hx
            simp only [List.mem_cons, List.not_mem_nil, or_false] at hx
            rcases hx with rfl | rfl | rfl | rfl | rfl | rfl | rfl | rfl <;> exact ind_le_one _)
          (by omega)]
        simp only [List.zipWith_cons_cons, List.zipWith_nil_left]
        rw [sumBytes_fromLanes_small [e0 + (if breakAtUni (d0 :: d1 :: d2 :: d3 :: d4 :: d5 :: d6 :: d7 :: t) 0 then (1:Nat) else 0),
      e1 + (if breakAtUni (d0 :: d1 :: d2 :: d3 :: d4 :: d5 :: d6 :: d7 :: t) 1 then (1:Nat) else 0),
      e2 + (if breakAtUni (d0 :: d1 :: d2 :: d3 :: d4 :: d5 :: d6 :: d7 :: t) 2 then (1:Nat) else 0),
      e3 + (if breakAtUni (d0 :: d1 :: d2 :: d3 :: d4 :: d5 :: d6 :: d7 :: t) 3 then (1:Nat) else 0),
      e4 + (if breakAtUni (d0 :: d1 :: d2 :: d3 :: d4 :: d5 :: d6 :: d7 :: t) 4 then (1:Nat) else 0),
      e5 + (if breakAtUni (d0 :: d1 :: d2 :: d3 :: d4 :: d5 :: d6 :: d7 :: t) 5 then (1:Nat) else 0),
      e6 + (if breakAtUni (d0 :: d1 :: d2 :: d3 :: d4 :: d5 :: d6 :: d7 :: t) 6 then (1:Nat) else 0),
      e7 + (if breakAtUni (d0 :: d1 :: d2 :: d3 :: d4 :: d5 :: d6 :: d7 :: t) 7 then (1:Nat) else 0)] rfl
          (by
            simp only [List.sum_cons, List.sum_nil]
            omega)]
        have hrec := ih t
          (count + ([e0 + (if breakAtUni (d0 :: d1 :: d2 :: d3 :: d4 :: d5 :: d6 :: d7 :: t) 0 then (1:Nat) else 0),
      e1 + (if breakAtUni (d0 :: d1 :: d2 :: d3 :: d4 :: d5 :: d6 :: d7 :: t) 1 then (1:Nat) else 0),
      e2 + (if breakAtUni (d0 :: d1 :: d2 :: d3 :: d4 :: d5 :: d6 :: d7 :: t) 2 then (1:Nat) else 0),
      e3 + (if breakAtUni (d0 :: d1 :: d2 :: d3 :: d4 :: d5 :: d6 :: d7 :: t) 3 then (1:Nat) else 0),
      e4 + (if breakAtUni (d0 :: d1 :: d2 :: d3 :: d4 :: d5 :: d6 :: d7 :: t) 4 then (1:Nat) else 0),
      e5 + (if breakAtUni (d0 :: d1 :: d2 :: d3 :: d4 :: d5 :: d6 :: d7 :: t) 5 then (1:Nat) else 0),
      e6 + (if breakAtUni (d0 :: d1 :: d2 :: d3 :: d4 :: d5 :: d6 :: d7 :: t) 6 then (1:Nat) else 0),
      e7 + (if breakAtUni (d0 :: d1 :: d2 :: d3 :: d4 :: d5 :: d6 :: d7 :: t) 7 then (1:Nat) else 0)] : List Nat).sum)
          (List.replicate 8 0) 0 htlen htB (by simp)
          (fun e he => by rw [List.eq_of_mem_replicate he]) (by norm_num)
        rw [show fromLanes (List.replicate 8 0) = (0:Nat) from by decide] at hrec
        rw [hrec]
        simp only [show (List.replicate 8 (0:Nat)).sum = 0 from rfl, Nat.add_zero,
          List.sum_cons, List.sum_nil]
        omega
      · rw [linesCntLoop_step_go d0 d1 d2 d3 d4 d5 d6 d7 t count
          (fromLanes [e0, e1, e2, e3, e4, e5, e6, e7]) i hfl, hcb]
        rw [wadd_fromLanes_small [e0, e1, e2, e3, e4, e5, e6, e7]
          [(if breakAtUni (d0 :: d1 :: d2 :: d3 :: d4 :: d5 :: d6 :: d7 :: t) 0 then (1:Nat) else 0),
      (if breakAtUni (d0 :: d1 :: d2 :: d3 :: d4 :: d5 :: d6 :: d7 :: t) 1 then (1:Nat) else 0),
      (if breakAtUni (d0 :: d1 :: d2 :: d3 :: d4 :: d5 :: d6 :: d7 :: t) 2 then (1:Nat) else 0),
      (if breakAtUni (d0 :: d1 :: d2 :: d3 :: d4 :: d5 :: d6 :: d7 :: t) 3 then (1:Nat) else 0),
      (if breakAtUni (d0 :: d1 :: d2 :: d3 :: d4 :: d5 :: d6 :: d7 :: t) 4 then (1:Nat) else 0),
      (if breakAtUni (d0 :: d1 :: d2 :: d3 :: d4 :: d5 :: d6 :: d7 :: t) 5 then (1:Nat) else 0),
      (if breakAtUni (d0 :: d1 :: d2 :: d3 :: d4 :: d5 :: d6 :: d7 :: t) 6 then (1:Nat) else 0),
      (if breakAtUni (d0 :: d1 :: d2 :: d3 :: d4 :: d5 :: d6 :: d7 :: t) 7 then (1:Nat) else 0)] rfl rfl i 1 hes
          (by
            intro x hx
            simp only [List.mem_cons, List.not_mem_nil, or_false] at hx
            rcases hx with rfl | rfl | rfl | rfl | rfl | rfl | rfl | rfl <;> exact ind_le_one _)
          (by omega)]
        simp only [List.zipWith_cons_cons, List.zipWith_nil_left]
        have hrec := ih t count
          ([e0 + (if breakAtUni (d0 :: d1 :: d2 :: d3 :: d4 :: d5 :: d6 :: d7 :: t) 0 then (1:Nat) else 0),
      e1 + (if breakAtUni (d0 :: d1 :: d2 :: d3 :: d4 :: d5 :: d6 :: d7 :: t) 1 then (1:Nat) else 0),
      e2 + (if breakAtUni (d0 :: d1 :: d2 :: d3 :: d4 :: d5 :: d6 :: d7 :: t) 2 then (1:Nat) else 0),
      e3 + (if breakAtUni (d0 :: d1 :: d2 :: d3 :: d4 :: d5 :: d6 :: d7 :: t) 3 then (1:Nat) else 0),
      e4 + (if breakAtUni (d0 :: d1 :: d2 :: d3 :: d4 :: d5 :: d6 :: d7 :: t) 4 then (1:Nat) else 0),
      e5 + (if breakAtUni (d0 :: d1 :: d2 :: d3 :: d4 :: d5 :: d6 :: d7 :: t) 5 then (1:Nat) else 0),
      e6 + (if breakAtUni (d0 :: d1 :: d2 :: d3 :: d4 :: d5 :: d6 :: d7 :: t) 6 then (1:Nat) else 0),
      e7 + (if breakAtUni (d0 :: d1 :: d2 :: d3 :: d4 :: d5 :: d6 :: d7 :: t) 7 then (1:Nat) else 0)] : List Nat)
          (i + 1) htlen htB rfl
          (by
            intro x hx
            simp only [List.mem_cons, List.not_mem_nil, or_false] at hx
            rcases hx with rfl | rfl | rfl | rfl | rfl | rfl | rfl | rfl <;> omega)
          (by omega)
        rw [hrec]
        simp only [List.sum_cons, List.sum_nil]
        omega
    · exact linesCntLoop_scalar rest count es i h8 hes hi h8r

/-- lines::count_breaks equals the reference recognizer count. -/
theorem lines_count_eq (a : Nat) (text : List Nat) (hB : ByteList text) :
    lines_count_breaks a text = indSum breakAtUni text text.length := by
  have hzero : (0:Nat) = fromLanes (List.replicate 8 0) := by decide
  have hm : min a text.length ≤ text.length := Nat.min_le_right a text.length
  rw [lines_count_breaks]
  by_cases h0 : 0 < min a text.length
  · simp only [if_pos h0]
    rw [count_breaks_up_to_eq text (min a text.length) hm]
    have hloop := linesCntLoop_eq (text.drop (min a text.length)).length
      (text.drop (min a text.length))
      (indSum breakAtUni text (min a text.length))
      (List.replicate 8 0) 0 (le_refl _) (byteList_drop _ _ hB) (by simp)
      (fun e he => by rw [List.eq_of_mem_replicate he]) (by norm_num)
    rw [show fromLanes (List.replicate 8 0) = (0:Nat) from by decide] at hloop
    show linesCntChunkLoop (text.drop (min a text.length))
        (indSum breakAtUni text (min a text.length)) 0 0 = _
    rw [hloop]
    simp only [show (List.replicate 8 (0:Nat)).sum = 0 from rfl, Nat.add_zero]
    have hsplitT := indSum_add_drop breakAtUni text (min a text.length)
      (fun p => breakAtUni_drop text (min a text.length) p)
      (text.drop (min a text.length)).length
    rw [show min a text.length + (text.drop (min a text.length)).length = text.length from by
      rw [List.length_drop]
      omega] at hsplitT
    rw [hsplitT]
  · simp only [if_neg h0]
    have hloop := linesCntLoop_eq text.length text 0 (List.replicate 8 0) 0
      (le_refl _) hB (by simp)
      (fun e he => by rw [List.eq_of_mem_replicate he]) (by norm_num)
    rw [show fromLanes (List.replicate 8 0) = (0:Nat) from by decide] at hloop
    rw [hloop]
    simp only [show (List.replicate 8 (0:Nat)).sum = 0 from rfl, Nat.add_zero, Nat.zero_add]


/-! ## Claim C1 -/

/-- C1: lines::count_breaks equals the byte-at-a-time reference recognizer
count, one break per LF, VT, FF, CR not immediately followed by LF, CRLF
pair (owned by the LF position), NEL (C2 85) and LS/PS (E2 80 with a third
byte whose right shift by one equals 0x54), on every valid UTF-8 text. -/
theorem claim_C1_lines_count (a : Nat) (text : List Nat) (ha : a < 8)
    (hB : ByteList text) (hv : utf8Valid text) :
    lines_count_breaks a text = indSum breakAtUni text text.length :=
  lines_count_eq a text hB

theorem claim_C1_lines_count_witness :
    ((3 : Nat) < 8 ∧ ByteList sampleBreaks ∧ utf8Valid sampleBreaks = true)
      ∧ lines_count_breaks 3 sampleBreaks
          = indSum breakAtUni sampleBreaks sampleBreaks.length :=
  ⟨⟨by norm_num, by decide, by decide⟩,
    claim_C1_lines_count 3 sampleBreaks (by norm_num) (by decide) (by decide)⟩

/-! ## Claim C10 -/

theorem breakAtLf_imp_crlf (l : List Nat) (p : Nat) :
    breakAtLf l p = true → breakAtCrlf l p = true := by
  intro h
  simp only [breakAtLf, beq_iff_eq] at h
  simp [breakAtCrlf, h]

theorem breakAtCrlf_imp_uni (l : List Nat) (p : Nat) :
    breakAtCrlf l p = true → breakAtUni l p = true := by
  intro h
  simp only [breakAtCrlf, Bool.or_eq_true, beq_iff_eq, Bool.and_eq_true,
    decide_eq_true_eq] at h
  rcases h with h | ⟨h1, h2⟩
  · simp [breakAtUni, h]
  · simp [breakAtUni, h1, h2]

/-- C10: on every valid UTF-8 text the three line-break policies count in
increasing order: LF-only at most CR/CRLF, CR/CRLF at most full Unicode. -/
theorem claim_C10_count_order (a : Nat) (text : List Nat) (ha : a < 8)
    (hB : ByteList text) (hv : utf8Valid text) :
    lines_lf_count_breaks a text ≤ lines_crlf_count_breaks a text
      ∧ lines_crlf_count_breaks a text ≤ lines_count_breaks a text := by
  rw [lines_lf_count_eq a text hB, lines_crlf_count_eq a text hB, lines_count_eq a text hB]
  exact ⟨indSum_le_of_imp _ _ text (fun p => breakAtLf_imp_crlf text p) text.length,
    indSum_le_of_imp _ _ text (fun p => breakAtCrlf_imp_uni text p) text.length⟩

theorem claim_C10_count_order_witness :
    ((5 : Nat) < 8 ∧ ByteList sampleWords ∧ utf8Valid sampleWords = true)
      ∧ (lines_lf_count_breaks 5 sampleWords ≤ lines_crlf_count_breaks 5 sampleWords
        ∧ lines_crlf_count_breaks 5 sampleWords ≤ lines_count_breaks 5 sampleWords) :=
  ⟨⟨by norm_num, by decide, by decide⟩,
    claim_C10_count_order 5 sampleWords (by norm_num) (by decide) (by decide)⟩


/-! ## Claim C5 -/

/-- C5: the running count of lines_crlf::count_breaks_internal is driven to
minus one by a CRLF pair straddling a chunk boundary before any flush (an
arithmetic underflow of the usize count in the source), even though the
final count is correct: the claimed absence of underflow fails. -/
theorem claim_C5_crlf_underflow :
    crlfCntChunkLoop (sampleUnderflow.drop 6) 0 0 0 false
        = crlfCntChunkLoop (sampleUnderflow.drop 22) (0 - 1)
            (fromLanes [1, 0, 0, 0, 0, 0, 0, 1]) 2 false
      ∧ ((0 : Int) - 1 < 0)
      ∧ lines_crlf_count_breaks 6 sampleUnderflow = 1 := by
  refine ⟨?_, by norm_num, ?_⟩
  · rw [show sampleUnderflow.drop 6
        = 97 :: 97 :: 97 :: 97 :: 97 :: 97 :: 97 :: 13 ::
          (10 :: 98 :: 98 :: 98 :: 98 :: 98 :: 98 :: 98 :: [98]) from rfl]
    rw [crlfCntLoop_step_go 97 97 97 97 97 97 97 13
      (10 :: 98 :: 98 :: 98 :: 98 :: 98 :: 98 :: 98 :: [98]) 0 0 0 false (by norm_num)]
    simp only [show ((0:Int) - (if (97:Nat) = 0x0A ∧ false = true then 1 else 0)) = 0 from by
        norm_num,
      show wadd (wadd 0 (cmpEqByte (fromLanes [97, 97, 97, 97, 97, 97, 97, 13]) 0x0A))
          (wsub (cmpEqByte (fromLanes [97, 97, 97, 97, 97, 97, 97, 13]) 0x0D)
            (cmpEqByte (fromLanes [97, 97, 97, 97, 97, 97, 97, 13]) 0x0D &&&
              shiftBackLex (cmpEqByte (fromLanes [97, 97, 97, 97, 97, 97, 97, 13]) 0x0A) 1))
        = fromLanes [0, 0, 0, 0, 0, 0, 0, 1] from by decide,
      show decide ((13:Nat) = 0x0D) = true from rfl,
      show decide True = true from rfl,
      show (0:Nat) + 1 = 1 from rfl]
    rw [crlfCntLoop_step_go 10 98 98 98 98 98 98 98 [98]
      0 (fromLanes [0, 0, 0, 0, 0, 0, 0, 1]) 1 true (by norm_num)]
    simp only [show ((0:Int) - (if (10:Nat) = 0x0A ∧ true = true then 1 else 0)) = 0 - 1 from by
        norm_num,
      show wadd (wadd (fromLanes [0, 0, 0, 0, 0, 0, 0, 1])
            (cmpEqByte (fromLanes [10, 98, 98, 98, 98, 98, 98, 98]) 0x0A))
          (wsub (cmpEqByte (fromLanes [10, 98, 98, 98, 98, 98, 98, 98]) 0x0D)
            (cmpEqByte (fromLanes [10, 98, 98, 98, 98, 98, 98, 98]) 0x0D &&&
              shiftBackLex (cmpEqByte (fromLanes [10, 98, 98, 98, 98, 98, 98, 98]) 0x0A) 1))
        = fromLanes [1, 0, 0, 0, 0, 0, 0, 1] from by decide,
      show decide ((98:Nat) = 0x0D) = false from rfl,
      show (1:Nat) + 1 = 2 from rfl,
      show sampleUnderflow.drop 22 = [98] from rfl]
    norm_num
  · rw [lines_crlf_count_eq 6 sampleUnderflow (by decide)]
    decide

/-! ## Claim C8 (counterexample) -/

/-- C8 fails as stated: in the text ab the byte offset 1 is a char
boundary, yet the lines_lf round trip sends it to the start of its line,
byte 0, not back to 1. -/
theorem claim_C8_roundtrip_counterexample :
    utf8Valid [97, 98] = true
      ∧ is_char_boundary [97, 98] 1 = true
      ∧ lines_lf_to_byte_idx 0 [97, 98] (lines_lf_from_byte_idx 0 [97, 98] 1) ≠ 1 :=
  ⟨by decide, by decide, by decide⟩


/-! ## chars to_byte_idx equivalence -/

theorem seqLen_pos (b : Nat) : 1 ≤ seqLen b := by
  rw [seqLen]
  by_cases h1 : b ≤ 0x7F
  · simp [h1]
  · by_cases h2 : b ≤ 0xDF
    · simp [h1, h2]
    · by_cases h3 : b ≤ 0xEF <;> simp [h1, h2, h3]

theorem leadCount_cons (b : Nat) (l : List Nat) :
    leadCount (b :: l) = (if is_leading_byte b then 1 else 0) + leadCount l := by
  by_cases h : is_leading_byte b <;> simp [leadCount, List.filter_cons, h] <;> omega

theorem leadCount_append (l1 l2 : List Nat) :
    leadCount (l1 ++ l2) = leadCount l1 + leadCount l2 := by
  simp [leadCount, List.filter_append]

theorem leadCount_le_length (l : List Nat) : leadCount l ≤ l.length :=
  List.length_filter_le _ _

theorem lead_add_trail (l : List Nat) : leadCount l + trailCount l = l.length := by
  have hsplit := filter_not_split (fun b => is_trailing_byte b) l
  have hcongr : l.filter (fun b => is_leading_byte b)
      = l.filter (fun b => ! is_trailing_byte b) :=
    List.filter_congr (fun x hx => by rw [lead_eq_not_trail])
  rw [leadCount, hcongr, trailCount] at *
  omega

theorem scalarStart_zero (l : List Nat) : scalarStart l 0 = 0 := by
  cases l <;> simp [scalarStart]

theorem scalarStart_cons (b : Nat) (rest : List Nat) (n : Nat) :
    scalarStart (b :: rest) (n + 1) = seqLen b + scalarStart (rest.drop (seqLen b - 1)) n := by
  simp [scalarStart]

theorem nthLeadPos_trail_skip : ∀ (t s : List Nat) (m : Nat),
    (∀ x ∈ t, is_trailing_byte x = true) →
    nthLeadPos (t ++ s) m = t.length + nthLeadPos s m := by
  intro t
  induction t with
  | nil =>
    intro s m h
    simp
  | cons x xs ih =>
    intro s m h
    have hx : is_trailing_byte x = true := h x (by simp)
    have hlead : is_leading_byte x = false := by
      rw [lead_eq_not_trail, hx]
      rfl
    rw [List.cons_append]
    simp only [nthLeadPos, hlead, Bool.false_eq_true, if_false]
    rw [ih s m (fun y hy => h y (by simp [hy]))]
    simp only [List.length_cons]
    omega

theorem nthLead_scalarStart : ∀ n, ∀ l : List Nat, l.length ≤ n → ByteList l →
    utf8Valid l → ∀ m,
    nthLeadPos l m = scalarStart l m ∧ (scalarCount l ≤ m → scalarStart l m = l.length) := by
  intro n
  induction n with
  | zero =>
    intro l hlen hB hv m
    have hl : l = [] := List.eq_nil_of_length_eq_zero (by omega)
    subst hl
    refine ⟨?_, fun _ => ?_⟩
    · cases m <;> simp [nthLeadPos, scalarStart]
    · cases m <;> simp [scalarStart]
  | succ n ih =>
    intro l hlen hB hv m
    cases l with
    | nil =>
      refine ⟨?_, fun _ => ?_⟩
      · cases m <;> simp [nthLeadPos, scalarStart]
      · cases m <;> simp [scalarStart]
    | cons b rest =>
      have hb : b < 256 := hB b (by simp)
      have hrB : ByteList rest := fun x hx => hB x (by simp [hx])
      rw [utf8Valid_cons] at hv
      simp only [Bool.and_eq_true] at hv
      have hok : utf8SeqOk b rest = true := hv.1
      have hrv : utf8Valid (rest.drop (seqLen b - 1)) = true := hv.2
      obtain ⟨htr, hkle, htc⟩ := seq_ok_facts b rest hb hrB hok
      have hlead : is_leading_byte b = true := by
        rw [lead_eq_not_trail, htr]
        rfl
      have hdB : ByteList (rest.drop (seqLen b - 1)) := byteList_drop _ _ hrB
      have hdlen : (rest.drop (seqLen b - 1)).length ≤ n := by
        simp only [List.length_cons] at hlen
        rw [List.length_drop]
        omega
      have hsp : 1 ≤ seqLen b := seqLen_pos b
      have htklen : (rest.take (seqLen b - 1)).length = seqLen b - 1 :=
        List.length_take_of_le hkle
      have htake : ((rest.take (seqLen b - 1)).filter (fun x => is_trailing_byte x)).length
          = (rest.take (seqLen b - 1)).length := by
        rw [show ((rest.take (seqLen b - 1)).filter fun x => is_trailing_byte x).length
            = trailCount (rest.take (seqLen b - 1)) from rfl, htc, htklen]
      have hall : ∀ x ∈ rest.take (seqLen b - 1), is_trailing_byte x = true :=
        all_filter_len _ _ htake
      cases m with
      | zero =>
        refine ⟨?_, fun hc => ?_⟩
        · simp [nthLeadPos, hlead, scalarStart_zero]
        · rw [scalarCount] at hc
          omega
      | succ m =>
        have hih := ih (rest.drop (seqLen b - 1)) hdlen hdB hrv m
        have hnth : nthLeadPos rest m
            = (seqLen b - 1) + nthLeadPos (rest.drop (seqLen b - 1)) m := by
          conv_lhs => rw [show rest = rest.take (seqLen b - 1) ++ rest.drop (seqLen b - 1) from
            (List.take_append_drop _ _).symm]
          rw [nthLeadPos_trail_skip _ _ m hall, htklen]
        refine ⟨?_, fun hc => ?_⟩
        · simp only [nthLeadPos, hlead, if_true]
          rw [hnth, hih.1, scalarStart_cons]
          omega
        · rw [scalarCount] at hc
          have hsat := hih.2 (by omega)
          rw [scalarStart_cons, hsat, List.length_drop, List.length_cons]
          omega

theorem charScanTo_nthLead : ∀ (bs : List Nat) (n bc cc : Nat), cc ≤ n →
    charScanTo bs n bc cc = bc + nthLeadPos bs (n - cc) := by
  intro bs
  induction bs with
  | nil =>
    intro n bc cc h
    simp [charScanTo, nthLeadPos]
  | cons b t ih =>
    intro n bc cc h
    simp only [charScanTo]
    cases hlb : is_leading_byte b with
    | true =>
      simp only [hlb, if_true]
      by_cases hstop : n < cc + 1
      · rw [if_pos hstop]
        have hnc : n = cc := by omega
        subst hnc
        simp [nthLeadPos, hlb]
      · rw [if_neg hstop]
        rw [ih n (bc + 1) (cc + 1) (by omega)]
        rw [show n - cc = (n - (cc + 1)) + 1 from by omega]
        simp only [nthLeadPos, hlb, if_true]
        omega
    | false =>
      simp only [hlb, Bool.false_eq_true, if_false, Nat.add_zero]
      have hns : ¬ n < cc := by omega
      rw [if_neg hns]
      rw [ih n (bc + 1) cc h]
      simp only [nthLeadPos, hlb, Bool.false_eq_true, if_false]
      omega

theorem charScanTo_append : ∀ (seg rest : List Nat) (n bc cc : Nat),
    cc + leadCount seg ≤ n →
    charScanTo (seg ++ rest) n bc cc
      = charScanTo rest n (bc + seg.length) (cc + leadCount seg) := by
  intro seg
  induction seg with
  | nil =>
    intro rest n bc cc h
    simp [leadCount]
  | cons b t ih =>
    intro rest n bc cc h
    rw [leadCount_cons] at h
    rw [List.cons_append]
    simp only [charScanTo]
    have hns : ¬ n < cc + (if is_leading_byte b then 1 else 0) := by
      have := leadCount_le_length t
      by_cases hl : is_leading_byte b <;> simp [hl] at h ⊢ <;> omega
    rw [if_neg hns]
    rw [ih rest n (bc + 1) (cc + (if is_leading_byte b then 1 else 0)) (by omega)]
    rw [leadCount_cons, List.length_cons]
    congr 1 <;> omega

theorem charsStartLoop_inl : ∀ (seg rest : List Nat) (n bc cc r : Nat),
    charsStartLoop seg n bc cc = Sum.inl r →
    charScanTo (seg ++ rest) n bc cc = r := by
  intro seg
  induction seg with
  | nil =>
    intro rest n bc cc r h
    simp [charsStartLoop] at h
  | cons b t ih =>
    intro rest n bc cc r h
    simp only [charsStartLoop] at h
    rw [List.cons_append]
    simp only [charScanTo]
    by_cases hc : n < cc + (if is_leading_byte b then 1 else 0)
    · rw [if_pos hc] at h
      rw [if_pos hc]
      exact Sum.inl.inj h
    · rw [if_neg hc] at h
      rw [if_neg hc]
      exact ih rest n (bc + 1) _ r h

theorem charsStartLoop_inr : ∀ (seg : List Nat) (n bc cc bc2 cc2 : Nat), cc ≤ n →
    charsStartLoop seg n bc cc = Sum.inr (bc2, cc2) →
    bc2 = bc + seg.length ∧ cc2 = cc + leadCount seg ∧ cc2 ≤ n := by
  intro seg
  induction seg with
  | nil =>
    intro n bc cc bc2 cc2 hcn h
    simp only [charsStartLoop, Sum.inr.injEq, Prod.mk.injEq] at h
    obtain ⟨h1, h2⟩ := h
    subst h1
    subst h2
    refine ⟨by simp, by simp [leadCount], hcn⟩
  | cons b t ih =>
    intro n bc cc bc2 cc2 hcn h
    simp only [charsStartLoop] at h
    by_cases hc : n < cc + (if is_leading_byte b then 1 else 0)
    · rw [if_pos hc] at h
      simp at h
    · rw [if_neg hc] at h
      obtain ⟨h1, h2, h3⟩ := ih n (bc + 1) (cc + (if is_leading_byte b then 1 else 0))
        bc2 cc2 (by omega) h
      rw [leadCount_cons, List.length_cons]
      refine ⟨by omega, by omega, h3⟩

theorem chunk_trail_sum (seg : List Nat) (hB : ByteList seg) (h8 : seg.length = 8) :
    sumBytes (count_trailing_chunk (fromLanes seg)) = trailCount seg := by
  rw [count_trailing_chunk_lanes seg hB h8]
  have hlen : (seg.map fun d => if is_trailing_byte d then 1 else 0).length = 8 := by
    simp [h8]
  have hsum : (seg.map fun d => if is_trailing_byte d then 1 else 0).sum < 256 := by
    rw [sum_ind_eq_filter_length]
    have hfl : (seg.filter is_trailing_byte).length ≤ seg.length :=
      List.length_filter_le _ _
    omega
  rw [sumBytes_fromLanes_small _ hlen hsum, sum_ind_eq_filter_length]
  rfl

theorem charsFastLoop_eq : ∀ g (rest : List Nat) (bc cc : Nat), ByteList rest →
    32 * g ≤ rest.length →
    charsFastLoop g rest bc cc
      = (bc + 32 * g, cc + leadCount (rest.take (32 * g))) := by
  intro g
  induction g with
  | zero =>
    intro rest bc cc hB h
    simp [charsFastLoop, leadCount]
  | succ g ih =>
    intro rest bc cc hB h
    simp only [charsFastLoop]
    have hv := group4_word_sum count_trailing_chunk _ count_trailing_chunk_lanes
      (fun d hd => ind_le_one _) rest hB (by omega)
    rw [hv, sum_ind_eq_filter_length]
    rw [ih (rest.drop 32) (bc + 32) _ (byteList_drop _ _ hB) (by
      rw [List.length_drop]
      omega)]
    have h32 : (rest.take 32).length = 32 := List.length_take_of_le (by omega)
    have hlt := lead_add_trail (rest.take 32)
    rw [h32] at hlt
    have htr : ((rest.take 32).filter fun d => is_trailing_byte d).length
        = trailCount (rest.take 32) := rfl
    rw [htr]
    rw [show 32 * (g + 1) = 32 + 32 * g from by ring, List.take_add, leadCount_append]
    simp only [Prod.mk.injEq]
    constructor <;> omega

theorem charsSlowLoop_ex : ∀ k (rest : List Nat) (n bc cc : Nat), ByteList rest →
    8 * k ≤ rest.length → cc ≤ n →
    ∃ j, j ≤ k ∧
      charsSlowLoop k rest n bc cc = (bc + 8 * j, cc + leadCount (rest.take (8 * j)))
      ∧ cc + leadCount (rest.take (8 * j)) ≤ n := by
  intro k
  induction k with
  | zero =>
    intro rest n bc cc hB hk hc
    refine ⟨0, le_refl _, by simp [charsSlowLoop, leadCount], by simpa [leadCount] using hc⟩
  | succ k ih =>
    intro rest n bc cc hB hk hc
    have h8 : (rest.take 8).length = 8 := List.length_take_of_le (by omega)
    have hv := chunk_trail_sum (rest.take 8) (byteList_take _ _ hB) h8
    have hlt := lead_add_trail (rest.take 8)
    rw [h8] at hlt
    have hunf : charsSlowLoop (k + 1) rest n bc cc
        = if n ≤ cc + leadCount (rest.take 8) then (bc, cc)
          else charsSlowLoop k (rest.drop 8) n (bc + 8) (cc + leadCount (rest.take 8)) := by
      simp only [charsSlowLoop]
      rw [hv, show cc + 8 - trailCount (rest.take 8) = cc + leadCount (rest.take 8) from by
        omega]
    by_cases hstop : n ≤ cc + leadCount (rest.take 8)
    · refine ⟨0, by omega, ?_, by simpa [leadCount] using hc⟩
      rw [hunf, if_pos hstop]
      simp [leadCount]
    · obtain ⟨j, hj, heq, hle⟩ := ih (rest.drop 8) n (bc + 8) (cc + leadCount (rest.take 8))
        (byteList_drop _ _ hB) (by
          rw [List.length_drop]
          omega) (by omega)
      refine ⟨j + 1, by omega, ?_, ?_⟩
      · rw [hunf, if_neg hstop, heq]
        rw [show 8 * (j + 1) = 8 + 8 * j from by ring, List.take_add, leadCount_append]
        simp only [Prod.mk.injEq]
        constructor <;> omega
      · rw [show 8 * (j + 1) = 8 + 8 * j from by ring, List.take_add, leadCount_append]
        omega

theorem chars_to_scan (a : Nat) (text : List Nat) (hB : ByteList text) (n : Nat) :
    chars_to_byte_idx a text n = charScanTo text n 0 0 := by
  show chars_to_byte_idx_impl a text n = _
  rw [chars_to_byte_idx_impl]
  by_cases hshort : text.length ≤ 8
  · rw [if_pos hshort]
  · rw [if_neg hshort]
    have hsle : min a text.length ≤ text.length := Nat.min_le_right a text.length
    have htks : (text.take (min a text.length)).length = min a text.length :=
      List.length_take_of_le hsle
    cases hsl : charsStartLoop (text.take (min a text.length)) n 0 0 with
    | inl r =>
      simp only [hsl]
      have hfin := charsStartLoop_inl (text.take (min a text.length))
        (text.drop (min a text.length)) n 0 0 r hsl
      rw [List.take_append_drop] at hfin
      exact hfin.symm
    | inr p =>
      obtain ⟨bc0, cc0⟩ := p
      simp only [hsl]
      obtain ⟨hbc0, hcc0, hccn⟩ := charsStartLoop_inr _ n 0 0 bc0 cc0 (Nat.zero_le n) hsl
      rw [htks] at hbc0
      simp only [Nat.zero_add] at hbc0 hcc0
      subst hbc0
      subst hcc0
      have hdlen : (text.drop (min a text.length)).length
          = text.length - min a text.length := by
        rw [List.length_drop]
      have hchunks : 8 * ((text.length - min a text.length) / 8)
          ≤ text.length - min a text.length := by omega
      have hg4 : 32 * (min ((text.length - min a text.length) / 8)
            ((n - leadCount (text.take (min a text.length))) / 8) / 4)
          ≤ (text.drop (min a text.length)).length := by
        rw [hdlen]
        omega
      simp only [charsFastLoop_eq _ _ _ _ (byteList_drop _ _ hB) hg4]
      have hlead32 : leadCount ((text.drop (min a text.length)).take
            (32 * (min ((text.length - min a text.length) / 8)
              ((n - leadCount (text.take (min a text.length))) / 8) / 4)))
          ≤ 32 * (min ((text.length - min a text.length) / 8)
              ((n - leadCount (text.take (min a text.length))) / 8) / 4) := by
        refine le_trans (leadCount_le_length _) ?_
        have := List.length_take_le (32 * (min ((text.length - min a text.length) / 8)
          ((n - leadCount (text.take (min a text.length))) / 8) / 4))
          (text.drop (min a text.length))
        omega
      obtain ⟨j, hj, heq, hle⟩ := charsSlowLoop_ex
        ((text.length - min a text.length) / 8
          - 4 * (min ((text.length - min a text.length) / 8)
              ((n - leadCount (text.take (min a text.length))) / 8) / 4))
        (text.drop (min a text.length
          + 32 * (min ((text.length - min a text.length) / 8)
              ((n - leadCount (text.take (min a text.length))) / 8) / 4)))
        n
        (min a text.length + 32 * (min ((text.length - min a text.length) / 8)
              ((n - leadCount (text.take (min a text.length))) / 8) / 4))
        (leadCount (text.take (min a text.length))
          + leadCount ((text.drop (min a text.length)).take
            (32 * (min ((text.length - min a text.length) / 8)
              ((n - leadCount (text.take (min a text.length))) / 8) / 4))))
        (byteList_drop _ _ hB)
        (by
          rw [List.length_drop]
          omega)
        (by omega)
      simp only [heq]
      have hjle : 8 * j ≤ (text.length - min a text.length)
          - 32 * (min ((text.length - min a text.length) / 8)
              ((n - leadCount (text.take (min a text.length))) / 8) / 4) := by
        omega
      have hPle : min a text.length
            + 32 * (min ((text.length - min a text.length) / 8)
              ((n - leadCount (text.take (min a text.length))) / 8) / 4) + 8 * j
          ≤ text.length := by
        omega
      have hdd : (text.drop (min a text.length)).drop
            (32 * (min ((text.length - min a text.length) / 8)
              ((n - leadCount (text.take (min a text.length))) / 8) / 4))
          = text.drop (min a text.length
            + 32 * (min ((text.length - min a text.length) / 8)
              ((n - leadCount (text.take (min a text.length))) / 8) / 4)) := by
        rw [List.drop_drop]
      have hleadP : leadCount (text.take (min a text.length
            + 32 * (min ((text.length - min a text.length) / 8)
              ((n - leadCount (text.take (min a text.length))) / 8) / 4) + 8 * j))
          = leadCount (text.take (min a text.length))
            + leadCount ((text.drop (min a text.length)).take
              (32 * (min ((text.length - min a text.length) / 8)
                ((n - leadCount (text.take (min a text.length))) / 8) / 4)))
            + leadCount ((text.drop (min a text.length
              + 32 * (min ((text.length - min a text.length) / 8)
                ((n - leadCount (text.take (min a text.length))) / 8) / 4))).take
              (8 * j)) := by
        rw [show min a text.length
            + 32 * (min ((text.length - min a text.length) / 8)
              ((n - leadCount (text.take (min a text.length))) / 8) / 4) + 8 * j
          = min a text.length
            + (32 * (min ((text.length - min a text.length) / 8)
              ((n - leadCount (text.take (min a text.length))) / 8) / 4) + 8 * j) from by
          omega]
        rw [List.take_add, leadCount_append, List.take_add, leadCount_append, hdd]
        omega
      conv_rhs => rw [show text = text.take (min a text.length
          + 32 * (min ((text.length - min a text.length) / 8)
            ((n - leadCount (text.take (min a text.length))) / 8) / 4) + 8 * j)
        ++ text.drop (min a text.length
          + 32 * (min ((text.length - min a text.length) / 8)
            ((n - leadCount (text.take (min a text.length))) / 8) / 4) + 8 * j) from
        (List.take_append_drop _ _).symm]
      rw [charScanTo_append _ _ n 0 0 (by
        rw [hleadP]
        omega)]
      rw [List.length_take_of_le hPle, hleadP]
      simp only [Nat.zero_add]

/-- chars::to_byte_idx computes the reference position scan. -/
theorem chars_to_nthLead (a : Nat) (text : List Nat) (hB : ByteList text) (n : Nat) :
    chars_to_byte_idx a text n = nthLeadPos text n := by
  rw [chars_to_scan a text hB n, charScanTo_nthLead text n 0 0 (Nat.zero_le n)]
  simp


/-! ## Claim C4 -/

/-- C4: chars::to_byte_idx returns the byte offset at which the encoding
of scalar number char_idx begins, and the byte length once char_idx
reaches chars::count, on every valid UTF-8 text. -/
theorem claim_C4_chars_to_byte_idx (a : Nat) (text : List Nat) (charIdx : Nat)
    (ha : a < 8) (hB : ByteList text) (hv : utf8Valid text) :
    chars_to_byte_idx a text charIdx = scalarStart text charIdx
      ∧ (chars_count a text ≤ charIdx → chars_to_byte_idx a text charIdx = text.length) := by
  have h1 := chars_to_nthLead a text hB charIdx
  have h2 := nthLead_scalarStart text.length text (le_refl _) hB hv charIdx
  refine ⟨by rw [h1, h2.1], fun hc => ?_⟩
  have hcnt : chars_count a text = scalarCount text := by
    show count_impl a text = _
    rw [count_impl_eq a text hB, utf8_scalar_eq text hB hv]
  rw [h1, h2.1, h2.2 (by omega)]

theorem claim_C4_chars_to_byte_idx_witness :
    ((2 : Nat) < 8 ∧ ByteList sampleMixed ∧ utf8Valid sampleMixed = true)
      ∧ (chars_to_byte_idx 2 sampleMixed 7 = scalarStart sampleMixed 7
        ∧ (chars_count 2 sampleMixed ≤ 7
            → chars_to_byte_idx 2 sampleMixed 7 = sampleMixed.length)) :=
  ⟨⟨by norm_num, by decide, by decide⟩,
    claim_C4_chars_to_byte_idx 2 sampleMixed 7 (by norm_num) (by decide) (by decide)⟩


/-! ## utf16 to_byte_idx equivalence -/

theorem u16wt_nil : u16wt [] = 0 := rfl

theorem u16wt_cons (b : Nat) (l : List Nat) : u16wt (b :: l) = u16Weight b + u16wt l := by
  simp [u16wt]

theorem u16wt_append (l1 l2 : List Nat) : u16wt (l1 ++ l2) = u16wt l1 + u16wt l2 := by
  simp [u16wt]

theorem u16Weight_le (b : Nat) : u16Weight b ≤ 2 := by
  rw [u16Weight]
  have h1 := ind_le_one (is_leading_byte b = true)
  have h2 := ind_le_one (surrByte b = true)
  omega

theorem u16wt_le (l : List Nat) : u16wt l ≤ 2 * l.length := by
  induction l with
  | nil => simp [u16wt]
  | cons b t ih =>
    rw [u16wt_cons]
    have := u16Weight_le b
    simp only [List.length_cons]
    omega

theorem u16wt_eq (l : List Nat) : u16wt l = leadCount l + surrCount l := by
  induction l with
  | nil => simp [u16wt, leadCount, surrCount]
  | cons b t ih =>
    rw [u16wt_cons, leadCount_cons, surrCount_cons, ih, u16Weight]
    omega

theorem chunk_surr_sum (seg : List Nat) (hB : ByteList seg) (h8 : seg.length = 8) :
    sumBytes (surrChunk (fromLanes seg)) = surrCount seg := by
  rw [surrChunk_lanes seg hB h8]
  have hlen : (seg.map fun d => if surrByte d then 1 else 0).length = 8 := by
    simp [h8]
  have hsum : (seg.map fun d => if surrByte d then 1 else 0).sum < 256 := by
    rw [sum_ind_eq_filter_length]
    have hfl : (seg.filter surrByte).length ≤ seg.length := List.length_filter_le _ _
    omega
  rw [sumBytes_fromLanes_small _ hlen hsum, sum_ind_eq_filter_length]
  rfl

theorem chunk_u16wt (seg : List Nat) (hB : ByteList seg) (h8 : seg.length = 8) :
    (8 - sumBytes (count_trailing_chunk (fromLanes seg)))
        + sumBytes (surrChunk (fromLanes seg))
      = u16wt seg := by
  rw [chunk_trail_sum seg hB h8, chunk_surr_sum seg hB h8, u16wt_eq]
  have hlt := lead_add_trail seg
  rw [h8] at hlt
  omega

theorem fold_trail_sum (rl : Nat) (seg : List Nat) (hB : ByteList seg)
    (hlen : seg.length = 8 * rl) (hrl : rl ≤ 31) :
    sumBytes (chunkFold count_trailing_chunk seg 0) = trailCount seg := by
  rw [chunkFold_sumBytes count_trailing_chunk _ count_trailing_chunk_lanes
    (fun d hd => ind_le_one _) rl seg hB hlen hrl, sum_ind_eq_filter_length]
  rfl

theorem fold_surr_sum (rl : Nat) (seg : List Nat) (hB : ByteList seg)
    (hlen : seg.length = 8 * rl) (hrl : rl ≤ 31) :
    sumBytes (chunkFold surrChunk seg 0) = surrCount seg := by
  rw [chunkFold_sumBytes surrChunk _ surrChunk_lanes
    (fun d hd => ind_le_one _) rl seg hB hlen hrl, sum_ind_eq_filter_length]
  rfl

theorem u16ScanTo_stop (bs : List Nat) (idx bc cnt : Nat) (h : idx < cnt) :
    u16ScanTo bs idx bc cnt = bc := by
  cases bs with
  | nil => rfl
  | cons b t =>
    simp only [u16ScanTo]
    rw [if_pos (by
      have := u16Weight_le b
      omega)]

theorem u16ScanTo_append : ∀ (seg rest : List Nat) (idx bc cnt : Nat),
    cnt + u16wt seg ≤ idx →
    u16ScanTo (seg ++ rest) idx bc cnt
      = u16ScanTo rest idx (bc + seg.length) (cnt + u16wt seg) := by
  intro seg
  induction seg with
  | nil =>
    intro rest idx bc cnt h
    simp [u16wt]
  | cons b t ih =>
    intro rest idx bc cnt h
    rw [u16wt_cons] at h
    rw [List.cons_append]
    simp only [u16ScanTo]
    rw [if_neg (by omega)]
    rw [ih rest idx (bc + 1) (cnt + u16Weight b) (by omega)]
    rw [u16wt_cons, List.length_cons]
    congr 1 <;> omega

theorem u16StartLoop_spec : ∀ (seg : List Nat) (idx bc cnt : Nat),
    ((u16StartLoop seg idx bc cnt).2 ≤ idx
        ∧ (u16StartLoop seg idx bc cnt).1 = bc + seg.length
        ∧ (u16StartLoop seg idx bc cnt).2 = cnt + u16wt seg)
      ∨ (idx < (u16StartLoop seg idx bc cnt).2
        ∧ ∀ rest, u16ScanTo (seg ++ rest) idx bc cnt = (u16StartLoop seg idx bc cnt).1) := by
  intro seg
  induction seg with
  | nil =>
    intro idx bc cnt
    by_cases h : cnt ≤ idx
    · exact Or.inl ⟨h, by simp [u16StartLoop], by simp [u16StartLoop, u16wt]⟩
    · refine Or.inr ⟨by simpa [u16StartLoop] using h, fun rest => ?_⟩
      rw [List.nil_append, u16ScanTo_stop rest idx bc cnt (by omega)]
      rfl
  | cons b t ih =>
    intro idx bc cnt
    simp only [u16StartLoop]
    by_cases hstop : idx < cnt + u16Weight b
    · rw [if_pos hstop]
      refine Or.inr ⟨hstop, fun rest => ?_⟩
      rw [List.cons_append]
      simp only [u16ScanTo]
      rw [if_pos hstop]
    · rw [if_neg hstop]
      rcases ih idx (bc + 1) (cnt + u16Weight b) with ⟨h1, h2, h3⟩ | ⟨h1, h2⟩
      · refine Or.inl ⟨h1, ?_, ?_⟩
        · rw [h2, List.length_cons]
          omega
        · rw [h3, u16wt_cons]
          omega
      · refine Or.inr ⟨h1, fun rest => ?_⟩
        rw [List.cons_append]
        simp only [u16ScanTo]
        rw [if_neg hstop]
        exact h2 rest

theorem u16SlowLoop_stop (k : Nat) (rest : List Nat) (idx bc cnt : Nat) (h : idx ≤ cnt) :
    u16SlowLoop k rest idx bc cnt = (bc, cnt) := by
  cases k with
  | zero => rfl
  | succ k =>
    simp only [u16SlowLoop]
    rw [if_pos (by omega)]

theorem u16FastLoop_ex : ∀ n mr k (rest : List Nat) (bc cnt : Nat), mr ≤ n →
    ByteList rest → 8 * k ≤ rest.length →
    ∃ c, c ≤ k ∧ c ≤ mr ∧
      u16FastLoop mr k rest bc cnt
        = (k - c, bc + 8 * c, cnt + u16wt (rest.take (8 * c))) := by
  intro n
  induction n with
  | zero =>
    intro mr k rest bc cnt hn hB hk
    have hmr : mr = 0 := by omega
    subst hmr
    refine ⟨0, by omega, le_refl _, ?_⟩
    rw [u16FastLoop, dif_neg (by omega)]
    simp [u16wt]
  | succ n ih =>
    intro mr k rest bc cnt hn hB hk
    by_cases hgo : 0 < mr ∧ 0 < k
    · have hrl1 : 1 ≤ min (min 31 mr) k := by omega
      have hrl31 : min (min 31 mr) k ≤ 31 := by omega
      have hrlk : min (min 31 mr) k ≤ k := by omega
      have hrlmr : min (min 31 mr) k ≤ mr := by omega
      have htlen : (rest.take (8 * min (min 31 mr) k)).length = 8 * min (min 31 mr) k :=
        List.length_take_of_le (by omega)
      have hwt : cnt + (8 * min (min 31 mr) k
            - trailCount (rest.take (8 * min (min 31 mr) k)))
            + surrCount (rest.take (8 * min (min 31 mr) k))
          = cnt + u16wt (rest.take (8 * min (min 31 mr) k)) := by
        have h1 := u16wt_eq (rest.take (8 * min (min 31 mr) k))
        have h2 := lead_add_trail (rest.take (8 * min (min 31 mr) k))
        rw [htlen] at h2
        omega
      have hstep : u16FastLoop mr k rest bc cnt
          = u16FastLoop (mr - min (min 31 mr) k) (k - min (min 31 mr) k)
              (rest.drop (8 * min (min 31 mr) k)) (bc + 8 * min (min 31 mr) k)
              (cnt + u16wt (rest.take (8 * min (min 31 mr) k))) := by
        rw [u16FastLoop, dif_pos hgo]
        simp only [fold_trail_sum (min (min 31 mr) k) (rest.take (8 * min (min 31 mr) k))
            (byteList_take _ _ hB) htlen hrl31,
          fold_surr_sum (min (min 31 mr) k) (rest.take (8 * min (min 31 mr) k))
            (byteList_take _ _ hB) htlen hrl31, hwt]
      rw [hstep]
      obtain ⟨c, hck, hcm, heq⟩ := ih (mr - min (min 31 mr) k) (k - min (min 31 mr) k)
        (rest.drop (8 * min (min 31 mr) k)) (bc + 8 * min (min 31 mr) k)
        (cnt + u16wt (rest.take (8 * min (min 31 mr) k)))
        (by omega) (byteList_drop _ _ hB) (by
          rw [List.length_drop]
          omega)
      rw [heq]
      refine ⟨min (min 31 mr) k + c, by omega, by omega, ?_⟩
      have hsplit : u16wt (rest.take (8 * (min (min 31 mr) k + c)))
          = u16wt (rest.take (8 * min (min 31 mr) k))
            + u16wt ((rest.drop (8 * min (min 31 mr) k)).take (8 * c)) := by
        rw [show 8 * (min (min 31 mr) k + c) = 8 * min (min 31 mr) k + 8 * c from by ring,
          List.take_add, u16wt_append]
      rw [hsplit]
      simp only [Prod.mk.injEq]
      refine ⟨by omega, by omega, by omega⟩
    · rw [u16FastLoop, dif_neg hgo]
      refine ⟨0, by omega, by omega, ?_⟩
      simp [u16wt]

theorem u16SlowLoop_ex : ∀ k (rest : List Nat) (idx bc cnt : Nat), ByteList rest →
    8 * k ≤ rest.length →
    ∃ j, j ≤ k ∧
      u16SlowLoop k rest idx bc cnt = (bc + 8 * j, cnt + u16wt (rest.take (8 * j)))
      ∧ (cnt ≤ idx → cnt + u16wt (rest.take (8 * j)) ≤ idx) := by
  intro k
  induction k with
  | zero =>
    intro rest idx bc cnt hB hk
    refine ⟨0, le_refl _, by simp [u16SlowLoop, u16wt], fun h => by simpa [u16wt] using h⟩
  | succ k ih =>
    intro rest idx bc cnt hB hk
    have h8 : (rest.take 8).length = 8 := List.length_take_of_le (by omega)
    have hunf : u16SlowLoop (k + 1) rest idx bc cnt
        = if idx ≤ cnt + u16wt (rest.take 8) then (bc, cnt)
          else u16SlowLoop k (rest.drop 8) idx (bc + 8) (cnt + u16wt (rest.take 8)) := by
      simp only [u16SlowLoop]
      rw [chunk_trail_sum _ (byteList_take _ _ hB) h8, chunk_surr_sum _ (byteList_take _ _ hB) h8]
      have h1 := u16wt_eq (rest.take 8)
      have h2 := lead_add_trail (rest.take 8)
      rw [h8] at h2
      rw [show cnt + (8 - trailCount (rest.take 8)) + surrCount (rest.take 8)
          = cnt + u16wt (rest.take 8) from by omega]
    by_cases hstop : idx ≤ cnt + u16wt (rest.take 8)
    · refine ⟨0, by omega, ?_, fun h => by simpa [u16wt] using h⟩
      rw [hunf, if_pos hstop]
      simp [u16wt]
    · obtain ⟨j, hj, heq, hle⟩ := ih (rest.drop 8) idx (bc + 8) (cnt + u16wt (rest.take 8))
        (byteList_drop _ _ hB) (by
          rw [List.length_drop]
          omega)
      refine ⟨j + 1, by omega, ?_, fun h => ?_⟩
      · rw [hunf, if_neg hstop, heq]
        rw [show 8 * (j + 1) = 8 + 8 * j from by ring, List.take_add, u16wt_append]
        simp only [Prod.mk.injEq]
        constructor <;> omega
      · rw [show 8 * (j + 1) = 8 + 8 * j from by ring, List.take_add, u16wt_append]
        have := hle (by omega)
        omega

theorem utf16_to_scan (a : Nat) (text : List Nat) (hB : ByteList text) (idx : Nat) :
    utf16_to_byte_idx a text idx = u16ScanTo text idx 0 0 := by
  show utf16_to_byte_idx_impl a text idx = _
  have hsle : min a text.length ≤ text.length := Nat.min_le_right a text.length
  have htks : (text.take (min a text.length)).length = min a text.length :=
    List.length_take_of_le hsle
  rcases hp0 : u16StartLoop (text.take (min a text.length)) idx 0 0 with ⟨bc0, cnt0⟩
  have hspec := u16StartLoop_spec (text.take (min a text.length)) idx 0 0
  rw [hp0] at hspec
  simp only [utf16_to_byte_idx_impl, hp0]
  rcases hspec with ⟨h1, h2, h3⟩ | ⟨h1, h2⟩
  · -- the prologue ran through the whole unaligned head
    simp only [Nat.zero_add, htks] at h2 h3
    subst h2
    subst h3
    obtain ⟨c, hck, hcm, heqf⟩ := u16FastLoop_ex ((idx - u16wt (text.take (min a text.length))) / 31)
      ((idx - u16wt (text.take (min a text.length))) / 31)
      ((text.length - min a text.length) / 8)
      (text.drop (min a text.length)) (min a text.length) (u16wt (text.take (min a text.length)))
      (le_refl _) (byteList_drop _ _ hB) (by
        rw [List.length_drop]
        omega)
    simp only [heqf]
    rw [show (text.length - min a text.length) / 8
        - ((text.length - min a text.length) / 8 - c) = c from by omega]
    have hcnt1 : u16wt (text.take (min a text.length))
        + u16wt ((text.drop (min a text.length)).take (8 * c)) ≤ idx := by
      have hwle := u16wt_le ((text.drop (min a text.length)).take (8 * c))
      have htl := List.length_take_le (8 * c) (text.drop (min a text.length))
      omega
    obtain ⟨j, hj, heqs, hle⟩ := u16SlowLoop_ex ((text.length - min a text.length) / 8 - c)
      (text.drop (min a text.length + 8 * c)) idx (min a text.length + 8 * c)
      (u16wt (text.take (min a text.length))
        + u16wt ((text.drop (min a text.length)).take (8 * c)))
      (byteList_drop _ _ hB) (by
        rw [List.length_drop]
        omega)
    have hdd : (text.drop (min a text.length)).drop (8 * c)
        = text.drop (min a text.length + 8 * c) := by
      rw [List.drop_drop]
    have heqs2 : u16SlowLoop ((text.length - min a text.length) / 8 - c)
        (text.drop (min a text.length + 8 * c)) idx (min a text.length + 8 * c)
        (u16wt (text.take (min a text.length))
          + u16wt ((text.drop (min a text.length)).take (8 * c)))
        = (min a text.length + 8 * c + 8 * j,
            u16wt (text.take (min a text.length))
              + u16wt ((text.drop (min a text.length)).take (8 * c))
              + u16wt ((text.drop (min a text.length + 8 * c)).take (8 * j))) := heqs
    simp only [heqs2]
    have hcnt2 := hle hcnt1
    have hPle : min a text.length + 8 * c + 8 * j ≤ text.length := by
      omega
    have hwtP : u16wt (text.take (min a text.length + 8 * c + 8 * j))
        = u16wt (text.take (min a text.length))
          + u16wt ((text.drop (min a text.length)).take (8 * c))
          + u16wt ((text.drop (min a text.length + 8 * c)).take (8 * j)) := by
      rw [show min a text.length + 8 * c + 8 * j
          = min a text.length + (8 * c + 8 * j) from by omega]
      rw [List.take_add, u16wt_append, List.take_add, u16wt_append, hdd]
      omega
    conv_rhs => rw [show text = text.take (min a text.length + 8 * c + 8 * j)
        ++ text.drop (min a text.length + 8 * c + 8 * j) from
      (List.take_append_drop _ _).symm]
    rw [u16ScanTo_append _ _ idx 0 0 (by
      rw [hwtP]
      omega)]
    rw [List.length_take_of_le hPle, hwtP]
    simp only [Nat.zero_add]
  · -- the prologue stopped: the target lies in the unaligned head
    have hmz : (idx - cnt0) / 31 = 0 := by
      simp only at h1
      omega
    rw [hmz]
    have heqf : u16FastLoop 0 ((text.length - min a text.length) / 8)
        (text.drop (min a text.length)) bc0 cnt0
        = ((text.length - min a text.length) / 8, bc0, cnt0) := by
      rw [u16FastLoop, dif_neg (by omega)]
    simp only [heqf]
    rw [u16SlowLoop_stop _ _ idx bc0 cnt0 (by
      simp only at h1
      omega)]
    rw [u16ScanTo_stop _ idx bc0 cnt0 (by
      simp only at h1
      omega)]
    conv_rhs => rw [show text = text.take (min a text.length)
        ++ text.drop (min a text.length) from (List.take_append_drop _ _).symm]
    exact (h2 (text.drop (min a text.length))).symm


/-! ## Char-boundary prefixes of valid texts -/

theorem utf8SeqOk_take (b : Nat) (rest : List Nat) (m : Nat) (hm : seqLen b - 1 ≤ m)
    (hok : utf8SeqOk b rest = true) : utf8SeqOk b (rest.take m) = true := by
  rw [utf8SeqOk] at hok ⊢
  by_cases h1 : b ≤ 0x7F
  · rw [if_pos h1]
  · rw [if_neg h1] at hok ⊢
    have hsl2 : ¬ b ≤ 0x7F → b ≤ 0xDF → seqLen b = 2 := by
      intro hx hy
      rw [seqLen, if_neg hx, if_pos hy]
    have hsl3 : ¬ b ≤ 0x7F → ¬ b ≤ 0xDF → b ≤ 0xEF → seqLen b = 3 := by
      intro hx hy hz
      rw [seqLen, if_neg hx, if_neg hy, if_pos hz]
    have hsl4 : ¬ b ≤ 0x7F → ¬ b ≤ 0xDF → ¬ b ≤ 0xEF → seqLen b = 4 := by
      intro hx hy hz
      rw [seqLen, if_neg hx, if_neg hy, if_neg hz]
    by_cases h2 : 0xC2 ≤ b ∧ b ≤ 0xDF
    · rw [if_pos h2] at hok ⊢
      have hm1 : 1 ≤ m := by
        have := hsl2 h1 (by omega)
        omega
      simp only [Bool.and_eq_true, decide_eq_true_eq] at hok ⊢
      obtain ⟨hq, ht0⟩ := hok
      rw [List.length_take]
      exact ⟨by omega, by rw [bget_take _ _ _ (by omega)]; exact ht0⟩
    · rw [if_neg h2] at hok ⊢
      by_cases h3 : b = 0xE0
      · rw [if_pos h3] at hok ⊢
        have hm2 : 2 ≤ m := by
          have := hsl3 h1 (by omega) (by omega)
          omega
        simp only [Bool.and_eq_true, decide_eq_true_eq] at hok ⊢
        obtain ⟨⟨hq, hr0⟩, ht1⟩ := hok
        rw [List.length_take]
        refine ⟨⟨by omega, ?_⟩, ?_⟩
        · rw [bget_take _ _ _ (by omega)]
          exact hr0
        · rw [bget_take _ _ _ (by omega)]
          exact ht1
      · rw [if_neg h3] at hok ⊢
        by_cases h4 : (0xE1 ≤ b ∧ b ≤ 0xEC) ∨ (0xEE ≤ b ∧ b ≤ 0xEF)
        · rw [if_pos h4] at hok ⊢
          have hm2 : 2 ≤ m := by
            have := hsl3 h1 (by omega) (by omega)
            omega
          simp only [Bool.and_eq_true, decide_eq_true_eq] at hok ⊢
          obtain ⟨⟨hq, ht0⟩, ht1⟩ := hok
          rw [List.length_take]
          refine ⟨⟨by omega, ?_⟩, ?_⟩
          · rw [bget_take _ _ _ (by omega)]
            exact ht0
          · rw [bget_take _ _ _ (by omega)]
            exact ht1
        · rw [if_neg h4] at hok ⊢
          by_cases h5 : b = 0xED
          · rw [if_pos h5] at hok ⊢
            have hm2 : 2 ≤ m := by
              have := hsl3 h1 (by omega) (by omega)
              omega
            simp only [Bool.and_eq_true, decide_eq_true_eq] at hok ⊢
            obtain ⟨⟨hq, hr0⟩, ht1⟩ := hok
            rw [List.length_take]
            refine ⟨⟨by omega, ?_⟩, ?_⟩
            · rw [bget_take _ _ _ (by omega)]
              exact hr0
            · rw [bget_take _ _ _ (by omega)]
              exact ht1
          · rw [if_neg h5] at hok ⊢
            by_cases h6 : b = 0xF0
            · rw [if_pos h6] at hok ⊢
              have hm3 : 3 ≤ m := by
                have := hsl4 h1 (by omega) (by omega)
                omega
              simp only [Bool.and_eq_true, decide_eq_true_eq] at hok ⊢
              obtain ⟨⟨⟨hq, hr0⟩, ht1⟩, ht2⟩ := hok
              rw [List.length_take]
              refine ⟨⟨⟨by omega, ?_⟩, ?_⟩, ?_⟩
              · rw [bget_take _ _ _ (by omega)]
                exact hr0
              · rw [bget_take _ _ _ (by omega)]
                exact ht1
              · rw [bget_take _ _ _ (by omega)]
                exact ht2
            · rw [if_neg h6] at hok ⊢
              by_cases h7 : 0xF1 ≤ b ∧ b ≤ 0xF3
              · rw [if_pos h7] at hok ⊢
                have hm3 : 3 ≤ m := by
                  have := hsl4 h1 (by omega) (by omega)
                  omega
                simp only [Bool.and_eq_true, decide_eq_true_eq] at hok ⊢
                obtain ⟨⟨⟨hq, ht0⟩, ht1⟩, ht2⟩ := hok
                rw [List.length_take]
                refine ⟨⟨⟨by omega, ?_⟩, ?_⟩, ?_⟩
                · rw [bget_take _ _ _ (by omega)]
                  exact ht0
                · rw [bget_take _ _ _ (by omega)]
                  exact ht1
                · rw [bget_take _ _ _ (by omega)]
                  exact ht2
              · rw [if_neg h7] at hok ⊢
                by_cases h8 : b = 0xF4
                · rw [if_pos h8] at hok ⊢
                  have hm3 : 3 ≤ m := by
                    have := hsl4 h1 (by omega) (by omega)
                    omega
                  simp only [Bool.and_eq_true, decide_eq_true_eq] at hok ⊢
                  obtain ⟨⟨⟨hq, hr0⟩, ht1⟩, ht2⟩ := hok
                  rw [List.length_take]
                  refine ⟨⟨⟨by omega, ?_⟩, ?_⟩, ?_⟩
                  · rw [bget_take _ _ _ (by omega)]
                    exact hr0
                  · rw [bget_take _ _ _ (by omega)]
                    exact ht1
                  · rw [bget_take _ _ _ (by omega)]
                    exact ht2
                · rw [if_neg h8] at hok
                  exact absurd hok (by simp)

theorem utf8Valid_take : ∀ n, ∀ l : List Nat, l.length ≤ n → ByteList l → utf8Valid l →
    ∀ i, i ≤ l.length → (i = l.length ∨ is_leading_byte (bget l i) = true) →
    utf8Valid (l.take i) = true := by
  intro n
  induction n with
  | zero =>
    intro l hlen hB hv i hile hb
    have hl : l = [] := List.eq_nil_of_length_eq_zero (by omega)
    subst hl
    have : i = 0 := by simpa using hile
    subst this
    rfl
  | succ n ih =>
    intro l hlen hB hv i hile hb
    cases l with
    | nil =>
      have : i = 0 := by simpa using hile
      subst this
      rfl
    | cons b rest =>
      cases i with
      | zero => rfl
      | succ i =>
        have hbb : b < 256 := hB b (by simp)
        have hrB : ByteList rest := fun x hx => hB x (by simp [hx])
        rw [utf8Valid_cons] at hv
        simp only [Bool.and_eq_true] at hv
        obtain ⟨hok, hrv⟩ := hv
        obtain ⟨htr, hkle, htc⟩ := seq_ok_facts b rest hbb hrB hok
        have hsp : 1 ≤ seqLen b := seqLen_pos b
        have htklen : (rest.take (seqLen b - 1)).length = seqLen b - 1 :=
          List.length_take_of_le hkle
        have hall : ∀ x ∈ rest.take (seqLen b - 1), is_trailing_byte x = true :=
          all_filter_len _ _ (by
            rw [show ((rest.take (seqLen b - 1)).filter fun x => is_trailing_byte x).length
                = trailCount (rest.take (seqLen b - 1)) from rfl, htc, htklen])
        have hige : seqLen b ≤ i + 1 := by
          by_contra hlt
          have hi1 : i < seqLen b - 1 := by omega
          have hmem : bget rest i ∈ rest.take (seqLen b - 1) := by
            rw [show bget rest i = bget (rest.take (seqLen b - 1)) i from
              (bget_take rest (seqLen b - 1) i hi1).symm]
            rw [bget, List.getD_eq_getElem _ _ (by omega)]
            exact List.getElem_mem _
          have htri : is_trailing_byte (bget rest i) = true := hall _ hmem
          rcases hb with hb | hb
          · simp only [List.length_cons] at hb
            omega
          · rw [show bget (b :: rest) (i + 1) = bget rest i from rfl] at hb
            rw [lead_eq_not_trail, htri] at hb
            simp at hb
        rw [List.take_succ_cons, utf8Valid_cons]
        simp only [Bool.and_eq_true]
        refine ⟨utf8SeqOk_take b rest i (by omega) hok, ?_⟩
        have hsplit : (rest.take i).drop (seqLen b - 1)
            = (rest.drop (seqLen b - 1)).take (i - (seqLen b - 1)) := by
          rw [List.drop_take]
        rw [hsplit]
        refine ih (rest.drop (seqLen b - 1)) (by
            rw [List.length_drop]
            simp only [List.length_cons] at hlen
            omega) (byteList_drop _ _ hrB) hrv (i - (seqLen b - 1)) (by
            rw [List.length_drop]
            simp only [List.length_cons] at hile
            omega) ?_
        rcases hb with hb | hb
        · left
          rw [List.length_drop]
          simp only [List.length_cons] at hb
          omega
        · right
          rw [show bget (b :: rest) (i + 1) = bget rest i from rfl] at hb
          rw [bget_drop, show seqLen b - 1 + (i - (seqLen b - 1)) = i from by omega]
          exact hb

theorem utf8_head_lead (b : Nat) (rest : List Nat) (hB : ByteList (b :: rest))
    (hv : utf8Valid (b :: rest)) : is_leading_byte b = true := by
  rw [utf8Valid_cons] at hv
  simp only [Bool.and_eq_true] at hv
  obtain ⟨htr, _, _⟩ := seq_ok_facts b rest (hB b (by simp))
    (fun x hx => hB x (by simp [hx])) hv.1
  rw [lead_eq_not_trail, htr]
  rfl

theorem boundary_lead (text : List Nat) (b : Nat) (hB : ByteList text)
    (hv : utf8Valid text) (hble : b ≤ text.length)
    (hbound : is_char_boundary text b = true) :
    b = text.length ∨ is_leading_byte (bget text b) = true := by
  rw [is_char_boundary] at hbound
  simp only [Bool.or_eq_true, Bool.and_eq_true, decide_eq_true_eq] at hbound
  rcases hbound with (hb0 | hb) | ⟨hlt, hlead⟩
  · subst hb0
    cases text with
    | nil => exact Or.inl rfl
    | cons x rest => exact Or.inr (utf8_head_lead x rest hB hv)
  · exact Or.inl hb
  · exact Or.inr hlead

end StrIndices
